import Mathlib

/-!
# SSD1306 OLED driver: command framing and region rendering

A shallow embedding of `src/src/SSD1306.c` and `src/src/Port.c`.

Conventions of the embedding.

* `uint8`/`unsigned char` values are natural numbers below 256.  Parameters are taken to be in
  range; where the C code converts a wider `int` expression to a byte, or increments a byte
  counter, the embedding writes the reduction `% 256` explicitly.
* A pointer parameter (`uint8 *`, `char *`) is the function giving the byte stored at each offset
  from it.
* The driver talks to the outside world only through the generated component API
  (`I2cCpLeft_MasterSendStart`, `CyDelayUs`, ...).  Every such call is recorded, in order, in
  `Port.calls`; text handed to `UartDebug_PutString` is recorded in `Port.debug`.
* The status byte a bus call returns is not determined by the driver; it is read from
  `Port.ret`, indexed by the number of calls made before it.
* A loop is a recursive function on a fuel argument that tests the loop condition of the
  source at every turn and wraps its byte counter at 256.  A loop that counts a byte up to a
  byte bound runs at most 255 times and carries 256 units of fuel of its own.  A loop that
  need not end (the page loop of `ShowPattern`, the `while(1)` of `ShowString`) gets its fuel
  from the caller and reports `Fault.outOfFuel` when it is used up.
* A read outside the font tables is `Fault.outOfBounds`.
-/

namespace SSD1306Ns

/-! ## Compile-time switches -/

/-- Switches of `Config.h` and the status constant of the generated I2C component, none of which
is part of the sources at hand; they are parameters of the embedding. -/
structure Config where
  /-- Switch `configDEBUG_SSD1306`. -/
  configDEBUG_SSD1306 : Nat
  /-- Switch `configDEBUG_SSD1306_ERROR`. -/
  configDEBUG_SSD1306_ERROR : Nat
  /-- Switch `configDEBUG_SSD1306_VERBOSE`. -/
  configDEBUG_SSD1306_VERBOSE : Nat
  /-- Status `I2cCpLeft_MSTR_NO_ERROR` of the I2C component. -/
  I2cCpLeft_MSTR_NO_ERROR : Nat

/-- A configuration with every debug switch off and status `0` meaning success. -/
def Config.quiet : Config :=
  ⟨0, 0, 0, 0⟩

/-- Value of `ssd1306NUM_COLS`. -/
def ssd1306NUM_COLS : Nat := 128

/-- Value of `ssd1306BRIGHTNESS`. -/
def ssd1306BRIGHTNESS : Nat := 0x8F

/-- Value of `ssd1306CMD_FOLLOWS_BYTE`: the control byte announcing a command. -/
def ssd1306CMD_FOLLOWS_BYTE : Nat := 0x00

/-- Value of `ssd1306DATA_FOLLOWS_BYTE`: the control byte announcing display data. -/
def ssd1306DATA_FOLLOWS_BYTE : Nat := 0x40

/-- Value of `SSD1306_I2C_SA0_0` in `Port.hpp`. -/
def SSD1306_I2C_SA0_0 : Nat := 1

/-- Value of `SSD1306_I2C_SA0_1` in `Port.hpp`. -/
def SSD1306_I2C_SA0_1 : Nat := 0

/-- Value of `SSD1306_I2C_ADD_SA0_0`. -/
def SSD1306_I2C_ADD_SA0_0 : Nat := 0x3C

/-- Value of `SSD1306_I2C_ADD_SA0_1`. -/
def SSD1306_I2C_ADD_SA0_1 : Nat := 0x3D

/-- Selection `#if(SSD1306_I2C_SA0_0 == 1) ... #else ... #endif` of the bus address, as a
function of the strap value. -/
def selectI2cAdd (sa0_0 : Nat) : Nat :=
  if sa0_0 = 1 then SSD1306_I2C_ADD_SA0_0 else SSD1306_I2C_ADD_SA0_1

/-- Value of `SSD1306_I2C_ADD`: the 7-bit, right-adjusted bus address of the controller. -/
def SSD1306_I2C_ADD : Nat := selectI2cAdd SSD1306_I2C_SA0_0

/-! ## Port: the platform layer (`Port.c`) -/

/-- Type `Port::i2cPort_t`. -/
inductive i2cPort_t where
  | i2cLeft
  | i2cRight
  deriving DecidableEq

/-- Calls into the generated component API.  The channel tells the `I2cCpLeft_` from the
`I2cCpRight_` function of the same name. -/
inductive Call where
  /-- Call `I2cCpLeft_Start()` or `I2cCpRight_Start()`. -/
  | Start (ch : i2cPort_t)
  /-- Call `I2cCpLeft_EnableInt()` or `I2cCpRight_EnableInt()`. -/
  | EnableInt (ch : i2cPort_t)
  /-- Call `I2cCpLeft_MasterSendStart(slaveAddress, readWrite)` or its right twin. -/
  | MasterSendStart (ch : i2cPort_t) (slaveAddress readWrite : Nat)
  /-- Call `I2cCpLeft_MasterWriteByte(byteToWrite)` or its right twin. -/
  | MasterWriteByte (ch : i2cPort_t) (byteToWrite : Nat)
  /-- Call `I2cCpLeft_MasterSendStop()` or its right twin. -/
  | MasterSendStop (ch : i2cPort_t)
  /-- Call `CapSense_SetCapDevice(LEFT_LIN)` or `CapSense_SetCapDevice(RIGHT_LIN)`. -/
  | CapSense_SetCapDevice (ch : i2cPort_t)
  /-- Call `CapSense_SetGpio(LOW)` (`false`) or `CapSense_SetGpio(HIGH)` (`true`). -/
  | CapSense_SetGpio (high : Bool)
  /-- Call `PinCpLeftVddbEnN_Write(v)` or `PinCpRightVddbEnN_Write(v)`. -/
  | VddbEnN_Write (ch : i2cPort_t) (v : Nat)
  /-- Call `CyDelayUs(delayTimeUs)`. -/
  | CyDelayUs (delayTimeUs : Nat)
  /-- Call `CyDelay(delayTimeMs)`. -/
  | CyDelay (delayTimeMs : Nat)
  deriving DecidableEq

/-- Class `Port`, together with the record of what it has done so far. -/
structure Port where
  /-- Member `i2cPort`: the selected bus channel. -/
  i2cPort : i2cPort_t
  /-- Component calls made so far, oldest first. -/
  calls : List Call
  /-- Messages printed so far through `UartDebug_PutString`, oldest first. -/
  debug : List String
  /-- Status byte the bus component answers to the call made when `k` calls precede it. -/
  ret : Nat → Nat

/-- Constructor `Port::Port()`: the left channel is selected, nothing has happened yet. -/
def Port.ctor (ret : Nat → Nat) : Port :=
  { i2cPort := i2cPort_t.i2cLeft, calls := [], debug := [], ret := ret }

/-- Append one component call to the record. -/
def Port.call (c : Call) (port : Port) : Port :=
  { port with calls := port.calls ++ [c] }

/-- Status byte answered to the next call. -/
def Port.status (port : Port) : Nat :=
  port.ret port.calls.length % 256

/-- Function `Port::I2cMasterSendStart`. -/
def Port.I2cMasterSendStart (slaveAddress readWrite : Nat) (port : Port) : Nat × Port :=
  match port.i2cPort with
  | i2cPort_t.i2cLeft =>
    (port.status, port.call (Call.MasterSendStart i2cPort_t.i2cLeft slaveAddress readWrite))
  | i2cPort_t.i2cRight =>
    (port.status, port.call (Call.MasterSendStart i2cPort_t.i2cRight slaveAddress readWrite))

/-- Function `Port::I2cMasterWriteByte`. -/
def Port.I2cMasterWriteByte (byteToWrite : Nat) (port : Port) : Nat × Port :=
  match port.i2cPort with
  | i2cPort_t.i2cLeft =>
    (port.status, port.call (Call.MasterWriteByte i2cPort_t.i2cLeft byteToWrite))
  | i2cPort_t.i2cRight =>
    (port.status, port.call (Call.MasterWriteByte i2cPort_t.i2cRight byteToWrite))

/-- Function `Port::I2cMasterSendStop`. -/
def Port.I2cMasterSendStop (port : Port) : Nat × Port :=
  match port.i2cPort with
  | i2cPort_t.i2cLeft => (port.status, port.call (Call.MasterSendStop i2cPort_t.i2cLeft))
  | i2cPort_t.i2cRight => (port.status, port.call (Call.MasterSendStop i2cPort_t.i2cRight))

/-- Function `Port::I2cStart`. -/
def Port.I2cStart (port : Port) : Port :=
  (port.call (Call.Start i2cPort_t.i2cLeft)).call (Call.Start i2cPort_t.i2cRight)

/-- Function `Port::I2cEnableInt`. -/
def Port.I2cEnableInt (port : Port) : Port :=
  (port.call (Call.EnableInt i2cPort_t.i2cLeft)).call (Call.EnableInt i2cPort_t.i2cRight)

/-- Function `Port::PullResetLow`. -/
def Port.PullResetLow (port : Port) : Port :=
  match port.i2cPort with
  | i2cPort_t.i2cLeft =>
    (port.call (Call.CapSense_SetCapDevice i2cPort_t.i2cLeft)).call (Call.CapSense_SetGpio false)
  | i2cPort_t.i2cRight =>
    (port.call (Call.CapSense_SetCapDevice i2cPort_t.i2cRight)).call (Call.CapSense_SetGpio false)

/-- Function `Port::PullResetHigh`. -/
def Port.PullResetHigh (port : Port) : Port :=
  match port.i2cPort with
  | i2cPort_t.i2cLeft =>
    (port.call (Call.CapSense_SetCapDevice i2cPort_t.i2cLeft)).call (Call.CapSense_SetGpio true)
  | i2cPort_t.i2cRight =>
    (port.call (Call.CapSense_SetCapDevice i2cPort_t.i2cRight)).call (Call.CapSense_SetGpio true)

/-- Function `Port::DelayUs`. -/
def Port.DelayUs (delayTimeUs : Nat) (port : Port) : Port :=
  port.call (Call.CyDelayUs delayTimeUs)

/-- Function `Port::DelayMs`. -/
def Port.DelayMs (delayTimeMs : Nat) (port : Port) : Port :=
  port.call (Call.CyDelay delayTimeMs)

/-- Function `Port::PrintDebug`. -/
def Port.PrintDebug (msg : String) (port : Port) : Port :=
  { port with debug := port.debug ++ [msg] }

/-! ## SSD1306: writing commands and data -/

/-- A debug print guarded by `#if(switch == 1) ... #endif`. -/
def printIf (switch : Nat) (msg : String) (port : Port) : Port :=
  if switch = 1 then port.PrintDebug msg else port

/-- The recurring block
`if(error != I2cCpLeft_MSTR_NO_ERROR) { #if(configDEBUG_SSD1306_ERROR == 1) PrintDebug(msg) #endif }`. -/
def reportError (cfg : Config) (error : Nat) (msg : String) (port : Port) : Port :=
  if error ≠ cfg.I2cCpLeft_MSTR_NO_ERROR then printIf cfg.configDEBUG_SSD1306_ERROR msg port
  else port

/-- Function `SSD1306::WriteCommand`. -/
def WriteCommand (cfg : Config) (cmd : Nat) (port : Port) : Port :=
  let r := port.I2cMasterSendStart SSD1306_I2C_ADD 0
  let port := reportError cfg r.1 "SSD1306: Error. Sending start condition over I2C failed.\r\n" r.2
  let r := port.I2cMasterWriteByte ssd1306CMD_FOLLOWS_BYTE
  let port := reportError cfg r.1 "SSD1306: Error. Sending byte over I2C failed.\r\n" r.2
  let r := port.I2cMasterWriteByte cmd
  let port := reportError cfg r.1 "SSD1306: Error. Sending byte over I2C failed.\r\n" r.2
  let r := port.I2cMasterSendStop
  reportError cfg r.1 "SSD1306: Error. Sending stop condition over I2C failed.\r\n" r.2

/-- Loop `while(commandIndex < numCommands) { ...; commandIndex++; }` of `WriteCommandArray`,
from the given `commandIndex` on. -/
def WriteCommandArray.loop (cfg : Config) (commandArray : Nat → Nat) (numCommands : Nat) :
    Nat → Nat → Port → Port
  | 0, _, port => port
  | fuel + 1, commandIndex, port =>
    if commandIndex < numCommands then
      let r := port.I2cMasterWriteByte (commandArray commandIndex)
      let port := reportError cfg r.1 "SSD1306: Error. Sending byte over I2C failed.\r\n" r.2
      WriteCommandArray.loop cfg commandArray numCommands fuel ((commandIndex + 1) % 256) port
    else port

/-- Function `SSD1306::WriteCommandArray`.  The byte counter `commandIndex` runs from 0 up to
the byte `numCommands`, so 256 turns of the loop always suffice. -/
def WriteCommandArray (cfg : Config) (commandArray : Nat → Nat) (numCommands : Nat)
    (port : Port) : Port :=
  let r := port.I2cMasterSendStart SSD1306_I2C_ADD 0
  let port := reportError cfg r.1 "SSD1306: Error. Sending start condition over I2C failed.\r\n" r.2
  let r := port.I2cMasterWriteByte ssd1306CMD_FOLLOWS_BYTE
  let port := reportError cfg r.1 "SSD1306: Error. Sending byte over I2C failed.\r\n" r.2
  let port := WriteCommandArray.loop cfg commandArray numCommands 256 0 port
  let r := port.I2cMasterSendStop
  reportError cfg r.1 "SSD1306: Error. Sending stop condition over I2C failed.\r\n" r.2

/-- Function `SSD1306::WriteData`. -/
def WriteData (cmd : Nat) (port : Port) : Port :=
  let port := (port.I2cMasterSendStart SSD1306_I2C_ADD 0).2
  let port := (port.I2cMasterWriteByte ssd1306DATA_FOLLOWS_BYTE).2
  let port := (port.I2cMasterWriteByte cmd).2
  (port.I2cMasterSendStop).2

/-- A local byte array with the given contents, seen through a pointer to its first element. -/
def localArray (contents : List Nat) : Nat → Nat :=
  fun k => contents.getD k 0

/-! ## SSD1306: addressing -/

/-- Function `SSD1306::SetStartColumn`.  The arguments of `WriteCommand` are `int` expressions
converted to `unsigned char`. -/
def SetStartColumn (cfg : Config) (d : Nat) (port : Port) : Port :=
  let port := WriteCommand cfg ((0x00 + d % 16) % 256) port
  WriteCommand cfg ((0x10 + d / 16) % 256) port

/-- Function `SSD1306::SetStartPage`. -/
def SetStartPage (cfg : Config) (d : Nat) (port : Port) : Port :=
  WriteCommand cfg ((0xB0 ||| d) % 256) port

/-- Function `SSD1306::SetMultiplexRatio`. -/
def SetMultiplexRatio (cfg : Config) (regVal : Nat) (port : Port) : Port :=
  let port := printIf cfg.configDEBUG_SSD1306_VERBOSE "SSD1306: Setting multiplex ratio...\r\n" port
  WriteCommandArray cfg (localArray [0xA8, regVal]) 2 port

/-! ## SSD1306: region rendering -/

/-- Ways in which a call can fail to produce a result. -/
inductive Fault where
  /-- The loop was still running when the fuel was used up. -/
  | outOfFuel
  /-- A read outside the font tables, or through a pointer that was never set. -/
  | outOfBounds
  deriving DecidableEq

/-- Loop `for(j = 0; j < totalCol; j++) { I2cMasterWriteByte(*pixelPointer); pixelPointer++; }`
of `ShowPattern`, from the given `j` on; `pixelPointer` is an offset into `pixelArray`.  The
result carries the advanced pointer. -/
def ShowPattern.cols (pixelArray : Nat → Nat) (totalCol : Nat) :
    Nat → Nat → Nat → Port → Nat × Port
  | 0, _, pixelPointer, port => (pixelPointer, port)
  | fuel + 1, j, pixelPointer, port =>
    if j < totalCol then
      let port := (port.I2cMasterWriteByte (pixelArray pixelPointer)).2
      ShowPattern.cols pixelArray totalCol fuel ((j + 1) % 256) (pixelPointer + 1) port
    else (pixelPointer, port)

/-- Loop `for(i = startPage; i < (endPage+1); i++) { ... }` of `ShowPattern`, from the given `i`
on.  The comparison is made on `int`, the increment on the byte `i`. -/
def ShowPattern.pages (cfg : Config) (pixelArray : Nat → Nat) (endPage startCol totalCol : Nat) :
    Nat → Nat → Nat → Port → Except Fault Port
  | 0, i, _, port => if i < endPage + 1 then Except.error Fault.outOfFuel else Except.ok port
  | fuel + 1, i, pixelPointer, port =>
    if i < endPage + 1 then
      let port := SetStartPage cfg i port
      let port := SetStartColumn cfg startCol port
      let port := (port.I2cMasterSendStart SSD1306_I2C_ADD 0).2
      let port := (port.I2cMasterWriteByte ssd1306DATA_FOLLOWS_BYTE).2
      let r := ShowPattern.cols pixelArray totalCol 256 0 pixelPointer port
      let port := (r.2.I2cMasterSendStop).2
      ShowPattern.pages cfg pixelArray endPage startCol totalCol fuel ((i + 1) % 256) r.1 port
    else Except.ok port

/-- Function `SSD1306::ShowPattern`, with the fuel of its page loop. -/
def ShowPattern (cfg : Config) (fuel : Nat) (pixelArray : Nat → Nat)
    (startPage endPage startCol totalCol : Nat) (port : Port) : Except Fault Port :=
  let port := printIf cfg.configDEBUG_SSD1306 "SSD1306: Showing pattern...\r\n" port
  ShowPattern.pages cfg pixelArray endPage startCol totalCol fuel startPage 0 port

/-- Loop `for(j = 0; j < 128; j++) { I2cMasterWriteByte(byteToFillRamWith); }` of `FillRam`. -/
def FillRam.cols (byteToFillRamWith : Nat) : Nat → Nat → Port → Port
  | 0, _, port => port
  | fuel + 1, j, port =>
    if j < 128 then
      let port := (port.I2cMasterWriteByte byteToFillRamWith).2
      FillRam.cols byteToFillRamWith fuel ((j + 1) % 256) port
    else port

/-- Loop `for(i = 0; i < 4; i++) { ... }` of `FillRam`, from the given `i` on. -/
def FillRam.pages (cfg : Config) (byteToFillRamWith : Nat) : Nat → Nat → Port → Port
  | 0, _, port => port
  | fuel + 1, i, port =>
    if i < 4 then
      let port := SetStartPage cfg i port
      let port := SetStartColumn cfg 0x00 port
      let port := (port.I2cMasterSendStart SSD1306_I2C_ADD 0).2
      let port := (port.I2cMasterWriteByte ssd1306DATA_FOLLOWS_BYTE).2
      let port := FillRam.cols byteToFillRamWith 256 0 port
      let port := (port.I2cMasterSendStop).2
      FillRam.pages cfg byteToFillRamWith fuel ((i + 1) % 256) port
    else port

/-- Function `SSD1306::FillRam`.  Both loops count a byte up to a constant bound, so 256 turns
always suffice. -/
def FillRam (cfg : Config) (byteToFillRamWith : Nat) (port : Port) : Port :=
  let port := printIf cfg.configDEBUG_SSD1306 "SSD1306: Filling RAM with constant byte...\r\n" port
  FillRam.pages cfg byteToFillRamWith 256 0 port

/-! ## SSD1306: fonts -/

/-- Table `Ascii_1[240][5]`. -/
def Ascii_1 : List (List Nat) := [
  [0x00, 0x00, 0x4F, 0x00, 0x00], [0x00, 0x07, 0x00, 0x07, 0x00], [0x14, 0x7F, 0x14, 0x7F, 0x14], [0x24, 0x2A, 0x7F, 0x2A, 0x12],
  [0x23, 0x13, 0x08, 0x64, 0x62], [0x36, 0x49, 0x55, 0x22, 0x50], [0x00, 0x05, 0x03, 0x00, 0x00], [0x00, 0x1C, 0x22, 0x41, 0x00],
  [0x00, 0x41, 0x22, 0x1C, 0x00], [0x14, 0x08, 0x3E, 0x08, 0x14], [0x08, 0x08, 0x3E, 0x08, 0x08], [0x00, 0x50, 0x30, 0x00, 0x00],
  [0x08, 0x08, 0x08, 0x08, 0x08], [0x00, 0x60, 0x60, 0x00, 0x00], [0x20, 0x10, 0x08, 0x04, 0x02], [0x3E, 0x51, 0x49, 0x45, 0x3E],
  [0x00, 0x42, 0x7F, 0x40, 0x00], [0x42, 0x61, 0x51, 0x49, 0x46], [0x21, 0x41, 0x45, 0x4B, 0x31], [0x18, 0x14, 0x12, 0x7F, 0x10],
  [0x27, 0x45, 0x45, 0x45, 0x39], [0x3C, 0x4A, 0x49, 0x49, 0x30], [0x01, 0x71, 0x09, 0x05, 0x03], [0x36, 0x49, 0x49, 0x49, 0x36],
  [0x06, 0x49, 0x49, 0x29, 0x1E], [0x00, 0x36, 0x36, 0x00, 0x00], [0x00, 0x56, 0x36, 0x00, 0x00], [0x08, 0x14, 0x22, 0x41, 0x00],
  [0x14, 0x14, 0x14, 0x14, 0x14], [0x00, 0x41, 0x22, 0x14, 0x08], [0x02, 0x01, 0x51, 0x09, 0x06], [0x32, 0x49, 0x79, 0x41, 0x3E],
  [0x7E, 0x11, 0x11, 0x11, 0x7E], [0x7F, 0x49, 0x49, 0x49, 0x36], [0x3E, 0x41, 0x41, 0x41, 0x22], [0x7F, 0x41, 0x41, 0x22, 0x1C],
  [0x7F, 0x49, 0x49, 0x49, 0x41], [0x7F, 0x09, 0x09, 0x09, 0x01], [0x3E, 0x41, 0x49, 0x49, 0x7A], [0x7F, 0x08, 0x08, 0x08, 0x7F],
  [0x00, 0x41, 0x7F, 0x41, 0x00], [0x20, 0x40, 0x41, 0x3F, 0x01], [0x7F, 0x08, 0x14, 0x22, 0x41], [0x7F, 0x40, 0x40, 0x40, 0x40],
  [0x7F, 0x02, 0x0C, 0x02, 0x7F], [0x7F, 0x04, 0x08, 0x10, 0x7F], [0x3E, 0x41, 0x41, 0x41, 0x3E], [0x7F, 0x09, 0x09, 0x09, 0x06],
  [0x3E, 0x41, 0x51, 0x21, 0x5E], [0x7F, 0x09, 0x19, 0x29, 0x46], [0x46, 0x49, 0x49, 0x49, 0x31], [0x01, 0x01, 0x7F, 0x01, 0x01],
  [0x3F, 0x40, 0x40, 0x40, 0x3F], [0x1F, 0x20, 0x40, 0x20, 0x1F], [0x3F, 0x40, 0x38, 0x40, 0x3F], [0x63, 0x14, 0x08, 0x14, 0x63],
  [0x07, 0x08, 0x70, 0x08, 0x07], [0x61, 0x51, 0x49, 0x45, 0x43], [0x00, 0x7F, 0x41, 0x41, 0x00], [0x02, 0x04, 0x08, 0x10, 0x20],
  [0x00, 0x41, 0x41, 0x7F, 0x00], [0x04, 0x02, 0x01, 0x02, 0x04], [0x40, 0x40, 0x40, 0x40, 0x40], [0x01, 0x02, 0x04, 0x00, 0x00],
  [0x20, 0x54, 0x54, 0x54, 0x78], [0x7F, 0x48, 0x44, 0x44, 0x38], [0x38, 0x44, 0x44, 0x44, 0x20], [0x38, 0x44, 0x44, 0x48, 0x7F],
  [0x38, 0x54, 0x54, 0x54, 0x18], [0x08, 0x7E, 0x09, 0x01, 0x02], [0x06, 0x49, 0x49, 0x49, 0x3F], [0x7F, 0x08, 0x04, 0x04, 0x78],
  [0x00, 0x44, 0x7D, 0x40, 0x00], [0x20, 0x40, 0x44, 0x3D, 0x00], [0x7F, 0x10, 0x28, 0x44, 0x00], [0x00, 0x41, 0x7F, 0x40, 0x00],
  [0x7C, 0x04, 0x18, 0x04, 0x7C], [0x7C, 0x08, 0x04, 0x04, 0x78], [0x38, 0x44, 0x44, 0x44, 0x38], [0x7C, 0x14, 0x14, 0x14, 0x08],
  [0x08, 0x14, 0x14, 0x18, 0x7C], [0x7C, 0x08, 0x04, 0x04, 0x08], [0x48, 0x54, 0x54, 0x54, 0x20], [0x04, 0x3F, 0x44, 0x40, 0x20],
  [0x3C, 0x40, 0x40, 0x20, 0x7C], [0x1C, 0x20, 0x40, 0x20, 0x1C], [0x3C, 0x40, 0x30, 0x40, 0x3C], [0x44, 0x28, 0x10, 0x28, 0x44],
  [0x0C, 0x50, 0x50, 0x50, 0x3C], [0x44, 0x64, 0x54, 0x4C, 0x44], [0x00, 0x08, 0x36, 0x41, 0x00], [0x00, 0x00, 0x7F, 0x00, 0x00],
  [0x00, 0x41, 0x36, 0x08, 0x00], [0x02, 0x01, 0x02, 0x04, 0x02], [0x3E, 0x55, 0x55, 0x41, 0x22], [0x00, 0x00, 0x00, 0x00, 0x00],
  [0x00, 0x00, 0x79, 0x00, 0x00], [0x18, 0x24, 0x74, 0x2E, 0x24], [0x48, 0x7E, 0x49, 0x42, 0x40], [0x5D, 0x22, 0x22, 0x22, 0x5D],
  [0x15, 0x16, 0x7C, 0x16, 0x15], [0x00, 0x00, 0x77, 0x00, 0x00], [0x0A, 0x55, 0x55, 0x55, 0x28], [0x00, 0x01, 0x00, 0x01, 0x00],
  [0x00, 0x0A, 0x0D, 0x0A, 0x04], [0x08, 0x14, 0x2A, 0x14, 0x22], [0x04, 0x04, 0x04, 0x04, 0x1C], [0x00, 0x08, 0x08, 0x08, 0x00],
  [0x01, 0x01, 0x01, 0x01, 0x01], [0x00, 0x02, 0x05, 0x02, 0x00], [0x44, 0x44, 0x5F, 0x44, 0x44], [0x00, 0x00, 0x04, 0x02, 0x01],
  [0x7E, 0x20, 0x20, 0x10, 0x3E], [0x06, 0x0F, 0x7F, 0x00, 0x7F], [0x00, 0x18, 0x18, 0x00, 0x00], [0x00, 0x40, 0x50, 0x20, 0x00],
  [0x00, 0x0A, 0x0D, 0x0A, 0x00], [0x22, 0x14, 0x2A, 0x14, 0x08], [0x17, 0x08, 0x34, 0x2A, 0x7D], [0x17, 0x08, 0x04, 0x6A, 0x59],
  [0x30, 0x48, 0x45, 0x40, 0x20], [0x70, 0x29, 0x26, 0x28, 0x70], [0x70, 0x28, 0x26, 0x29, 0x70], [0x70, 0x2A, 0x25, 0x2A, 0x70],
  [0x72, 0x29, 0x26, 0x29, 0x70], [0x70, 0x29, 0x24, 0x29, 0x70], [0x70, 0x2A, 0x2D, 0x2A, 0x70], [0x7E, 0x11, 0x7F, 0x49, 0x49],
  [0x0E, 0x51, 0x51, 0x71, 0x11], [0x7C, 0x55, 0x56, 0x54, 0x44], [0x7C, 0x55, 0x56, 0x54, 0x44], [0x7C, 0x56, 0x55, 0x56, 0x44],
  [0x7C, 0x55, 0x54, 0x55, 0x44], [0x00, 0x45, 0x7E, 0x44, 0x00], [0x00, 0x44, 0x7E, 0x45, 0x00], [0x00, 0x46, 0x7D, 0x46, 0x00],
  [0x00, 0x45, 0x7C, 0x45, 0x00], [0x7F, 0x49, 0x49, 0x41, 0x3E], [0x7C, 0x0A, 0x11, 0x22, 0x7D], [0x38, 0x45, 0x46, 0x44, 0x38],
  [0x38, 0x44, 0x46, 0x45, 0x38], [0x38, 0x46, 0x45, 0x46, 0x38], [0x38, 0x46, 0x45, 0x46, 0x39], [0x38, 0x45, 0x44, 0x45, 0x38],
  [0x22, 0x14, 0x08, 0x14, 0x22], [0x2E, 0x51, 0x49, 0x45, 0x3A], [0x3C, 0x41, 0x42, 0x40, 0x3C], [0x3C, 0x40, 0x42, 0x41, 0x3C],
  [0x3C, 0x42, 0x41, 0x42, 0x3C], [0x3C, 0x41, 0x40, 0x41, 0x3C], [0x0C, 0x10, 0x62, 0x11, 0x0C], [0x7F, 0x12, 0x12, 0x12, 0x0C],
  [0x40, 0x3E, 0x01, 0x49, 0x36], [0x20, 0x55, 0x56, 0x54, 0x78], [0x20, 0x54, 0x56, 0x55, 0x78], [0x20, 0x56, 0x55, 0x56, 0x78],
  [0x20, 0x55, 0x56, 0x55, 0x78], [0x20, 0x55, 0x54, 0x55, 0x78], [0x20, 0x56, 0x57, 0x56, 0x78], [0x24, 0x54, 0x78, 0x54, 0x58],
  [0x0C, 0x52, 0x52, 0x72, 0x13], [0x38, 0x55, 0x56, 0x54, 0x18], [0x38, 0x54, 0x56, 0x55, 0x18], [0x38, 0x56, 0x55, 0x56, 0x18],
  [0x38, 0x55, 0x54, 0x55, 0x18], [0x00, 0x49, 0x7A, 0x40, 0x00], [0x00, 0x48, 0x7A, 0x41, 0x00], [0x00, 0x4A, 0x79, 0x42, 0x00],
  [0x00, 0x4A, 0x78, 0x42, 0x00], [0x31, 0x4A, 0x4E, 0x4A, 0x30], [0x7A, 0x11, 0x0A, 0x09, 0x70], [0x30, 0x49, 0x4A, 0x48, 0x30],
  [0x30, 0x48, 0x4A, 0x49, 0x30], [0x30, 0x4A, 0x49, 0x4A, 0x30], [0x30, 0x4A, 0x49, 0x4A, 0x31], [0x30, 0x4A, 0x48, 0x4A, 0x30],
  [0x08, 0x08, 0x2A, 0x08, 0x08], [0x38, 0x64, 0x54, 0x4C, 0x38], [0x38, 0x41, 0x42, 0x20, 0x78], [0x38, 0x40, 0x42, 0x21, 0x78],
  [0x38, 0x42, 0x41, 0x22, 0x78], [0x38, 0x42, 0x40, 0x22, 0x78], [0x0C, 0x50, 0x52, 0x51, 0x3C], [0x7E, 0x14, 0x14, 0x14, 0x08],
  [0x0C, 0x51, 0x50, 0x51, 0x3C], [0x1E, 0x09, 0x09, 0x29, 0x5E], [0x08, 0x15, 0x15, 0x35, 0x4E], [0x38, 0x44, 0x46, 0x45, 0x20],
  [0x30, 0x48, 0x4A, 0x49, 0x20], [0x38, 0x45, 0x46, 0x45, 0x20], [0x30, 0x49, 0x4A, 0x49, 0x20], [0x7C, 0x45, 0x46, 0x45, 0x38],
  [0x20, 0x50, 0x50, 0x7C, 0x03], [0x1F, 0x15, 0x15, 0x35, 0x51], [0x0E, 0x15, 0x15, 0x35, 0x46], [0x7C, 0x55, 0x56, 0x55, 0x44],
  [0x38, 0x55, 0x56, 0x55, 0x18], [0x00, 0x44, 0x7C, 0x40, 0x00], [0x7F, 0x48, 0x44, 0x40, 0x40], [0x00, 0x49, 0x7F, 0x44, 0x00],
  [0x7C, 0x08, 0x12, 0x21, 0x7C], [0x78, 0x10, 0x0A, 0x09, 0x70], [0x7C, 0x09, 0x12, 0x21, 0x7C], [0x78, 0x11, 0x0A, 0x09, 0x70],
  [0x38, 0x47, 0x44, 0x47, 0x38], [0x30, 0x4B, 0x48, 0x4B, 0x30], [0x3E, 0x41, 0x7F, 0x49, 0x49], [0x38, 0x44, 0x38, 0x54, 0x58],
  [0x7C, 0x15, 0x16, 0x35, 0x48], [0x78, 0x11, 0x0A, 0x09, 0x10], [0x48, 0x54, 0x56, 0x55, 0x20], [0x20, 0x48, 0x56, 0x55, 0x20],
  [0x48, 0x55, 0x56, 0x55, 0x20], [0x20, 0x49, 0x56, 0x55, 0x20], [0x04, 0x05, 0x7E, 0x05, 0x04], [0x08, 0x3C, 0x48, 0x22, 0x01],
  [0x3C, 0x42, 0x45, 0x42, 0x3C], [0x38, 0x42, 0x45, 0x22, 0x78], [0x3C, 0x43, 0x40, 0x43, 0x3C], [0x38, 0x43, 0x40, 0x23, 0x78],
  [0x0C, 0x11, 0x60, 0x11, 0x0C], [0x44, 0x66, 0x55, 0x4C, 0x44], [0x48, 0x6A, 0x59, 0x48, 0x00], [0x44, 0x64, 0x55, 0x4C, 0x44],
  [0x48, 0x68, 0x5A, 0x48, 0x00], [0x44, 0x65, 0x56, 0x4D, 0x44], [0x48, 0x69, 0x5A, 0x49, 0x00], [0x00, 0x02, 0x01, 0x02, 0x00],
  [0x00, 0x01, 0x02, 0x01, 0x00], [0x00, 0x01, 0x01, 0x01, 0x00], [0x01, 0x02, 0x02, 0x01, 0x00], [0x00, 0x00, 0x01, 0x00, 0x00],
  [0x00, 0x02, 0x05, 0x02, 0x00], [0x02, 0x01, 0x02, 0x01, 0x00], [0x7F, 0x05, 0x15, 0x3A, 0x50], [0x3E, 0x55, 0x55, 0x41, 0x22],
  [0x18, 0x14, 0x08, 0x14, 0x0C], [0x44, 0x4A, 0x4A, 0x51, 0x51], [0x51, 0x51, 0x4A, 0x4A, 0x44], [0x74, 0x42, 0x41, 0x42, 0x74]
]

/-- Code point that the comment of each row of `Ascii_1` names, row by row. -/
def Ascii_1_codePoint : List Nat := [
  0x0021, 0x0022, 0x0023, 0x0024, 0x0025, 0x0026, 0x0027, 0x0028, 0x0029, 0x002A,
  0x002B, 0x002C, 0x002D, 0x002E, 0x002F, 0x0030, 0x0031, 0x0032, 0x0033, 0x0034,
  0x0035, 0x0036, 0x0037, 0x0038, 0x0039, 0x003A, 0x003B, 0x003C, 0x003D, 0x003E,
  0x003F, 0x0040, 0x0041, 0x0042, 0x0043, 0x0044, 0x0045, 0x0046, 0x0047, 0x0048,
  0x0049, 0x004A, 0x004B, 0x004C, 0x004D, 0x004E, 0x004F, 0x0050, 0x0051, 0x0052,
  0x0053, 0x0054, 0x0055, 0x0056, 0x0057, 0x0058, 0x0059, 0x005A, 0x005B, 0x005C,
  0x005D, 0x005E, 0x005F, 0x0060, 0x0061, 0x0062, 0x0063, 0x0064, 0x0065, 0x0066,
  0x0067, 0x0068, 0x0069, 0x006A, 0x006B, 0x006C, 0x006D, 0x006E, 0x006F, 0x0070,
  0x0071, 0x0072, 0x0073, 0x0074, 0x0075, 0x0076, 0x0077, 0x0078, 0x0079, 0x007A,
  0x007B, 0x007C, 0x007D, 0x007E, 0x0080, 0x00A0, 0x00A1, 0x00A2, 0x00A3, 0x00A4,
  0x00A5, 0x00A6, 0x00A7, 0x00A8, 0x00AA, 0x00AB, 0x00AC, 0x00AD, 0x00AF, 0x00B0,
  0x00B1, 0x00B4, 0x00B5, 0x00B6, 0x00B7, 0x00B8, 0x00BA, 0x00BB, 0x00BC, 0x00BD,
  0x00BF, 0x00C0, 0x00C1, 0x00C2, 0x00C3, 0x00C4, 0x00C5, 0x00C6, 0x00C7, 0x00C8,
  0x00C9, 0x00CA, 0x00CB, 0x00CC, 0x00CD, 0x00CE, 0x00CF, 0x00D0, 0x00D1, 0x00D2,
  0x00D3, 0x00D4, 0x00D5, 0x00D6, 0x00D7, 0x00D8, 0x00D9, 0x00DA, 0x00DB, 0x00DC,
  0x00DD, 0x00DE, 0x00DF, 0x00E0, 0x00E1, 0x00E2, 0x00E3, 0x00E4, 0x00E5, 0x00E6,
  0x00E7, 0x00E8, 0x00E9, 0x00EA, 0x00EB, 0x00EC, 0x00ED, 0x00EE, 0x00EF, 0x00F0,
  0x00F1, 0x00F2, 0x00F3, 0x00F4, 0x00F5, 0x00F6, 0x00F7, 0x00F8, 0x00F9, 0x00FA,
  0x00FB, 0x00FC, 0x00FD, 0x00FE, 0x00FF, 0x0104, 0x0105, 0x0106, 0x0107, 0x010C,
  0x010D, 0x010E, 0x010F, 0x0118, 0x0119, 0x011A, 0x011B, 0x0131, 0x0141, 0x0142,
  0x0143, 0x0144, 0x0147, 0x0148, 0x0150, 0x0151, 0x0152, 0x0153, 0x0158, 0x0159,
  0x015A, 0x015B, 0x0160, 0x0161, 0x0164, 0x0165, 0x016E, 0x016F, 0x0170, 0x0171,
  0x0178, 0x0179, 0x017A, 0x017B, 0x017C, 0x017D, 0x017E, 0x02C6, 0x02C7, 0x02C9,
  0x02D8, 0x02D9, 0x02DA, 0x02DC, 0x20A7, 0x20AC, 0x221E, 0x2264, 0x2265, 0x2302
]

/-- Table `Ascii_2[107][5]`. -/
def Ascii_2 : List (List Nat) := [
  [0x7E, 0x11, 0x11, 0x11, 0x7E], [0x7F, 0x49, 0x49, 0x49, 0x36], [0x7F, 0x02, 0x01, 0x01, 0x03], [0x70, 0x4E, 0x41, 0x4E, 0x70],
  [0x7F, 0x49, 0x49, 0x49, 0x41], [0x61, 0x51, 0x49, 0x45, 0x43], [0x7F, 0x08, 0x08, 0x08, 0x7F], [0x3E, 0x49, 0x49, 0x49, 0x3E],
  [0x00, 0x41, 0x7F, 0x41, 0x00], [0x7F, 0x08, 0x14, 0x22, 0x41], [0x70, 0x0E, 0x01, 0x0E, 0x70], [0x7F, 0x02, 0x0C, 0x02, 0x7F],
  [0x7F, 0x04, 0x08, 0x10, 0x7F], [0x63, 0x5D, 0x49, 0x5D, 0x63], [0x3E, 0x41, 0x41, 0x41, 0x3E], [0x41, 0x3F, 0x01, 0x3F, 0x41],
  [0x7F, 0x09, 0x09, 0x09, 0x06], [0x63, 0x55, 0x49, 0x41, 0x41], [0x01, 0x01, 0x7F, 0x01, 0x01], [0x03, 0x01, 0x7E, 0x01, 0x03],
  [0x08, 0x55, 0x7F, 0x55, 0x08], [0x63, 0x14, 0x08, 0x14, 0x63], [0x07, 0x48, 0x7F, 0x48, 0x07], [0x5E, 0x61, 0x01, 0x61, 0x5E],
  [0x38, 0x44, 0x48, 0x30, 0x4C], [0x7C, 0x2A, 0x2A, 0x2A, 0x14], [0x44, 0x38, 0x04, 0x04, 0x08], [0x30, 0x4B, 0x4D, 0x59, 0x30],
  [0x28, 0x54, 0x54, 0x44, 0x20], [0x00, 0x18, 0x55, 0x52, 0x22], [0x3E, 0x04, 0x02, 0x02, 0x7C], [0x3C, 0x4A, 0x4A, 0x4A, 0x3C],
  [0x00, 0x3C, 0x40, 0x20, 0x00], [0x7C, 0x10, 0x28, 0x44, 0x40], [0x41, 0x32, 0x0C, 0x30, 0x40], [0x7E, 0x20, 0x20, 0x10, 0x3E],
  [0x1C, 0x20, 0x40, 0x20, 0x1C], [0x14, 0x2B, 0x2A, 0x2A, 0x60], [0x38, 0x44, 0x44, 0x44, 0x38], [0x44, 0x3C, 0x04, 0x7C, 0x44],
  [0x70, 0x28, 0x24, 0x24, 0x18], [0x0C, 0x12, 0x12, 0x52, 0x60], [0x38, 0x44, 0x4C, 0x54, 0x24], [0x04, 0x3C, 0x44, 0x20, 0x00],
  [0x3C, 0x40, 0x40, 0x20, 0x1C], [0x18, 0x24, 0x7E, 0x24, 0x18], [0x44, 0x28, 0x10, 0x28, 0x44], [0x0C, 0x10, 0x7E, 0x10, 0x0C],
  [0x38, 0x44, 0x30, 0x44, 0x38], [0x0A, 0x0A, 0x4A, 0x2A, 0x1E], [0x04, 0x44, 0x34, 0x14, 0x0C], [0x20, 0x10, 0x78, 0x04, 0x00],
  [0x18, 0x08, 0x4C, 0x48, 0x38], [0x48, 0x48, 0x78, 0x48, 0x48], [0x48, 0x28, 0x18, 0x7C, 0x08], [0x08, 0x7C, 0x08, 0x28, 0x18],
  [0x40, 0x48, 0x48, 0x78, 0x40], [0x54, 0x54, 0x54, 0x7C, 0x00], [0x18, 0x00, 0x58, 0x40, 0x38], [0x08, 0x08, 0x08, 0x08, 0x08],
  [0x01, 0x41, 0x3D, 0x09, 0x07], [0x10, 0x08, 0x7C, 0x02, 0x01], [0x0E, 0x02, 0x43, 0x22, 0x1E], [0x42, 0x42, 0x7E, 0x42, 0x42],
  [0x22, 0x12, 0x0A, 0x7F, 0x02], [0x42, 0x3F, 0x02, 0x42, 0x3E], [0x0A, 0x0A, 0x7F, 0x0A, 0x0A], [0x08, 0x46, 0x42, 0x22, 0x1E],
  [0x04, 0x03, 0x42, 0x3E, 0x02], [0x42, 0x42, 0x42, 0x42, 0x7E], [0x02, 0x4F, 0x22, 0x1F, 0x02], [0x4A, 0x4A, 0x40, 0x20, 0x1C],
  [0x42, 0x22, 0x12, 0x2A, 0x46], [0x02, 0x3F, 0x42, 0x4A, 0x46], [0x06, 0x48, 0x40, 0x20, 0x1E], [0x08, 0x46, 0x4A, 0x32, 0x1E],
  [0x0A, 0x4A, 0x3E, 0x09, 0x08], [0x0E, 0x00, 0x4E, 0x20, 0x1E], [0x04, 0x45, 0x3D, 0x05, 0x04], [0x00, 0x7F, 0x08, 0x10, 0x00],
  [0x44, 0x24, 0x1F, 0x04, 0x04], [0x40, 0x42, 0x42, 0x42, 0x40], [0x42, 0x2A, 0x12, 0x2A, 0x06], [0x22, 0x12, 0x7B, 0x16, 0x22],
  [0x00, 0x40, 0x20, 0x1F, 0x00], [0x78, 0x00, 0x02, 0x04, 0x78], [0x3F, 0x44, 0x44, 0x44, 0x44], [0x02, 0x42, 0x42, 0x22, 0x1E],
  [0x04, 0x02, 0x04, 0x08, 0x30], [0x32, 0x02, 0x7F, 0x02, 0x32], [0x02, 0x12, 0x22, 0x52, 0x0E], [0x00, 0x2A, 0x2A, 0x2A, 0x40],
  [0x38, 0x24, 0x22, 0x20, 0x70], [0x40, 0x28, 0x10, 0x28, 0x06], [0x0A, 0x3E, 0x4A, 0x4A, 0x4A], [0x04, 0x7F, 0x04, 0x14, 0x0C],
  [0x40, 0x42, 0x42, 0x7E, 0x40], [0x4A, 0x4A, 0x4A, 0x4A, 0x7E], [0x04, 0x05, 0x45, 0x25, 0x1C], [0x0F, 0x40, 0x20, 0x1F, 0x00],
  [0x7C, 0x00, 0x7E, 0x40, 0x30], [0x7E, 0x40, 0x20, 0x10, 0x08], [0x7E, 0x42, 0x42, 0x42, 0x7E], [0x0E, 0x02, 0x42, 0x22, 0x1E],
  [0x42, 0x42, 0x40, 0x20, 0x18], [0x02, 0x04, 0x01, 0x02, 0x00], [0x07, 0x05, 0x07, 0x00, 0x00]
]

/-- Address `&table[index][0]` of a row: the row itself when `index` lies within the table. -/
def rowAt (table : List (List Nat)) (index : Int) : Option (List Nat) :=
  if index < 0 then none else table[index.toNat]?

/-- Loop `for(i = 0; i < 5; i++) { I2cMasterWriteByte(*Src_Pointer); Src_Pointer++; }` of
`ShowFont57`, from the given `i` on; `Src_Pointer` is an offset into the row it was set to. -/
def ShowFont57.loop (row : Option (List Nat)) : Nat → Nat → Nat → Port → Except Fault Port
  | 0, _, _, port => Except.ok port
  | fuel + 1, i, Src_Pointer, port =>
    if i < 5 then
      match row.bind (fun glyph => glyph[Src_Pointer]?) with
      | none => Except.error Fault.outOfBounds
      | some b =>
        let port := (port.I2cMasterWriteByte b).2
        ShowFont57.loop row fuel ((i + 1) % 256) (Src_Pointer + 1) port
    else Except.ok port

/-- Statement `switch(fontArraySel) { case 1: ...; case 2: ...; }` of `ShowFont57`: the row
that `Src_Pointer` is set to.  The `switch` has no default: for a selector other than 1 and 2
the pointer is never set. -/
def ShowFont57.Src_Pointer (fontArraySel asciiChar : Nat) : Option (List Nat) :=
  match fontArraySel with
  | 1 => rowAt Ascii_1 ((asciiChar : Int) - 1)
  | 2 => rowAt Ascii_2 ((asciiChar : Int) - 1)
  | _ => none

/-- Function `SSD1306::ShowFont57`. -/
def ShowFont57 (cfg : Config) (fontArraySel asciiChar startPage startCol : Nat) (port : Port) :
    Except Fault Port :=
  let Src_Pointer := ShowFont57.Src_Pointer fontArraySel asciiChar
  let port := SetStartPage cfg startPage port
  let port := SetStartColumn cfg startCol port
  let port := (port.I2cMasterSendStart SSD1306_I2C_ADD 0).2
  let port := (port.I2cMasterWriteByte ssd1306DATA_FOLLOWS_BYTE).2
  match ShowFont57.loop Src_Pointer 256 0 0 port with
  | Except.error e => Except.error e
  | Except.ok port =>
    let port := (port.I2cMasterWriteByte 0x00).2
    Except.ok (port.I2cMasterSendStop).2

/-- Loop `while(1) { ...; if(*internalPtr == 0) break; }` of `ShowString`; `internalPtr` is an
offset into `msg`, `startCol` the byte that `startCol += 6` advances. -/
def ShowString.loop (cfg : Config) (databaseNum : Nat) (msg : Nat → Nat) (startPage : Nat) :
    Nat → Nat → Nat → Port → Except Fault Port
  | 0, _, _, _ => Except.error Fault.outOfFuel
  | fuel + 1, internalPtr, startCol, port =>
    match ShowFont57 cfg databaseNum (msg internalPtr) startPage startCol port with
    | Except.error e => Except.error e
    | Except.ok port =>
      let internalPtr := internalPtr + 1
      let startCol := (startCol + 6) % 256
      if msg internalPtr = 0 then Except.ok port
      else ShowString.loop cfg databaseNum msg startPage fuel internalPtr startCol port

/-- Function `SSD1306::ShowString`, with the fuel of its loop. -/
def ShowString (cfg : Config) (fuel : Nat) (databaseNum : Nat) (msg : Nat → Nat)
    (startPage startCol : Nat) (port : Port) : Except Fault Port :=
  match ShowFont57 cfg 1 96 startPage startCol port with
  | Except.error e => Except.error e
  | Except.ok port => ShowString.loop cfg databaseNum msg startPage fuel 0 startCol port

/-- A C string: the given characters followed by the terminating null, seen through a pointer
to its first character; nothing is assumed about the memory behind the null. -/
def cString (text : List Nat) (behind : Nat → Nat) : Nat → Nat :=
  fun k => if k < text.length then text.getD k 0 else if k = text.length then 0
    else behind (k - text.length - 1)

/-- Row of `Ascii_1` whose comment names the given code point, if there is one. -/
def Ascii_1_documented (codePoint : Nat) : Option (List Nat) :=
  match Ascii_1_codePoint.indexOf? codePoint with
  | none => none
  | some k => Ascii_1[k]?

/-! ## SSD1306: power, channel and reset -/

/-- Value of `ssd1306_RESET_DELAY_TIME_US`: the reset pulse in microseconds. -/
def ssd1306_RESET_DELAY_TIME_US : Nat := 200

/-- Number of values of an `unsigned int`, taken as 16 bits wide (the target the file header
names is an 8051).  No counter of this type below ever reaches it. -/
def uintRange : Nat := 65536

/-- Function `SSD1306::EnableI2c`. -/
def EnableI2c (port : Port) : Port :=
  let port := port.I2cStart
  port.I2cEnableInt

/-- Function `SSD1306::SetI2cPort`. -/
def SetI2cPort (cfg : Config) (i2cPort : i2cPort_t) (port : Port) : Port :=
  let port := printIf cfg.configDEBUG_SSD1306_VERBOSE "SSD1306: Changing I2C port...\r\n" port
  let port := { port with i2cPort := i2cPort }
  if port.i2cPort = i2cPort_t.i2cLeft then
    printIf cfg.configDEBUG_SSD1306 "SSD1306: I2C port changed to left.\r\n" port
  else if port.i2cPort = i2cPort_t.i2cRight then
    printIf cfg.configDEBUG_SSD1306 "SSD1306: I2C port changed to right.\r\n" port
  else port

/-- Function `SSD1306::EnableVddb`. -/
def EnableVddb (port : Port) : Port :=
  let port := port.call (Call.VddbEnN_Write i2cPort_t.i2cRight 0)
  port.call (Call.VddbEnN_Write i2cPort_t.i2cLeft 0)

/-- Function `SSD1306::DisableVddb`. -/
def DisableVddb (port : Port) : Port :=
  let port := port.call (Call.VddbEnN_Write i2cPort_t.i2cRight 1)
  port.call (Call.VddbEnN_Write i2cPort_t.i2cLeft 1)

/-- Function `SSD1306::Reset`. -/
def Reset (cfg : Config) (port : Port) : Port :=
  let port := printIf cfg.configDEBUG_SSD1306_VERBOSE "SSD1306: Resetting...\r\n" port
  let port := port.PullResetLow
  let port := port.DelayUs ssd1306_RESET_DELAY_TIME_US
  port.PullResetHigh

/-! ## SSD1306: register operations -/

/-- Type `SSD1306::addressingMode_t`. -/
inductive addressingMode_t where
  | HORIZONTAL_ADDRESSING_MODE
  | VERTICAL_ADDRESSING_MODE
  | PAGE_ADDRESSING_MODE
  deriving DecidableEq

/-- Value of an `addressingMode_t` enumerator, as the cast `(uint8)addressingMode` gives it. -/
def addressingMode_t.toUint8 : addressingMode_t → Nat
  | addressingMode_t.HORIZONTAL_ADDRESSING_MODE => 0x00
  | addressingMode_t.VERTICAL_ADDRESSING_MODE => 0x01
  | addressingMode_t.PAGE_ADDRESSING_MODE => 0x02

/-- Function `SSD1306::SetChargePumpOn`. -/
def SetChargePumpOn (cfg : Config) (port : Port) : Port :=
  let port := printIf cfg.configDEBUG_SSD1306_VERBOSE "SSD1306: Enabling charge pump...\r\n" port
  WriteCommandArray cfg (localArray [0x8D, 0x14]) 2 port

/-- Function `SSD1306::SetChargePumpOff`. -/
def SetChargePumpOff (cfg : Config) (port : Port) : Port :=
  let port := printIf cfg.configDEBUG_SSD1306_VERBOSE "SSD1306: Disabling charge pump.\r\n" port
  WriteCommandArray cfg (localArray [0x8D, 0x10]) 2 port

/-- Function `SSD1306::ActivateDisplay`. -/
def ActivateDisplay (cfg : Config) (port : Port) : Port :=
  let port := printIf cfg.configDEBUG_SSD1306_VERBOSE "SSD1306: Turning display on...\r\n" port
  WriteCommand cfg 0xAF port

/-- Function `SSD1306::DeactivateDisplay`. -/
def DeactivateDisplay (cfg : Config) (port : Port) : Port :=
  let port := printIf cfg.configDEBUG_SSD1306_VERBOSE "SSD1306: Turning display off...\r\n" port
  WriteCommand cfg 0xAE port

/-- Function `SSD1306::TurnEveryPixelOn`. -/
def TurnEveryPixelOn (cfg : Config) (port : Port) : Port :=
  let port :=
    printIf cfg.configDEBUG_SSD1306_VERBOSE "SSD1306: Turning entire display on...\r\n" port
  WriteCommandArray cfg (localArray [0xA5]) 1 port

/-- Function `SSD1306::TurnEveryPixelOff`. -/
def TurnEveryPixelOff (cfg : Config) (port : Port) : Port :=
  let port :=
    printIf cfg.configDEBUG_SSD1306_VERBOSE "SSD1306: Turning entire display off...\r\n" port
  WriteCommandArray cfg (localArray [0xA4]) 1 port

/-- Function `SSD1306::SetDisplayClock`. -/
def SetDisplayClock (cfg : Config) (regVal : Nat) (port : Port) : Port :=
  let port := printIf cfg.configDEBUG_SSD1306 "SSD1306: Setting display clock...\r\n" port
  WriteCommandArray cfg (localArray [0xD5, regVal]) 2 port

/-- Function `SSD1306::SetAddressingMode`. -/
def SetAddressingMode (cfg : Config) (addressingMode : addressingMode_t) (port : Port) : Port :=
  let port := printIf cfg.configDEBUG_SSD1306 "SSD1306: Setting addressing mode...\r\n" port
  WriteCommandArray cfg (localArray [0x20, addressingMode.toUint8]) 2 port

/-- Function `SSD1306::SetSegmentRemap`. -/
def SetSegmentRemap (cfg : Config) (regVal : Nat) (port : Port) : Port :=
  let port := printIf cfg.configDEBUG_SSD1306_VERBOSE "SSD1306: Remapping segments...\r\n" port
  WriteCommandArray cfg (localArray [regVal]) 1 port

/-- Function `SSD1306::SetCommonRemap`. -/
def SetCommonRemap (cfg : Config) (regVal : Nat) (port : Port) : Port :=
  let port := printIf cfg.configDEBUG_SSD1306 "SSD1306: Setting common remap...\r\n" port
  WriteCommandArray cfg (localArray [regVal]) 1 port

/-- Function `SSD1306::SetDisplayOffset`. -/
def SetDisplayOffset (cfg : Config) (regVal : Nat) (port : Port) : Port :=
  let port := printIf cfg.configDEBUG_SSD1306 "SSD1306: Setting display offset...\r\n" port
  WriteCommandArray cfg (localArray [0xD3, regVal]) 2 port

/-- Function `SSD1306::SetStartLine`.  The `int` value `0x40|regVal` is stored in a byte. -/
def SetStartLine (cfg : Config) (regVal : Nat) (port : Port) : Port :=
  let port := printIf cfg.configDEBUG_SSD1306 "SSD1306: Setting start line...\r\n" port
  WriteCommandArray cfg (localArray [(0x40 ||| regVal) % 256]) 1 port

/-- Function `SSD1306::SetComPinConfig`. -/
def SetComPinConfig (cfg : Config) (regVal : Nat) (port : Port) : Port :=
  let port :=
    printIf cfg.configDEBUG_SSD1306 "SSD1306: Setting common configuration settings...\r\n" port
  WriteCommandArray cfg (localArray [0xDA, regVal]) 2 port

/-- Function `SSD1306::SetContrastControl`. -/
def SetContrastControl (cfg : Config) (d : Nat) (port : Port) : Port :=
  let port := printIf cfg.configDEBUG_SSD1306 "SSD1306: Setting contrast control...\r\n" port
  WriteCommandArray cfg (localArray [0x81, d]) 2 port

/-- Function `SSD1306::SetPrechargePeriod`. -/
def SetPrechargePeriod (cfg : Config) (d : Nat) (port : Port) : Port :=
  let port :=
    printIf cfg.configDEBUG_SSD1306 "SSD1306: Setting pre-charge/discharge period...\r\n" port
  WriteCommandArray cfg (localArray [0xD9, d]) 2 port

/-- Function `SSD1306::SetVCOMH`. -/
def SetVCOMH (cfg : Config) (d : Nat) (port : Port) : Port :=
  let port := printIf cfg.configDEBUG_SSD1306 "SSD1306: Setting VCOMH level...\r\n" port
  WriteCommandArray cfg (localArray [0xDB, d]) 2 port

/-- Function `SSD1306::SetInverseDisplay`. -/
def SetInverseDisplay (cfg : Config) (isInverse : Bool) (port : Port) : Port :=
  let port :=
    printIf cfg.configDEBUG_SSD1306_VERBOSE "SSD1306: Chaning inverse display settings...\r\n" port
  if isInverse then WriteCommandArray cfg (localArray [0xA7]) 1 port
  else WriteCommandArray cfg (localArray [0xA6]) 1 port

/-! ## SSD1306: initialisation -/

/-- Function `SSD1306::OledInitVccExt`. -/
def OledInitVccExt (cfg : Config) (port : Port) : Port :=
  let port := Reset cfg port
  let port := DeactivateDisplay cfg port
  let port := SetDisplayClock cfg 0x80 port
  let port := SetMultiplexRatio cfg 0x1F port
  let port := SetDisplayOffset cfg 0x00 port
  let port := SetStartLine cfg 0x00 port
  let port := SetChargePumpOff cfg port
  let port := SetAddressingMode cfg addressingMode_t.PAGE_ADDRESSING_MODE port
  let port := SetSegmentRemap cfg 0xA1 port
  let port := SetCommonRemap cfg 0xC8 port
  let port := SetComPinConfig cfg 0x02 port
  let port := SetContrastControl cfg 0xFF port
  let port := SetPrechargePeriod cfg 0x22 port
  let port := SetVCOMH cfg 0x40 port
  let port := TurnEveryPixelOff cfg port
  let port := SetInverseDisplay cfg false port
  let port := FillRam cfg 0x00 port
  ActivateDisplay cfg port

/-- Function `SSD1306::OledInitVccInt`. -/
def OledInitVccInt (cfg : Config) (port : Port) : Port :=
  let port := EnableVddb port
  let port := EnableI2c port
  let port := SetI2cPort cfg i2cPort_t.i2cLeft port
  let port := Reset cfg port
  let port := SetChargePumpOn cfg port
  let port := ActivateDisplay cfg port
  let port := SetDisplayClock cfg 0x80 port
  let port := SetMultiplexRatio cfg 0x1F port
  let port := SetDisplayOffset cfg 0x00 port
  let port := SetStartLine cfg 0x00 port
  let port := SetAddressingMode cfg addressingMode_t.PAGE_ADDRESSING_MODE port
  let port := SetSegmentRemap cfg 0xA1 port
  let port := SetCommonRemap cfg 0xC8 port
  let port := SetComPinConfig cfg 0x02 port
  let port := SetContrastControl cfg 0xFF port
  let port := SetPrechargePeriod cfg 0xF1 port
  FillRam cfg 0x00 port

/-! ## SSD1306: patterns -/

/-- Loop `for(j = 0; j < 64; j++) { I2cMasterWriteByte(0x55); I2cMasterWriteByte(0xAA); }` of
`Checkerboard`, from the given `j` on. -/
def Checkerboard.cols : Nat → Nat → Port → Port
  | 0, _, port => port
  | fuel + 1, j, port =>
    if j < 64 then
      let port := (port.I2cMasterWriteByte 0x55).2
      let port := (port.I2cMasterWriteByte 0xAA).2
      Checkerboard.cols fuel ((j + 1) % 256) port
    else port

/-- Loop `for(i = 0; i < 8; i++) { ... }` of `Checkerboard`, from the given `i` on. -/
def Checkerboard.pages (cfg : Config) : Nat → Nat → Port → Port
  | 0, _, port => port
  | fuel + 1, i, port =>
    if i < 8 then
      let port := SetStartPage cfg i port
      let port := SetStartColumn cfg 0x00 port
      let port := (port.I2cMasterSendStart SSD1306_I2C_ADD 0).2
      let port := (port.I2cMasterWriteByte ssd1306DATA_FOLLOWS_BYTE).2
      let port := Checkerboard.cols 256 0 port
      let port := (port.I2cMasterSendStop).2
      Checkerboard.pages cfg fuel ((i + 1) % 256) port
    else port

/-- Function `SSD1306::Checkerboard`. -/
def Checkerboard (cfg : Config) (port : Port) : Port :=
  Checkerboard.pages cfg 256 0 port

/-- Loops `for(i = 0; i < ssd1306NUM_COLS; i++) { I2cMasterWriteByte(b); }` of `DrawFrame`, from
the given `i` on; `b` is `0x01` for the top border and `0x80` for the bottom one. -/
def DrawFrame.border (b : Nat) : Nat → Nat → Port → Port
  | 0, _, port => port
  | fuel + 1, i, port =>
    if i < ssd1306NUM_COLS then
      let port := (port.I2cMasterWriteByte b).2
      DrawFrame.border b fuel ((i + 1) % 256) port
    else port

/-- Loop `for(j = 0; j < ssd1306NUM_COLS; j += (ssd1306NUM_COLS-1)) { ... }` of `DrawFrame`,
from the given `j` on. -/
def DrawFrame.sides (cfg : Config) : Nat → Nat → Port → Port
  | 0, _, port => port
  | fuel + 1, j, port =>
    if j < ssd1306NUM_COLS then
      let port := SetStartColumn cfg j port
      let port := WriteData 0xFF port
      DrawFrame.sides cfg fuel ((j + (ssd1306NUM_COLS - 1)) % 256) port
    else port

/-- Loop `for(i = 0; i < 4; i++) { SetStartPage(i); ... }` of `DrawFrame`, from the given `i`
on. -/
def DrawFrame.pages (cfg : Config) : Nat → Nat → Port → Port
  | 0, _, port => port
  | fuel + 1, i, port =>
    if i < 4 then
      let port := SetStartPage cfg i port
      let port := DrawFrame.sides cfg 256 0 port
      DrawFrame.pages cfg fuel ((i + 1) % 256) port
    else port

/-- Function `SSD1306::DrawFrame`. -/
def DrawFrame (cfg : Config) (port : Port) : Port :=
  let port := SetStartPage cfg 0x00 port
  let port := SetStartColumn cfg 0x00 port
  let port := (port.I2cMasterSendStart SSD1306_I2C_ADD 0).2
  let port := (port.I2cMasterWriteByte ssd1306DATA_FOLLOWS_BYTE).2
  let port := DrawFrame.border 0x01 256 0 port
  let port := (port.I2cMasterSendStop).2
  let port := SetStartPage cfg 0x03 port
  let port := SetStartColumn cfg 0x00 port
  let port := (port.I2cMasterSendStart SSD1306_I2C_ADD 0).2
  let port := (port.I2cMasterWriteByte ssd1306DATA_FOLLOWS_BYTE).2
  let port := DrawFrame.border 0x80 256 0 port
  let port := (port.I2cMasterSendStop).2
  DrawFrame.pages cfg 256 0 port

/-! ## SSD1306: scrolling and fading -/

/-- Loop `for(j = 0; j < e; j++) { DelayUs(200); }` of `VerticalScroll`, from the given `j` on;
`j` is an `unsigned int`, `e` a byte. -/
def VerticalScroll.wait (e : Nat) : Nat → Nat → Port → Port
  | 0, _, port => port
  | fuel + 1, j, port =>
    if j < e then
      let port := port.DelayUs 200
      VerticalScroll.wait e fuel ((j + 1) % uintRange) port
    else port

/-- Loops `for(i = 0; i < c; i += d) { SetStartLine(...); ... }` of `VerticalScroll`, from the
given `i` on: `SetStartLine(i)` in `case 0`, `SetStartLine(c-i)` in `case 1` (`down`).  The
counter `i` is an `unsigned int`, which `c - i` is computed in; the argument of `SetStartLine`
is a byte. -/
def VerticalScroll.steps (cfg : Config) (down : Bool) (c d e : Nat) :
    Nat → Nat → Port → Except Fault Port
  | 0, i, port => if i < c then Except.error Fault.outOfFuel else Except.ok port
  | fuel + 1, i, port =>
    if i < c then
      let port :=
        if down then SetStartLine cfg ((c + uintRange - i) % uintRange % 256) port
        else SetStartLine cfg (i % 256) port
      let port := VerticalScroll.wait e 256 0 port
      VerticalScroll.steps cfg down c d e fuel ((i + d) % uintRange) port
    else Except.ok port

/-- Function `SSD1306::VerticalScroll`, with the fuel of its stepping loop.  The `switch` has no
default: for a direction other than 0 and 1 no loop is run. -/
def VerticalScroll (cfg : Config) (fuel : Nat) (a b c d e : Nat) (port : Port) :
    Except Fault Port :=
  let port := WriteCommand cfg 0xA3 port
  let port := WriteCommand cfg b port
  let port := WriteCommand cfg c port
  let stepped : Except Fault Port :=
    match a with
    | 0 => VerticalScroll.steps cfg false c d e fuel 0 port
    | 1 => VerticalScroll.steps cfg true c d e fuel 0 port
    | _ => Except.ok port
  match stepped with
  | Except.error f => Except.error f
  | Except.ok port => Except.ok (SetStartLine cfg 0x00 port)

/-- Function `SSD1306::HorizontalScroll`. -/
def HorizontalScroll (cfg : Config) (scrollDir startPage endPage timeInterval delayTime : Nat)
    (port : Port) : Port :=
  let port := WriteCommand cfg ((0x26 ||| scrollDir) % 256) port
  let port := WriteCommand cfg 0x00 port
  let port := WriteCommand cfg startPage port
  let port := WriteCommand cfg timeInterval port
  let port := WriteCommand cfg endPage port
  let port := WriteCommand cfg 0x2F port
  port.DelayMs delayTime

/-- Function `SSD1306::ContinuousScroll`. -/
def ContinuousScroll (cfg : Config) (a b c d e f g h : Nat) (port : Port) : Port :=
  let port := WriteCommand cfg 0xA3 port
  let port := WriteCommand cfg d port
  let port := WriteCommand cfg e port
  let port := WriteCommand cfg ((0x29 + a) % 256) port
  let port := WriteCommand cfg 0x00 port
  let port := WriteCommand cfg b port
  let port := WriteCommand cfg g port
  let port := WriteCommand cfg c port
  let port := WriteCommand cfg f port
  let port := WriteCommand cfg 0x2F port
  port.DelayMs h

/-- Function `SSD1306::DeactivateScroll`. -/
def DeactivateScroll (cfg : Config) (port : Port) : Port :=
  WriteCommand cfg 0x2E port

/-- Loop `for(i = 0; i < (ssd1306BRIGHTNESS + 1); i++) { ... }` of `FadeIn`, from the given `i`
on; `i` is an `unsigned int`, the argument of `SetContrastControl` a byte. -/
def FadeIn.loop (cfg : Config) : Nat → Nat → Port → Port
  | 0, _, port => port
  | fuel + 1, i, port =>
    if i < ssd1306BRIGHTNESS + 1 then
      let port := SetContrastControl cfg (i % 256) port
      let port := port.DelayUs 200
      let port := port.DelayUs 200
      let port := port.DelayUs 200
      FadeIn.loop cfg fuel ((i + 1) % uintRange) port
    else port

/-- Function `SSD1306::FadeIn`.  The loop counts up to the constant 144, so 256 turns always
suffice. -/
def FadeIn (cfg : Config) (port : Port) : Port :=
  let port := ActivateDisplay cfg port
  FadeIn.loop cfg 256 0 port

/-- Loop `for(i = (ssd1306BRIGHTNESS + 1); i > 0; i--) { SetContrastControl(i-1); ... }` of
`FadeOut`, from the given `i` on; `i - 1` and `i--` are computed on `unsigned int`. -/
def FadeOut.loop (cfg : Config) : Nat → Nat → Port → Port
  | 0, _, port => port
  | fuel + 1, i, port =>
    if i > 0 then
      let port := SetContrastControl cfg ((i + uintRange - 1) % uintRange % 256) port
      let port := port.DelayUs 200
      let port := port.DelayUs 200
      let port := port.DelayUs 200
      FadeOut.loop cfg fuel ((i + uintRange - 1) % uintRange) port
    else port

/-- Function `SSD1306::FadeOut`.  The loop counts down from the constant 144, so 256 turns
always suffice. -/
def FadeOut (cfg : Config) (port : Port) : Port :=
  let port := FadeOut.loop cfg 256 (ssd1306BRIGHTNESS + 1) port
  DeactivateDisplay cfg port

/-! ## SSD1306: private helpers that no public operation calls -/

/-- Function `SSD1306::SetColumnAddress`. -/
def SetColumnAddress (cfg : Config) (a b : Nat) (port : Port) : Port :=
  let port := WriteCommand cfg 0x21 port
  let port := WriteCommand cfg a port
  WriteCommand cfg b port

/-- Function `SSD1306::SetPageAddress`. -/
def SetPageAddress (cfg : Config) (a b : Nat) (port : Port) : Port :=
  let port := WriteCommand cfg 0x22 port
  let port := WriteCommand cfg a port
  WriteCommand cfg b port

/-- Function `SSD1306::SetNOP`. -/
def SetNOP (cfg : Config) (port : Port) : Port :=
  WriteCommand cfg 0xE3 port

/-- Loop `for(j = 0; j < numCols; j++) { I2cMasterWriteByte(byteToFillRamWith); }` of
`FillBlock`. -/
def FillBlock.cols (byteToFillRamWith numCols : Nat) : Nat → Nat → Port → Port
  | 0, _, port => port
  | fuel + 1, j, port =>
    if j < numCols then
      let port := (port.I2cMasterWriteByte byteToFillRamWith).2
      FillBlock.cols byteToFillRamWith numCols fuel ((j + 1) % 256) port
    else port

/-- Loop `for(i = startPage; i < (endPage + 1); i++) { ... }` of `FillBlock`, from the given `i`
on.  The comparison is made on `int`, the increment on the byte `i`. -/
def FillBlock.pages (cfg : Config) (byteToFillRamWith endPage startCol numCols : Nat) :
    Nat → Nat → Port → Except Fault Port
  | 0, i, port => if i < endPage + 1 then Except.error Fault.outOfFuel else Except.ok port
  | fuel + 1, i, port =>
    if i < endPage + 1 then
      let port := SetStartPage cfg i port
      let port := SetStartColumn cfg startCol port
      let port := (port.I2cMasterSendStart SSD1306_I2C_ADD 0).2
      let port := (port.I2cMasterWriteByte ssd1306DATA_FOLLOWS_BYTE).2
      let port := FillBlock.cols byteToFillRamWith numCols 256 0 port
      let port := (port.I2cMasterSendStop).2
      FillBlock.pages cfg byteToFillRamWith endPage startCol numCols fuel ((i + 1) % 256) port
    else Except.ok port

/-- Function `SSD1306::FillBlock`, with the fuel of its page loop. -/
def FillBlock (cfg : Config) (fuel : Nat) (byteToFillRamWith startPage endPage startCol
    numCols : Nat) (port : Port) : Except Fault Port :=
  FillBlock.pages cfg byteToFillRamWith endPage startCol numCols fuel startPage port

/-- Function `SSD1306::Sleep`.  The `switch` has no default. -/
def Sleep (cfg : Config) (a : Nat) (port : Port) : Port :=
  match a with
  | 0 =>
    let port := DeactivateDisplay cfg port
    TurnEveryPixelOn cfg port
  | 1 =>
    let port := TurnEveryPixelOff cfg port
    ActivateDisplay cfg port
  | _ => port

/-- Loop `for(i = 0; i < 200; i++) { port.DelayUs(200); }` of `Test`. -/
def Test.wait : Nat → Nat → Port → Port
  | 0, _, port => port
  | fuel + 1, i, port =>
    if i < 200 then
      let port := port.DelayUs 200
      Test.wait fuel ((i + 1) % 256) port
    else port

/-- Loop `while(1) { ActivateDisplay(); DelayMs(2); DeactivateDisplay(); DelayMs(2); }` of
`Test`: it has no exit, so the fuel always runs out. -/
def Test.loop (cfg : Config) : Nat → Port → Except Fault Port
  | 0, _ => Except.error Fault.outOfFuel
  | fuel + 1, port =>
    let port := ActivateDisplay cfg port
    let port := port.DelayMs 2
    let port := DeactivateDisplay cfg port
    let port := port.DelayMs 2
    Test.loop cfg fuel port

/-- Function `SSD1306::Test`, with the fuel of its endless loop. -/
def Test (cfg : Config) (fuel : Nat) (port : Port) : Except Fault Port :=
  let port := Test.wait 256 0 port
  let port := TurnEveryPixelOn cfg port
  Test.loop cfg fuel port

/-- The port `Test` has reached when its endless loop has made the given number of turns. -/
def Test.turns (cfg : Config) : Nat → Port → Port
  | 0, port => TurnEveryPixelOn cfg (Test.wait 256 0 port)
  | n + 1, port =>
    let port := Test.turns cfg n port
    let port := ActivateDisplay cfg port
    let port := port.DelayMs 2
    let port := DeactivateDisplay cfg port
    port.DelayMs 2

/-! ## Expected traces -/

/-- One bus transaction: start in write direction at the controller address, the control byte,
the payload bytes in order, stop. -/
def frame (ch : i2cPort_t) (control : Nat) (payload : List Nat) : List Call :=
  [Call.MasterSendStart ch 0x3C 0, Call.MasterWriteByte ch control]
    ++ payload.map (Call.MasterWriteByte ch) ++ [Call.MasterSendStop ch]

/-- The three single-byte command transactions that address a page and a column. -/
def addressAt (ch : i2cPort_t) (page col : Nat) : List Call :=
  frame ch 0x00 [0xB0 ||| page] ++ frame ch 0x00 [0x00 ||| (col % 16)]
    ++ frame ch 0x00 [0x10 ||| (col / 16)]

/-- Trace of a page-by-page write: for each payload in turn, the addressing of the next page at
column `col` and one data transaction carrying that payload; pages go up by one from `page`. -/
def pagesTrace (ch : i2cPort_t) (col : Nat) : Nat → List (List Nat) → List Call
  | _, [] => []
  | page, payload :: rest =>
    addressAt ch page col ++ frame ch 0x40 payload ++ pagesTrace ch col (page + 1) rest

/-- Trace of a run of glyphs on one page: for each character code in turn, the addressing of the
current column and one data transaction carrying the five bytes of its row in the selected table
and the spacer `0x00`; the column advances by 6 on a byte. -/
def stringTrace (ch : i2cPort_t) (databaseNum page : Nat) : Nat → List Nat → List Call
  | _, [] => []
  | col, c :: rest =>
    addressAt ch page col
      ++ frame ch 0x40 ((ShowFont57.Src_Pointer databaseNum c).getD [] ++ [0x00])
      ++ stringTrace ch databaseNum page ((col + 6) % 256) rest

/-- Reading a trace back: the bytes written within each start ... stop bracket, control byte
first, one entry per transaction, in order.  The first argument holds the bytes of the bracket
that is open, if one is. -/
def parseFrames : Option (List Nat) → List Call → List (List Nat)
  | _, [] => []
  | _, Call.MasterSendStart _ _ _ :: rest => parseFrames (some []) rest
  | some bytes, Call.MasterWriteByte _ b :: rest => parseFrames (some (bytes ++ [b])) rest
  | some bytes, Call.MasterSendStop _ :: rest => bytes :: parseFrames none rest
  | cur, _ :: rest => parseFrames cur rest

/-- Payloads of the data transactions (control byte `0x40`) of a trace, in order. -/
def dataPayloads (trace : List Call) : List (List Nat) :=
  (parseFrames none trace).filterMap fun bytes =>
    match bytes with
    | 0x40 :: payload => some payload
    | _ => none

/-- Payloads of the command transactions (control byte `0x00`) of a trace, in order. -/
def commandPayloads (trace : List Call) : List (List Nat) :=
  (parseFrames none trace).filterMap fun bytes =>
    match bytes with
    | 0x00 :: payload => some payload
    | _ => none

/-- The calls that are bus primitives: start, write byte, stop. -/
def Call.isBus : Call → Bool
  | Call.MasterSendStart _ _ _ => true
  | Call.MasterWriteByte _ _ => true
  | Call.MasterSendStop _ => true
  | _ => false

/-- Contrast values of a trace: the operands of its contrast-set commands `[0x81, v]`, in
order. -/
def contrastValues (trace : List Call) : List Nat :=
  (commandPayloads trace).filterMap fun payload =>
    match payload with
    | [0x81, v] => some v
    | _ => none

/-- Trace of a reset pulse on the given channel: the reset line of that side is selected and
driven low, a delay of 200 microseconds, and it is selected and driven high. -/
def resetTrace (ch : i2cPort_t) : List Call :=
  [Call.CapSense_SetCapDevice ch, Call.CapSense_SetGpio false, Call.CyDelayUs 200,
    Call.CapSense_SetCapDevice ch, Call.CapSense_SetGpio true]

/-- Trace of a run of command transactions, one per payload, in order. -/
def commandFrames (ch : i2cPort_t) (payloads : List (List Nat)) : List Call :=
  payloads.flatMap (frame ch 0x00)

/-- The delay that follows every contrast step of a fade. -/
def fadeDelay : List Call :=
  [Call.CyDelayUs 200, Call.CyDelayUs 200, Call.CyDelayUs 200]

/-- Payloads of the command transactions of `OledInitVccExt` that come before the clearing of
the RAM, in order. -/
def initExtCommands : List (List Nat) :=
  [[0xAE], [0xD5, 0x80], [0xA8, 0x1F], [0xD3, 0x00], [0x40], [0x8D, 0x10], [0x20, 0x02], [0xA1],
    [0xC8], [0xDA, 0x02], [0x81, 0xFF], [0xD9, 0x22], [0xDB, 0x40], [0xA4], [0xA6]]

/-- Payloads of the command transactions of `OledInitVccInt` that come before the clearing of
the RAM, in order. -/
def initIntCommands : List (List Nat) :=
  [[0x8D, 0x14], [0xAF], [0xD5, 0x80], [0xA8, 0x1F], [0xD3, 0x00], [0x40], [0x20, 0x02], [0xA1],
    [0xC8], [0xDA, 0x02], [0x81, 0xFF], [0xD9, 0xF1]]

/-- Trace of `FillRam(v)`: pages 0 to 3, each addressed at column 0 and followed by one data
transaction of 128 bytes `v`. -/
def fillTrace (ch : i2cPort_t) (v : Nat) : List Call :=
  pagesTrace ch 0 0 (List.replicate 4 (List.replicate 128 v))

/-- Payloads of the addressing commands of `FillRam`, in order. -/
def fillCommands : List (List Nat) :=
  [[0xB0], [0x00], [0x10], [0xB1], [0x00], [0x10], [0xB2], [0x00], [0x10], [0xB3], [0x00],
    [0x10]]

/-- Calls of `EnableVddb` followed by those of `EnableI2c`: both supply switches are closed,
both bus components are started and their interrupts enabled. -/
def powerUpTrace : List Call :=
  [Call.VddbEnN_Write i2cPort_t.i2cRight 0, Call.VddbEnN_Write i2cPort_t.i2cLeft 0,
    Call.Start i2cPort_t.i2cLeft, Call.Start i2cPort_t.i2cRight,
    Call.EnableInt i2cPort_t.i2cLeft, Call.EnableInt i2cPort_t.i2cRight]

/-- Where a trace stands with respect to bus transactions. -/
inductive Bus where
  /-- No transaction is open. -/
  | idle
  /-- A start was sent on the channel; the control byte is due. -/
  | started (ch : i2cPort_t)
  /-- The control byte was sent on the channel; payload bytes or the stop may follow. -/
  | payload (ch : i2cPort_t)
  deriving DecidableEq

/-- One call of a trace, checked against the framing rule: a start only when no transaction is
open; right after it a write of the control byte `0x00` or `0x40` on the same channel; then
writes on that channel, and one stop on it, which closes the transaction; any other call only
while no transaction is open. -/
def Bus.step : Bus → Call → Option Bus
  | Bus.idle, Call.MasterSendStart ch _ _ => some (Bus.started ch)
  | Bus.idle, Call.MasterWriteByte _ _ => none
  | Bus.idle, Call.MasterSendStop _ => none
  | Bus.idle, _ => some Bus.idle
  | Bus.started ch, Call.MasterWriteByte ch1 b =>
    if ch1 = ch ∧ (b = 0x00 ∨ b = 0x40) then some (Bus.payload ch) else none
  | Bus.started _, _ => none
  | Bus.payload ch, Call.MasterWriteByte ch1 _ => if ch1 = ch then some (Bus.payload ch) else none
  | Bus.payload ch, Call.MasterSendStop ch1 => if ch1 = ch then some Bus.idle else none
  | Bus.payload _, _ => none

/-- The framing rule run over a trace. -/
def Bus.scan : Bus → List Call → Option Bus
  | s, [] => some s
  | s, c :: rest =>
    match s.step c with
    | none => none
    | some t => t.scan rest

/-- A trace is a sequence of whole, non-overlapping transactions, with every other call
between them. -/
def WellFramed (trace : List Call) : Prop :=
  Bus.idle.scan trace = some Bus.idle

/-- The second port is the first one after a well-framed run of calls. -/
def Port.Framed (port port1 : Port) : Prop :=
  ∃ evs, port1.calls = port.calls ++ evs ∧ WellFramed evs

/-- The port with other answers pending from the bus. -/
def Port.withRet (ret : Nat → Nat) (port : Port) : Port :=
  { port with ret := ret }

/-- Two outcomes that differ at most in what was printed and in the answers still pending from
the bus. -/
def SameOutcome : Except Fault Port → Except Fault Port → Prop
  | Except.ok p, Except.ok q => p.calls = q.calls ∧ p.i2cPort = q.i2cPort
  | Except.error e, Except.error f => e = f
  | _, _ => False

/-- The calls an operation makes, and the channel it leaves selected, are the same whatever the
bus answers. -/
def Unaffected (F : Port → Port) : Prop :=
  ∀ (port : Port) (r1 r2 : Nat → Nat),
    (F (port.withRet r1)).calls = (F (port.withRet r2)).calls
      ∧ (F (port.withRet r1)).i2cPort = (F (port.withRet r2)).i2cPort

/-- The same for an operation that can fail to return: whether it returns, and with which
calls made, is the same whatever the bus answers. -/
def UnaffectedE (F : Port → Except Fault Port) : Prop :=
  ∀ (port : Port) (r1 r2 : Nat → Nat) (out1 out2 : Except Fault Port),
    F (port.withRet r1) = out1 → F (port.withRet r2) = out2 → SameOutcome out1 out2

/-- Trace of `Checkerboard`: pages 0 to 7, each addressed at column 0 and followed by one data
transaction of 64 times the bytes `0x55, 0xAA`. -/
def checkerTrace (ch : i2cPort_t) : List Call :=
  pagesTrace ch 0 0 (List.replicate 8 (List.replicate 64 [0x55, 0xAA]).flatten)

/-- Trace of `SetStartColumn(col)` followed by `WriteData(0xFF)`. -/
def sideTrace (ch : i2cPort_t) (col : Nat) : List Call :=
  frame ch 0x00 [0x00 ||| (col % 16)] ++ frame ch 0x00 [0x10 ||| (col / 16)]
    ++ frame ch 0x40 [0xFF]

/-- Trace of `DrawFrame`: the top border on page 0, the bottom border on page 3, then for each
of the pages 0 to 3 the page-set command and one byte `0xFF` at column 0 and at column 127. -/
def drawFrameTrace (ch : i2cPort_t) : List Call :=
  addressAt ch 0 0 ++ frame ch 0x40 (List.replicate 128 0x01)
    ++ (addressAt ch 3 0 ++ frame ch 0x40 (List.replicate 128 0x80))
    ++ (List.range 4).flatMap (fun page =>
      frame ch 0x00 [0xB0 ||| page] ++ sideTrace ch 0 ++ sideTrace ch 127)

/-- The second port is the first one after exactly the calls `evs`, with the same channel
selected and the same answers pending from the bus. -/
def Port.Extends (port port1 : Port) (evs : List Call) : Prop :=
  port1.calls = port.calls ++ evs ∧ port1.i2cPort = port.i2cPort ∧ port1.ret = port.ret

/-- The operation `F` keeps the selected channel and the pending bus answers, and the calls it
makes are `T` of the selected channel, whatever else the state holds. -/
def Traces (F : Port → Port) (T : i2cPort_t → List Call) : Prop :=
  ∀ port : Port, port.Extends (F port) (T port.i2cPort)

/-- The outcome of `F` is fixed by the selected channel alone: where the script `T` gives a
trace, the trace is well framed and `F` returns after making exactly these calls, with the
channel and the pending bus answers unchanged; where it gives a fault, `F` fails with it. -/
def Scripted (F : Port → Except Fault Port) (T : i2cPort_t → Except Fault (List Call)) : Prop :=
  ∀ port : Port,
    (∀ evs, T port.i2cPort = Except.ok evs →
        WellFramed evs ∧ ∃ port1, F port = Except.ok port1 ∧ port.Extends port1 evs)
      ∧ (∀ e, T port.i2cPort = Except.error e → F port = Except.error e)

/-- Two scripts run one after the other. -/
def seqScript : Except Fault (List Call) → Except Fault (List Call) → Except Fault (List Call)
  | Except.ok e1, Except.ok e2 => Except.ok (e1 ++ e2)
  | Except.ok _, Except.error e => Except.error e
  | Except.error e, _ => Except.error e

/-- The scroll-control opcode a trace was left on: the byte of its last command transaction
`[0x2E]` (deactivate scroll) or `[0x2F]` (activate scroll), if there is one. -/
def lastScrollControl (trace : List Call) : Option Nat :=
  ((commandPayloads trace).filterMap fun payload =>
    match payload with
    | [0x2E] => some 0x2E
    | [0x2F] => some 0x2F
    | _ => none).getLast?

/-- The addressing mode with the given encoding, if it is one of the three. -/
def addressingMode_t.ofUint8 : Nat → Option addressingMode_t
  | 0x00 => some addressingMode_t.HORIZONTAL_ADDRESSING_MODE
  | 0x01 => some addressingMode_t.VERTICAL_ADDRESSING_MODE
  | 0x02 => some addressingMode_t.PAGE_ADDRESSING_MODE
  | _ => none

/-- The addressing mode read back from a trace: the operand of its last addressing-mode command
`[0x20, v]`, decoded. -/
def lastAddressingMode (trace : List Call) : Option addressingMode_t :=
  (((commandPayloads trace).filterMap fun payload =>
    match payload with
    | [0x20, v] => some v
    | _ => none).getLast?).bind addressingMode_t.ofUint8

/-- The build-time check
`#if((SSD1306_I2C_SA0_0 ^ SSD1306_I2C_SA0_1) != 1) #error ... #endif` of `SSD1306.c`: whether
a pair of strap settings passes it. -/
def strapAccepted (sa0_0 sa0_1 : Nat) : Bool :=
  !((sa0_0 ^^^ sa0_1) != 1)

/-- The bus address a build with the given strap settings gets: none where the build-time check
stops the build, else the address the `#if(SSD1306_I2C_SA0_0 == 1)` selects. -/
def strapAddress (sa0_0 sa0_1 : Nat) : Option Nat :=
  if strapAccepted sa0_0 sa0_1 then some (selectI2cAdd sa0_0) else none

/-- A call other than a start condition, or a start condition sent to the given address with
the given direction bit. -/
def Call.startsAt (address readWrite : Nat) : Call → Bool
  | Call.MasterSendStart _ a rw => a == address && rw == readWrite
  | _ => true

/-- Every start condition of the trace is sent to the given address with the given direction
bit. -/
def StartsAt (address readWrite : Nat) (trace : List Call) : Prop :=
  ∀ c ∈ trace, c.startsAt address readWrite = true

/-- The public operations of class `SSD1306`, as declared in `SSD1306.hpp`, with their
arguments. -/
inductive Operation where
  | OledInitVccInt
  | OledInitVccExt
  | EnableI2c
  | SetI2cPort (i2cPort : i2cPort_t)
  | EnableVddb
  | DisableVddb
  | Reset
  | SetChargePumpOn
  | SetChargePumpOff
  | ActivateDisplay
  | DeactivateDisplay
  | TurnEveryPixelOn
  | TurnEveryPixelOff
  | SetDisplayClock (regVal : Nat)
  | SetMultiplexRatio (regVal : Nat)
  | SetDisplayOffset (regVal : Nat)
  | SetStartLine (regVal : Nat)
  | SetAddressingMode (addressingMode : addressingMode_t)
  | SetSegmentRemap (regVal : Nat)
  | SetCommonRemap (regVal : Nat)
  | SetComPinConfig (regVal : Nat)
  | SetContrastControl (regVal : Nat)
  | SetPrechargePeriod (regVal : Nat)
  | SetVCOMH (regVal : Nat)
  | SetInverseDisplay (isInverse : Bool)
  | FadeIn
  | FadeOut
  | ShowPattern (pixelArray : Nat → Nat) (startPage endPage startCol totalCol : Nat)
  | FillRam (byteToFillRamWith : Nat)
  | Checkerboard
  | DrawFrame
  | ContinuousScroll (a b c d e f g h : Nat)
  | HorizontalScroll (scrollDir startPage endPage timeInterval delayTime : Nat)
  | VerticalScroll (a b c d e : Nat)
  | DeactivateScroll
  | ShowFont57 (fontArraySel asciiChar startPage startCol : Nat)
  | ShowString (databaseNum : Nat) (msg : Nat → Nat) (startPage startCol : Nat)

/-- One call of a public operation on the driver; the fuel is that of the loops of
`ShowPattern`, `VerticalScroll` and `ShowString`. -/
def Operation.run (cfg : Config) (fuel : Nat) : Operation → Port → Except Fault Port
  | Operation.OledInitVccInt, port => Except.ok (SSD1306Ns.OledInitVccInt cfg port)
  | Operation.OledInitVccExt, port => Except.ok (SSD1306Ns.OledInitVccExt cfg port)
  | Operation.EnableI2c, port => Except.ok (SSD1306Ns.EnableI2c port)
  | Operation.SetI2cPort i2cPort, port => Except.ok (SSD1306Ns.SetI2cPort cfg i2cPort port)
  | Operation.EnableVddb, port => Except.ok (SSD1306Ns.EnableVddb port)
  | Operation.DisableVddb, port => Except.ok (SSD1306Ns.DisableVddb port)
  | Operation.Reset, port => Except.ok (SSD1306Ns.Reset cfg port)
  | Operation.SetChargePumpOn, port => Except.ok (SSD1306Ns.SetChargePumpOn cfg port)
  | Operation.SetChargePumpOff, port => Except.ok (SSD1306Ns.SetChargePumpOff cfg port)
  | Operation.ActivateDisplay, port => Except.ok (SSD1306Ns.ActivateDisplay cfg port)
  | Operation.DeactivateDisplay, port => Except.ok (SSD1306Ns.DeactivateDisplay cfg port)
  | Operation.TurnEveryPixelOn, port => Except.ok (SSD1306Ns.TurnEveryPixelOn cfg port)
  | Operation.TurnEveryPixelOff, port => Except.ok (SSD1306Ns.TurnEveryPixelOff cfg port)
  | Operation.SetDisplayClock regVal, port => Except.ok (SSD1306Ns.SetDisplayClock cfg regVal port)
  | Operation.SetMultiplexRatio regVal, port => Except.ok (SSD1306Ns.SetMultiplexRatio cfg regVal port)
  | Operation.SetDisplayOffset regVal, port => Except.ok (SSD1306Ns.SetDisplayOffset cfg regVal port)
  | Operation.SetStartLine regVal, port => Except.ok (SSD1306Ns.SetStartLine cfg regVal port)
  | Operation.SetAddressingMode addressingMode, port =>
    Except.ok (SSD1306Ns.SetAddressingMode cfg addressingMode port)
  | Operation.SetSegmentRemap regVal, port => Except.ok (SSD1306Ns.SetSegmentRemap cfg regVal port)
  | Operation.SetCommonRemap regVal, port => Except.ok (SSD1306Ns.SetCommonRemap cfg regVal port)
  | Operation.SetComPinConfig regVal, port => Except.ok (SSD1306Ns.SetComPinConfig cfg regVal port)
  | Operation.SetContrastControl regVal, port => Except.ok (SSD1306Ns.SetContrastControl cfg regVal port)
  | Operation.SetPrechargePeriod regVal, port => Except.ok (SSD1306Ns.SetPrechargePeriod cfg regVal port)
  | Operation.SetVCOMH regVal, port => Except.ok (SSD1306Ns.SetVCOMH cfg regVal port)
  | Operation.SetInverseDisplay isInverse, port => Except.ok (SSD1306Ns.SetInverseDisplay cfg isInverse port)
  | Operation.FadeIn, port => Except.ok (SSD1306Ns.FadeIn cfg port)
  | Operation.FadeOut, port => Except.ok (SSD1306Ns.FadeOut cfg port)
  | Operation.ShowPattern pixelArray startPage endPage startCol totalCol, port =>
    SSD1306Ns.ShowPattern cfg fuel pixelArray startPage endPage startCol totalCol port
  | Operation.FillRam byteToFillRamWith, port => Except.ok (SSD1306Ns.FillRam cfg byteToFillRamWith port)
  | Operation.Checkerboard, port => Except.ok (SSD1306Ns.Checkerboard cfg port)
  | Operation.DrawFrame, port => Except.ok (SSD1306Ns.DrawFrame cfg port)
  | Operation.ContinuousScroll a b c d e f g h, port =>
    Except.ok (SSD1306Ns.ContinuousScroll cfg a b c d e f g h port)
  | Operation.HorizontalScroll scrollDir startPage endPage timeInterval delayTime, port =>
    Except.ok (SSD1306Ns.HorizontalScroll cfg scrollDir startPage endPage timeInterval delayTime port)
  | Operation.VerticalScroll a b c d e, port =>
    SSD1306Ns.VerticalScroll cfg fuel a b c d e port
  | Operation.DeactivateScroll, port => Except.ok (SSD1306Ns.DeactivateScroll cfg port)
  | Operation.ShowFont57 fontArraySel asciiChar startPage startCol, port =>
    SSD1306Ns.ShowFont57 cfg fontArraySel asciiChar startPage startCol port
  | Operation.ShowString databaseNum msg startPage startCol, port =>
    SSD1306Ns.ShowString cfg fuel databaseNum msg startPage startCol port

/-- What a property of traces, relative to the selected channel, has to satisfy to hold of
everything the driver emits: it holds of the empty trace, of two traces in a row, of every
transaction on the selected channel (`frame`: start at the controller address in write
direction, control byte `0x00` or `0x40`, payload, stop), and of every single call that is not
a bus primitive. -/
structure TraceLaws (P : i2cPort_t → List Call → Prop) : Prop where
  /-- The empty trace. -/
  empty : ∀ ch, P ch []
  /-- Two traces in a row. -/
  join : ∀ ch a b, P ch a → P ch b → P ch (a ++ b)
  /-- One transaction on the selected channel. -/
  transaction : ∀ ch control payload, control = 0x00 ∨ control = 0x40 →
    P ch (frame ch control payload)
  /-- One call that is not a bus primitive. -/
  aside : ∀ ch c, Call.isBus c = false → P ch [c]

/-- As `Scripted`, with the property `P` of the trace in the place of well-framedness. -/
def ScriptedBy (P : i2cPort_t → List Call → Prop) (F : Port → Except Fault Port)
    (T : i2cPort_t → Except Fault (List Call)) : Prop :=
  ∀ port : Port,
    (∀ evs, T port.i2cPort = Except.ok evs →
        P port.i2cPort evs ∧ ∃ port1, F port = Except.ok port1 ∧ port.Extends port1 evs)
      ∧ (∀ e, T port.i2cPort = Except.error e → F port = Except.error e)

/-- What `SetI2cPort(i2cPort)` prints under the given configuration, in order. -/
def SetI2cPort.messages (cfg : Config) (i2cPort : i2cPort_t) : List String :=
  (if cfg.configDEBUG_SSD1306_VERBOSE = 1 then ["SSD1306: Changing I2C port...\r\n"] else [])
    ++ (if cfg.configDEBUG_SSD1306 = 1 then
      [match i2cPort with
        | i2cPort_t.i2cLeft => "SSD1306: I2C port changed to left.\r\n"
        | i2cPort_t.i2cRight => "SSD1306: I2C port changed to right.\r\n"]
      else [])

/-- A call that is not a bus primitive, or a bus primitive (start, write byte, stop) issued on
the given channel. -/
def Call.busOn (ch : i2cPort_t) : Call → Bool
  | Call.MasterSendStart ch1 _ _ => decide (ch1 = ch)
  | Call.MasterWriteByte ch1 _ => decide (ch1 = ch)
  | Call.MasterSendStop ch1 => decide (ch1 = ch)
  | _ => true

/-- Every bus primitive of the trace is issued on the given channel. -/
def OnChannel (ch : i2cPort_t) (trace : List Call) : Prop :=
  ∀ c ∈ trace, c.busOn ch = true

/-- A call that is neither a bus primitive nor the selection of a reset line, or one of these
for the given channel. -/
def Call.sideOn (ch : i2cPort_t) : Call → Bool
  | Call.CapSense_SetCapDevice ch1 => decide (ch1 = ch)
  | c => c.busOn ch

/-- Operands of the addressing-mode commands `[0x20, v]` of a trace, in order. -/
def addressingOperands (trace : List Call) : List Nat :=
  (commandPayloads trace).filterMap fun payload =>
    match payload with
    | [0x20, v] => some v
    | _ => none

/-! ## Basic facts about the platform layer -/

theorem Port.Extends.refl (port : Port) : port.Extends port [] := by
  simp [Port.Extends]

theorem Port.Extends.trans {a b c : Port} {e1 e2 : List Call} (h1 : a.Extends b e1)
    (h2 : b.Extends c e2) : a.Extends c (e1 ++ e2) := by
  obtain ⟨h1c, h1p, h1r⟩ := h1
  obtain ⟨h2c, h2p, h2r⟩ := h2
  refine ⟨?_, ?_, ?_⟩
  · rw [h2c, h1c, List.append_assoc]
  · rw [h2p, h1p]
  · rw [h2r, h1r]

theorem Port.Extends.of_eq {a b : Port} {e1 e2 : List Call} (h : a.Extends b e1)
    (he : e1 = e2) : a.Extends b e2 := by
  subst he
  exact h

theorem Port.extends_call (c : Call) (port : Port) : port.Extends (port.call c) [c] := by
  simp [Port.Extends, Port.call]

theorem extends_printIf (switch : Nat) (msg : String) (port : Port) :
    port.Extends (printIf switch msg port) [] := by
  unfold printIf
  split <;> simp [Port.Extends, Port.PrintDebug]

theorem extends_reportError (cfg : Config) (error : Nat) (msg : String) (port : Port) :
    port.Extends (reportError cfg error msg port) [] := by
  unfold reportError
  split
  · exact extends_printIf _ _ _
  · exact Port.Extends.refl _

theorem Port.I2cMasterSendStart_snd (slaveAddress readWrite : Nat) (port : Port) :
    (port.I2cMasterSendStart slaveAddress readWrite).2
      = port.call (Call.MasterSendStart port.i2cPort slaveAddress readWrite) := by
  unfold Port.I2cMasterSendStart
  split <;> simp_all

theorem Port.I2cMasterWriteByte_snd (byteToWrite : Nat) (port : Port) :
    (port.I2cMasterWriteByte byteToWrite).2
      = port.call (Call.MasterWriteByte port.i2cPort byteToWrite) := by
  unfold Port.I2cMasterWriteByte
  split <;> simp_all

theorem Port.I2cMasterSendStop_snd (port : Port) :
    (port.I2cMasterSendStop).2 = port.call (Call.MasterSendStop port.i2cPort) := by
  unfold Port.I2cMasterSendStop
  split <;> simp_all

theorem Port.extends_sendStart (slaveAddress readWrite : Nat) (port : Port) :
    port.Extends (port.I2cMasterSendStart slaveAddress readWrite).2
      [Call.MasterSendStart port.i2cPort slaveAddress readWrite] := by
  rw [Port.I2cMasterSendStart_snd]
  exact Port.extends_call _ _

theorem Port.extends_writeByte (byteToWrite : Nat) (port : Port) :
    port.Extends (port.I2cMasterWriteByte byteToWrite).2
      [Call.MasterWriteByte port.i2cPort byteToWrite] := by
  rw [Port.I2cMasterWriteByte_snd]
  exact Port.extends_call _ _

theorem Port.extends_sendStop (port : Port) :
    port.Extends (port.I2cMasterSendStop).2 [Call.MasterSendStop port.i2cPort] := by
  rw [Port.I2cMasterSendStop_snd]
  exact Port.extends_call _ _

/-- A bus call followed by the report of its status. -/
theorem extends_reported {port port1 : Port} {evs : List Call} (cfg : Config) (error : Nat)
    (msg : String) (h : port.Extends port1 evs) :
    port.Extends (reportError cfg error msg port1) evs := by
  have h2 := Port.Extends.trans h (extends_reportError cfg error msg port1)
  simpa using h2

theorem address_eq : SSD1306_I2C_ADD = 0x3C := by
  decide

/-! ## Command and data transactions -/

theorem WriteCommand_extends (cfg : Config) (cmd : Nat) (port : Port) :
    port.Extends (WriteCommand cfg cmd port) (frame port.i2cPort 0x00 [cmd]) := by
  unfold WriteCommand
  dsimp only
  have h1 := extends_reported cfg (port.I2cMasterSendStart SSD1306_I2C_ADD 0).1
    "SSD1306: Error. Sending start condition over I2C failed.\r\n"
    (Port.extends_sendStart SSD1306_I2C_ADD 0 port)
  generalize reportError cfg (port.I2cMasterSendStart SSD1306_I2C_ADD 0).1
    "SSD1306: Error. Sending start condition over I2C failed.\r\n"
    (port.I2cMasterSendStart SSD1306_I2C_ADD 0).2 = p1 at h1 ⊢
  have h2 := extends_reported cfg (p1.I2cMasterWriteByte ssd1306CMD_FOLLOWS_BYTE).1
    "SSD1306: Error. Sending byte over I2C failed.\r\n"
    (Port.extends_writeByte ssd1306CMD_FOLLOWS_BYTE p1)
  generalize reportError cfg (p1.I2cMasterWriteByte ssd1306CMD_FOLLOWS_BYTE).1
    "SSD1306: Error. Sending byte over I2C failed.\r\n"
    (p1.I2cMasterWriteByte ssd1306CMD_FOLLOWS_BYTE).2 = p2 at h2 ⊢
  have h3 := extends_reported cfg (p2.I2cMasterWriteByte cmd).1
    "SSD1306: Error. Sending byte over I2C failed.\r\n" (Port.extends_writeByte cmd p2)
  generalize reportError cfg (p2.I2cMasterWriteByte cmd).1
    "SSD1306: Error. Sending byte over I2C failed.\r\n" (p2.I2cMasterWriteByte cmd).2 = p3
    at h3 ⊢
  have h4 := extends_reported cfg (p3.I2cMasterSendStop).1
    "SSD1306: Error. Sending stop condition over I2C failed.\r\n" (Port.extends_sendStop p3)
  have e1 : p1.i2cPort = port.i2cPort := h1.2.1
  have e2 : p2.i2cPort = port.i2cPort := h2.2.1.trans e1
  have e3 : p3.i2cPort = port.i2cPort := h3.2.1.trans e2
  rw [e3] at h4
  rw [e2] at h3
  rw [e1] at h2
  refine (((h1.trans h2).trans h3).trans h4).of_eq ?_
  simp [frame, address_eq, ssd1306CMD_FOLLOWS_BYTE]

theorem WriteCommandArray_loop_extends (cfg : Config) (commandArray : Nat → Nat)
    (numCommands : Nat) (hn : numCommands ≤ 255) :
    ∀ (fuel commandIndex : Nat) (port : Port), commandIndex ≤ numCommands →
      numCommands - commandIndex ≤ fuel →
      port.Extends (WriteCommandArray.loop cfg commandArray numCommands fuel commandIndex port)
        ((List.range' commandIndex (numCommands - commandIndex)).map
          (fun k => Call.MasterWriteByte port.i2cPort (commandArray k))) := by
  intro fuel
  induction fuel with
  | zero =>
    intro commandIndex port h1 h2
    have h3 : numCommands - commandIndex = 0 := by omega
    rw [h3]
    simpa [WriteCommandArray.loop] using Port.Extends.refl port
  | succ fuel ih =>
    intro commandIndex port h1 h2
    unfold WriteCommandArray.loop
    by_cases hlt : commandIndex < numCommands
    · rw [if_pos hlt]
      dsimp only
      have hstep := extends_reported cfg (port.I2cMasterWriteByte (commandArray commandIndex)).1
        "SSD1306: Error. Sending byte over I2C failed.\r\n"
        (Port.extends_writeByte (commandArray commandIndex) port)
      generalize reportError cfg (port.I2cMasterWriteByte (commandArray commandIndex)).1
        "SSD1306: Error. Sending byte over I2C failed.\r\n"
        (port.I2cMasterWriteByte (commandArray commandIndex)).2 = p1 at hstep ⊢
      have hmod : (commandIndex + 1) % 256 = commandIndex + 1 := Nat.mod_eq_of_lt (by omega)
      rw [hmod]
      have hrest := ih (commandIndex + 1) p1 (by omega) (by omega)
      rw [hstep.2.1] at hrest
      refine (hstep.trans hrest).of_eq ?_
      have hlen : numCommands - commandIndex = (numCommands - (commandIndex + 1)) + 1 := by omega
      rw [hlen, List.range'_succ]
      simp
    · rw [if_neg hlt]
      have h3 : numCommands - commandIndex = 0 := by omega
      rw [h3]
      simpa using Port.Extends.refl port

theorem WriteCommandArray_extends (cfg : Config) (commandArray : Nat → Nat) (numCommands : Nat)
    (hn : numCommands ≤ 255) (port : Port) :
    port.Extends (WriteCommandArray cfg commandArray numCommands port)
      (frame port.i2cPort 0x00 ((List.range numCommands).map commandArray)) := by
  unfold WriteCommandArray
  dsimp only
  have h1 := extends_reported cfg (port.I2cMasterSendStart SSD1306_I2C_ADD 0).1
    "SSD1306: Error. Sending start condition over I2C failed.\r\n"
    (Port.extends_sendStart SSD1306_I2C_ADD 0 port)
  generalize reportError cfg (port.I2cMasterSendStart SSD1306_I2C_ADD 0).1
    "SSD1306: Error. Sending start condition over I2C failed.\r\n"
    (port.I2cMasterSendStart SSD1306_I2C_ADD 0).2 = p1 at h1 ⊢
  have h2 := extends_reported cfg (p1.I2cMasterWriteByte ssd1306CMD_FOLLOWS_BYTE).1
    "SSD1306: Error. Sending byte over I2C failed.\r\n"
    (Port.extends_writeByte ssd1306CMD_FOLLOWS_BYTE p1)
  generalize reportError cfg (p1.I2cMasterWriteByte ssd1306CMD_FOLLOWS_BYTE).1
    "SSD1306: Error. Sending byte over I2C failed.\r\n"
    (p1.I2cMasterWriteByte ssd1306CMD_FOLLOWS_BYTE).2 = p2 at h2 ⊢
  have h3 := WriteCommandArray_loop_extends cfg commandArray numCommands hn 256 0 p2
    (Nat.zero_le _) (by omega)
  generalize WriteCommandArray.loop cfg commandArray numCommands 256 0 p2 = p3 at h3 ⊢
  have h4 := extends_reported cfg (p3.I2cMasterSendStop).1
    "SSD1306: Error. Sending stop condition over I2C failed.\r\n" (Port.extends_sendStop p3)
  have e1 : p1.i2cPort = port.i2cPort := h1.2.1
  have e2 : p2.i2cPort = port.i2cPort := h2.2.1.trans e1
  have e3 : p3.i2cPort = port.i2cPort := h3.2.1.trans e2
  rw [e3] at h4
  rw [e2] at h3
  rw [e1] at h2
  refine (((h1.trans h2).trans h3).trans h4).of_eq ?_
  simp [frame, address_eq, ssd1306CMD_FOLLOWS_BYTE, List.range_eq_range']

theorem WriteData_extends (cmd : Nat) (port : Port) :
    port.Extends (WriteData cmd port) (frame port.i2cPort 0x40 [cmd]) := by
  unfold WriteData
  dsimp only
  have h1 := Port.extends_sendStart SSD1306_I2C_ADD 0 port
  generalize (port.I2cMasterSendStart SSD1306_I2C_ADD 0).2 = p1 at h1 ⊢
  have h2 := Port.extends_writeByte ssd1306DATA_FOLLOWS_BYTE p1
  generalize (p1.I2cMasterWriteByte ssd1306DATA_FOLLOWS_BYTE).2 = p2 at h2 ⊢
  have h3 := Port.extends_writeByte cmd p2
  generalize (p2.I2cMasterWriteByte cmd).2 = p3 at h3 ⊢
  have h4 := Port.extends_sendStop p3
  have e1 : p1.i2cPort = port.i2cPort := h1.2.1
  have e2 : p2.i2cPort = port.i2cPort := h2.2.1.trans e1
  have e3 : p3.i2cPort = port.i2cPort := h3.2.1.trans e2
  rw [e3] at h4
  rw [e2] at h3
  rw [e1] at h2
  refine (((h1.trans h2).trans h3).trans h4).of_eq ?_
  simp [frame, address_eq, ssd1306DATA_FOLLOWS_BYTE]

theorem localArray_range (payload : List Nat) :
    (List.range payload.length).map (localArray payload) = payload := by
  apply List.ext_getElem
  · simp
  · intro k h1 h2
    simp [localArray, List.getD_eq_getElem?_getD, List.getElem?_eq_getElem h2]

/-! ## Claims on framing -/

/-- C1: for every payload of `n` bytes (`n ≤ 255`), `WriteCommandArray(payload, n)` makes exactly
one start at address `0x3C` in write direction, the write of `0x00`, the writes of the payload
bytes in order, and one stop; and `WriteData(b)` makes exactly start, write of `0x40`, write of
`b`, stop. -/
theorem WriteCommandArray_WriteData_trace (cfg : Config) (payload : List Nat) (n b : Nat)
    (port : Port) (hlen : payload.length = n) (hn : n ≤ 255) :
    (WriteCommandArray cfg (localArray payload) n port).calls
        = port.calls
          ++ ([Call.MasterSendStart port.i2cPort 0x3C 0, Call.MasterWriteByte port.i2cPort 0x00]
            ++ payload.map (Call.MasterWriteByte port.i2cPort)
            ++ [Call.MasterSendStop port.i2cPort])
      ∧ (WriteData b port).calls
        = port.calls
          ++ [Call.MasterSendStart port.i2cPort 0x3C 0, Call.MasterWriteByte port.i2cPort 0x40,
              Call.MasterWriteByte port.i2cPort b, Call.MasterSendStop port.i2cPort] := by
  subst hlen
  constructor
  · have h := (WriteCommandArray_extends cfg (localArray payload) payload.length hn port).1
    rw [localArray_range] at h
    simpa [frame] using h
  · have h := (WriteData_extends b port).1
    simpa [frame] using h

/-- Witness of C1: the two-byte command `[0xA8, 0x1F]` and the data byte `0xFF` on a new
driver. -/
theorem WriteCommandArray_WriteData_trace_witness :
    ([0xA8, 0x1F] : List Nat).length = 2 ∧ 2 ≤ 255
      ∧ (WriteCommandArray Config.quiet (localArray [0xA8, 0x1F]) 2 (Port.ctor fun _ => 0)).calls
        = [Call.MasterSendStart i2cPort_t.i2cLeft 0x3C 0,
            Call.MasterWriteByte i2cPort_t.i2cLeft 0x00,
            Call.MasterWriteByte i2cPort_t.i2cLeft 0xA8,
            Call.MasterWriteByte i2cPort_t.i2cLeft 0x1F,
            Call.MasterSendStop i2cPort_t.i2cLeft]
      ∧ (WriteData 0xFF (Port.ctor fun _ => 0)).calls
        = [Call.MasterSendStart i2cPort_t.i2cLeft 0x3C 0,
            Call.MasterWriteByte i2cPort_t.i2cLeft 0x40,
            Call.MasterWriteByte i2cPort_t.i2cLeft 0xFF,
            Call.MasterSendStop i2cPort_t.i2cLeft] :=
  ⟨rfl, by decide,
    (WriteCommandArray_WriteData_trace Config.quiet [0xA8, 0x1F] 2 0xFF (Port.ctor fun _ => 0)
      rfl (by decide)).1,
    (WriteCommandArray_WriteData_trace Config.quiet [0xA8, 0x1F] 2 0xFF (Port.ctor fun _ => 0)
      rfl (by decide)).2⟩

/-! ## Addressing commands -/

set_option maxRecDepth 100000 in
theorem startPage_byte (d : Nat) (hd : d < 256) : (0xB0 ||| d) % 256 = 0xB0 ||| d := by
  revert d
  decide

set_option maxRecDepth 100000 in
theorem startColumn_low (d : Nat) (hd : d < 256) : (0x00 + d % 16) % 256 = 0x00 ||| (d % 16) := by
  revert d
  decide

set_option maxRecDepth 100000 in
theorem startColumn_high (d : Nat) (hd : d < 256) : (0x10 + d / 16) % 256 = 0x10 ||| (d / 16) := by
  revert d
  decide

theorem SetStartPage_extends (cfg : Config) (d : Nat) (hd : d < 256) (port : Port) :
    port.Extends (SetStartPage cfg d port) (frame port.i2cPort 0x00 [0xB0 ||| d]) := by
  unfold SetStartPage
  rw [startPage_byte d hd]
  exact WriteCommand_extends cfg _ port

theorem SetStartColumn_extends (cfg : Config) (d : Nat) (hd : d < 256) (port : Port) :
    port.Extends (SetStartColumn cfg d port)
      (frame port.i2cPort 0x00 [0x00 ||| (d % 16)]
        ++ frame port.i2cPort 0x00 [0x10 ||| (d / 16)]) := by
  unfold SetStartColumn
  dsimp only
  rw [startColumn_low d hd, startColumn_high d hd]
  have h1 := WriteCommand_extends cfg (0x00 ||| (d % 16)) port
  generalize WriteCommand cfg (0x00 ||| (d % 16)) port = p1 at h1 ⊢
  have h2 := WriteCommand_extends cfg (0x10 ||| (d / 16)) p1
  rw [h1.2.1] at h2
  exact h1.trans h2

/-- Addressing a page and a column, as every rendering loop does it. -/
theorem address_extends (cfg : Config) (page col : Nat) (hp : page < 256) (hc : col < 256)
    (port : Port) :
    port.Extends (SetStartColumn cfg col (SetStartPage cfg page port))
      (addressAt port.i2cPort page col) := by
  have h1 := SetStartPage_extends cfg page hp port
  generalize SetStartPage cfg page port = p1 at h1 ⊢
  have h2 := SetStartColumn_extends cfg col hc p1
  rw [h1.2.1] at h2
  refine (h1.trans h2).of_eq ?_
  simp [addressAt, List.append_assoc]

/-! ## Reading traces back -/

theorem parseFrames_payload (ch : i2cPort_t) (payload : List Nat) :
    ∀ (acc : List Nat) (rest : List Call),
      parseFrames (some acc) (payload.map (Call.MasterWriteByte ch)
          ++ Call.MasterSendStop ch :: rest)
        = (acc ++ payload) :: parseFrames none rest := by
  induction payload with
  | nil =>
    intro acc rest
    simp [parseFrames]
  | cons b bs ih =>
    intro acc rest
    simp [parseFrames, ih]

theorem parseFrames_frame (ch : i2cPort_t) (control : Nat) (payload : List Nat)
    (cur : Option (List Nat)) (rest : List Call) :
    parseFrames cur (frame ch control payload ++ rest)
      = (control :: payload) :: parseFrames none rest := by
  have h := parseFrames_payload ch payload [control] rest
  simp [frame, parseFrames]
  simpa using h

theorem parseFrames_addressAt (ch : i2cPort_t) (page col : Nat) (cur : Option (List Nat))
    (rest : List Call) :
    parseFrames cur (addressAt ch page col ++ rest)
      = [0x00, 0xB0 ||| page] :: [0x00, 0x00 ||| (col % 16)] :: [0x00, 0x10 ||| (col / 16)]
        :: parseFrames none rest := by
  unfold addressAt
  rw [List.append_assoc, List.append_assoc, parseFrames_frame, parseFrames_frame,
    parseFrames_frame]

theorem dataPayloads_pagesTrace (ch : i2cPort_t) (col : Nat) (payloads : List (List Nat)) :
    ∀ (page : Nat), dataPayloads (pagesTrace ch col page payloads) = payloads := by
  induction payloads with
  | nil =>
    intro page
    simp [pagesTrace, dataPayloads, parseFrames]
  | cons p ps ih =>
    intro page
    have h := ih (page + 1)
    unfold dataPayloads at h ⊢
    unfold pagesTrace
    rw [List.append_assoc, parseFrames_addressAt, parseFrames_frame]
    simp [List.filterMap_cons, h]

/-! ## Region rendering -/

theorem ShowPattern_cols_extends (pixelArray : Nat → Nat) (totalCol : Nat)
    (ht : totalCol ≤ 255) :
    ∀ (fuel j pixelPointer : Nat) (port : Port), j ≤ totalCol → totalCol - j ≤ fuel →
      (ShowPattern.cols pixelArray totalCol fuel j pixelPointer port).1
          = pixelPointer + (totalCol - j)
        ∧ port.Extends (ShowPattern.cols pixelArray totalCol fuel j pixelPointer port).2
          ((List.range' pixelPointer (totalCol - j)).map
            (fun k => Call.MasterWriteByte port.i2cPort (pixelArray k))) := by
  intro fuel
  induction fuel with
  | zero =>
    intro j pixelPointer port h1 h2
    have h3 : totalCol - j = 0 := by omega
    rw [h3]
    simpa [ShowPattern.cols] using Port.Extends.refl port
  | succ fuel ih =>
    intro j pixelPointer port h1 h2
    unfold ShowPattern.cols
    by_cases hlt : j < totalCol
    · rw [if_pos hlt]
      dsimp only
      have hstep := Port.extends_writeByte (pixelArray pixelPointer) port
      generalize (port.I2cMasterWriteByte (pixelArray pixelPointer)).2 = p1 at hstep ⊢
      have hmod : (j + 1) % 256 = j + 1 := Nat.mod_eq_of_lt (by omega)
      rw [hmod]
      obtain ⟨hptr, hrest⟩ := ih (j + 1) (pixelPointer + 1) p1 (by omega) (by omega)
      rw [hstep.2.1] at hrest
      constructor
      · rw [hptr]
        omega
      · refine (hstep.trans hrest).of_eq ?_
        have hlen : totalCol - j = (totalCol - (j + 1)) + 1 := by omega
        rw [hlen, List.range'_succ]
        simp
    · rw [if_neg hlt]
      have h3 : totalCol - j = 0 := by omega
      rw [h3]
      simpa using Port.Extends.refl port

/-- Payload of the `k`-th page of a region write that started reading at `pixelPointer`. -/
theorem pagePayloads_succ (pixelArray : Nat → Nat) (totalCol pixelPointer count : Nat) :
    (List.range (count + 1)).map
        (fun k => (List.range' (pixelPointer + k * totalCol) totalCol).map pixelArray)
      = (List.range' pixelPointer totalCol).map pixelArray
        :: (List.range count).map
          (fun k => (List.range' (pixelPointer + totalCol + k * totalCol) totalCol).map
            pixelArray) := by
  rw [List.range_succ_eq_map, List.map_cons, List.map_map]
  simp only [Nat.zero_mul, Nat.add_zero, List.cons.injEq, true_and]
  apply List.map_congr_left
  intro k _
  simp only [Function.comp, Nat.succ_eq_add_one]
  have : pixelPointer + (k + 1) * totalCol = pixelPointer + totalCol + k * totalCol := by
    rw [Nat.add_mul, Nat.one_mul]
    omega
  rw [this]

theorem ShowPattern_pages_extends (cfg : Config) (pixelArray : Nat → Nat)
    (endPage startCol totalCol : Nat) (he : endPage ≤ 254) (hc : startCol < 256)
    (ht : totalCol ≤ 255) :
    ∀ (fuel i pixelPointer : Nat) (port : Port), i ≤ endPage + 1 → endPage + 1 - i ≤ fuel →
      ∃ port1, ShowPattern.pages cfg pixelArray endPage startCol totalCol fuel i pixelPointer port
          = Except.ok port1
        ∧ port.Extends port1 (pagesTrace port.i2cPort startCol i
          ((List.range (endPage + 1 - i)).map
            (fun k => (List.range' (pixelPointer + k * totalCol) totalCol).map pixelArray))) := by
  intro fuel
  induction fuel with
  | zero =>
    intro i pixelPointer port h1 h2
    have h3 : endPage + 1 - i = 0 := by omega
    have h4 : ¬ i < endPage + 1 := by omega
    refine ⟨port, ?_, ?_⟩
    · simp [ShowPattern.pages, h4]
    · rw [h3]
      simpa [pagesTrace] using Port.Extends.refl port
  | succ fuel ih =>
    intro i pixelPointer port h1 h2
    unfold ShowPattern.pages
    by_cases hlt : i < endPage + 1
    · rw [if_pos hlt]
      dsimp only
      have ha := address_extends cfg i startCol (by omega) hc port
      generalize SetStartColumn cfg startCol (SetStartPage cfg i port) = p1 at ha ⊢
      have hs := Port.extends_sendStart SSD1306_I2C_ADD 0 p1
      generalize (p1.I2cMasterSendStart SSD1306_I2C_ADD 0).2 = p2 at hs ⊢
      have hw := Port.extends_writeByte ssd1306DATA_FOLLOWS_BYTE p2
      generalize (p2.I2cMasterWriteByte ssd1306DATA_FOLLOWS_BYTE).2 = p3 at hw ⊢
      obtain ⟨hptr, hcols⟩ :=
        ShowPattern_cols_extends pixelArray totalCol ht 256 0 pixelPointer p3 (Nat.zero_le _)
          (by omega)
      generalize ShowPattern.cols pixelArray totalCol 256 0 pixelPointer p3 = r at hptr hcols ⊢
      have hstop := Port.extends_sendStop r.2
      generalize (r.2.I2cMasterSendStop).2 = p4 at hstop ⊢
      have hmod : (i + 1) % 256 = i + 1 := Nat.mod_eq_of_lt (by omega)
      rw [hmod, hptr]
      obtain ⟨port1, hok, hrest⟩ := ih (i + 1) (pixelPointer + (totalCol - 0)) p4 (by omega)
        (by omega)
      have e1 : p1.i2cPort = port.i2cPort := ha.2.1
      have e2 : p2.i2cPort = port.i2cPort := hs.2.1.trans e1
      have e3 : p3.i2cPort = port.i2cPort := hw.2.1.trans e2
      have e4 : r.2.i2cPort = port.i2cPort := hcols.2.1.trans e3
      have e5 : p4.i2cPort = port.i2cPort := hstop.2.1.trans e4
      rw [e5] at hrest
      rw [e4] at hstop
      rw [e3] at hcols
      rw [e2] at hw
      rw [e1] at hs
      refine ⟨port1, hok, ?_⟩
      refine (((((ha.trans hs).trans hw).trans hcols).trans hstop).trans hrest).of_eq ?_
      have hlen : endPage + 1 - i = (endPage + 1 - (i + 1)) + 1 := by omega
      rw [hlen, pagePayloads_succ]
      simp [pagesTrace, frame, address_eq, ssd1306DATA_FOLLOWS_BYTE, List.append_assoc]
    · rw [if_neg hlt]
      have h3 : endPage + 1 - i = 0 := by omega
      refine ⟨port, rfl, ?_⟩
      rw [h3]
      simpa [pagesTrace] using Port.Extends.refl port

theorem ShowPattern_extends (cfg : Config) (fuel : Nat) (pixelArray : Nat → Nat)
    (startPage endPage startCol totalCol : Nat) (port : Port) (hs : startPage ≤ endPage)
    (he : endPage ≤ 254) (hc : startCol < 256) (ht : totalCol ≤ 255)
    (hf : endPage - startPage + 1 ≤ fuel) :
    ∃ port1, ShowPattern cfg fuel pixelArray startPage endPage startCol totalCol port
        = Except.ok port1
      ∧ port.Extends port1 (pagesTrace port.i2cPort startCol startPage
        ((List.range (endPage - startPage + 1)).map
          (fun k => (List.range' (k * totalCol) totalCol).map pixelArray))) := by
  unfold ShowPattern
  dsimp only
  have hp := extends_printIf cfg.configDEBUG_SSD1306 "SSD1306: Showing pattern...\r\n" port
  generalize printIf cfg.configDEBUG_SSD1306 "SSD1306: Showing pattern...\r\n" port = p1
    at hp ⊢
  obtain ⟨port1, hok, hrest⟩ :=
    ShowPattern_pages_extends cfg pixelArray endPage startCol totalCol he hc ht fuel startPage 0
      p1 (by omega) (by omega)
  rw [hp.2.1] at hrest
  refine ⟨port1, hok, ?_⟩
  refine (hp.trans hrest).of_eq ?_
  have hlen : endPage + 1 - startPage = endPage - startPage + 1 := by omega
  simp [hlen]

theorem pagesTrace_range (ch : i2cPort_t) (col : Nat) :
    ∀ (m page : Nat) (g : Nat → List Nat),
      pagesTrace ch col page ((List.range m).map g)
        = (List.range m).flatMap
          (fun k => addressAt ch (page + k) col ++ frame ch 0x40 (g k)) := by
  intro m
  induction m with
  | zero =>
    intro page g
    simp [pagesTrace]
  | succ m ih =>
    intro page g
    rw [List.range_succ_eq_map, List.map_cons, List.map_map, pagesTrace, ih (page + 1),
      List.flatMap_cons, List.flatMap_map]
    simp only [Nat.add_zero, List.append_assoc, List.append_cancel_left_eq]
    congr 1
    funext k
    simp only [Function.comp, Nat.succ_eq_add_one]
    rw [Nat.add_assoc, Nat.add_comm 1 k]

theorem flatten_chunks (source : Nat → Nat) (n : Nat) :
    ∀ m : Nat, ((List.range m).map (fun k => (List.range' (k * n) n).map source)).flatten
      = (List.range (m * n)).map source := by
  intro m
  induction m with
  | zero => simp
  | succ m ih =>
    rw [List.range_succ, List.map_append, List.flatten_append, ih]
    simp only [List.map_cons, List.map_nil, List.flatten_cons, List.flatten_nil,
      List.append_nil]
    rw [← List.map_append, List.range_eq_range', List.range_eq_range']
    have h := List.range'_append 0 (m * n) n 1
    simp only [Nat.zero_add, Nat.one_mul] at h
    rw [h]
    congr 2
    rw [Nat.succ_mul]
    omega

/-- C2: for `startPage ≤ endPage ≤ 254`, every start column and every column count,
`ShowPattern` returns, and what it emits is, page after page, the page-set command
`0xB0 | page`, the two column-set commands `0x00 | (c mod 16)` and `0x10 | (c / 16)`, and one
data transaction; there are exactly `endPage - startPage + 1` data transactions and each of
them carries exactly `totalCol` bytes. -/
theorem ShowPattern_frames (cfg : Config) (fuel : Nat) (pixelArray : Nat → Nat)
    (startPage endPage startCol totalCol : Nat) (port : Port) (hs : startPage ≤ endPage)
    (he : endPage ≤ 254) (hc : startCol < 256) (ht : totalCol ≤ 255)
    (hf : endPage - startPage + 1 ≤ fuel) :
    ∃ (port1 : Port) (payloads : List (List Nat)),
      ShowPattern cfg fuel pixelArray startPage endPage startCol totalCol port = Except.ok port1
        ∧ payloads.length = endPage - startPage + 1
        ∧ (∀ payload ∈ payloads, payload.length = totalCol)
        ∧ port1.calls = port.calls
          ++ (List.range (endPage - startPage + 1)).flatMap (fun k =>
            frame port.i2cPort 0x00 [0xB0 ||| (startPage + k)]
              ++ frame port.i2cPort 0x00 [0x00 ||| (startCol % 16)]
              ++ frame port.i2cPort 0x00 [0x10 ||| (startCol / 16)]
              ++ frame port.i2cPort 0x40 (payloads.getD k []))
        ∧ dataPayloads ((List.range (endPage - startPage + 1)).flatMap (fun k =>
            frame port.i2cPort 0x00 [0xB0 ||| (startPage + k)]
              ++ frame port.i2cPort 0x00 [0x00 ||| (startCol % 16)]
              ++ frame port.i2cPort 0x00 [0x10 ||| (startCol / 16)]
              ++ frame port.i2cPort 0x40 (payloads.getD k []))) = payloads := by
  obtain ⟨port1, hok, hext⟩ :=
    ShowPattern_extends cfg fuel pixelArray startPage endPage startCol totalCol port hs he hc ht hf
  have hdata := dataPayloads_pagesTrace port.i2cPort startCol
    ((List.range (endPage - startPage + 1)).map
      (fun k => (List.range' (k * totalCol) totalCol).map pixelArray)) startPage
  have hflat : (List.range (endPage - startPage + 1)).flatMap (fun k =>
      frame port.i2cPort 0x00 [0xB0 ||| (startPage + k)]
        ++ frame port.i2cPort 0x00 [0x00 ||| (startCol % 16)]
        ++ frame port.i2cPort 0x00 [0x10 ||| (startCol / 16)]
        ++ frame port.i2cPort 0x40 (((List.range (endPage - startPage + 1)).map
          (fun k => (List.range' (k * totalCol) totalCol).map pixelArray)).getD k []))
      = pagesTrace port.i2cPort startCol startPage ((List.range (endPage - startPage + 1)).map
          (fun k => (List.range' (k * totalCol) totalCol).map pixelArray)) := by
    rw [pagesTrace_range]
    apply List.flatMap_congr
    intro k hk
    have hk2 : k < endPage - startPage + 1 := List.mem_range.mp hk
    simp [addressAt, List.getD_eq_getElem?_getD, hk2]
  refine ⟨port1, (List.range (endPage - startPage + 1)).map
      (fun k => (List.range' (k * totalCol) totalCol).map pixelArray), hok, by simp, ?_, ?_, ?_⟩
  · intro payload hp
    obtain ⟨k, _, rfl⟩ := List.mem_map.mp hp
    simp
  · rw [hflat]
    exact hext.1
  · rw [hflat]
    exact hdata

/-- Witness of C2: pages 1 to 2, three columns from column 17, on a new driver. -/
theorem ShowPattern_frames_witness :
    1 ≤ 2 ∧ 2 ≤ 254 ∧ 17 < 256 ∧ 3 ≤ 255 ∧ 2 - 1 + 1 ≤ 2
      ∧ ∃ (port1 : Port) (payloads : List (List Nat)),
        ShowPattern Config.quiet 2 (fun k => k) 1 2 17 3 (Port.ctor fun _ => 0) = Except.ok port1
          ∧ payloads.length = 2 - 1 + 1
          ∧ (∀ payload ∈ payloads, payload.length = 3)
          ∧ port1.calls = (Port.ctor fun _ => 0).calls
            ++ (List.range (2 - 1 + 1)).flatMap (fun k =>
              frame (Port.ctor fun _ => 0).i2cPort 0x00 [0xB0 ||| (1 + k)]
                ++ frame (Port.ctor fun _ => 0).i2cPort 0x00 [0x00 ||| (17 % 16)]
                ++ frame (Port.ctor fun _ => 0).i2cPort 0x00 [0x10 ||| (17 / 16)]
                ++ frame (Port.ctor fun _ => 0).i2cPort 0x40 (payloads.getD k []))
          ∧ dataPayloads ((List.range (2 - 1 + 1)).flatMap (fun k =>
              frame (Port.ctor fun _ => 0).i2cPort 0x00 [0xB0 ||| (1 + k)]
                ++ frame (Port.ctor fun _ => 0).i2cPort 0x00 [0x00 ||| (17 % 16)]
                ++ frame (Port.ctor fun _ => 0).i2cPort 0x00 [0x10 ||| (17 / 16)]
                ++ frame (Port.ctor fun _ => 0).i2cPort 0x40 (payloads.getD k []))) = payloads :=
  ⟨by decide, by decide, by decide, by decide, by decide,
    ShowPattern_frames Config.quiet 2 (fun k => k) 1 2 17 3 (Port.ctor fun _ => 0) (by decide)
      (by decide) (by decide) (by decide) (by decide)⟩

/-- C3: for `startPage ≤ endPage ≤ 254` and every column count `n`, `ShowPattern` returns; the
`k`-th page it writes (`k` from 0) is page `startPage + k`, so the pages go up one by one from
`startPage` to `endPage`, and the data transaction of that page carries the source bytes
`pixelArray[k*n], ..., pixelArray[k*n + n - 1]` in order; the data payloads read back from the
trace are these chunks, and put end to end they are the first `(endPage - startPage + 1) * n`
bytes of the source. -/
theorem ShowPattern_source_order (cfg : Config) (fuel : Nat) (pixelArray : Nat → Nat)
    (startPage endPage startCol totalCol : Nat) (port : Port) (hs : startPage ≤ endPage)
    (he : endPage ≤ 254) (hc : startCol < 256) (ht : totalCol ≤ 255)
    (hf : endPage - startPage + 1 ≤ fuel) :
    ∃ port1 : Port,
      ShowPattern cfg fuel pixelArray startPage endPage startCol totalCol port = Except.ok port1
        ∧ port1.calls = port.calls
          ++ (List.range (endPage - startPage + 1)).flatMap (fun k =>
            addressAt port.i2cPort (startPage + k) startCol
              ++ frame port.i2cPort 0x40
                ((List.range' (k * totalCol) totalCol).map pixelArray))
        ∧ dataPayloads ((List.range (endPage - startPage + 1)).flatMap (fun k =>
            addressAt port.i2cPort (startPage + k) startCol
              ++ frame port.i2cPort 0x40
                ((List.range' (k * totalCol) totalCol).map pixelArray)))
          = (List.range (endPage - startPage + 1)).map
            (fun k => (List.range' (k * totalCol) totalCol).map pixelArray)
        ∧ (dataPayloads ((List.range (endPage - startPage + 1)).flatMap (fun k =>
            addressAt port.i2cPort (startPage + k) startCol
              ++ frame port.i2cPort 0x40
                ((List.range' (k * totalCol) totalCol).map pixelArray)))).flatten
          = (List.range ((endPage - startPage + 1) * totalCol)).map pixelArray := by
  obtain ⟨port1, hok, hext⟩ :=
    ShowPattern_extends cfg fuel pixelArray startPage endPage startCol totalCol port hs he hc ht hf
  have hdata := dataPayloads_pagesTrace port.i2cPort startCol
    ((List.range (endPage - startPage + 1)).map
      (fun k => (List.range' (k * totalCol) totalCol).map pixelArray)) startPage
  rw [pagesTrace_range] at hdata
  refine ⟨port1, hok, ?_, hdata, ?_⟩
  · rw [← pagesTrace_range]
    exact hext.1
  · rw [hdata]
    exact flatten_chunks pixelArray totalCol _

/-- Witness of C3: pages 1 to 2, three columns from column 17, of the source `0, 1, 2, ...`. -/
theorem ShowPattern_source_order_witness :
    1 ≤ 2 ∧ 2 ≤ 254 ∧ 17 < 256 ∧ 3 ≤ 255 ∧ 2 - 1 + 1 ≤ 2
      ∧ ∃ port1 : Port,
        ShowPattern Config.quiet 2 (fun k => k) 1 2 17 3 (Port.ctor fun _ => 0) = Except.ok port1
          ∧ port1.calls = (Port.ctor fun _ => 0).calls
            ++ (List.range (2 - 1 + 1)).flatMap (fun k =>
              addressAt (Port.ctor fun _ => 0).i2cPort (1 + k) 17
                ++ frame (Port.ctor fun _ => 0).i2cPort 0x40
                  ((List.range' (k * 3) 3).map (fun k => k)))
          ∧ dataPayloads ((List.range (2 - 1 + 1)).flatMap (fun k =>
              addressAt (Port.ctor fun _ => 0).i2cPort (1 + k) 17
                ++ frame (Port.ctor fun _ => 0).i2cPort 0x40
                  ((List.range' (k * 3) 3).map (fun k => k))))
            = (List.range (2 - 1 + 1)).map (fun k => (List.range' (k * 3) 3).map (fun k => k))
          ∧ (dataPayloads ((List.range (2 - 1 + 1)).flatMap (fun k =>
              addressAt (Port.ctor fun _ => 0).i2cPort (1 + k) 17
                ++ frame (Port.ctor fun _ => 0).i2cPort 0x40
                  ((List.range' (k * 3) 3).map (fun k => k))))).flatten
            = (List.range ((2 - 1 + 1) * 3)).map (fun k => k) :=
  ⟨by decide, by decide, by decide, by decide, by decide,
    ShowPattern_source_order Config.quiet 2 (fun k => k) 1 2 17 3 (Port.ctor fun _ => 0)
      (by decide) (by decide) (by decide) (by decide) (by decide)⟩

/-- C4: for every column `c` in 0..255, `SetStartColumn(c)` emits two command transactions, the
first carrying `0x00 | (c mod 16)` and the second `0x10 | (c / 16)`; the code computes the two
bytes as `0x00 + c % 16` and `0x10 + c / 16`, and the sums equal the bitwise-or forms. -/
theorem SetStartColumn_bytes (cfg : Config) (c : Nat) (port : Port) (hc : c < 256) :
    SetStartColumn cfg c port
        = WriteCommand cfg (0x10 + c / 16) (WriteCommand cfg (0x00 + c % 16) port)
      ∧ 0x00 + c % 16 = 0x00 ||| (c % 16)
      ∧ 0x10 + c / 16 = 0x10 ||| (c / 16)
      ∧ (SetStartColumn cfg c port).calls
        = port.calls
          ++ [Call.MasterSendStart port.i2cPort 0x3C 0, Call.MasterWriteByte port.i2cPort 0x00,
              Call.MasterWriteByte port.i2cPort (0x00 ||| (c % 16)),
              Call.MasterSendStop port.i2cPort,
              Call.MasterSendStart port.i2cPort 0x3C 0, Call.MasterWriteByte port.i2cPort 0x00,
              Call.MasterWriteByte port.i2cPort (0x10 ||| (c / 16)),
              Call.MasterSendStop port.i2cPort]
      ∧ commandPayloads
          [Call.MasterSendStart port.i2cPort 0x3C 0, Call.MasterWriteByte port.i2cPort 0x00,
            Call.MasterWriteByte port.i2cPort (0x00 ||| (c % 16)),
            Call.MasterSendStop port.i2cPort,
            Call.MasterSendStart port.i2cPort 0x3C 0, Call.MasterWriteByte port.i2cPort 0x00,
            Call.MasterWriteByte port.i2cPort (0x10 ||| (c / 16)),
            Call.MasterSendStop port.i2cPort]
        = [[0x00 ||| (c % 16)], [0x10 ||| (c / 16)]] := by
  have hlow : 0x00 + c % 16 < 256 := by omega
  have hhigh : 0x10 + c / 16 < 256 := by omega
  have h1 := startColumn_low c hc
  have h2 := startColumn_high c hc
  rw [Nat.mod_eq_of_lt hlow] at h1
  rw [Nat.mod_eq_of_lt hhigh] at h2
  refine ⟨?_, h1, h2, ?_, ?_⟩
  · unfold SetStartColumn
    dsimp only
    rw [Nat.mod_eq_of_lt hlow, Nat.mod_eq_of_lt hhigh]
  · have h := (SetStartColumn_extends cfg c hc port).1
    simpa [frame] using h
  · simp [commandPayloads, parseFrames]

/-- Witness of C4: column 0x7F on a new driver gives the command bytes `0x0F` and `0x17`. -/
theorem SetStartColumn_bytes_witness :
    0x7F < 256
      ∧ (SetStartColumn Config.quiet 0x7F (Port.ctor fun _ => 0)).calls
        = [Call.MasterSendStart i2cPort_t.i2cLeft 0x3C 0,
            Call.MasterWriteByte i2cPort_t.i2cLeft 0x00,
            Call.MasterWriteByte i2cPort_t.i2cLeft 0x0F,
            Call.MasterSendStop i2cPort_t.i2cLeft,
            Call.MasterSendStart i2cPort_t.i2cLeft 0x3C 0,
            Call.MasterWriteByte i2cPort_t.i2cLeft 0x00,
            Call.MasterWriteByte i2cPort_t.i2cLeft 0x17,
            Call.MasterSendStop i2cPort_t.i2cLeft] :=
  ⟨by decide,
    (SetStartColumn_bytes Config.quiet 0x7F (Port.ctor fun _ => 0) (by decide)).2.2.2.1⟩

/-! ## Filling the display RAM -/

theorem FillRam_cols_extends (byteToFillRamWith : Nat) :
    ∀ (fuel j : Nat) (port : Port), j ≤ 128 → 128 - j ≤ fuel →
      port.Extends (FillRam.cols byteToFillRamWith fuel j port)
        ((List.replicate (128 - j) byteToFillRamWith).map
          (Call.MasterWriteByte port.i2cPort)) := by
  intro fuel
  induction fuel with
  | zero =>
    intro j port h1 h2
    have h3 : 128 - j = 0 := by omega
    rw [h3]
    simpa [FillRam.cols] using Port.Extends.refl port
  | succ fuel ih =>
    intro j port h1 h2
    unfold FillRam.cols
    by_cases hlt : j < 128
    · rw [if_pos hlt]
      dsimp only
      have hstep := Port.extends_writeByte byteToFillRamWith port
      generalize (port.I2cMasterWriteByte byteToFillRamWith).2 = p1 at hstep ⊢
      have hmod : (j + 1) % 256 = j + 1 := Nat.mod_eq_of_lt (by omega)
      rw [hmod]
      have hrest := ih (j + 1) p1 (by omega) (by omega)
      rw [hstep.2.1] at hrest
      refine (hstep.trans hrest).of_eq ?_
      have hlen : 128 - j = (128 - (j + 1)) + 1 := by omega
      rw [hlen, List.replicate_succ]
      simp
    · rw [if_neg hlt]
      have h3 : 128 - j = 0 := by omega
      rw [h3]
      simpa using Port.Extends.refl port

theorem FillRam_pages_extends (cfg : Config) (byteToFillRamWith : Nat) :
    ∀ (fuel i : Nat) (port : Port), i ≤ 4 → 4 - i ≤ fuel →
      port.Extends (FillRam.pages cfg byteToFillRamWith fuel i port)
        (pagesTrace port.i2cPort 0 i
          (List.replicate (4 - i) (List.replicate 128 byteToFillRamWith))) := by
  intro fuel
  induction fuel with
  | zero =>
    intro i port h1 h2
    have h3 : 4 - i = 0 := by omega
    rw [h3]
    simpa [FillRam.pages, pagesTrace] using Port.Extends.refl port
  | succ fuel ih =>
    intro i port h1 h2
    unfold FillRam.pages
    by_cases hlt : i < 4
    · rw [if_pos hlt]
      dsimp only
      have ha := address_extends cfg i 0x00 (by omega) (by decide) port
      generalize SetStartColumn cfg 0x00 (SetStartPage cfg i port) = p1 at ha ⊢
      have hs := Port.extends_sendStart SSD1306_I2C_ADD 0 p1
      generalize (p1.I2cMasterSendStart SSD1306_I2C_ADD 0).2 = p2 at hs ⊢
      have hw := Port.extends_writeByte ssd1306DATA_FOLLOWS_BYTE p2
      generalize (p2.I2cMasterWriteByte ssd1306DATA_FOLLOWS_BYTE).2 = p3 at hw ⊢
      have hcols := FillRam_cols_extends byteToFillRamWith 256 0 p3 (by omega) (by omega)
      generalize FillRam.cols byteToFillRamWith 256 0 p3 = p4 at hcols ⊢
      have hstop := Port.extends_sendStop p4
      generalize (p4.I2cMasterSendStop).2 = p5 at hstop ⊢
      have hmod : (i + 1) % 256 = i + 1 := Nat.mod_eq_of_lt (by omega)
      rw [hmod]
      have hrest := ih (i + 1) p5 (by omega) (by omega)
      have e1 : p1.i2cPort = port.i2cPort := ha.2.1
      have e2 : p2.i2cPort = port.i2cPort := hs.2.1.trans e1
      have e3 : p3.i2cPort = port.i2cPort := hw.2.1.trans e2
      have e4 : p4.i2cPort = port.i2cPort := hcols.2.1.trans e3
      have e5 : p5.i2cPort = port.i2cPort := hstop.2.1.trans e4
      rw [e5] at hrest
      rw [e4] at hstop
      rw [e3] at hcols
      rw [e2] at hw
      rw [e1] at hs
      refine (((((ha.trans hs).trans hw).trans hcols).trans hstop).trans hrest).of_eq ?_
      have hlen : 4 - i = (4 - (i + 1)) + 1 := by omega
      rw [hlen, List.replicate_succ]
      simp [pagesTrace, frame, address_eq, ssd1306DATA_FOLLOWS_BYTE, List.append_assoc]
    · rw [if_neg hlt]
      have h3 : 4 - i = 0 := by omega
      rw [h3]
      simpa [pagesTrace] using Port.Extends.refl port

theorem FillRam_extends (cfg : Config) (byteToFillRamWith : Nat) (port : Port) :
    port.Extends (FillRam cfg byteToFillRamWith port)
      (pagesTrace port.i2cPort 0 0 (List.replicate 4 (List.replicate 128 byteToFillRamWith))) := by
  unfold FillRam
  dsimp only
  have hp := extends_printIf cfg.configDEBUG_SSD1306
    "SSD1306: Filling RAM with constant byte...\r\n" port
  generalize printIf cfg.configDEBUG_SSD1306
    "SSD1306: Filling RAM with constant byte...\r\n" port = p1 at hp ⊢
  have hrest := FillRam_pages_extends cfg byteToFillRamWith 256 0 p1 (by omega) (by omega)
  rw [hp.2.1] at hrest
  exact (hp.trans hrest).of_eq (by simp)

theorem SetMultiplexRatio_extends (cfg : Config) (regVal : Nat) (port : Port) :
    port.Extends (SetMultiplexRatio cfg regVal port) (frame port.i2cPort 0x00 [0xA8, regVal]) := by
  unfold SetMultiplexRatio
  dsimp only
  have hp := extends_printIf cfg.configDEBUG_SSD1306_VERBOSE
    "SSD1306: Setting multiplex ratio...\r\n" port
  generalize printIf cfg.configDEBUG_SSD1306_VERBOSE
    "SSD1306: Setting multiplex ratio...\r\n" port = p1 at hp ⊢
  have hrest := WriteCommandArray_extends cfg (localArray [0xA8, regVal]) 2 (by decide) p1
  rw [hp.2.1] at hrest
  refine (hp.trans hrest).of_eq ?_
  have h := localArray_range [0xA8, regVal]
  simp only [List.length_cons, List.length_nil] at h
  simp [h]

/-- Trace of a full clear with the byte `v`: pages 0, 1, 2, 3 in that order, each addressed at
column 0 and followed by one data transaction of 128 bytes `v`. -/
theorem fill_trace_eq (ch : i2cPort_t) (v : Nat) :
    pagesTrace ch 0 0 (List.replicate 4 (List.replicate 128 v))
      = addressAt ch 0 0 ++ frame ch 0x40 (List.replicate 128 v)
        ++ (addressAt ch 1 0 ++ frame ch 0x40 (List.replicate 128 v))
        ++ (addressAt ch 2 0 ++ frame ch 0x40 (List.replicate 128 v))
        ++ (addressAt ch 3 0 ++ frame ch 0x40 (List.replicate 128 v)) := by
  have h4 : List.replicate 4 (List.replicate 128 v)
      = [List.replicate 128 v, List.replicate 128 v, List.replicate 128 v,
          List.replicate 128 v] := rfl
  rw [h4]
  simp only [pagesTrace, List.append_nil, List.append_assoc]

/-- C5: for every byte `v`, `FillRam(v)` emits exactly four data transactions, for pages 0, 1,
2, 3 in that order, each addressed at column 0 and carrying 128 bytes all equal to `v`; the
trace is the same after any `SetMultiplexRatio`; and `FillRam(0x00)` on a new driver emits four
data transactions of 128 bytes `0x00`. -/
theorem FillRam_trace (cfg : Config) (v : Nat) (port : Port) :
    (FillRam cfg v port).calls
        = port.calls
          ++ (addressAt port.i2cPort 0 0 ++ frame port.i2cPort 0x40 (List.replicate 128 v)
            ++ (addressAt port.i2cPort 1 0 ++ frame port.i2cPort 0x40 (List.replicate 128 v))
            ++ (addressAt port.i2cPort 2 0 ++ frame port.i2cPort 0x40 (List.replicate 128 v))
            ++ (addressAt port.i2cPort 3 0 ++ frame port.i2cPort 0x40 (List.replicate 128 v)))
      ∧ dataPayloads
          (addressAt port.i2cPort 0 0 ++ frame port.i2cPort 0x40 (List.replicate 128 v)
            ++ (addressAt port.i2cPort 1 0 ++ frame port.i2cPort 0x40 (List.replicate 128 v))
            ++ (addressAt port.i2cPort 2 0 ++ frame port.i2cPort 0x40 (List.replicate 128 v))
            ++ (addressAt port.i2cPort 3 0 ++ frame port.i2cPort 0x40 (List.replicate 128 v)))
        = List.replicate 4 (List.replicate 128 v)
      ∧ (∀ ratio : Nat, (FillRam cfg v (SetMultiplexRatio cfg ratio port)).calls
        = (SetMultiplexRatio cfg ratio port).calls
          ++ (addressAt port.i2cPort 0 0 ++ frame port.i2cPort 0x40 (List.replicate 128 v)
            ++ (addressAt port.i2cPort 1 0 ++ frame port.i2cPort 0x40 (List.replicate 128 v))
            ++ (addressAt port.i2cPort 2 0 ++ frame port.i2cPort 0x40 (List.replicate 128 v))
            ++ (addressAt port.i2cPort 3 0 ++ frame port.i2cPort 0x40 (List.replicate 128 v))))
      ∧ (∀ ret : Nat → Nat, dataPayloads (FillRam cfg 0x00 (Port.ctor ret)).calls
        = List.replicate 4 (List.replicate 128 0x00)) := by
  have hfill := fun p : Port => (FillRam_extends cfg v p).1
  refine ⟨?_, ?_, ?_, ?_⟩
  · rw [← fill_trace_eq]
    exact hfill port
  · rw [← fill_trace_eq]
    exact dataPayloads_pagesTrace _ _ _ _
  · intro ratio
    rw [← fill_trace_eq, ← (SetMultiplexRatio_extends cfg ratio port).2.1]
    exact hfill _
  · intro ret
    have h := (FillRam_extends cfg 0x00 (Port.ctor ret)).1
    have h0 : (Port.ctor ret).calls = [] := rfl
    rw [h0, List.nil_append] at h
    rw [h]
    exact dataPayloads_pagesTrace _ _ _ _

/-! ## Fonts -/

theorem Ascii_1_length : Ascii_1.length = 240 := by
  rfl

theorem Ascii_2_length : Ascii_2.length = 107 := by
  rfl

set_option maxRecDepth 100000 in
theorem Ascii_1_rows : ∀ row ∈ Ascii_1, row.length = 5 := by
  decide

set_option maxRecDepth 100000 in
theorem Ascii_2_rows : ∀ row ∈ Ascii_2, row.length = 5 := by
  decide

theorem rowAt_pred (table : List (List Nat)) (asciiChar : Nat) (h1 : 1 ≤ asciiChar) :
    rowAt table ((asciiChar : Int) - 1) = table[asciiChar - 1]? := by
  unfold rowAt
  have h2 : ¬ ((asciiChar : Int) - 1 < 0) := by omega
  have h3 : ((asciiChar : Int) - 1).toNat = asciiChar - 1 := by omega
  rw [if_neg h2, h3]

theorem rowAt_zero (table : List (List Nat)) : rowAt table (((0 : Nat) : Int) - 1) = none := by
  simp [rowAt]

/-- Where the table lookup of `ShowFont57` succeeds, and what it gives. -/
theorem Src_Pointer_defined (fontArraySel asciiChar : Nat)
    (h : fontArraySel = 1 ∧ 1 ≤ asciiChar ∧ asciiChar ≤ 240
      ∨ fontArraySel = 2 ∧ 1 ≤ asciiChar ∧ asciiChar ≤ 107) :
    ∃ glyph, ShowFont57.Src_Pointer fontArraySel asciiChar = some glyph
      ∧ (if fontArraySel = 1 then Ascii_1 else Ascii_2)[asciiChar - 1]? = some glyph
      ∧ glyph.length = 5 := by
  rcases h with ⟨hf, h1, h2⟩ | ⟨hf, h1, h2⟩
  · subst hf
    have hlt : asciiChar - 1 < Ascii_1.length := by
      rw [Ascii_1_length]
      omega
    refine ⟨Ascii_1[asciiChar - 1], ?_, ?_, ?_⟩
    · simp only [ShowFont57.Src_Pointer]
      rw [rowAt_pred _ _ h1, List.getElem?_eq_getElem hlt]
    · simp [List.getElem?_eq_getElem hlt]
    · exact Ascii_1_rows _ (List.getElem_mem hlt)
  · subst hf
    have hlt : asciiChar - 1 < Ascii_2.length := by
      rw [Ascii_2_length]
      omega
    refine ⟨Ascii_2[asciiChar - 1], ?_, ?_, ?_⟩
    · simp only [ShowFont57.Src_Pointer]
      rw [rowAt_pred _ _ h1, List.getElem?_eq_getElem hlt]
    · simp [List.getElem?_eq_getElem hlt]
    · exact Ascii_2_rows _ (List.getElem_mem hlt)

theorem Src_Pointer_zero (fontArraySel : Nat) :
    ShowFont57.Src_Pointer fontArraySel 0 = none := by
  unfold ShowFont57.Src_Pointer
  split
  · exact rowAt_zero _
  · exact rowAt_zero _
  · rfl

theorem ShowFont57_loop_extends (glyph : List Nat) (hg : glyph.length = 5) :
    ∀ (fuel i : Nat) (port : Port), i ≤ 5 → 5 - i ≤ fuel →
      ∃ port1, ShowFont57.loop (some glyph) fuel i i port = Except.ok port1
        ∧ port.Extends port1 ((glyph.drop i).map (Call.MasterWriteByte port.i2cPort)) := by
  intro fuel
  induction fuel with
  | zero =>
    intro i port h1 h2
    have h3 : i = 5 := by omega
    subst h3
    refine ⟨port, rfl, ?_⟩
    have hd : glyph.drop 5 = [] := List.drop_eq_nil_of_le (by omega)
    rw [hd]
    exact Port.Extends.refl port
  | succ fuel ih =>
    intro i port h1 h2
    unfold ShowFont57.loop
    by_cases hlt : i < 5
    · rw [if_pos hlt]
      have hi : i < glyph.length := by omega
      have hget : (some glyph).bind (fun glyph => glyph[i]?) = some glyph[i] := by
        simp [List.getElem?_eq_getElem hi]
      rw [hget]
      dsimp only
      have hstep := Port.extends_writeByte glyph[i] port
      generalize (port.I2cMasterWriteByte glyph[i]).2 = p1 at hstep ⊢
      have hmod : (i + 1) % 256 = i + 1 := Nat.mod_eq_of_lt (by omega)
      rw [hmod]
      obtain ⟨port1, hok, hrest⟩ := ih (i + 1) p1 (by omega) (by omega)
      rw [hstep.2.1] at hrest
      refine ⟨port1, hok, ?_⟩
      refine (hstep.trans hrest).of_eq ?_
      rw [List.drop_eq_getElem_cons hi]
      simp only [List.map_cons, List.singleton_append]
    · rw [if_neg hlt]
      have h3 : i = 5 := by omega
      subst h3
      refine ⟨port, rfl, ?_⟩
      have hd : glyph.drop 5 = [] := List.drop_eq_nil_of_le (by omega)
      rw [hd]
      exact Port.Extends.refl port

theorem ShowFont57_extends (cfg : Config) (fontArraySel asciiChar startPage startCol : Nat)
    (port : Port) (glyph : List Nat)
    (hsrc : ShowFont57.Src_Pointer fontArraySel asciiChar = some glyph) (hg : glyph.length = 5)
    (hp : startPage < 256) (hc : startCol < 256) :
    ∃ port1, ShowFont57 cfg fontArraySel asciiChar startPage startCol port = Except.ok port1
      ∧ port.Extends port1
        (addressAt port.i2cPort startPage startCol
          ++ frame port.i2cPort 0x40 (glyph ++ [0x00])) := by
  unfold ShowFont57
  dsimp only
  rw [hsrc]
  have ha := address_extends cfg startPage startCol hp hc port
  generalize SetStartColumn cfg startCol (SetStartPage cfg startPage port) = p1 at ha ⊢
  have hs := Port.extends_sendStart SSD1306_I2C_ADD 0 p1
  generalize (p1.I2cMasterSendStart SSD1306_I2C_ADD 0).2 = p2 at hs ⊢
  have hw := Port.extends_writeByte ssd1306DATA_FOLLOWS_BYTE p2
  generalize (p2.I2cMasterWriteByte ssd1306DATA_FOLLOWS_BYTE).2 = p3 at hw ⊢
  obtain ⟨p4, hok, hloop⟩ := ShowFont57_loop_extends glyph hg 256 0 p3 (by omega) (by omega)
  rw [hok]
  dsimp only
  have hz := Port.extends_writeByte 0x00 p4
  generalize (p4.I2cMasterWriteByte 0x00).2 = p5 at hz ⊢
  have hstop := Port.extends_sendStop p5
  have e1 : p1.i2cPort = port.i2cPort := ha.2.1
  have e2 : p2.i2cPort = port.i2cPort := hs.2.1.trans e1
  have e3 : p3.i2cPort = port.i2cPort := hw.2.1.trans e2
  have e4 : p4.i2cPort = port.i2cPort := hloop.2.1.trans e3
  have e5 : p5.i2cPort = port.i2cPort := hz.2.1.trans e4
  rw [e5] at hstop
  rw [e4] at hz
  rw [e3] at hloop
  rw [e2] at hw
  rw [e1] at hs
  refine ⟨_, rfl, ?_⟩
  refine (((((ha.trans hs).trans hw).trans hloop).trans hz).trans hstop).of_eq ?_
  simp [frame, address_eq, ssd1306DATA_FOLLOWS_BYTE, List.append_assoc]

theorem ShowFont57_undefined (cfg : Config) (fontArraySel asciiChar startPage startCol : Nat)
    (port : Port) (hsrc : ShowFont57.Src_Pointer fontArraySel asciiChar = none) :
    ShowFont57 cfg fontArraySel asciiChar startPage startCol port
      = Except.error Fault.outOfBounds := by
  unfold ShowFont57
  dsimp only
  rw [hsrc]
  simp [ShowFont57.loop]

/-- C7: for font selector 1 or 2 and a character code with an entry in that table (1..240 for
table 1, 1..107 for table 2), `ShowFont57` returns, and it emits the page-set command for the
page, the two column-set commands for the column, and then one data transaction of exactly six
bytes: the five bytes of row `asciiChar - 1` of the table, in order, and the spacer `0x00`. -/
theorem ShowFont57_glyph_frame (cfg : Config) (fontArraySel asciiChar startPage startCol : Nat)
    (port : Port)
    (h : fontArraySel = 1 ∧ 1 ≤ asciiChar ∧ asciiChar ≤ 240
      ∨ fontArraySel = 2 ∧ 1 ≤ asciiChar ∧ asciiChar ≤ 107)
    (hp : startPage < 256) (hc : startCol < 256) :
    ∃ (port1 : Port) (glyph : List Nat),
      (if fontArraySel = 1 then Ascii_1 else Ascii_2)[asciiChar - 1]? = some glyph
        ∧ glyph.length = 5
        ∧ ShowFont57 cfg fontArraySel asciiChar startPage startCol port = Except.ok port1
        ∧ port1.calls = port.calls
          ++ (frame port.i2cPort 0x00 [0xB0 ||| startPage]
            ++ frame port.i2cPort 0x00 [0x00 ||| (startCol % 16)]
            ++ frame port.i2cPort 0x00 [0x10 ||| (startCol / 16)]
            ++ frame port.i2cPort 0x40 (glyph ++ [0x00]))
        ∧ dataPayloads
            (frame port.i2cPort 0x00 [0xB0 ||| startPage]
              ++ frame port.i2cPort 0x00 [0x00 ||| (startCol % 16)]
              ++ frame port.i2cPort 0x00 [0x10 ||| (startCol / 16)]
              ++ frame port.i2cPort 0x40 (glyph ++ [0x00]))
          = [glyph ++ [0x00]]
        ∧ (glyph ++ [0x00]).length = 6 := by
  obtain ⟨glyph, hsrc, hrow, hlen⟩ := Src_Pointer_defined fontArraySel asciiChar h
  obtain ⟨port1, hok, hext⟩ :=
    ShowFont57_extends cfg fontArraySel asciiChar startPage startCol port glyph hsrc hlen hp hc
  have hdata := dataPayloads_pagesTrace port.i2cPort startCol [glyph ++ [0x00]] startPage
  refine ⟨port1, glyph, hrow, hlen, hok, ?_, ?_, ?_⟩
  · simpa [addressAt, List.append_assoc] using hext.1
  · simpa [pagesTrace, addressAt, List.append_assoc] using hdata
  · simp [hlen]

/-- Witness of C7: table 1, character code 0x41, page 0, column 0, on a new driver. -/
theorem ShowFont57_glyph_frame_witness :
    ((1 : Nat) = 1 ∧ 1 ≤ 0x41 ∧ 0x41 ≤ 240 ∨ (1 : Nat) = 2 ∧ 1 ≤ 0x41 ∧ 0x41 ≤ 107)
      ∧ 0 < 256
      ∧ ∃ (port1 : Port) (glyph : List Nat),
        (if (1 : Nat) = 1 then Ascii_1 else Ascii_2)[0x41 - 1]? = some glyph
          ∧ glyph.length = 5
          ∧ ShowFont57 Config.quiet 1 0x41 0 0 (Port.ctor fun _ => 0) = Except.ok port1
          ∧ port1.calls = (Port.ctor fun _ => 0).calls
            ++ (frame (Port.ctor fun _ => 0).i2cPort 0x00 [0xB0 ||| 0]
              ++ frame (Port.ctor fun _ => 0).i2cPort 0x00 [0x00 ||| (0 % 16)]
              ++ frame (Port.ctor fun _ => 0).i2cPort 0x00 [0x10 ||| (0 / 16)]
              ++ frame (Port.ctor fun _ => 0).i2cPort 0x40 (glyph ++ [0x00]))
          ∧ dataPayloads
              (frame (Port.ctor fun _ => 0).i2cPort 0x00 [0xB0 ||| 0]
                ++ frame (Port.ctor fun _ => 0).i2cPort 0x00 [0x00 ||| (0 % 16)]
                ++ frame (Port.ctor fun _ => 0).i2cPort 0x00 [0x10 ||| (0 / 16)]
                ++ frame (Port.ctor fun _ => 0).i2cPort 0x40 (glyph ++ [0x00]))
            = [glyph ++ [0x00]]
          ∧ (glyph ++ [0x00]).length = 6 :=
  ⟨Or.inl ⟨rfl, by decide, by decide⟩, by decide,
    ShowFont57_glyph_frame Config.quiet 1 0x41 0 0 (Port.ctor fun _ => 0)
      (Or.inl ⟨rfl, by decide, by decide⟩) (by decide) (by decide)⟩

set_option maxRecDepth 100000 in
theorem Ascii_1_documented_0x41 :
    Ascii_1_documented 0x41 = some [0x7E, 0x11, 0x11, 0x11, 0x7E] := by
  rfl

set_option maxRecDepth 100000 in
theorem Ascii_1_documented_0x61 :
    Ascii_1_documented 0x61 = some [0x20, 0x54, 0x54, 0x54, 0x78] := by
  rfl

set_option maxRecDepth 100000 in
theorem Src_Pointer_0x41 :
    ShowFont57.Src_Pointer 1 0x41 = some [0x20, 0x54, 0x54, 0x54, 0x78] := by
  rfl

set_option maxRecDepth 1000000 in
theorem Ascii_1_documented_ascii :
    ∀ c < 0x7F, 0x21 ≤ c → Ascii_1_documented c = Ascii_1[c - 0x21]? := by
  decide

set_option maxRecDepth 1000000 in
theorem Src_Pointer_ne_documented :
    ∀ c < 0x7F, 0x21 ≤ c → ShowFont57.Src_Pointer 1 c ≠ Ascii_1_documented c := by
  decide

/-- C8, at the character `'A'` (0x41): called with table 1 and the ASCII code of `'A'`,
`ShowFont57` emits the data bytes `0x20, 0x54, 0x54, 0x54, 0x78` and the spacer.  That is the
row the table documents for code point 0x61, `Latin Small Letter A`; the row it documents for
0x41, `Latin Capital Letter A`, is `0x7E, 0x11, 0x11, 0x11, 0x7E`.  The row documented for a
printable ASCII code `c` is row `c - 0x21`, and for no such code is it the row that `ShowFont57`
reads. -/
theorem ShowFont57_capital_A :
    (∃ port1 : Port,
        ShowFont57 Config.quiet 1 0x41 0 0 (Port.ctor fun _ => 0) = Except.ok port1
          ∧ dataPayloads port1.calls = [[0x20, 0x54, 0x54, 0x54, 0x78, 0x00]])
      ∧ Ascii_1_documented 0x41 = some [0x7E, 0x11, 0x11, 0x11, 0x7E]
      ∧ Ascii_1_documented 0x61 = some [0x20, 0x54, 0x54, 0x54, 0x78]
      ∧ (∀ c < 0x7F, 0x21 ≤ c → Ascii_1_documented c = Ascii_1[c - 0x21]?)
      ∧ (∀ c < 0x7F, 0x21 ≤ c → ShowFont57.Src_Pointer 1 c ≠ Ascii_1_documented c) := by
  refine ⟨?_, Ascii_1_documented_0x41, Ascii_1_documented_0x61, Ascii_1_documented_ascii,
    Src_Pointer_ne_documented⟩
  have hsrc := Src_Pointer_0x41
  obtain ⟨port1, hok, hext⟩ :=
    ShowFont57_extends Config.quiet 1 0x41 0 0 (Port.ctor fun _ => 0) _ hsrc rfl (by decide)
      (by decide)
  refine ⟨port1, hok, ?_⟩
  have h0 : (Port.ctor fun _ => 0).calls = [] := rfl
  have hdata := dataPayloads_pagesTrace (Port.ctor fun _ => 0).i2cPort 0
    [[0x20, 0x54, 0x54, 0x54, 0x78, 0x00]] 0
  rw [hext.1, h0, List.nil_append]
  simpa [pagesTrace] using hdata

/-! ## Strings -/

set_option maxRecDepth 100000 in
theorem Src_Pointer_96 : ShowFont57.Src_Pointer 1 96 = some [0x00, 0x00, 0x00, 0x00, 0x00] := by
  rfl

theorem ShowFont57_loop_ok_extends (row : Option (List Nat)) :
    ∀ (fuel i Src_Pointer : Nat) (port port1 : Port),
      ShowFont57.loop row fuel i Src_Pointer port = Except.ok port1 →
      ∃ evs, port.Extends port1 evs := by
  intro fuel
  induction fuel with
  | zero =>
    intro i Src_Pointer port port1 h
    simp only [ShowFont57.loop, Except.ok.injEq] at h
    subst h
    exact ⟨[], Port.Extends.refl port⟩
  | succ fuel ih =>
    intro i Src_Pointer port port1 h
    unfold ShowFont57.loop at h
    by_cases hlt : i < 5
    · rw [if_pos hlt] at h
      cases hrow : row.bind (fun glyph => glyph[Src_Pointer]?) with
      | none =>
        rw [hrow] at h
        cases h
      | some b =>
        rw [hrow] at h
        dsimp only at h
        obtain ⟨evs, hevs⟩ := ih _ _ _ _ h
        exact ⟨_, (Port.extends_writeByte b port).trans hevs⟩
    · rw [if_neg hlt] at h
      simp only [Except.ok.injEq] at h
      subst h
      exact ⟨[], Port.Extends.refl port⟩

theorem ShowFont57_ok_extends (cfg : Config) (fontArraySel asciiChar startPage startCol : Nat)
    (port port1 : Port)
    (h : ShowFont57 cfg fontArraySel asciiChar startPage startCol port = Except.ok port1) :
    ∃ evs, port.Extends port1 evs := by
  unfold ShowFont57 at h
  dsimp only at h
  have h1 := WriteCommand_extends cfg ((0xB0 ||| startPage) % 256) port
  have h2 := WriteCommand_extends cfg ((0x00 + startCol % 16) % 256)
    (SetStartPage cfg startPage port)
  have h3 := WriteCommand_extends cfg ((0x10 + startCol / 16) % 256)
    (WriteCommand cfg ((0x00 + startCol % 16) % 256) (SetStartPage cfg startPage port))
  have ha : port.Extends (SetStartColumn cfg startCol (SetStartPage cfg startPage port)) _ :=
    (h1.trans h2).trans h3
  generalize SetStartColumn cfg startCol (SetStartPage cfg startPage port) = p1 at ha h
  have hs := Port.extends_sendStart SSD1306_I2C_ADD 0 p1
  generalize (p1.I2cMasterSendStart SSD1306_I2C_ADD 0).2 = p2 at hs h
  have hw := Port.extends_writeByte ssd1306DATA_FOLLOWS_BYTE p2
  generalize (p2.I2cMasterWriteByte ssd1306DATA_FOLLOWS_BYTE).2 = p3 at hw h
  cases hloop : ShowFont57.loop (ShowFont57.Src_Pointer fontArraySel asciiChar) 256 0 0 p3 with
  | error e =>
    rw [hloop] at h
    cases h
  | ok p4 =>
    rw [hloop] at h
    simp only [Except.ok.injEq] at h
    obtain ⟨evs, hevs⟩ := ShowFont57_loop_ok_extends _ _ _ _ _ _ hloop
    subst h
    exact ⟨_, ((((ha.trans hs).trans hw).trans hevs).trans
      (Port.extends_writeByte 0x00 p4)).trans (Port.extends_sendStop _)⟩

theorem ShowFont57_ok_of_row (cfg : Config) (fontArraySel asciiChar startPage startCol : Nat)
    (port : Port) (glyph : List Nat)
    (hsrc : ShowFont57.Src_Pointer fontArraySel asciiChar = some glyph) (hg : glyph.length = 5) :
    ∃ port1, ShowFont57 cfg fontArraySel asciiChar startPage startCol port = Except.ok port1 := by
  unfold ShowFont57
  dsimp only
  rw [hsrc]
  obtain ⟨p4, hok, _⟩ := ShowFont57_loop_extends glyph hg 256 0
    ((Port.I2cMasterWriteByte ssd1306DATA_FOLLOWS_BYTE
      (Port.I2cMasterSendStart SSD1306_I2C_ADD 0
        (SetStartColumn cfg startCol (SetStartPage cfg startPage port))).2).2)
    (by omega) (by omega)
  rw [hok]
  exact ⟨_, rfl⟩

theorem ShowString_loop_ok_extends (cfg : Config) (databaseNum : Nat) (msg : Nat → Nat)
    (startPage : Nat) :
    ∀ (fuel internalPtr startCol : Nat) (port port1 : Port),
      ShowString.loop cfg databaseNum msg startPage fuel internalPtr startCol port
        = Except.ok port1 →
      ∃ evs, port.Extends port1 evs := by
  intro fuel
  induction fuel with
  | zero =>
    intro internalPtr startCol port port1 h
    simp [ShowString.loop] at h
  | succ fuel ih =>
    intro internalPtr startCol port port1 h
    unfold ShowString.loop at h
    cases hglyph : ShowFont57 cfg databaseNum (msg internalPtr) startPage startCol port with
    | error e =>
      rw [hglyph] at h
      cases h
    | ok p1 =>
      rw [hglyph] at h
      dsimp only at h
      obtain ⟨evs1, hevs1⟩ := ShowFont57_ok_extends _ _ _ _ _ _ _ hglyph
      by_cases hz : msg (internalPtr + 1) = 0
      · rw [if_pos hz] at h
        simp only [Except.ok.injEq] at h
        subst h
        exact ⟨evs1, hevs1⟩
      · rw [if_neg hz] at h
        obtain ⟨evs2, hevs2⟩ := ih _ _ _ _ h
        exact ⟨_, hevs1.trans hevs2⟩

theorem ShowString_loop_text (cfg : Config) (databaseNum : Nat) (msg : Nat → Nat)
    (startPage : Nat) (hp : startPage < 256) :
    ∀ (rest : List Nat) (c fuel internalPtr startCol : Nat) (port : Port),
      (∀ k, k < (c :: rest).length → msg (internalPtr + k) = (c :: rest).getD k 0) →
      msg (internalPtr + (c :: rest).length) = 0 →
      (∀ x ∈ c :: rest, ∃ glyph, ShowFont57.Src_Pointer databaseNum x = some glyph
        ∧ glyph.length = 5) →
      (c :: rest).length ≤ fuel → startCol < 256 →
      ∃ port1, ShowString.loop cfg databaseNum msg startPage fuel internalPtr startCol port
          = Except.ok port1
        ∧ port.Extends port1 (stringTrace port.i2cPort databaseNum startPage startCol
          (c :: rest)) := by
  intro rest
  induction rest with
  | nil =>
    intro c fuel internalPtr startCol port hmsg hnull htab hfuel hc
    obtain ⟨fuel, rfl⟩ : ∃ f, fuel = f + 1 := ⟨fuel - 1, by simp at hfuel; omega⟩
    obtain ⟨glyph, hsrc, hg⟩ := htab c (List.mem_cons_self _ _)
    have h0 : msg internalPtr = c := by simpa using hmsg 0 (by simp)
    have h1 : msg (internalPtr + 1) = 0 := by simpa using hnull
    obtain ⟨p1, hok, hext⟩ :=
      ShowFont57_extends cfg databaseNum c startPage startCol port glyph hsrc hg hp hc
    refine ⟨p1, ?_, ?_⟩
    · unfold ShowString.loop
      rw [h0, hok]
      dsimp only
      rw [if_pos h1]
    · refine hext.of_eq ?_
      simp [stringTrace, hsrc]
  | cons c2 rest ih =>
    intro c fuel internalPtr startCol port hmsg hnull htab hfuel hc
    obtain ⟨fuel, rfl⟩ : ∃ f, fuel = f + 1 := ⟨fuel - 1, by simp at hfuel; omega⟩
    obtain ⟨glyph, hsrc, hg⟩ := htab c (List.mem_cons_self _ _)
    obtain ⟨glyph2, hsrc2, _⟩ := htab c2 (List.mem_cons_of_mem _ (List.mem_cons_self _ _))
    have h0 : msg internalPtr = c := by simpa using hmsg 0 (by simp)
    have h1 : msg (internalPtr + 1) = c2 := by simpa using hmsg 1 (by simp)
    have hc2 : c2 ≠ 0 := by
      intro hz
      rw [hz, Src_Pointer_zero] at hsrc2
      cases hsrc2
    obtain ⟨p1, hok, hext⟩ :=
      ShowFont57_extends cfg databaseNum c startPage startCol port glyph hsrc hg hp hc
    obtain ⟨port1, hok2, hext2⟩ := ih c2 fuel (internalPtr + 1) ((startCol + 6) % 256) p1
      (by
        intro k hk
        have h := hmsg (k + 1) (by simp at hk ⊢; omega)
        rw [Nat.add_assoc, Nat.add_comm 1 k]
        simpa using h)
      (by
        have h := hnull
        simp only [List.length_cons] at h ⊢
        rw [Nat.add_assoc, Nat.add_comm 1]
        exact h)
      (fun x hx => htab x (List.mem_cons_of_mem _ hx))
      (by simp at hfuel ⊢; omega)
      (Nat.mod_lt _ (by decide))
    rw [hext.2.1] at hext2
    refine ⟨port1, ?_, ?_⟩
    · unfold ShowString.loop
      rw [h0, hok]
      dsimp only
      rw [h1, if_neg hc2]
      exact hok2
    · refine (hext.trans hext2).of_eq ?_
      simp [stringTrace, hsrc, List.append_assoc]

theorem cString_spec (text : List Nat) (behind : Nat → Nat) :
    (∀ k, k < text.length → cString text behind (0 + k) = text.getD k 0)
      ∧ cString text behind (0 + text.length) = 0 := by
  constructor
  · intro k hk
    simp [cString, hk]
  · simp [cString]

/-- What `ShowString` does on a text of at least one character, each with an entry in the
selected table: the priming glyph at the start column, then one glyph per character, the first
one at the start column again. -/
theorem ShowString_text_extends (cfg : Config) (fuel databaseNum : Nat) (c : Nat)
    (rest : List Nat) (behind : Nat → Nat) (startPage startCol : Nat) (port : Port)
    (htab : ∀ x ∈ c :: rest, ∃ glyph, ShowFont57.Src_Pointer databaseNum x = some glyph
      ∧ glyph.length = 5)
    (hf : (c :: rest).length ≤ fuel) (hp : startPage < 256) (hc : startCol < 256) :
    ∃ port1, ShowString cfg fuel databaseNum (cString (c :: rest) behind) startPage startCol port
        = Except.ok port1
      ∧ port.Extends port1
        (addressAt port.i2cPort startPage startCol
          ++ frame port.i2cPort 0x40 [0x00, 0x00, 0x00, 0x00, 0x00, 0x00]
          ++ stringTrace port.i2cPort databaseNum startPage startCol (c :: rest)) := by
  obtain ⟨p1, hok, hext⟩ := ShowFont57_extends cfg 1 96 startPage startCol port _
    Src_Pointer_96 rfl hp hc
  obtain ⟨hmsg, hnull⟩ := cString_spec (c :: rest) behind
  obtain ⟨port1, hok2, hext2⟩ := ShowString_loop_text cfg databaseNum
    (cString (c :: rest) behind) startPage hp rest c fuel 0 startCol p1 hmsg hnull htab hf hc
  rw [hext.2.1] at hext2
  refine ⟨port1, ?_, ?_⟩
  · unfold ShowString
    rw [hok]
    exact hok2
  · refine (hext.trans hext2).of_eq ?_
    simp [List.append_assoc]

theorem ShowString_out_of_fuel (cfg : Config) (databaseNum : Nat) (msg : Nat → Nat)
    (startPage startCol : Nat) (port : Port) :
    ShowString cfg 0 databaseNum msg startPage startCol port = Except.error Fault.outOfFuel := by
  obtain ⟨p1, hok⟩ := ShowFont57_ok_of_row cfg 1 96 startPage startCol port _ Src_Pointer_96 rfl
  unfold ShowString
  rw [hok]
  rfl

/-- What `ShowString(1, "A", 0, 0)` emits: both glyphs are addressed at column 0. -/
theorem ShowString_A_extends (cfg : Config) (fuel : Nat) (behind : Nat → Nat) (port : Port)
    (hf : 1 ≤ fuel) :
    ∃ port1, ShowString cfg fuel 1 (cString [0x41] behind) 0 0 port = Except.ok port1
      ∧ port.Extends port1
        (addressAt port.i2cPort 0 0
          ++ frame port.i2cPort 0x40 [0x00, 0x00, 0x00, 0x00, 0x00, 0x00]
          ++ (addressAt port.i2cPort 0 0
            ++ frame port.i2cPort 0x40 [0x20, 0x54, 0x54, 0x54, 0x78, 0x00])) := by
  obtain ⟨port1, hok, hext⟩ := ShowString_text_extends cfg fuel 1 0x41 [] behind 0 0 port
    (by
      intro x hx
      rw [List.mem_singleton] at hx
      subst hx
      exact ⟨_, Src_Pointer_0x41, rfl⟩)
    (by simpa using hf) (by decide) (by decide)
  refine ⟨port1, hok, hext.of_eq ?_⟩
  simp [stringTrace, Src_Pointer_0x41, List.append_assoc]

/-- C6, as stated, fails: whatever the six bytes of the two data transactions, the trace of
`ShowString(1, "A", 0, 0)` on a new driver is not a glyph frame addressed at column 0 followed
by a glyph frame addressed at column 6. -/
theorem ShowString_A_not_at_column_6 :
    ¬ ∃ (fuel : Nat) (port1 : Port) (g1 g2 : List Nat),
        ShowString Config.quiet fuel 1 (cString [0x41] fun _ => 0) 0 0 (Port.ctor fun _ => 0)
            = Except.ok port1
          ∧ port1.calls = addressAt i2cPort_t.i2cLeft 0 0 ++ frame i2cPort_t.i2cLeft 0x40 g1
            ++ (addressAt i2cPort_t.i2cLeft 0 6 ++ frame i2cPort_t.i2cLeft 0x40 g2) := by
  rintro ⟨fuel, port1, g1, g2, hok, hcalls⟩
  cases fuel with
  | zero =>
    rw [ShowString_out_of_fuel] at hok
    cases hok
  | succ fuel =>
    obtain ⟨port2, hok2, hext⟩ := ShowString_A_extends Config.quiet (fuel + 1) (fun _ => 0)
      (Port.ctor fun _ => 0) (by omega)
    rw [hok2] at hok
    simp only [Except.ok.injEq] at hok
    subst hok
    have h0 : (Port.ctor fun _ => 0).calls = [] := rfl
    have hl : (Port.ctor fun _ => 0).i2cPort = i2cPort_t.i2cLeft := rfl
    have hc := hext.1
    rw [h0, hl, List.nil_append, hcalls] at hc
    have hparse := congrArg (parseFrames none) hc
    have e1 : ∀ (a b : List Nat) (p q : Nat),
        parseFrames none (addressAt i2cPort_t.i2cLeft 0 0 ++ frame i2cPort_t.i2cLeft 0x40 a
          ++ (addressAt i2cPort_t.i2cLeft p q ++ frame i2cPort_t.i2cLeft 0x40 b))
        = [[0x00, 0xB0 ||| 0], [0x00, 0x00 ||| (0 % 16)], [0x00, 0x10 ||| (0 / 16)], 0x40 :: a,
            [0x00, 0xB0 ||| p], [0x00, 0x00 ||| (q % 16)], [0x00, 0x10 ||| (q / 16)],
            0x40 :: b] := by
      intro a b p q
      have hb := parseFrames_frame i2cPort_t.i2cLeft 0x40 b none []
      rw [List.append_nil] at hb
      rw [List.append_assoc, parseFrames_addressAt, parseFrames_frame, parseFrames_addressAt, hb]
      rfl
    rw [e1, e1] at hparse
    simp at hparse

/-- C6, amended: for any fuel of at least 1, `ShowString(1, "A", 0, 0)` returns; it emits the
glyph frame for character code 96 addressed at column 0 (six bytes), followed by the frame that
`ShowFont57` emits for character code 0x41, `'A'`, also addressed at column 0 (six bytes): two
data transactions of six bytes each, twelve data bytes in all. -/
theorem ShowString_A_frames (cfg : Config) (fuel : Nat) (behind : Nat → Nat) (port : Port)
    (hf : 1 ≤ fuel) :
    ∃ (port1 pmid : Port) (glyph : List Nat),
      ShowString cfg fuel 1 (cString [0x41] behind) 0 0 port = Except.ok port1
        ∧ ShowFont57 cfg 1 96 0 0 port = Except.ok pmid
        ∧ ShowFont57 cfg 1 0x41 0 0 pmid = Except.ok port1
        ∧ pmid.calls = port.calls
          ++ (addressAt port.i2cPort 0 0
            ++ frame port.i2cPort 0x40 [0x00, 0x00, 0x00, 0x00, 0x00, 0x00])
        ∧ port1.calls = pmid.calls
          ++ (addressAt port.i2cPort 0 0 ++ frame port.i2cPort 0x40 glyph)
        ∧ glyph.length = 6
        ∧ dataPayloads
            (addressAt port.i2cPort 0 0
              ++ frame port.i2cPort 0x40 [0x00, 0x00, 0x00, 0x00, 0x00, 0x00]
              ++ (addressAt port.i2cPort 0 0 ++ frame port.i2cPort 0x40 glyph))
          = [[0x00, 0x00, 0x00, 0x00, 0x00, 0x00], glyph]
        ∧ ([[0x00, 0x00, 0x00, 0x00, 0x00, 0x00], glyph] : List (List Nat)).flatten.length
          = 12 := by
  obtain ⟨pmid, hok1, hext1⟩ := ShowFont57_extends cfg 1 96 0 0 port _ Src_Pointer_96 rfl
    (by decide) (by decide)
  obtain ⟨port1, hok2, hext2⟩ := ShowFont57_extends cfg 1 0x41 0 0 pmid _ Src_Pointer_0x41 rfl
    (by decide) (by decide)
  rw [hext1.2.1] at hext2
  have hstr : ShowString cfg fuel 1 (cString [0x41] behind) 0 0 port = Except.ok port1 := by
    obtain ⟨fuel, rfl⟩ : ∃ f, fuel = f + 1 := ⟨fuel - 1, by omega⟩
    unfold ShowString
    rw [hok1]
    dsimp only
    unfold ShowString.loop
    have h0 : cString [0x41] behind 0 = 0x41 := by simp [cString]
    have h1 : cString [0x41] behind (0 + 1) = 0 := by simp [cString]
    rw [h0, hok2]
    dsimp only
    rw [if_pos h1]
  have hdata := dataPayloads_pagesTrace port.i2cPort 0
    [[0x00, 0x00, 0x00, 0x00, 0x00, 0x00], [0x20, 0x54, 0x54, 0x54, 0x78, 0x00]] 0
  refine ⟨port1, pmid, [0x20, 0x54, 0x54, 0x54, 0x78, 0x00], hstr, hok1, hok2, hext1.1,
    hext2.1, rfl, ?_, rfl⟩
  simpa [pagesTrace, addressAt, List.append_assoc] using hdata

/-- Witness of the amended C6: fuel 1 on a new driver. -/
theorem ShowString_A_frames_witness :
    1 ≤ 1
      ∧ ∃ (port1 pmid : Port) (glyph : List Nat),
        ShowString Config.quiet 1 1 (cString [0x41] fun _ => 0) 0 0 (Port.ctor fun _ => 0)
            = Except.ok port1
          ∧ ShowFont57 Config.quiet 1 96 0 0 (Port.ctor fun _ => 0) = Except.ok pmid
          ∧ ShowFont57 Config.quiet 1 0x41 0 0 pmid = Except.ok port1
          ∧ pmid.calls = (Port.ctor fun _ => 0).calls
            ++ (addressAt (Port.ctor fun _ => 0).i2cPort 0 0
              ++ frame (Port.ctor fun _ => 0).i2cPort 0x40 [0x00, 0x00, 0x00, 0x00, 0x00, 0x00])
          ∧ port1.calls = pmid.calls
            ++ (addressAt (Port.ctor fun _ => 0).i2cPort 0 0
              ++ frame (Port.ctor fun _ => 0).i2cPort 0x40 glyph)
          ∧ glyph.length = 6
          ∧ dataPayloads
              (addressAt (Port.ctor fun _ => 0).i2cPort 0 0
                ++ frame (Port.ctor fun _ => 0).i2cPort 0x40 [0x00, 0x00, 0x00, 0x00, 0x00, 0x00]
                ++ (addressAt (Port.ctor fun _ => 0).i2cPort 0 0
                  ++ frame (Port.ctor fun _ => 0).i2cPort 0x40 glyph))
            = [[0x00, 0x00, 0x00, 0x00, 0x00, 0x00], glyph]
          ∧ ([[0x00, 0x00, 0x00, 0x00, 0x00, 0x00], glyph] : List (List Nat)).flatten.length
            = 12 :=
  ⟨by decide,
    ShowString_A_frames Config.quiet 1 (fun _ => 0) (Port.ctor fun _ => 0) (by decide)⟩

/-- C9, at the empty text: the loop of `ShowString` tests for the terminating null only after
it has shown a character, so for a text that is only the null it emits the priming glyph and
then asks `ShowFont57` for character code 0, whose row `0 - 1` lies before the table; no fuel
makes the call return, and with fuel it fails on that read. -/
theorem ShowString_empty_text (cfg : Config) (fuel databaseNum : Nat) (behind : Nat → Nat)
    (startPage startCol : Nat) (port : Port) :
    cString [] behind 0 = 0
      ∧ ShowFont57.Src_Pointer databaseNum 0 = none
      ∧ (∃ p1, ShowFont57 cfg 1 96 startPage startCol port = Except.ok p1
        ∧ ShowString cfg (fuel + 1) databaseNum (cString [] behind) startPage startCol port
          = ShowFont57 cfg databaseNum 0 startPage startCol p1)
      ∧ ShowString cfg (fuel + 1) databaseNum (cString [] behind) startPage startCol port
        = Except.error Fault.outOfBounds
      ∧ ∀ port1 : Port,
        ShowString cfg fuel databaseNum (cString [] behind) startPage startCol port
          ≠ Except.ok port1 := by
  have hnull : cString [] behind 0 = 0 := by simp [cString]
  obtain ⟨p1, hok⟩ := ShowFont57_ok_of_row cfg 1 96 startPage startCol port _ Src_Pointer_96 rfl
  have hbad := fun p : Port =>
    ShowFont57_undefined cfg databaseNum 0 startPage startCol p (Src_Pointer_zero databaseNum)
  have hstep : ∀ f : Nat,
      ShowString cfg (f + 1) databaseNum (cString [] behind) startPage startCol port
        = Except.error Fault.outOfBounds := by
    intro f
    unfold ShowString
    rw [hok]
    dsimp only
    unfold ShowString.loop
    rw [hnull, hbad]
  refine ⟨hnull, Src_Pointer_zero databaseNum, ⟨p1, hok, ?_⟩, hstep fuel, ?_⟩
  · rw [hstep, hbad]
  · intro port1 h
    cases fuel with
    | zero =>
      rw [ShowString_out_of_fuel] at h
      cases h
    | succ f =>
      rw [hstep f] at h
      cases h

set_option maxRecDepth 100000 in
theorem Ascii_1_row_96 : Ascii_1[96 - 1]? = some [0x00, 0x00, 0x00, 0x00, 0x00] := by
  rfl

/-- C10: for every font selector, text, page and start column, `ShowString` begins by showing
character code 96 of table 1 at the given page and start column: that call returns, what it
emits is the addressing of the page and column and one data transaction of six bytes `0x00` (row
96 of table 1 is all zero), the loop over the text starts only after it, and the trace of every
call that returns begins with this frame. -/
theorem ShowString_priming_glyph (cfg : Config) (fuel databaseNum : Nat) (msg : Nat → Nat)
    (startPage startCol : Nat) (port : Port) (hp : startPage < 256) (hc : startCol < 256) :
    Ascii_1[96 - 1]? = some [0x00, 0x00, 0x00, 0x00, 0x00]
      ∧ ∃ p1 : Port, ShowFont57 cfg 1 96 startPage startCol port = Except.ok p1
        ∧ p1.calls = port.calls
          ++ (addressAt port.i2cPort startPage startCol
            ++ frame port.i2cPort 0x40 [0x00, 0x00, 0x00, 0x00, 0x00, 0x00])
        ∧ ShowString cfg fuel databaseNum msg startPage startCol port
          = ShowString.loop cfg databaseNum msg startPage fuel 0 startCol p1
        ∧ ∀ port1 : Port,
          ShowString cfg fuel databaseNum msg startPage startCol port = Except.ok port1 →
          ∃ rest : List Call, port1.calls = port.calls
            ++ (addressAt port.i2cPort startPage startCol
              ++ frame port.i2cPort 0x40 [0x00, 0x00, 0x00, 0x00, 0x00, 0x00])
            ++ rest := by
  obtain ⟨p1, hok, hext⟩ := ShowFont57_extends cfg 1 96 startPage startCol port _
    Src_Pointer_96 rfl hp hc
  have hstr : ShowString cfg fuel databaseNum msg startPage startCol port
      = ShowString.loop cfg databaseNum msg startPage fuel 0 startCol p1 := by
    unfold ShowString
    rw [hok]
  refine ⟨Ascii_1_row_96, p1, hok, hext.1, hstr, ?_⟩
  intro port1 h
  rw [hstr] at h
  obtain ⟨rest, hrest⟩ := ShowString_loop_ok_extends _ _ _ _ _ _ _ _ _ h
  refine ⟨rest, ?_⟩
  rw [hrest.1, hext.1]
  rfl

/-- Witness of C10: the text `"A"` with table 1 at page 0, column 0, on a new driver. -/
theorem ShowString_priming_glyph_witness :
    0 < 256
      ∧ Ascii_1[96 - 1]? = some [0x00, 0x00, 0x00, 0x00, 0x00]
      ∧ ∃ p1 : Port, ShowFont57 Config.quiet 1 96 0 0 (Port.ctor fun _ => 0) = Except.ok p1
        ∧ p1.calls = (Port.ctor fun _ => 0).calls
          ++ (addressAt (Port.ctor fun _ => 0).i2cPort 0 0
            ++ frame (Port.ctor fun _ => 0).i2cPort 0x40 [0x00, 0x00, 0x00, 0x00, 0x00, 0x00])
        ∧ ShowString Config.quiet 1 1 (cString [0x41] fun _ => 0) 0 0 (Port.ctor fun _ => 0)
          = ShowString.loop Config.quiet 1 (cString [0x41] fun _ => 0) 0 1 0 0 p1
        ∧ ∀ port1 : Port,
          ShowString Config.quiet 1 1 (cString [0x41] fun _ => 0) 0 0 (Port.ctor fun _ => 0)
            = Except.ok port1 →
          ∃ rest : List Call, port1.calls = (Port.ctor fun _ => 0).calls
            ++ (addressAt (Port.ctor fun _ => 0).i2cPort 0 0
              ++ frame (Port.ctor fun _ => 0).i2cPort 0x40 [0x00, 0x00, 0x00, 0x00, 0x00, 0x00])
            ++ rest :=
  ⟨by decide,
    ShowString_priming_glyph Config.quiet 1 1 (cString [0x41] fun _ => 0) 0 0
      (Port.ctor fun _ => 0) (by decide) (by decide)⟩

/-! ## Operations with a fixed trace -/

theorem Traces.comp {F G : Port → Port} {TF TG : i2cPort_t → List Call} (hF : Traces F TF)
    (hG : Traces G TG) : Traces (fun port => G (F port)) (fun ch => TF ch ++ TG ch) := by
  intro port
  have h1 := hF port
  have h2 := hG (F port)
  rw [h1.2.1] at h2
  exact h1.trans h2

theorem Traces.retrace {F : Port → Port} {T1 T2 : i2cPort_t → List Call} (h : Traces F T1)
    (he : ∀ ch, T1 ch = T2 ch) : Traces F T2 := by
  intro port
  exact (h port).of_eq (he _)

theorem Traces.calls {F : Port → Port} {T : i2cPort_t → List Call} (h : Traces F T)
    (port : Port) : (F port).calls = port.calls ++ T port.i2cPort :=
  (h port).1

theorem traces_printIf (switch : Nat) (msg : String) : Traces (printIf switch msg) (fun _ => []) :=
  fun port => extends_printIf switch msg port

theorem traces_WriteCommand (cfg : Config) (cmd : Nat) :
    Traces (WriteCommand cfg cmd) (fun ch => frame ch 0x00 [cmd]) :=
  fun port => WriteCommand_extends cfg cmd port

theorem traces_WriteData (cmd : Nat) : Traces (WriteData cmd) (fun ch => frame ch 0x40 [cmd]) :=
  fun port => WriteData_extends cmd port

theorem traces_WriteCommandArray (cfg : Config) (payload : List Nat)
    (hn : payload.length ≤ 255) :
    Traces (WriteCommandArray cfg (localArray payload) payload.length)
      (fun ch => frame ch 0x00 payload) := by
  intro port
  have h := WriteCommandArray_extends cfg (localArray payload) payload.length hn port
  rw [localArray_range] at h
  exact h

/-- A register operation: an optional debug print, then one command array. -/
theorem traces_register (cfg : Config) (switch : Nat) (msg : String) (payload : List Nat)
    (hn : payload.length ≤ 255) :
    Traces (fun port => WriteCommandArray cfg (localArray payload) payload.length
        (printIf switch msg port))
      (fun ch => frame ch 0x00 payload) :=
  ((traces_printIf switch msg).comp (traces_WriteCommandArray cfg payload hn)).retrace
    (fun _ => List.nil_append _)

/-- A single-byte operation: an optional debug print, then one `WriteCommand`. -/
theorem traces_printed_command (cfg : Config) (switch : Nat) (msg : String) (cmd : Nat) :
    Traces (fun port => WriteCommand cfg cmd (printIf switch msg port))
      (fun ch => frame ch 0x00 [cmd]) :=
  ((traces_printIf switch msg).comp (traces_WriteCommand cfg cmd)).retrace
    (fun _ => List.nil_append _)

theorem traces_call (c : Call) : Traces (Port.call c) (fun _ => [c]) :=
  fun port => Port.extends_call c port

theorem traces_DelayUs (n : Nat) : Traces (Port.DelayUs n) (fun _ => [Call.CyDelayUs n]) :=
  traces_call _

theorem traces_DelayMs (n : Nat) : Traces (Port.DelayMs n) (fun _ => [Call.CyDelay n]) :=
  traces_call _

theorem traces_PullResetLow :
    Traces Port.PullResetLow
      (fun ch => [Call.CapSense_SetCapDevice ch, Call.CapSense_SetGpio false]) := by
  intro port
  unfold Port.PullResetLow
  split <;> rename_i h <;> rw [h] <;>
    exact ((Port.extends_call _ port).trans (Port.extends_call _ _))

theorem traces_PullResetHigh :
    Traces Port.PullResetHigh
      (fun ch => [Call.CapSense_SetCapDevice ch, Call.CapSense_SetGpio true]) := by
  intro port
  unfold Port.PullResetHigh
  split <;> rename_i h <;> rw [h] <;>
    exact ((Port.extends_call _ port).trans (Port.extends_call _ _))

theorem traces_Reset (cfg : Config) : Traces (Reset cfg) resetTrace :=
  ((((traces_printIf cfg.configDEBUG_SSD1306_VERBOSE "SSD1306: Resetting...\r\n").comp
    traces_PullResetLow).comp (traces_DelayUs ssd1306_RESET_DELAY_TIME_US)).comp
    traces_PullResetHigh).retrace (fun _ => rfl)

theorem traces_SetChargePumpOn (cfg : Config) :
    Traces (SetChargePumpOn cfg) (fun ch => frame ch 0x00 [0x8D, 0x14]) :=
  traces_register cfg _ _ [0x8D, 0x14] (by simp)

theorem traces_SetChargePumpOff (cfg : Config) :
    Traces (SetChargePumpOff cfg) (fun ch => frame ch 0x00 [0x8D, 0x10]) :=
  traces_register cfg _ _ [0x8D, 0x10] (by simp)

theorem traces_ActivateDisplay (cfg : Config) :
    Traces (ActivateDisplay cfg) (fun ch => frame ch 0x00 [0xAF]) :=
  traces_printed_command cfg _ _ 0xAF

theorem traces_DeactivateDisplay (cfg : Config) :
    Traces (DeactivateDisplay cfg) (fun ch => frame ch 0x00 [0xAE]) :=
  traces_printed_command cfg _ _ 0xAE

theorem traces_TurnEveryPixelOn (cfg : Config) :
    Traces (TurnEveryPixelOn cfg) (fun ch => frame ch 0x00 [0xA5]) :=
  traces_register cfg _ _ [0xA5] (by simp)

theorem traces_TurnEveryPixelOff (cfg : Config) :
    Traces (TurnEveryPixelOff cfg) (fun ch => frame ch 0x00 [0xA4]) :=
  traces_register cfg _ _ [0xA4] (by simp)

theorem traces_SetDisplayClock (cfg : Config) (regVal : Nat) :
    Traces (SetDisplayClock cfg regVal) (fun ch => frame ch 0x00 [0xD5, regVal]) :=
  traces_register cfg _ _ [0xD5, regVal] (by simp)

theorem traces_SetMultiplexRatio (cfg : Config) (regVal : Nat) :
    Traces (SetMultiplexRatio cfg regVal) (fun ch => frame ch 0x00 [0xA8, regVal]) :=
  traces_register cfg _ _ [0xA8, regVal] (by simp)

theorem traces_SetAddressingMode (cfg : Config) (addressingMode : addressingMode_t) :
    Traces (SetAddressingMode cfg addressingMode)
      (fun ch => frame ch 0x00 [0x20, addressingMode.toUint8]) :=
  traces_register cfg _ _ [0x20, addressingMode.toUint8] (by simp)

theorem traces_SetSegmentRemap (cfg : Config) (regVal : Nat) :
    Traces (SetSegmentRemap cfg regVal) (fun ch => frame ch 0x00 [regVal]) :=
  traces_register cfg _ _ [regVal] (by simp)

theorem traces_SetCommonRemap (cfg : Config) (regVal : Nat) :
    Traces (SetCommonRemap cfg regVal) (fun ch => frame ch 0x00 [regVal]) :=
  traces_register cfg _ _ [regVal] (by simp)

theorem traces_SetDisplayOffset (cfg : Config) (regVal : Nat) :
    Traces (SetDisplayOffset cfg regVal) (fun ch => frame ch 0x00 [0xD3, regVal]) :=
  traces_register cfg _ _ [0xD3, regVal] (by simp)

theorem traces_SetStartLine (cfg : Config) (regVal : Nat) :
    Traces (SetStartLine cfg regVal) (fun ch => frame ch 0x00 [(0x40 ||| regVal) % 256]) :=
  traces_register cfg _ _ [(0x40 ||| regVal) % 256] (by simp)

theorem traces_SetComPinConfig (cfg : Config) (regVal : Nat) :
    Traces (SetComPinConfig cfg regVal) (fun ch => frame ch 0x00 [0xDA, regVal]) :=
  traces_register cfg _ _ [0xDA, regVal] (by simp)

theorem traces_SetContrastControl (cfg : Config) (d : Nat) :
    Traces (SetContrastControl cfg d) (fun ch => frame ch 0x00 [0x81, d]) :=
  traces_register cfg _ _ [0x81, d] (by simp)

theorem traces_SetPrechargePeriod (cfg : Config) (d : Nat) :
    Traces (SetPrechargePeriod cfg d) (fun ch => frame ch 0x00 [0xD9, d]) :=
  traces_register cfg _ _ [0xD9, d] (by simp)

theorem traces_SetVCOMH (cfg : Config) (d : Nat) :
    Traces (SetVCOMH cfg d) (fun ch => frame ch 0x00 [0xDB, d]) :=
  traces_register cfg _ _ [0xDB, d] (by simp)

theorem traces_SetInverseDisplay (cfg : Config) (isInverse : Bool) :
    Traces (SetInverseDisplay cfg isInverse)
      (fun ch => frame ch 0x00 [if isInverse then 0xA7 else 0xA6]) := by
  cases isInverse
  · exact traces_register cfg _ _ [0xA6] (by simp)
  · exact traces_register cfg _ _ [0xA7] (by simp)

theorem traces_FillRam (cfg : Config) (byteToFillRamWith : Nat) :
    Traces (FillRam cfg byteToFillRamWith)
      (fun ch => pagesTrace ch 0 0 (List.replicate 4 (List.replicate 128 byteToFillRamWith))) :=
  fun port => FillRam_extends cfg byteToFillRamWith port

theorem parseFrames_single (ch : i2cPort_t) (control : Nat) (payload : List Nat) :
    parseFrames none (frame ch control payload) = [control :: payload] := by
  have h := parseFrames_frame ch control payload none []
  rw [List.append_nil] at h
  rw [h]
  rfl

/-- C15: each register operation emits exactly one command transaction (control byte `0x00`)
whose payload is its opcode followed, where it has one, by the operand passed through
unchanged; the addressing modes are encoded as 0, 1 and 2. -/
theorem register_operations_trace (cfg : Config) (v : Nat) (m : addressingMode_t)
    (port : Port) :
    (SetDisplayClock cfg v port).calls = port.calls ++ frame port.i2cPort 0x00 [0xD5, v]
      ∧ (SetMultiplexRatio cfg v port).calls = port.calls ++ frame port.i2cPort 0x00 [0xA8, v]
      ∧ (SetDisplayOffset cfg v port).calls = port.calls ++ frame port.i2cPort 0x00 [0xD3, v]
      ∧ (SetAddressingMode cfg m port).calls
        = port.calls ++ frame port.i2cPort 0x00 [0x20, m.toUint8]
      ∧ addressingMode_t.HORIZONTAL_ADDRESSING_MODE.toUint8 = 0x00
      ∧ addressingMode_t.VERTICAL_ADDRESSING_MODE.toUint8 = 0x01
      ∧ addressingMode_t.PAGE_ADDRESSING_MODE.toUint8 = 0x02
      ∧ (SetComPinConfig cfg v port).calls = port.calls ++ frame port.i2cPort 0x00 [0xDA, v]
      ∧ (SetContrastControl cfg v port).calls = port.calls ++ frame port.i2cPort 0x00 [0x81, v]
      ∧ (SetPrechargePeriod cfg v port).calls = port.calls ++ frame port.i2cPort 0x00 [0xD9, v]
      ∧ (SetVCOMH cfg v port).calls = port.calls ++ frame port.i2cPort 0x00 [0xDB, v]
      ∧ (SetChargePumpOn cfg port).calls = port.calls ++ frame port.i2cPort 0x00 [0x8D, 0x14]
      ∧ (SetChargePumpOff cfg port).calls = port.calls ++ frame port.i2cPort 0x00 [0x8D, 0x10]
      ∧ (ActivateDisplay cfg port).calls = port.calls ++ frame port.i2cPort 0x00 [0xAF]
      ∧ (DeactivateDisplay cfg port).calls = port.calls ++ frame port.i2cPort 0x00 [0xAE]
      ∧ (TurnEveryPixelOn cfg port).calls = port.calls ++ frame port.i2cPort 0x00 [0xA5]
      ∧ (TurnEveryPixelOff cfg port).calls = port.calls ++ frame port.i2cPort 0x00 [0xA4]
      ∧ (SetInverseDisplay cfg true port).calls = port.calls ++ frame port.i2cPort 0x00 [0xA7]
      ∧ (SetInverseDisplay cfg false port).calls = port.calls ++ frame port.i2cPort 0x00 [0xA6]
      ∧ ∀ payload : List Nat,
        parseFrames none (frame port.i2cPort 0x00 payload) = [0x00 :: payload] :=
  ⟨(traces_SetDisplayClock cfg v).calls port, (traces_SetMultiplexRatio cfg v).calls port,
    (traces_SetDisplayOffset cfg v).calls port, (traces_SetAddressingMode cfg m).calls port,
    rfl, rfl, rfl,
    (traces_SetComPinConfig cfg v).calls port, (traces_SetContrastControl cfg v).calls port,
    (traces_SetPrechargePeriod cfg v).calls port, (traces_SetVCOMH cfg v).calls port,
    (traces_SetChargePumpOn cfg).calls port, (traces_SetChargePumpOff cfg).calls port,
    (traces_ActivateDisplay cfg).calls port, (traces_DeactivateDisplay cfg).calls port,
    (traces_TurnEveryPixelOn cfg).calls port, (traces_TurnEveryPixelOff cfg).calls port,
    (traces_SetInverseDisplay cfg true).calls port,
    (traces_SetInverseDisplay cfg false).calls port,
    fun payload => parseFrames_single port.i2cPort 0x00 payload⟩

/-- C16, as stated, fails: on a new driver `SetSegmentRemap(0x00)` emits the command byte
`0x00`, which is neither `0xA0` nor `0xA1`, and `SetCommonRemap(0x00)` emits `0x00`, which is
neither `0xC0` nor `0xC8`. -/
theorem remap_zero_not_an_opcode :
    commandPayloads (SetSegmentRemap Config.quiet 0x00 (Port.ctor fun _ => 0)).calls = [[0x00]]
      ∧ ¬ (commandPayloads (SetSegmentRemap Config.quiet 0x00 (Port.ctor fun _ => 0)).calls
            = [[0xA0]]
          ∨ commandPayloads (SetSegmentRemap Config.quiet 0x00 (Port.ctor fun _ => 0)).calls
            = [[0xA1]])
      ∧ commandPayloads (SetCommonRemap Config.quiet 0x00 (Port.ctor fun _ => 0)).calls
        = [[0x00]]
      ∧ ¬ (commandPayloads (SetCommonRemap Config.quiet 0x00 (Port.ctor fun _ => 0)).calls
            = [[0xC0]]
          ∨ commandPayloads (SetCommonRemap Config.quiet 0x00 (Port.ctor fun _ => 0)).calls
            = [[0xC8]]) := by
  have h1 : commandPayloads (SetSegmentRemap Config.quiet 0x00 (Port.ctor fun _ => 0)).calls
      = [[0x00]] := by
    rw [(traces_SetSegmentRemap Config.quiet 0x00).calls]
    rfl
  have h2 : commandPayloads (SetCommonRemap Config.quiet 0x00 (Port.ctor fun _ => 0)).calls
      = [[0x00]] := by
    rw [(traces_SetCommonRemap Config.quiet 0x00).calls]
    rfl
  refine ⟨h1, ?_, h2, ?_⟩
  · rw [h1]
    decide
  · rw [h2]
    decide

/-- C16, amended: `SetSegmentRemap(regVal)` and `SetCommonRemap(regVal)` each emit exactly one
command transaction whose single byte is `regVal` itself, unchanged; so the byte is a
segment-remap opcode exactly when `regVal` is `0xA0` or `0xA1`, and a COM-scan-direction opcode
exactly when `regVal` is `0xC0` or `0xC8`. -/
theorem remap_passes_operand (cfg : Config) (regVal : Nat) (port : Port) :
    (SetSegmentRemap cfg regVal port).calls = port.calls ++ frame port.i2cPort 0x00 [regVal]
      ∧ (SetCommonRemap cfg regVal port).calls = port.calls ++ frame port.i2cPort 0x00 [regVal]
      ∧ commandPayloads (frame port.i2cPort 0x00 [regVal]) = [[regVal]]
      ∧ (commandPayloads (frame port.i2cPort 0x00 [regVal]) = [[0xA0]]
          ∨ commandPayloads (frame port.i2cPort 0x00 [regVal]) = [[0xA1]]
        ↔ regVal = 0xA0 ∨ regVal = 0xA1)
      ∧ (commandPayloads (frame port.i2cPort 0x00 [regVal]) = [[0xC0]]
          ∨ commandPayloads (frame port.i2cPort 0x00 [regVal]) = [[0xC8]]
        ↔ regVal = 0xC0 ∨ regVal = 0xC8) := by
  have h : commandPayloads (frame port.i2cPort 0x00 [regVal]) = [[regVal]] := by
    unfold commandPayloads
    rw [parseFrames_single]
    rfl
  refine ⟨(traces_SetSegmentRemap cfg regVal).calls port,
    (traces_SetCommonRemap cfg regVal).calls port, h, ?_, ?_⟩
  · rw [h]
    simp
  · rw [h]
    simp

/-- C20: `Reset` makes exactly these calls, in order: the reset line of the selected side is
driven low, one delay of 200 microseconds (which is at least the 3 microseconds the datasheet
asks for), the line is driven high; none of them is a bus primitive, so the trace holds no bus
transaction. -/
theorem Reset_trace (cfg : Config) (port : Port) :
    (Reset cfg port).calls
        = port.calls
          ++ [Call.CapSense_SetCapDevice port.i2cPort, Call.CapSense_SetGpio false,
              Call.CyDelayUs 200,
              Call.CapSense_SetCapDevice port.i2cPort, Call.CapSense_SetGpio true]
      ∧ ssd1306_RESET_DELAY_TIME_US = 200
      ∧ 3 ≤ ssd1306_RESET_DELAY_TIME_US
      ∧ (∀ c ∈ [Call.CapSense_SetCapDevice port.i2cPort, Call.CapSense_SetGpio false,
            Call.CyDelayUs 200,
            Call.CapSense_SetCapDevice port.i2cPort, Call.CapSense_SetGpio true],
          c.isBus = false)
      ∧ parseFrames none
          [Call.CapSense_SetCapDevice port.i2cPort, Call.CapSense_SetGpio false,
            Call.CyDelayUs 200,
            Call.CapSense_SetCapDevice port.i2cPort, Call.CapSense_SetGpio true] = [] := by
  refine ⟨(traces_Reset cfg).calls port, rfl, by decide, ?_, rfl⟩
  intro c hc
  simp only [List.mem_cons, List.mem_singleton, List.not_mem_nil, or_false] at hc
  rcases hc with h | h | h | h | h <;> rw [h] <;> rfl

/-! ## Fading -/

theorem commandPayloads_frame (ch : i2cPort_t) (payload : List Nat) (rest : List Call) :
    commandPayloads (frame ch 0x00 payload ++ rest) = payload :: commandPayloads rest := by
  unfold commandPayloads
  rw [parseFrames_frame]
  rfl

theorem commandPayloads_dataFrame (ch : i2cPort_t) (payload : List Nat) (rest : List Call) :
    commandPayloads (frame ch 0x40 payload ++ rest) = commandPayloads rest := by
  unfold commandPayloads
  rw [parseFrames_frame]
  rfl

theorem commandPayloads_other (c : Call) (rest : List Call) (hc : c.isBus = false) :
    commandPayloads (c :: rest) = commandPayloads rest := by
  unfold commandPayloads
  cases c <;> first | rfl | cases hc

theorem commandPayloads_nil : commandPayloads [] = [] := by
  rfl

theorem commandPayloads_fadeDelay (rest : List Call) :
    commandPayloads (fadeDelay ++ rest) = commandPayloads rest := by
  unfold commandPayloads
  rfl

theorem commandPayloads_fadeSteps (ch : i2cPort_t) (values : List Nat) (rest : List Call) :
    commandPayloads (values.flatMap (fun v => frame ch 0x00 [0x81, v] ++ fadeDelay) ++ rest)
      = values.map (fun v => [0x81, v]) ++ commandPayloads rest := by
  induction values with
  | nil => rfl
  | cons v vs ih =>
    rw [List.flatMap_cons, List.append_assoc, List.append_assoc, commandPayloads_frame,
      commandPayloads_fadeDelay, ih]
    rfl

theorem contrast_of_steps (values : List Nat) (rest : List (List Nat)) :
    (values.map (fun v => [0x81, v]) ++ rest).filterMap
        (fun payload => match payload with
          | [0x81, v] => some v
          | _ => none)
      = values ++ rest.filterMap
        (fun payload => match payload with
          | [0x81, v] => some v
          | _ => none) := by
  induction values with
  | nil => rfl
  | cons v vs ih =>
    rw [List.map_cons, List.cons_append, List.filterMap_cons]
    simp only [ih, List.cons_append]

theorem brightness_steps : ssd1306BRIGHTNESS + 1 = 144 := by
  rfl

theorem traces_fadeStep (cfg : Config) (v : Nat) :
    Traces (fun port =>
        Port.DelayUs 200 (Port.DelayUs 200 (Port.DelayUs 200 (SetContrastControl cfg v port))))
      (fun ch => frame ch 0x00 [0x81, v] ++ fadeDelay) :=
  ((((traces_SetContrastControl cfg v).comp (traces_DelayUs 200)).comp
    (traces_DelayUs 200)).comp (traces_DelayUs 200)).retrace
    (fun _ => by simp [fadeDelay, List.append_assoc])

theorem FadeIn_loop_extends (cfg : Config) :
    ∀ (fuel i : Nat) (port : Port), i ≤ 144 → 144 - i ≤ fuel →
      port.Extends (FadeIn.loop cfg fuel i port)
        ((List.range' i (144 - i)).flatMap
          (fun v => frame port.i2cPort 0x00 [0x81, v] ++ fadeDelay)) := by
  intro fuel
  induction fuel with
  | zero =>
    intro i port h1 h2
    have h3 : 144 - i = 0 := by omega
    rw [h3]
    simpa [FadeIn.loop] using Port.Extends.refl port
  | succ fuel ih =>
    intro i port h1 h2
    unfold FadeIn.loop
    rw [brightness_steps]
    by_cases hlt : i < 144
    · rw [if_pos hlt]
      dsimp only
      have hv : i % 256 = i := Nat.mod_eq_of_lt (by omega)
      have hnext : (i + 1) % uintRange = i + 1 :=
        Nat.mod_eq_of_lt (by unfold uintRange; omega)
      rw [hv, hnext]
      have hstep := traces_fadeStep cfg i port
      have hrest := ih (i + 1)
        (Port.DelayUs 200 (Port.DelayUs 200 (Port.DelayUs 200 (SetContrastControl cfg i port))))
        (by omega) (by omega)
      rw [hstep.2.1] at hrest
      refine (hstep.trans hrest).of_eq ?_
      have hlen : 144 - i = (144 - (i + 1)) + 1 := by omega
      rw [hlen, List.range'_succ, List.flatMap_cons]
    · rw [if_neg hlt]
      have h3 : 144 - i = 0 := by omega
      rw [h3]
      simpa using Port.Extends.refl port

theorem traces_FadeIn (cfg : Config) :
    Traces (FadeIn cfg)
      (fun ch => frame ch 0x00 [0xAF]
        ++ (List.range 144).flatMap (fun v => frame ch 0x00 [0x81, v] ++ fadeDelay)) := by
  have hloop : Traces (FadeIn.loop cfg 256 0)
      (fun ch => (List.range 144).flatMap (fun v => frame ch 0x00 [0x81, v] ++ fadeDelay)) := by
    intro port
    have h := FadeIn_loop_extends cfg 256 0 port (by omega) (by omega)
    rw [List.range_eq_range']
    exact h
  intro port
  unfold FadeIn
  exact ((traces_ActivateDisplay cfg).comp hloop) port

theorem FadeOut_loop_extends (cfg : Config) :
    ∀ (fuel i : Nat) (port : Port), i ≤ 144 → i ≤ fuel →
      port.Extends (FadeOut.loop cfg fuel i port)
        ((List.range i).reverse.flatMap
          (fun v => frame port.i2cPort 0x00 [0x81, v] ++ fadeDelay)) := by
  intro fuel
  induction fuel with
  | zero =>
    intro i port h1 h2
    have h3 : i = 0 := by omega
    subst h3
    simpa [FadeOut.loop] using Port.Extends.refl port
  | succ fuel ih =>
    intro i port h1 h2
    unfold FadeOut.loop
    by_cases hpos : i > 0
    · rw [if_pos hpos]
      dsimp only
      have hnext : (i + uintRange - 1) % uintRange = i - 1 := by
        unfold uintRange
        omega
      have hv : (i - 1) % 256 = i - 1 := Nat.mod_eq_of_lt (by omega)
      rw [hnext, hv]
      have hstep := traces_fadeStep cfg (i - 1) port
      have hrest := ih (i - 1)
        (Port.DelayUs 200 (Port.DelayUs 200 (Port.DelayUs 200
          (SetContrastControl cfg (i - 1) port))))
        (by omega) (by omega)
      rw [hstep.2.1] at hrest
      refine (hstep.trans hrest).of_eq ?_
      obtain ⟨k, rfl⟩ : ∃ k, i = k + 1 := ⟨i - 1, by omega⟩
      rw [List.range_succ, List.reverse_append]
      simp
    · rw [if_neg hpos]
      have h3 : i = 0 := by omega
      subst h3
      simpa using Port.Extends.refl port

theorem traces_FadeOut (cfg : Config) :
    Traces (FadeOut cfg)
      (fun ch => (List.range 144).reverse.flatMap
          (fun v => frame ch 0x00 [0x81, v] ++ fadeDelay)
        ++ frame ch 0x00 [0xAE]) := by
  have hloop : Traces (FadeOut.loop cfg 256 (ssd1306BRIGHTNESS + 1))
      (fun ch => (List.range 144).reverse.flatMap
        (fun v => frame ch 0x00 [0x81, v] ++ fadeDelay)) := by
    intro port
    rw [brightness_steps]
    exact FadeOut_loop_extends cfg 256 144 port (by omega) (by omega)
  intro port
  unfold FadeOut
  exact (hloop.comp (traces_DeactivateDisplay cfg)) port

theorem contrast_FadeIn (ch : i2cPort_t) :
    commandPayloads (frame ch 0x00 [0xAF]
        ++ (List.range 144).flatMap (fun v => frame ch 0x00 [0x81, v] ++ fadeDelay))
      = [0xAF] :: (List.range 144).map (fun v => [0x81, v]) := by
  have h := commandPayloads_fadeSteps ch (List.range 144) []
  rw [List.append_nil] at h
  rw [commandPayloads_frame, h, commandPayloads_nil, List.append_nil]

theorem contrast_FadeOut (ch : i2cPort_t) :
    commandPayloads ((List.range 144).reverse.flatMap
          (fun v => frame ch 0x00 [0x81, v] ++ fadeDelay)
        ++ frame ch 0x00 [0xAE])
      = (List.range 144).reverse.map (fun v => [0x81, v]) ++ [[0xAE]] := by
  rw [commandPayloads_fadeSteps]
  have h := commandPayloads_frame ch [0xAE] []
  rw [List.append_nil] at h
  rw [h, commandPayloads_nil]

theorem contrast_of_commands (values : List Nat) :
    (values.map (fun v => [0x81, v])).filterMap
        (fun payload => match payload with
          | [0x81, v] => some v
          | _ => none)
      = values := by
  have h := contrast_of_steps values []
  simpa using h

set_option maxRecDepth 100000 in
theorem range_reverse_144 :
    (List.range 144).reverse = (List.range 144).map (fun k => 0x8F - k) := by
  decide

theorem contrastValues_FadeIn (ch : i2cPort_t) :
    contrastValues (frame ch 0x00 [0xAF]
        ++ (List.range 144).flatMap (fun v => frame ch 0x00 [0x81, v] ++ fadeDelay))
      = List.range 144 := by
  unfold contrastValues
  rw [contrast_FadeIn]
  exact contrast_of_commands (List.range 144)

theorem contrastValues_FadeOut (ch : i2cPort_t) :
    contrastValues ((List.range 144).reverse.flatMap
          (fun v => frame ch 0x00 [0x81, v] ++ fadeDelay)
        ++ frame ch 0x00 [0xAE])
      = (List.range 144).reverse := by
  unfold contrastValues
  rw [contrast_FadeOut, contrast_of_steps]
  simp

/-- C11: `FadeIn` emits the display-on command `0xAF` first, and then, for `v = 0, 1, ..., 0x8F`
in this order, the contrast-set command `[0x81, v]` followed by three delays of 200
microseconds; these `ssd1306BRIGHTNESS + 1 = 144` contrast commands, in strictly increasing
order of `v`, and the display-on command are all the commands of the trace. -/
theorem FadeIn_trace (cfg : Config) (port : Port) :
    (FadeIn cfg port).calls
        = port.calls
          ++ (frame port.i2cPort 0x00 [0xAF]
            ++ (List.range 144).flatMap (fun v =>
              frame port.i2cPort 0x00 [0x81, v]
                ++ [Call.CyDelayUs 200, Call.CyDelayUs 200, Call.CyDelayUs 200]))
      ∧ ssd1306BRIGHTNESS + 1 = 144
      ∧ commandPayloads
          (frame port.i2cPort 0x00 [0xAF]
            ++ (List.range 144).flatMap (fun v =>
              frame port.i2cPort 0x00 [0x81, v]
                ++ [Call.CyDelayUs 200, Call.CyDelayUs 200, Call.CyDelayUs 200]))
        = [0xAF] :: (List.range 144).map (fun v => [0x81, v])
      ∧ contrastValues
          (frame port.i2cPort 0x00 [0xAF]
            ++ (List.range 144).flatMap (fun v =>
              frame port.i2cPort 0x00 [0x81, v]
                ++ [Call.CyDelayUs 200, Call.CyDelayUs 200, Call.CyDelayUs 200]))
        = List.range 144
      ∧ (List.range 144).length = ssd1306BRIGHTNESS + 1
      ∧ (List.range 144).Pairwise (fun v w => v < w)
      ∧ (List.range 144).head? = some 0
      ∧ (List.range 144).getLast? = some ssd1306BRIGHTNESS := by
  have h1 := (traces_FadeIn cfg).calls port
  have h2 := contrast_FadeIn port.i2cPort
  have h3 := contrastValues_FadeIn port.i2cPort
  unfold fadeDelay at h1 h2 h3
  exact ⟨h1, rfl, h2, h3, by simp [ssd1306BRIGHTNESS], List.pairwise_lt_range 144, rfl,
    by simp [List.range_succ, ssd1306BRIGHTNESS]⟩

/-- C12: `FadeOut` emits, for `v = 0x8F, 0x8E, ..., 0` in this order, the contrast-set command
`[0x81, v]` followed by three delays of 200 microseconds, the delay of `FadeIn`, and then the
display-off command `0xAE` as its last command; these `ssd1306BRIGHTNESS + 1 = 144` contrast
commands are in strictly decreasing order of `v`, and the contrast values of `FadeOut` are those
of `FadeIn` in reverse. -/
theorem FadeOut_trace (cfg : Config) (port : Port) :
    (FadeOut cfg port).calls
        = port.calls
          ++ ((List.range 144).reverse.flatMap (fun v =>
              frame port.i2cPort 0x00 [0x81, v]
                ++ [Call.CyDelayUs 200, Call.CyDelayUs 200, Call.CyDelayUs 200])
            ++ frame port.i2cPort 0x00 [0xAE])
      ∧ (List.range 144).reverse = (List.range 144).map (fun k => ssd1306BRIGHTNESS - k)
      ∧ commandPayloads
          ((List.range 144).reverse.flatMap (fun v =>
              frame port.i2cPort 0x00 [0x81, v]
                ++ [Call.CyDelayUs 200, Call.CyDelayUs 200, Call.CyDelayUs 200])
            ++ frame port.i2cPort 0x00 [0xAE])
        = (List.range 144).reverse.map (fun v => [0x81, v]) ++ [[0xAE]]
      ∧ contrastValues
          ((List.range 144).reverse.flatMap (fun v =>
              frame port.i2cPort 0x00 [0x81, v]
                ++ [Call.CyDelayUs 200, Call.CyDelayUs 200, Call.CyDelayUs 200])
            ++ frame port.i2cPort 0x00 [0xAE])
        = (List.range 144).reverse
      ∧ (List.range 144).reverse.length = ssd1306BRIGHTNESS + 1
      ∧ (List.range 144).reverse.Pairwise (fun v w => v > w)
      ∧ (∀ ret : Nat → Nat, contrastValues (FadeOut cfg (Port.ctor ret)).calls
        = (contrastValues (FadeIn cfg (Port.ctor ret)).calls).reverse) := by
  have h1 := (traces_FadeOut cfg).calls port
  have h2 := contrast_FadeOut port.i2cPort
  have h3 := contrastValues_FadeOut port.i2cPort
  unfold fadeDelay at h1 h2 h3
  refine ⟨h1, range_reverse_144, h2, h3, by simp [ssd1306BRIGHTNESS], ?_, ?_⟩
  · rw [List.pairwise_reverse]
    exact List.pairwise_lt_range 144
  · intro ret
    have h0 : (Port.ctor ret).calls = [] := rfl
    rw [(traces_FadeOut cfg).calls, (traces_FadeIn cfg).calls, h0, List.nil_append,
      List.nil_append, contrastValues_FadeOut, contrastValues_FadeIn]

/-! ## Initialisation -/

theorem traces_initExt (cfg : Config) :
    Traces (OledInitVccExt cfg)
      (fun ch => resetTrace ch ++ commandFrames ch initExtCommands ++ fillTrace ch 0x00
        ++ frame ch 0x00 [0xAF]) := by
  intro port
  unfold OledInitVccExt
  refine Port.Extends.of_eq
    (((((((((((((((((((traces_Reset cfg).comp (traces_DeactivateDisplay cfg)).comp
      (traces_SetDisplayClock cfg 0x80)).comp (traces_SetMultiplexRatio cfg 0x1F)).comp
      (traces_SetDisplayOffset cfg 0x00)).comp (traces_SetStartLine cfg 0x00)).comp
      (traces_SetChargePumpOff cfg)).comp
      (traces_SetAddressingMode cfg addressingMode_t.PAGE_ADDRESSING_MODE)).comp
      (traces_SetSegmentRemap cfg 0xA1)).comp (traces_SetCommonRemap cfg 0xC8)).comp
      (traces_SetComPinConfig cfg 0x02)).comp (traces_SetContrastControl cfg 0xFF)).comp
      (traces_SetPrechargePeriod cfg 0x22)).comp (traces_SetVCOMH cfg 0x40)).comp
      (traces_TurnEveryPixelOff cfg)).comp (traces_SetInverseDisplay cfg false)).comp
      (traces_FillRam cfg 0x00)).comp (traces_ActivateDisplay cfg)) port) ?_
  simp only [commandFrames, initExtCommands, fillTrace, List.flatMap_cons, List.flatMap_nil,
    List.append_nil, List.append_assoc, addressingMode_t.toUint8]
  rfl

theorem traces_initIntBody (cfg : Config) :
    Traces (fun port =>
        FillRam cfg 0x00 (SetPrechargePeriod cfg 0xF1 (SetContrastControl cfg 0xFF
          (SetComPinConfig cfg 0x02 (SetCommonRemap cfg 0xC8 (SetSegmentRemap cfg 0xA1
            (SetAddressingMode cfg addressingMode_t.PAGE_ADDRESSING_MODE
              (SetStartLine cfg 0x00 (SetDisplayOffset cfg 0x00 (SetMultiplexRatio cfg 0x1F
                (SetDisplayClock cfg 0x80 (ActivateDisplay cfg (SetChargePumpOn cfg
                  (Reset cfg port))))))))))))))
      (fun ch => resetTrace ch ++ commandFrames ch initIntCommands ++ fillTrace ch 0x00) := by
  intro port
  have h := (traces_Reset cfg).comp (traces_SetChargePumpOn cfg)
  have h := h.comp (traces_ActivateDisplay cfg)
  have h := h.comp (traces_SetDisplayClock cfg 0x80)
  have h := h.comp (traces_SetMultiplexRatio cfg 0x1F)
  have h := h.comp (traces_SetDisplayOffset cfg 0x00)
  have h := h.comp (traces_SetStartLine cfg 0x00)
  have h := h.comp (traces_SetAddressingMode cfg addressingMode_t.PAGE_ADDRESSING_MODE)
  have h := h.comp (traces_SetSegmentRemap cfg 0xA1)
  have h := h.comp (traces_SetCommonRemap cfg 0xC8)
  have h := h.comp (traces_SetComPinConfig cfg 0x02)
  have h := h.comp (traces_SetContrastControl cfg 0xFF)
  have h := h.comp (traces_SetPrechargePeriod cfg 0xF1)
  have h := h.comp (traces_FillRam cfg 0x00)
  refine (h port).of_eq ?_
  simp only [commandFrames, initIntCommands, fillTrace, List.flatMap_cons, List.flatMap_nil,
    List.append_nil, List.append_assoc, addressingMode_t.toUint8]
  rfl

theorem SetI2cPort_state (cfg : Config) (i2cPort : i2cPort_t) (port : Port) :
    (SetI2cPort cfg i2cPort port).calls = port.calls
      ∧ (SetI2cPort cfg i2cPort port).i2cPort = i2cPort
      ∧ (SetI2cPort cfg i2cPort port).ret = port.ret := by
  have hp := extends_printIf cfg.configDEBUG_SSD1306_VERBOSE
    "SSD1306: Changing I2C port...\r\n" port
  unfold SetI2cPort
  dsimp only
  generalize printIf cfg.configDEBUG_SSD1306_VERBOSE
    "SSD1306: Changing I2C port...\r\n" port = p1 at hp ⊢
  have hc : p1.calls = port.calls := by simpa using hp.1
  have hr : p1.ret = port.ret := hp.2.2
  split
  · have h := extends_printIf cfg.configDEBUG_SSD1306 "SSD1306: I2C port changed to left.\r\n"
      { p1 with i2cPort := i2cPort }
    exact ⟨by simpa [hc] using h.1, h.2.1, h.2.2.trans hr⟩
  · split
    · have h := extends_printIf cfg.configDEBUG_SSD1306
        "SSD1306: I2C port changed to right.\r\n" { p1 with i2cPort := i2cPort }
      exact ⟨by simpa [hc] using h.1, h.2.1, h.2.2.trans hr⟩
    · exact ⟨hc, rfl, hr⟩

theorem traces_EnableVddb :
    Traces EnableVddb
      (fun _ => [Call.VddbEnN_Write i2cPort_t.i2cRight 0,
        Call.VddbEnN_Write i2cPort_t.i2cLeft 0]) :=
  (traces_call _).comp (traces_call _)

theorem traces_DisableVddb :
    Traces DisableVddb
      (fun _ => [Call.VddbEnN_Write i2cPort_t.i2cRight 1,
        Call.VddbEnN_Write i2cPort_t.i2cLeft 1]) :=
  (traces_call _).comp (traces_call _)

theorem traces_EnableI2c :
    Traces EnableI2c
      (fun _ => [Call.Start i2cPort_t.i2cLeft, Call.Start i2cPort_t.i2cRight,
        Call.EnableInt i2cPort_t.i2cLeft, Call.EnableInt i2cPort_t.i2cRight]) :=
  (((traces_call _).comp (traces_call _)).comp (traces_call _)).comp (traces_call _)

theorem OledInitVccInt_state (cfg : Config) (port : Port) :
    (OledInitVccInt cfg port).calls
        = port.calls ++ (powerUpTrace ++ resetTrace i2cPort_t.i2cLeft
          ++ commandFrames i2cPort_t.i2cLeft initIntCommands
          ++ fillTrace i2cPort_t.i2cLeft 0x00)
      ∧ (OledInitVccInt cfg port).i2cPort = i2cPort_t.i2cLeft
      ∧ (OledInitVccInt cfg port).ret = port.ret := by
  have h1 := (traces_EnableVddb.comp traces_EnableI2c) port
  have h2 := SetI2cPort_state cfg i2cPort_t.i2cLeft (EnableI2c (EnableVddb port))
  have h3 := traces_initIntBody cfg
    (SetI2cPort cfg i2cPort_t.i2cLeft (EnableI2c (EnableVddb port)))
  rw [h2.2.1] at h3
  unfold OledInitVccInt
  refine ⟨?_, h3.2.1.trans h2.2.1, h3.2.2.trans (h2.2.2.trans h1.2.2)⟩
  have hc := h3.1
  rw [h2.1, h1.1] at hc
  rw [hc]
  simp [powerUpTrace, List.append_assoc]

theorem commandPayloads_resetTrace (ch : i2cPort_t) (rest : List Call) :
    commandPayloads (resetTrace ch ++ rest) = commandPayloads rest := by
  unfold commandPayloads
  rfl

theorem commandPayloads_powerUp (rest : List Call) :
    commandPayloads (powerUpTrace ++ rest) = commandPayloads rest := by
  unfold commandPayloads
  rfl

theorem commandPayloads_commandFrames (ch : i2cPort_t) (payloads : List (List Nat))
    (rest : List Call) :
    commandPayloads (commandFrames ch payloads ++ rest) = payloads ++ commandPayloads rest := by
  induction payloads with
  | nil => rfl
  | cons p ps ih =>
    unfold commandFrames at ih ⊢
    rw [List.flatMap_cons, List.append_assoc, commandPayloads_frame, ih]
    rfl

theorem commandPayloads_fillTrace (ch : i2cPort_t) (v : Nat) (rest : List Call) :
    commandPayloads (fillTrace ch v ++ rest) = fillCommands ++ commandPayloads rest := by
  unfold fillTrace
  rw [fill_trace_eq]
  unfold addressAt
  simp only [List.append_assoc, commandPayloads_frame, commandPayloads_dataFrame]
  rfl

theorem commandPayloads_initExt (ch : i2cPort_t) :
    commandPayloads (resetTrace ch ++ commandFrames ch initExtCommands ++ fillTrace ch 0x00
        ++ frame ch 0x00 [0xAF])
      = initExtCommands ++ fillCommands ++ [[0xAF]] := by
  have h := commandPayloads_frame ch [0xAF] []
  rw [List.append_nil] at h
  rw [List.append_assoc, List.append_assoc, commandPayloads_resetTrace,
    commandPayloads_commandFrames, commandPayloads_fillTrace, h, commandPayloads_nil,
    List.append_assoc]

theorem commandPayloads_initInt (ch : i2cPort_t) :
    commandPayloads (powerUpTrace ++ resetTrace ch ++ commandFrames ch initIntCommands
        ++ fillTrace ch 0x00)
      = initIntCommands ++ fillCommands := by
  have h := commandPayloads_fillTrace ch 0x00 []
  rw [List.append_nil, commandPayloads_nil, List.append_nil] at h
  rw [List.append_assoc, List.append_assoc, commandPayloads_powerUp,
    commandPayloads_resetTrace, commandPayloads_commandFrames, h]

/-- C17: `OledInitVccExt` emits, on the selected channel, the reset pulse, then the command
transactions `[0xAE]`, `[0xD5,0x80]`, `[0xA8,0x1F]`, `[0xD3,0x00]`, `[0x40]`, `[0x8D,0x10]`,
`[0x20,0x02]`, `[0xA1]`, `[0xC8]`, `[0xDA,0x02]`, `[0x81,0xFF]`, `[0xD9,0x22]`, `[0xDB,0x40]`,
`[0xA4]`, `[0xA6]` in this order, then the trace of `FillRam(0x00)`, then `[0xAF]`; nothing in
it depends on the state but the selected channel, and the display-on command is the last
command and occurs nowhere before. -/
theorem OledInitVccExt_trace (cfg : Config) (port : Port) :
    (OledInitVccExt cfg port).calls
        = port.calls
          ++ (resetTrace port.i2cPort
            ++ commandFrames port.i2cPort
              [[0xAE], [0xD5, 0x80], [0xA8, 0x1F], [0xD3, 0x00], [0x40], [0x8D, 0x10],
                [0x20, 0x02], [0xA1], [0xC8], [0xDA, 0x02], [0x81, 0xFF], [0xD9, 0x22],
                [0xDB, 0x40], [0xA4], [0xA6]]
            ++ fillTrace port.i2cPort 0x00
            ++ frame port.i2cPort 0x00 [0xAF])
      ∧ (∀ p : Port, (Reset cfg p).calls = p.calls ++ resetTrace p.i2cPort)
      ∧ (∀ p : Port, (FillRam cfg 0x00 p).calls = p.calls ++ fillTrace p.i2cPort 0x00)
      ∧ commandPayloads
          (resetTrace port.i2cPort
            ++ commandFrames port.i2cPort
              [[0xAE], [0xD5, 0x80], [0xA8, 0x1F], [0xD3, 0x00], [0x40], [0x8D, 0x10],
                [0x20, 0x02], [0xA1], [0xC8], [0xDA, 0x02], [0x81, 0xFF], [0xD9, 0x22],
                [0xDB, 0x40], [0xA4], [0xA6]]
            ++ fillTrace port.i2cPort 0x00
            ++ frame port.i2cPort 0x00 [0xAF])
        = ([[0xAE], [0xD5, 0x80], [0xA8, 0x1F], [0xD3, 0x00], [0x40], [0x8D, 0x10],
              [0x20, 0x02], [0xA1], [0xC8], [0xDA, 0x02], [0x81, 0xFF], [0xD9, 0x22],
              [0xDB, 0x40], [0xA4], [0xA6]]
            ++ fillCommands) ++ [[0xAF]]
      ∧ [0xAF] ∉ [[0xAE], [0xD5, 0x80], [0xA8, 0x1F], [0xD3, 0x00], [0x40], [0x8D, 0x10],
            [0x20, 0x02], [0xA1], [0xC8], [0xDA, 0x02], [0x81, 0xFF], [0xD9, 0x22],
            [0xDB, 0x40], [0xA4], [0xA6]]
          ++ fillCommands :=
  ⟨(traces_initExt cfg).calls port, fun p => (traces_Reset cfg).calls p,
    fun p => (traces_FillRam cfg 0x00).calls p, commandPayloads_initExt port.i2cPort,
    by decide⟩

/-- C18: `OledInitVccInt` emits the same calls whatever the state it starts in: the two supply
switches are closed (`EnableVddb`), the two bus components are started and their interrupts
enabled (`EnableI2c`), the left channel is selected, and then, on the left channel, the reset
pulse, the command transactions `[0x8D,0x14]`, `[0xAF]`, `[0xD5,0x80]`, `[0xA8,0x1F]`,
`[0xD3,0x00]`, `[0x40]`, `[0x20,0x02]`, `[0xA1]`, `[0xC8]`, `[0xDA,0x02]`, `[0x81,0xFF]`,
`[0xD9,0xF1]` in this order, and the trace of `FillRam(0x00)` as the last step. -/
theorem OledInitVccInt_trace (cfg : Config) (port : Port) :
    (OledInitVccInt cfg port).calls
        = port.calls
          ++ ([Call.VddbEnN_Write i2cPort_t.i2cRight 0, Call.VddbEnN_Write i2cPort_t.i2cLeft 0,
              Call.Start i2cPort_t.i2cLeft, Call.Start i2cPort_t.i2cRight,
              Call.EnableInt i2cPort_t.i2cLeft, Call.EnableInt i2cPort_t.i2cRight]
            ++ resetTrace i2cPort_t.i2cLeft
            ++ commandFrames i2cPort_t.i2cLeft
              [[0x8D, 0x14], [0xAF], [0xD5, 0x80], [0xA8, 0x1F], [0xD3, 0x00], [0x40],
                [0x20, 0x02], [0xA1], [0xC8], [0xDA, 0x02], [0x81, 0xFF], [0xD9, 0xF1]]
            ++ fillTrace i2cPort_t.i2cLeft 0x00)
      ∧ (OledInitVccInt cfg port).i2cPort = i2cPort_t.i2cLeft
      ∧ (∀ p : Port, (EnableI2c (EnableVddb p)).calls
        = p.calls
          ++ [Call.VddbEnN_Write i2cPort_t.i2cRight 0, Call.VddbEnN_Write i2cPort_t.i2cLeft 0,
              Call.Start i2cPort_t.i2cLeft, Call.Start i2cPort_t.i2cRight,
              Call.EnableInt i2cPort_t.i2cLeft, Call.EnableInt i2cPort_t.i2cRight])
      ∧ (∀ p : Port, (SetI2cPort cfg i2cPort_t.i2cLeft p).calls = p.calls
        ∧ (SetI2cPort cfg i2cPort_t.i2cLeft p).i2cPort = i2cPort_t.i2cLeft)
      ∧ (∀ p : Port, (Reset cfg p).calls = p.calls ++ resetTrace p.i2cPort)
      ∧ (∀ p : Port, (FillRam cfg 0x00 p).calls = p.calls ++ fillTrace p.i2cPort 0x00)
      ∧ commandPayloads
          ([Call.VddbEnN_Write i2cPort_t.i2cRight 0, Call.VddbEnN_Write i2cPort_t.i2cLeft 0,
              Call.Start i2cPort_t.i2cLeft, Call.Start i2cPort_t.i2cRight,
              Call.EnableInt i2cPort_t.i2cLeft, Call.EnableInt i2cPort_t.i2cRight]
            ++ resetTrace i2cPort_t.i2cLeft
            ++ commandFrames i2cPort_t.i2cLeft
              [[0x8D, 0x14], [0xAF], [0xD5, 0x80], [0xA8, 0x1F], [0xD3, 0x00], [0x40],
                [0x20, 0x02], [0xA1], [0xC8], [0xDA, 0x02], [0x81, 0xFF], [0xD9, 0xF1]]
            ++ fillTrace i2cPort_t.i2cLeft 0x00)
        = [[0x8D, 0x14], [0xAF], [0xD5, 0x80], [0xA8, 0x1F], [0xD3, 0x00], [0x40],
              [0x20, 0x02], [0xA1], [0xC8], [0xDA, 0x02], [0x81, 0xFF], [0xD9, 0xF1]]
            ++ fillCommands :=
  ⟨(OledInitVccInt_state cfg port).1, (OledInitVccInt_state cfg port).2.1,
    fun p => (traces_EnableVddb.comp traces_EnableI2c).calls p,
    fun p => ⟨(SetI2cPort_state cfg _ p).1, (SetI2cPort_state cfg _ p).2.1⟩,
    fun p => (traces_Reset cfg).calls p, fun p => (traces_FillRam cfg 0x00).calls p,
    commandPayloads_initInt i2cPort_t.i2cLeft⟩

/-- C19: the commands of `OledInitVccInt` include the charge-pump-enable command
`[0x8D, 0x14]`, which is what `SetChargePumpOn` emits, and not the disable command
`[0x8D, 0x10]`; the commands of `OledInitVccExt` include `[0x8D, 0x10]`, which is what
`SetChargePumpOff` emits, and not `[0x8D, 0x14]`. -/
theorem charge_pump_by_supply (cfg : Config) (port : Port) :
    ∃ tInt tExt : List Call,
      (OledInitVccInt cfg port).calls = port.calls ++ tInt
        ∧ (OledInitVccExt cfg port).calls = port.calls ++ tExt
        ∧ [0x8D, 0x14] ∈ commandPayloads tInt
        ∧ [0x8D, 0x10] ∉ commandPayloads tInt
        ∧ [0x8D, 0x10] ∈ commandPayloads tExt
        ∧ [0x8D, 0x14] ∉ commandPayloads tExt
        ∧ (SetChargePumpOn cfg port).calls = port.calls ++ frame port.i2cPort 0x00 [0x8D, 0x14]
        ∧ (SetChargePumpOff cfg port).calls
          = port.calls ++ frame port.i2cPort 0x00 [0x8D, 0x10] := by
  refine ⟨_, _, (OledInitVccInt_state cfg port).1, (traces_initExt cfg).calls port, ?_, ?_, ?_,
    ?_, (traces_SetChargePumpOn cfg).calls port, (traces_SetChargePumpOff cfg).calls port⟩
  · rw [commandPayloads_initInt]
    decide
  · rw [commandPayloads_initInt]
    decide
  · rw [commandPayloads_initExt]
    decide
  · rw [commandPayloads_initExt]
    decide

/-! ## Scrolling, checkerboard and frame: traces -/

theorem traces_SetStartPage (cfg : Config) (d : Nat) (hd : d < 256) :
    Traces (SetStartPage cfg d) (fun ch => frame ch 0x00 [0xB0 ||| d]) :=
  fun port => SetStartPage_extends cfg d hd port

theorem traces_SetStartColumn (cfg : Config) (d : Nat) (hd : d < 256) :
    Traces (SetStartColumn cfg d)
      (fun ch => frame ch 0x00 [0x00 ||| (d % 16)] ++ frame ch 0x00 [0x10 ||| (d / 16)]) :=
  fun port => SetStartColumn_extends cfg d hd port

theorem traces_HorizontalScroll (cfg : Config)
    (scrollDir startPage endPage timeInterval delayTime : Nat) :
    Traces (HorizontalScroll cfg scrollDir startPage endPage timeInterval delayTime)
      (fun ch => commandFrames ch
          [[(0x26 ||| scrollDir) % 256], [0x00], [startPage], [timeInterval], [endPage], [0x2F]]
        ++ [Call.CyDelay delayTime]) := by
  intro port
  have h := (traces_WriteCommand cfg ((0x26 ||| scrollDir) % 256)).comp
    (traces_WriteCommand cfg 0x00)
  have h := h.comp (traces_WriteCommand cfg startPage)
  have h := h.comp (traces_WriteCommand cfg timeInterval)
  have h := h.comp (traces_WriteCommand cfg endPage)
  have h := h.comp (traces_WriteCommand cfg 0x2F)
  have h := h.comp (traces_DelayMs delayTime)
  unfold HorizontalScroll
  refine (h port).of_eq ?_
  simp only [commandFrames, List.flatMap_cons, List.flatMap_nil, List.append_nil,
    List.append_assoc]

theorem traces_ContinuousScroll (cfg : Config) (a b c d e f g h : Nat) :
    Traces (ContinuousScroll cfg a b c d e f g h)
      (fun ch => commandFrames ch
          [[0xA3], [d], [e], [(0x29 + a) % 256], [0x00], [b], [g], [c], [f], [0x2F]]
        ++ [Call.CyDelay h]) := by
  intro port
  have t := (traces_WriteCommand cfg 0xA3).comp (traces_WriteCommand cfg d)
  have t := t.comp (traces_WriteCommand cfg e)
  have t := t.comp (traces_WriteCommand cfg ((0x29 + a) % 256))
  have t := t.comp (traces_WriteCommand cfg 0x00)
  have t := t.comp (traces_WriteCommand cfg b)
  have t := t.comp (traces_WriteCommand cfg g)
  have t := t.comp (traces_WriteCommand cfg c)
  have t := t.comp (traces_WriteCommand cfg f)
  have t := t.comp (traces_WriteCommand cfg 0x2F)
  have t := t.comp (traces_DelayMs h)
  unfold ContinuousScroll
  refine (t port).of_eq ?_
  simp only [commandFrames, List.flatMap_cons, List.flatMap_nil, List.append_nil,
    List.append_assoc]

theorem traces_DeactivateScroll (cfg : Config) :
    Traces (DeactivateScroll cfg) (fun ch => frame ch 0x00 [0x2E]) :=
  traces_WriteCommand cfg 0x2E

theorem Checkerboard_cols_extends :
    ∀ (fuel j : Nat) (port : Port), j ≤ 64 → 64 - j ≤ fuel →
      port.Extends (Checkerboard.cols fuel j port)
        ((List.replicate (64 - j) [0x55, 0xAA]).flatten.map
          (Call.MasterWriteByte port.i2cPort)) := by
  intro fuel
  induction fuel with
  | zero =>
    intro j port h1 h2
    have h3 : 64 - j = 0 := by omega
    rw [h3]
    simpa [Checkerboard.cols] using Port.Extends.refl port
  | succ fuel ih =>
    intro j port h1 h2
    unfold Checkerboard.cols
    by_cases hlt : j < 64
    · rw [if_pos hlt]
      dsimp only
      have hstep := (Port.extends_writeByte 0x55 port).trans
        (Port.extends_writeByte 0xAA (port.I2cMasterWriteByte 0x55).2)
      rw [(Port.extends_writeByte 0x55 port).2.1] at hstep
      have hmod : (j + 1) % 256 = j + 1 := Nat.mod_eq_of_lt (by omega)
      rw [hmod]
      have hrest := ih (j + 1) (Port.I2cMasterWriteByte 0xAA (Port.I2cMasterWriteByte 0x55 port).2).2
        (by omega) (by omega)
      rw [hstep.2.1] at hrest
      refine (hstep.trans hrest).of_eq ?_
      have hlen : 64 - j = (64 - (j + 1)) + 1 := by omega
      rw [hlen, List.replicate_succ]
      simp
    · rw [if_neg hlt]
      have h3 : 64 - j = 0 := by omega
      rw [h3]
      simpa using Port.Extends.refl port

theorem Checkerboard_pages_extends (cfg : Config) :
    ∀ (fuel i : Nat) (port : Port), i ≤ 8 → 8 - i ≤ fuel →
      port.Extends (Checkerboard.pages cfg fuel i port)
        (pagesTrace port.i2cPort 0 i
          (List.replicate (8 - i) (List.replicate 64 [0x55, 0xAA]).flatten)) := by
  intro fuel
  induction fuel with
  | zero =>
    intro i port h1 h2
    have h3 : 8 - i = 0 := by omega
    rw [h3]
    simpa [Checkerboard.pages, pagesTrace] using Port.Extends.refl port
  | succ fuel ih =>
    intro i port h1 h2
    unfold Checkerboard.pages
    by_cases hlt : i < 8
    · rw [if_pos hlt]
      dsimp only
      have ha := address_extends cfg i 0x00 (by omega) (by decide) port
      generalize SetStartColumn cfg 0x00 (SetStartPage cfg i port) = p1 at ha ⊢
      have hs := Port.extends_sendStart SSD1306_I2C_ADD 0 p1
      generalize (p1.I2cMasterSendStart SSD1306_I2C_ADD 0).2 = p2 at hs ⊢
      have hw := Port.extends_writeByte ssd1306DATA_FOLLOWS_BYTE p2
      generalize (p2.I2cMasterWriteByte ssd1306DATA_FOLLOWS_BYTE).2 = p3 at hw ⊢
      have hcols := Checkerboard_cols_extends 256 0 p3 (by omega) (by omega)
      generalize Checkerboard.cols 256 0 p3 = p4 at hcols ⊢
      have hstop := Port.extends_sendStop p4
      generalize (p4.I2cMasterSendStop).2 = p5 at hstop ⊢
      have hmod : (i + 1) % 256 = i + 1 := Nat.mod_eq_of_lt (by omega)
      rw [hmod]
      have hrest := ih (i + 1) p5 (by omega) (by omega)
      have e1 : p1.i2cPort = port.i2cPort := ha.2.1
      have e2 : p2.i2cPort = port.i2cPort := hs.2.1.trans e1
      have e3 : p3.i2cPort = port.i2cPort := hw.2.1.trans e2
      have e4 : p4.i2cPort = port.i2cPort := hcols.2.1.trans e3
      have e5 : p5.i2cPort = port.i2cPort := hstop.2.1.trans e4
      rw [e5] at hrest
      rw [e4] at hstop
      rw [e3] at hcols
      rw [e2] at hw
      rw [e1] at hs
      refine (((((ha.trans hs).trans hw).trans hcols).trans hstop).trans hrest).of_eq ?_
      have hlen : 8 - i = (8 - (i + 1)) + 1 := by omega
      rw [hlen, List.replicate_succ]
      simp only [pagesTrace, frame, address_eq, ssd1306DATA_FOLLOWS_BYTE, List.append_assoc,
        Nat.sub_zero, List.cons_append, List.nil_append]
    · rw [if_neg hlt]
      have h3 : 8 - i = 0 := by omega
      rw [h3]
      simpa [pagesTrace] using Port.Extends.refl port

theorem traces_Checkerboard (cfg : Config) : Traces (Checkerboard cfg) checkerTrace :=
  fun port => Checkerboard_pages_extends cfg 256 0 port (by omega) (by omega)

theorem DrawFrame_border_extends (b : Nat) :
    ∀ (fuel i : Nat) (port : Port), i ≤ 128 → 128 - i ≤ fuel →
      port.Extends (DrawFrame.border b fuel i port)
        ((List.replicate (128 - i) b).map (Call.MasterWriteByte port.i2cPort)) := by
  intro fuel
  induction fuel with
  | zero =>
    intro i port h1 h2
    have h3 : 128 - i = 0 := by omega
    rw [h3]
    simpa [DrawFrame.border] using Port.Extends.refl port
  | succ fuel ih =>
    intro i port h1 h2
    unfold DrawFrame.border
    have hcols : ssd1306NUM_COLS = 128 := rfl
    rw [hcols]
    by_cases hlt : i < 128
    · rw [if_pos hlt]
      dsimp only
      have hstep := Port.extends_writeByte b port
      generalize (port.I2cMasterWriteByte b).2 = p1 at hstep ⊢
      have hmod : (i + 1) % 256 = i + 1 := Nat.mod_eq_of_lt (by omega)
      rw [hmod]
      have hrest := ih (i + 1) p1 (by omega) (by omega)
      rw [hstep.2.1] at hrest
      refine (hstep.trans hrest).of_eq ?_
      have hlen : 128 - i = (128 - (i + 1)) + 1 := by omega
      rw [hlen, List.replicate_succ]
      simp
    · rw [if_neg hlt]
      have h3 : 128 - i = 0 := by omega
      rw [h3]
      simpa using Port.Extends.refl port

/-- A data transaction whose payload is written by a loop. -/
theorem traces_dataFrame {L : Port → Port} {payload : List Nat}
    (hL : ∀ port : Port, port.Extends (L port) (payload.map (Call.MasterWriteByte port.i2cPort))) :
    Traces (fun port => (Port.I2cMasterSendStop (L (Port.I2cMasterWriteByte
        ssd1306DATA_FOLLOWS_BYTE (Port.I2cMasterSendStart SSD1306_I2C_ADD 0 port).2).2)).2)
      (fun ch => frame ch 0x40 payload) := by
  intro port
  dsimp only
  have hs := Port.extends_sendStart SSD1306_I2C_ADD 0 port
  generalize (port.I2cMasterSendStart SSD1306_I2C_ADD 0).2 = p2 at hs ⊢
  have hw := Port.extends_writeByte ssd1306DATA_FOLLOWS_BYTE p2
  generalize (p2.I2cMasterWriteByte ssd1306DATA_FOLLOWS_BYTE).2 = p3 at hw ⊢
  have hl := hL p3
  generalize L p3 = p4 at hl ⊢
  have hstop := Port.extends_sendStop p4
  have e2 : p2.i2cPort = port.i2cPort := hs.2.1
  have e3 : p3.i2cPort = port.i2cPort := hw.2.1.trans e2
  have e4 : p4.i2cPort = port.i2cPort := hl.2.1.trans e3
  rw [e4] at hstop
  rw [e3] at hl
  rw [e2] at hw
  refine (((hs.trans hw).trans hl).trans hstop).of_eq ?_
  simp [frame, address_eq, ssd1306DATA_FOLLOWS_BYTE]

theorem traces_side (cfg : Config) (col : Nat) (hc : col < 256) :
    Traces (fun port => WriteData 0xFF (SetStartColumn cfg col port))
      (fun ch => sideTrace ch col) :=
  (traces_SetStartColumn cfg col hc).comp (traces_WriteData 0xFF)

theorem DrawFrame_sides_step (cfg : Config) (fuel j : Nat) (port : Port) (h : j < 128) :
    DrawFrame.sides cfg (fuel + 1) j port
      = DrawFrame.sides cfg fuel ((j + 127) % 256) (WriteData 0xFF (SetStartColumn cfg j port)) := by
  rw [DrawFrame.sides]
  have hcols : ssd1306NUM_COLS = 128 := rfl
  rw [hcols, if_pos h]

theorem DrawFrame_sides_stop (cfg : Config) (fuel j : Nat) (port : Port) (h : ¬ j < 128) :
    DrawFrame.sides cfg (fuel + 1) j port = port := by
  rw [DrawFrame.sides]
  have hcols : ssd1306NUM_COLS = 128 := rfl
  rw [hcols, if_neg h]

theorem DrawFrame_sides_eq (cfg : Config) (port : Port) :
    DrawFrame.sides cfg 256 0 port
      = WriteData 0xFF (SetStartColumn cfg 127 (WriteData 0xFF (SetStartColumn cfg 0 port))) := by
  rw [show (256 : Nat) = 253 + 1 + 1 + 1 from rfl, DrawFrame_sides_step _ _ _ _ (by decide),
    show (0 + 127) % 256 = 127 from rfl, DrawFrame_sides_step _ _ _ _ (by decide),
    show (127 + 127) % 256 = 254 from rfl, DrawFrame_sides_stop _ _ _ _ (by decide)]

theorem DrawFrame_pages_step (cfg : Config) (fuel i : Nat) (port : Port) (h : i < 4) :
    DrawFrame.pages cfg (fuel + 1) i port
      = DrawFrame.pages cfg fuel ((i + 1) % 256)
        (DrawFrame.sides cfg 256 0 (SetStartPage cfg i port)) := by
  rw [DrawFrame.pages, if_pos h]

theorem DrawFrame_pages_stop (cfg : Config) (fuel i : Nat) (port : Port) (h : ¬ i < 4) :
    DrawFrame.pages cfg (fuel + 1) i port = port := by
  rw [DrawFrame.pages, if_neg h]

theorem DrawFrame_pages_eq (cfg : Config) (port : Port) :
    DrawFrame.pages cfg 256 0 port
      = DrawFrame.sides cfg 256 0 (SetStartPage cfg 3
          (DrawFrame.sides cfg 256 0 (SetStartPage cfg 2
            (DrawFrame.sides cfg 256 0 (SetStartPage cfg 1
              (DrawFrame.sides cfg 256 0 (SetStartPage cfg 0 port))))))) := by
  rw [show (256 : Nat) = 251 + 1 + 1 + 1 + 1 + 1 from rfl,
    DrawFrame_pages_step _ _ _ _ (by decide), show (0 + 1) % 256 = 1 from rfl,
    DrawFrame_pages_step _ _ _ _ (by decide), show (1 + 1) % 256 = 2 from rfl,
    DrawFrame_pages_step _ _ _ _ (by decide), show (2 + 1) % 256 = 3 from rfl,
    DrawFrame_pages_step _ _ _ _ (by decide), show (3 + 1) % 256 = 4 from rfl,
    DrawFrame_pages_stop _ _ _ _ (by decide)]

theorem traces_DrawFrame_page (cfg : Config) (page : Nat) (hp : page < 256) :
    Traces (fun port => DrawFrame.sides cfg 256 0 (SetStartPage cfg page port))
      (fun ch => frame ch 0x00 [0xB0 ||| page] ++ sideTrace ch 0 ++ sideTrace ch 127) := by
  intro port
  dsimp only
  rw [DrawFrame_sides_eq]
  have h := ((traces_SetStartPage cfg page hp).comp (traces_side cfg 0 (by decide))).comp
    (traces_side cfg 127 (by decide))
  exact h port

theorem traces_DrawFrame (cfg : Config) : Traces (DrawFrame cfg) drawFrameTrace := by
  intro port
  have hb1 := @traces_dataFrame (DrawFrame.border 0x01 256 0) (List.replicate 128 0x01)
    (fun p => DrawFrame_border_extends 0x01 256 0 p (by omega) (by omega))
  have hb2 := @traces_dataFrame (DrawFrame.border 0x80 256 0) (List.replicate 128 0x80)
    (fun p => DrawFrame_border_extends 0x80 256 0 p (by omega) (by omega))
  have h := ((traces_SetStartPage cfg 0x00 (by decide)).comp
    (traces_SetStartColumn cfg 0x00 (by decide))).comp hb1
  have h := h.comp (traces_SetStartPage cfg 0x03 (by decide))
  have h := h.comp (traces_SetStartColumn cfg 0x00 (by decide))
  have h := h.comp hb2
  have h := h.comp (traces_DrawFrame_page cfg 0 (by decide))
  have h := h.comp (traces_DrawFrame_page cfg 1 (by decide))
  have h := h.comp (traces_DrawFrame_page cfg 2 (by decide))
  have h := h.comp (traces_DrawFrame_page cfg 3 (by decide))
  unfold DrawFrame
  dsimp only
  rw [DrawFrame_pages_eq]
  refine (h port).of_eq ?_
  simp only [drawFrameTrace, addressAt, List.append_assoc]
  rfl

/-! ## Framing of traces -/

theorem Bus.scan_append (a b : List Call) :
    ∀ s : Bus, s.scan (a ++ b) = (s.scan a).bind (fun t => t.scan b) := by
  induction a with
  | nil =>
    intro s
    rfl
  | cons c cs ih =>
    intro s
    simp only [List.cons_append, Bus.scan]
    cases s.step c with
    | none => rfl
    | some t => exact ih t

theorem wellFramed_nil : WellFramed [] := by
  rfl

theorem WellFramed.append {a b : List Call} (ha : WellFramed a) (hb : WellFramed b) :
    WellFramed (a ++ b) := by
  unfold WellFramed at ha hb ⊢
  rw [Bus.scan_append, ha]
  exact hb

theorem wellFramed_payload (ch : i2cPort_t) (payload : List Nat) :
    (Bus.payload ch).scan (payload.map (Call.MasterWriteByte ch) ++ [Call.MasterSendStop ch])
      = some Bus.idle := by
  induction payload with
  | nil => simp [Bus.scan, Bus.step]
  | cons b bs ih => simpa [Bus.scan, Bus.step] using ih

theorem wellFramed_frame (ch : i2cPort_t) (control : Nat) (payload : List Nat)
    (hc : control = 0x00 ∨ control = 0x40) : WellFramed (frame ch control payload) := by
  have h := wellFramed_payload ch payload
  rcases hc with rfl | rfl <;> simpa [WellFramed, frame, Bus.scan, Bus.step] using h

theorem wellFramed_command (ch : i2cPort_t) (payload : List Nat) :
    WellFramed (frame ch 0x00 payload) :=
  wellFramed_frame ch 0x00 payload (Or.inl rfl)

theorem wellFramed_data (ch : i2cPort_t) (payload : List Nat) :
    WellFramed (frame ch 0x40 payload) :=
  wellFramed_frame ch 0x40 payload (Or.inr rfl)

theorem wellFramed_other (c : Call) (hc : c.isBus = false) : WellFramed [c] := by
  cases c <;> first | rfl | cases hc

theorem wellFramed_others (cs : List Call) (hc : ∀ c ∈ cs, c.isBus = false) :
    WellFramed cs := by
  induction cs with
  | nil => exact wellFramed_nil
  | cons c cs ih =>
    have h1 := wellFramed_other c (hc c (List.mem_cons_self _ _))
    have h2 := ih (fun x hx => hc x (List.mem_cons_of_mem _ hx))
    exact h1.append h2

theorem wellFramed_flatMap {α : Type} (items : List α) (f : α → List Call)
    (hf : ∀ x, WellFramed (f x)) : WellFramed (items.flatMap f) := by
  induction items with
  | nil => exact wellFramed_nil
  | cons x xs ih =>
    rw [List.flatMap_cons]
    exact (hf x).append ih

theorem wellFramed_commandFrames (ch : i2cPort_t) (payloads : List (List Nat)) :
    WellFramed (commandFrames ch payloads) :=
  wellFramed_flatMap payloads _ (fun p => wellFramed_command ch p)

theorem wellFramed_addressAt (ch : i2cPort_t) (page col : Nat) :
    WellFramed (addressAt ch page col) :=
  ((wellFramed_command ch _).append (wellFramed_command ch _)).append (wellFramed_command ch _)

theorem wellFramed_pagesTrace (ch : i2cPort_t) (col : Nat) (payloads : List (List Nat)) :
    ∀ page : Nat, WellFramed (pagesTrace ch col page payloads) := by
  induction payloads with
  | nil =>
    intro page
    exact wellFramed_nil
  | cons p ps ih =>
    intro page
    unfold pagesTrace
    exact ((wellFramed_addressAt ch page col).append (wellFramed_data ch p)).append
      (ih (page + 1))

theorem wellFramed_resetTrace (ch : i2cPort_t) : WellFramed (resetTrace ch) := by
  rfl

theorem wellFramed_powerUp : WellFramed powerUpTrace := by
  rfl

theorem wellFramed_fadeDelay : WellFramed fadeDelay := by
  rfl

theorem wellFramed_fillTrace (ch : i2cPort_t) (v : Nat) : WellFramed (fillTrace ch v) :=
  wellFramed_pagesTrace ch 0 _ 0

theorem wellFramed_sideTrace (ch : i2cPort_t) (col : Nat) : WellFramed (sideTrace ch col) :=
  ((wellFramed_command ch _).append (wellFramed_command ch _)).append (wellFramed_data ch _)

theorem wellFramed_drawFrameTrace (ch : i2cPort_t) : WellFramed (drawFrameTrace ch) :=
  (((wellFramed_addressAt ch 0 0).append (wellFramed_data ch _)).append
    ((wellFramed_addressAt ch 3 0).append (wellFramed_data ch _))).append
    (wellFramed_flatMap _ _ (fun _ =>
      ((wellFramed_command ch _).append (wellFramed_sideTrace ch 0)).append
        (wellFramed_sideTrace ch 127)))

/-! ## From traces to framing and to independence of the bus answers -/

theorem Traces.framed {F : Port → Port} {T : i2cPort_t → List Call} (h : Traces F T)
    (hT : ∀ ch, WellFramed (T ch)) (port : Port) : port.Framed (F port) :=
  ⟨T port.i2cPort, (h port).1, hT _⟩

theorem Traces.unaffected {F : Port → Port} {T : i2cPort_t → List Call} (h : Traces F T) :
    Unaffected F := by
  intro port r1 r2
  have h1 := h (port.withRet r1)
  have h2 := h (port.withRet r2)
  exact ⟨h1.1.trans h2.1.symm, h1.2.1.trans h2.2.1.symm⟩

theorem Scripted.framedE {F : Port → Except Fault Port}
    {T : i2cPort_t → Except Fault (List Call)} (h : Scripted F T) (port port1 : Port)
    (hok : F port = Except.ok port1) : port.Framed port1 := by
  obtain ⟨h1, h2⟩ := h port
  cases hT : T port.i2cPort with
  | error e =>
    rw [h2 e hT] at hok
    cases hok
  | ok evs =>
    obtain ⟨hw, p1, hp1, hext⟩ := h1 evs hT
    rw [hp1] at hok
    simp only [Except.ok.injEq] at hok
    subst hok
    exact ⟨evs, hext.1, hw⟩

theorem Scripted.unaffectedE {F : Port → Except Fault Port}
    {T : i2cPort_t → Except Fault (List Call)} (h : Scripted F T) : UnaffectedE F := by
  intro port r1 r2 out1 out2 hout1 hout2
  subst hout1
  subst hout2
  obtain ⟨a1, a2⟩ := h (port.withRet r1)
  obtain ⟨b1, b2⟩ := h (port.withRet r2)
  have hch : (port.withRet r1).i2cPort = (port.withRet r2).i2cPort := rfl
  rw [← hch] at b1 b2
  cases hT : T (port.withRet r1).i2cPort with
  | error e =>
    rw [a2 e hT, b2 e hT]
    rfl
  | ok evs =>
    obtain ⟨_, p1, hp1, hx1⟩ := a1 evs hT
    obtain ⟨_, p2, hp2, hx2⟩ := b1 evs hT
    rw [hp1, hp2]
    exact ⟨hx1.1.trans hx2.1.symm, hx1.2.1.trans hx2.2.1.symm⟩

theorem Scripted.of_traces {F : Port → Port} {T : i2cPort_t → List Call} (h : Traces F T)
    (hT : ∀ ch, WellFramed (T ch)) :
    Scripted (fun port => Except.ok (F port)) (fun ch => Except.ok (T ch)) := by
  intro port
  constructor
  · intro evs he
    simp only [Except.ok.injEq] at he
    subst he
    exact ⟨hT _, F port, rfl, h port⟩
  · intro e he
    cases he

theorem Scripted.fail (F : Port → Except Fault Port) (e : Fault)
    (hF : ∀ port, F port = Except.error e) : Scripted F (fun _ => Except.error e) := by
  intro port
  constructor
  · intro evs he
    cases he
  · intro e1 he
    simp only [Except.error.injEq] at he
    subst he
    exact hF port

/-- Two scripted steps in a row: `H` fails where `F` fails and goes on with `G` where `F`
returns. -/
theorem Scripted.seq {F G H : Port → Except Fault Port}
    {TF TG : i2cPort_t → Except Fault (List Call)} (hF : Scripted F TF) (hG : Scripted G TG)
    (herr : ∀ port e, F port = Except.error e → H port = Except.error e)
    (hok : ∀ port port1, F port = Except.ok port1 → H port = G port1) :
    Scripted H (fun ch => seqScript (TF ch) (TG ch)) := by
  intro port
  obtain ⟨f1, f2⟩ := hF port
  cases hT : TF port.i2cPort with
  | error e =>
    have hfail := herr port e (f2 e hT)
    constructor
    · intro evs he
      dsimp only at he
      rw [hT] at he
      simp [seqScript] at he
    · intro e1 he
      dsimp only at he
      rw [hT] at he
      simp only [seqScript, Except.error.injEq] at he
      subst he
      exact hfail
  | ok e1 =>
    obtain ⟨hw1, p1, hp1, hx1⟩ := f1 e1 hT
    have hgo := hok port p1 hp1
    obtain ⟨g1, g2⟩ := hG p1
    rw [hx1.2.1] at g1 g2
    cases hT2 : TG port.i2cPort with
    | error e =>
      constructor
      · intro evs he
        dsimp only at he
        rw [hT, hT2] at he
        simp [seqScript] at he
      · intro e2 he
        dsimp only at he
        rw [hT, hT2] at he
        simp only [seqScript, Except.error.injEq] at he
        subst he
        rw [hgo]
        exact g2 e hT2
    | ok e2 =>
      obtain ⟨hw2, p2, hp2, hx2⟩ := g1 e2 hT2
      constructor
      · intro evs he
        dsimp only at he
        rw [hT, hT2] at he
        simp only [seqScript, Except.ok.injEq] at he
        subst he
        exact ⟨hw1.append hw2, p2, by rw [hgo, hp2], hx1.trans hx2⟩
      · intro e he
        dsimp only at he
        rw [hT, hT2] at he
        simp [seqScript] at he

/-! ## Operations that can fail: their scripts -/

theorem traces_id : Traces (fun port => port) (fun _ => []) :=
  fun port => Port.Extends.refl port

theorem Scripted.same_fun {F H : Port → Except Fault Port}
    {T : i2cPort_t → Except Fault (List Call)} (h : Scripted F T) (hH : ∀ port, H port = F port) :
    Scripted H T := by
  intro port
  rw [hH port]
  exact h port

theorem Scripted.ok_nil : Scripted (fun port => Except.ok port) (fun _ => Except.ok []) :=
  Scripted.of_traces traces_id (fun _ => wellFramed_nil)

/-- A traced step followed by a scripted one. -/
theorem Scripted.after {B : Port → Port} {TB : i2cPort_t → List Call}
    {G H : Port → Except Fault Port} {TG : i2cPort_t → Except Fault (List Call)}
    (hB : Traces B TB) (hW : ∀ ch, WellFramed (TB ch)) (hG : Scripted G TG)
    (hH : ∀ port, H port = G (B port)) :
    Scripted H (fun ch => seqScript (Except.ok (TB ch)) (TG ch)) :=
  Scripted.seq (Scripted.of_traces hB hW) hG
    (fun port e he => by cases he)
    (fun port port1 he => by
      simp only [Except.ok.injEq] at he
      subst he
      exact hH port)

theorem traces_address_any (cfg : Config) (page col : Nat) :
    Traces (fun port => SetStartColumn cfg col (SetStartPage cfg page port))
      (fun ch => frame ch 0x00 [(0xB0 ||| page) % 256]
        ++ frame ch 0x00 [(0x00 + col % 16) % 256]
        ++ frame ch 0x00 [(0x10 + col / 16) % 256]) := by
  intro port
  have h := ((traces_WriteCommand cfg ((0xB0 ||| page) % 256)).comp
    (traces_WriteCommand cfg ((0x00 + col % 16) % 256))).comp
    (traces_WriteCommand cfg ((0x10 + col / 16) % 256))
  exact h port

theorem wellFramed_address_any (ch : i2cPort_t) (page col : Nat) :
    WellFramed (frame ch 0x00 [(0xB0 ||| page) % 256]
      ++ frame ch 0x00 [(0x00 + col % 16) % 256]
      ++ frame ch 0x00 [(0x10 + col / 16) % 256]) :=
  ((wellFramed_command ch _).append (wellFramed_command ch _)).append (wellFramed_command ch _)

theorem ShowFont57_loop_scripted (row : Option (List Nat)) :
    ∀ (fuel i Src_Pointer : Nat), ∃ R : Except Fault (List Nat), ∀ port : Port,
      (∀ bytes, R = Except.ok bytes →
          ∃ port1, ShowFont57.loop row fuel i Src_Pointer port = Except.ok port1
            ∧ port.Extends port1 (bytes.map (Call.MasterWriteByte port.i2cPort)))
        ∧ (∀ e, R = Except.error e →
          ShowFont57.loop row fuel i Src_Pointer port = Except.error e) := by
  intro fuel
  induction fuel with
  | zero =>
    intro i Src_Pointer
    refine ⟨Except.ok [], fun port => ⟨?_, ?_⟩⟩
    · intro bytes hb
      simp only [Except.ok.injEq] at hb
      subst hb
      exact ⟨port, rfl, Port.Extends.refl port⟩
    · intro e he
      cases he
  | succ fuel ih =>
    intro i Src_Pointer
    by_cases hlt : i < 5
    · cases hrow : row.bind (fun glyph => glyph[Src_Pointer]?) with
      | none =>
        refine ⟨Except.error Fault.outOfBounds, fun port => ⟨?_, ?_⟩⟩
        · intro bytes hb
          cases hb
        · intro e he
          simp only [Except.error.injEq] at he
          subst he
          unfold ShowFont57.loop
          rw [if_pos hlt, hrow]
      | some b =>
        obtain ⟨R, hR⟩ := ih ((i + 1) % 256) (Src_Pointer + 1)
        have hunfold : ∀ port : Port, ShowFont57.loop row (fuel + 1) i Src_Pointer port
            = ShowFont57.loop row fuel ((i + 1) % 256) (Src_Pointer + 1)
              (port.I2cMasterWriteByte b).2 := by
          intro port
          rw [ShowFont57.loop, if_pos hlt, hrow]
        cases R with
        | error e =>
          refine ⟨Except.error e, fun port => ⟨?_, ?_⟩⟩
          · intro bytes hb
            cases hb
          · intro e1 he
            simp only [Except.error.injEq] at he
            subst he
            rw [hunfold]
            exact (hR _).2 _ rfl
        | ok bytes =>
          refine ⟨Except.ok (b :: bytes), fun port => ⟨?_, ?_⟩⟩
          · intro bs hb
            simp only [Except.ok.injEq] at hb
            subst hb
            obtain ⟨p1, hp1, hx⟩ := (hR (port.I2cMasterWriteByte b).2).1 bytes rfl
            have hstep := Port.extends_writeByte b port
            rw [hstep.2.1] at hx
            refine ⟨p1, ?_, (hstep.trans hx).of_eq (by simp)⟩
            rw [hunfold]
            exact hp1
          · intro e he
            cases he
    · refine ⟨Except.ok [], fun port => ⟨?_, ?_⟩⟩
      · intro bytes hb
        simp only [Except.ok.injEq] at hb
        subst hb
        refine ⟨port, ?_, Port.Extends.refl port⟩
        rw [ShowFont57.loop, if_neg hlt]
      · intro e he
        cases he

theorem ShowFont57_scripted (cfg : Config) (fontArraySel asciiChar startPage startCol : Nat) :
    ∃ T, Scripted (ShowFont57 cfg fontArraySel asciiChar startPage startCol) T := by
  obtain ⟨R, hR⟩ := ShowFont57_loop_scripted (ShowFont57.Src_Pointer fontArraySel asciiChar)
    256 0 0
  have hstart : Traces (fun port => (Port.I2cMasterSendStart SSD1306_I2C_ADD 0 port).2)
      (fun ch => [Call.MasterSendStart ch SSD1306_I2C_ADD 0]) :=
    fun port => Port.extends_sendStart SSD1306_I2C_ADD 0 port
  have hcontrol : Traces (fun port => (Port.I2cMasterWriteByte ssd1306DATA_FOLLOWS_BYTE port).2)
      (fun ch => [Call.MasterWriteByte ch ssd1306DATA_FOLLOWS_BYTE]) :=
    fun port => Port.extends_writeByte ssd1306DATA_FOLLOWS_BYTE port
  have hhead := ((traces_address_any cfg startPage startCol).comp hstart).comp hcontrol
  cases R with
  | error e =>
    refine ⟨fun _ => Except.error e, Scripted.fail _ e ?_⟩
    intro port
    unfold ShowFont57
    dsimp only
    rw [(hR _).2 e rfl]
  | ok bytes =>
    refine ⟨fun ch => Except.ok (frame ch 0x00 [(0xB0 ||| startPage) % 256]
      ++ frame ch 0x00 [(0x00 + startCol % 16) % 256]
      ++ frame ch 0x00 [(0x10 + startCol / 16) % 256]
      ++ frame ch 0x40 (bytes ++ [0x00])), ?_⟩
    intro port
    constructor
    · intro evs he
      simp only [Except.ok.injEq] at he
      subst he
      refine ⟨(wellFramed_address_any _ _ _).append (wellFramed_data _ _), ?_⟩
      have h1 := hhead port
      obtain ⟨p1, hp1, hx⟩ := (hR ((Port.I2cMasterWriteByte ssd1306DATA_FOLLOWS_BYTE
        (Port.I2cMasterSendStart SSD1306_I2C_ADD 0
          (SetStartColumn cfg startCol (SetStartPage cfg startPage port))).2).2)).1 bytes rfl
      rw [h1.2.1] at hx
      have h2 := Port.extends_writeByte 0x00 p1
      have h3 := Port.extends_sendStop (p1.I2cMasterWriteByte 0x00).2
      rw [h2.2.1] at h3
      rw [(h1.trans hx).2.1] at h2 h3
      refine ⟨_, ?_, (((h1.trans hx).trans h2).trans h3).of_eq ?_⟩
      · unfold ShowFont57
        dsimp only
        rw [hp1]
      · simp [frame, address_eq, ssd1306DATA_FOLLOWS_BYTE, List.append_assoc]
    · intro e he
      cases he

theorem ShowString_loop_scripted (cfg : Config) (databaseNum : Nat) (msg : Nat → Nat)
    (startPage : Nat) :
    ∀ (fuel internalPtr startCol : Nat),
      ∃ T, Scripted (ShowString.loop cfg databaseNum msg startPage fuel internalPtr startCol)
        T := by
  intro fuel
  induction fuel with
  | zero =>
    intro internalPtr startCol
    exact ⟨_, Scripted.fail _ Fault.outOfFuel (fun port => rfl)⟩
  | succ fuel ih =>
    intro internalPtr startCol
    obtain ⟨T1, h1⟩ := ShowFont57_scripted cfg databaseNum (msg internalPtr) startPage startCol
    by_cases hz : msg (internalPtr + 1) = 0
    · refine ⟨T1, h1.same_fun ?_⟩
      intro port
      rw [ShowString.loop]
      cases ShowFont57 cfg databaseNum (msg internalPtr) startPage startCol port with
      | error e => rfl
      | ok p1 =>
        dsimp only
        rw [if_pos hz]
    · obtain ⟨T2, h2⟩ := ih (internalPtr + 1) ((startCol + 6) % 256)
      refine ⟨_, Scripted.seq h1 h2 ?_ ?_⟩
      · intro port e he
        rw [ShowString.loop, he]
      · intro port port1 he
        rw [ShowString.loop, he]
        dsimp only
        rw [if_neg hz]

theorem ShowString_scripted (cfg : Config) (fuel databaseNum : Nat) (msg : Nat → Nat)
    (startPage startCol : Nat) :
    ∃ T, Scripted (ShowString cfg fuel databaseNum msg startPage startCol) T := by
  obtain ⟨T1, h1⟩ := ShowFont57_scripted cfg 1 96 startPage startCol
  obtain ⟨T2, h2⟩ := ShowString_loop_scripted cfg databaseNum msg startPage fuel 0 startCol
  refine ⟨_, Scripted.seq h1 h2 ?_ ?_⟩
  · intro port e he
    unfold ShowString
    simp only [he]
  · intro port port1 he
    unfold ShowString
    simp only [he]

theorem ShowPattern_cols_scripted (pixelArray : Nat → Nat) (totalCol : Nat) :
    ∀ (fuel j pixelPointer : Nat), ∃ (bytes : List Nat) (next : Nat), ∀ port : Port,
      (ShowPattern.cols pixelArray totalCol fuel j pixelPointer port).1 = next
        ∧ port.Extends (ShowPattern.cols pixelArray totalCol fuel j pixelPointer port).2
          (bytes.map (Call.MasterWriteByte port.i2cPort)) := by
  intro fuel
  induction fuel with
  | zero =>
    intro j pixelPointer
    exact ⟨[], pixelPointer, fun port => ⟨rfl, Port.Extends.refl port⟩⟩
  | succ fuel ih =>
    intro j pixelPointer
    by_cases hlt : j < totalCol
    · obtain ⟨bytes, next, h⟩ := ih ((j + 1) % 256) (pixelPointer + 1)
      refine ⟨pixelArray pixelPointer :: bytes, next, fun port => ?_⟩
      have hunfold : ShowPattern.cols pixelArray totalCol (fuel + 1) j pixelPointer port
          = ShowPattern.cols pixelArray totalCol fuel ((j + 1) % 256) (pixelPointer + 1)
            (port.I2cMasterWriteByte (pixelArray pixelPointer)).2 := by
        rw [ShowPattern.cols, if_pos hlt]
      rw [hunfold]
      have hstep := Port.extends_writeByte (pixelArray pixelPointer) port
      have hrest := h (port.I2cMasterWriteByte (pixelArray pixelPointer)).2
      rw [hstep.2.1] at hrest
      exact ⟨hrest.1, (hstep.trans hrest.2).of_eq (by simp)⟩
    · refine ⟨[], pixelPointer, fun port => ?_⟩
      have hunfold : ShowPattern.cols pixelArray totalCol (fuel + 1) j pixelPointer port
          = (pixelPointer, port) := by
        rw [ShowPattern.cols, if_neg hlt]
      rw [hunfold]
      exact ⟨rfl, Port.Extends.refl port⟩

theorem ShowPattern_pages_scripted (cfg : Config) (pixelArray : Nat → Nat)
    (endPage startCol totalCol : Nat) :
    ∀ (fuel i pixelPointer : Nat),
      ∃ T, Scripted (ShowPattern.pages cfg pixelArray endPage startCol totalCol fuel i
        pixelPointer) T := by
  intro fuel
  induction fuel with
  | zero =>
    intro i pixelPointer
    by_cases hlt : i < endPage + 1
    · refine ⟨_, Scripted.fail _ Fault.outOfFuel (fun port => ?_)⟩
      rw [ShowPattern.pages, if_pos hlt]
    · refine ⟨_, Scripted.ok_nil.same_fun (fun port => ?_)⟩
      rw [ShowPattern.pages, if_neg hlt]
  | succ fuel ih =>
    intro i pixelPointer
    by_cases hlt : i < endPage + 1
    · obtain ⟨bytes, next, hcols⟩ := ShowPattern_cols_scripted pixelArray totalCol 256 0
        pixelPointer
      obtain ⟨T, hT⟩ := ih ((i + 1) % 256) next
      have hbody := (traces_address_any cfg i startCol).comp
        (traces_dataFrame (L := fun port =>
          (ShowPattern.cols pixelArray totalCol 256 0 pixelPointer port).2)
          (fun port => (hcols port).2))
      refine ⟨_, Scripted.after hbody
        (fun ch => (wellFramed_address_any ch i startCol).append (wellFramed_data ch bytes))
        hT (fun port => ?_)⟩
      rw [ShowPattern.pages, if_pos hlt]
      dsimp only
      rw [(hcols _).1]
    · refine ⟨_, Scripted.ok_nil.same_fun (fun port => ?_)⟩
      rw [ShowPattern.pages, if_neg hlt]

theorem ShowPattern_scripted (cfg : Config) (fuel : Nat) (pixelArray : Nat → Nat)
    (startPage endPage startCol totalCol : Nat) :
    ∃ T, Scripted (ShowPattern cfg fuel pixelArray startPage endPage startCol totalCol) T := by
  obtain ⟨T, hT⟩ := ShowPattern_pages_scripted cfg pixelArray endPage startCol totalCol fuel
    startPage 0
  exact ⟨_, Scripted.after
    (traces_printIf cfg.configDEBUG_SSD1306 "SSD1306: Showing pattern...\r\n")
    (fun _ => wellFramed_nil) hT (fun port => rfl)⟩

theorem VerticalScroll_wait_extends (e : Nat) :
    ∀ (fuel j : Nat), ∃ n : Nat, ∀ port : Port,
      port.Extends (VerticalScroll.wait e fuel j port)
        (List.replicate n (Call.CyDelayUs 200)) := by
  intro fuel
  induction fuel with
  | zero =>
    intro j
    exact ⟨0, fun port => Port.Extends.refl port⟩
  | succ fuel ih =>
    intro j
    by_cases hlt : j < e
    · obtain ⟨n, h⟩ := ih ((j + 1) % uintRange)
      refine ⟨n + 1, fun port => ?_⟩
      have hunfold : VerticalScroll.wait e (fuel + 1) j port
          = VerticalScroll.wait e fuel ((j + 1) % uintRange) (port.DelayUs 200) := by
        rw [VerticalScroll.wait, if_pos hlt]
      rw [hunfold]
      exact ((traces_DelayUs 200 port).trans (h _)).of_eq
        (by simp [List.replicate_succ])
    · refine ⟨0, fun port => ?_⟩
      have hunfold : VerticalScroll.wait e (fuel + 1) j port = port := by
        rw [VerticalScroll.wait, if_neg hlt]
      rw [hunfold]
      exact Port.Extends.refl port

theorem wellFramed_delays (n : Nat) : WellFramed (List.replicate n (Call.CyDelayUs 200)) :=
  wellFramed_others _ (fun c hc => by
    rw [List.eq_of_mem_replicate hc]
    rfl)

theorem VerticalScroll_steps_scripted (cfg : Config) (down : Bool) (c d e : Nat) :
    ∀ (fuel i : Nat), ∃ T, Scripted (VerticalScroll.steps cfg down c d e fuel i) T := by
  intro fuel
  induction fuel with
  | zero =>
    intro i
    by_cases hlt : i < c
    · refine ⟨_, Scripted.fail _ Fault.outOfFuel (fun port => ?_)⟩
      rw [VerticalScroll.steps, if_pos hlt]
    · refine ⟨_, Scripted.ok_nil.same_fun (fun port => ?_)⟩
      rw [VerticalScroll.steps, if_neg hlt]
  | succ fuel ih =>
    intro i
    by_cases hlt : i < c
    · obtain ⟨n, hwait⟩ := VerticalScroll_wait_extends e 256 0
      obtain ⟨T, hT⟩ := ih ((i + d) % uintRange)
      have hline := traces_SetStartLine cfg
        (if down then (c + uintRange - i) % uintRange % 256 else i % 256)
      have hwaitT : Traces (VerticalScroll.wait e 256 0)
          (fun _ => List.replicate n (Call.CyDelayUs 200)) := hwait
      have hbody := hline.comp hwaitT
      refine ⟨_, Scripted.after hbody
        (fun ch => (wellFramed_command ch _).append (wellFramed_delays n))
        hT (fun port => ?_)⟩
      rw [VerticalScroll.steps, if_pos hlt]
      cases down <;> rfl
    · refine ⟨_, Scripted.ok_nil.same_fun (fun port => ?_)⟩
      rw [VerticalScroll.steps, if_neg hlt]

theorem VerticalScroll_scripted (cfg : Config) (fuel a b c d e : Nat) :
    ∃ T, Scripted (VerticalScroll cfg fuel a b c d e) T := by
  have hsetup := ((traces_WriteCommand cfg 0xA3).comp (traces_WriteCommand cfg b)).comp
    (traces_WriteCommand cfg c)
  have hsetupW : ∀ ch : i2cPort_t, WellFramed (frame ch 0x00 [0xA3] ++ frame ch 0x00 [b]
      ++ frame ch 0x00 [c]) :=
    fun ch => ((wellFramed_command ch _).append (wellFramed_command ch _)).append
      (wellFramed_command ch _)
  have hlast := Scripted.of_traces (traces_SetStartLine cfg 0x00)
    (fun ch => wellFramed_command ch _)
  have hmid : ∃ (S : Port → Except Fault Port) (T : i2cPort_t → Except Fault (List Call)),
      Scripted S T ∧ ∀ port, VerticalScroll cfg fuel a b c d e port
        = match S (WriteCommand cfg c (WriteCommand cfg b (WriteCommand cfg 0xA3 port))) with
          | Except.error f => Except.error f
          | Except.ok port => Except.ok (SetStartLine cfg 0x00 port) := by
    match a with
    | 0 =>
      obtain ⟨T, hT⟩ := VerticalScroll_steps_scripted cfg false c d e fuel 0
      exact ⟨_, T, hT, fun port => rfl⟩
    | 1 =>
      obtain ⟨T, hT⟩ := VerticalScroll_steps_scripted cfg true c d e fuel 0
      exact ⟨_, T, hT, fun port => rfl⟩
    | k + 2 =>
      exact ⟨_, _, Scripted.ok_nil, fun port => rfl⟩
  obtain ⟨S, T, hS, hV⟩ := hmid
  have hfront := Scripted.after hsetup hsetupW hS (H := fun port =>
    S (WriteCommand cfg c (WriteCommand cfg b (WriteCommand cfg 0xA3 port)))) (fun port => rfl)
  refine ⟨_, Scripted.seq hfront hlast ?_ ?_⟩
  · intro port e he
    rw [hV, he]
  · intro port port1 he
    rw [hV, he]

/-! ## The remaining operations: traces, scripts, framing -/

theorem WriteCommandArray_loop_traced (cfg : Config) (commandArray : Nat → Nat)
    (numCommands : Nat) :
    ∀ (fuel commandIndex : Nat), ∃ bytes : List Nat, ∀ port : Port,
      port.Extends (WriteCommandArray.loop cfg commandArray numCommands fuel commandIndex port)
        (bytes.map (Call.MasterWriteByte port.i2cPort)) := by
  intro fuel
  induction fuel with
  | zero =>
    intro commandIndex
    exact ⟨[], fun port => Port.Extends.refl port⟩
  | succ fuel ih =>
    intro commandIndex
    by_cases hlt : commandIndex < numCommands
    · obtain ⟨bytes, h⟩ := ih ((commandIndex + 1) % 256)
      refine ⟨commandArray commandIndex :: bytes, fun port => ?_⟩
      rw [WriteCommandArray.loop, if_pos hlt]
      dsimp only
      have h1 := extends_reported cfg (port.I2cMasterWriteByte (commandArray commandIndex)).1
        "SSD1306: Error. Sending byte over I2C failed.\r\n"
        (Port.extends_writeByte (commandArray commandIndex) port)
      have h2 := h (reportError cfg (port.I2cMasterWriteByte (commandArray commandIndex)).1
        "SSD1306: Error. Sending byte over I2C failed.\r\n"
        (port.I2cMasterWriteByte (commandArray commandIndex)).2)
      rw [h1.2.1] at h2
      exact (h1.trans h2).of_eq (by simp)
    · refine ⟨[], fun port => ?_⟩
      rw [WriteCommandArray.loop, if_neg hlt]
      exact Port.Extends.refl port

theorem WriteCommandArray_traced (cfg : Config) (commandArray : Nat → Nat) (numCommands : Nat) :
    ∃ payload : List Nat, Traces (WriteCommandArray cfg commandArray numCommands)
      (fun ch => frame ch 0x00 payload) := by
  obtain ⟨bytes, hloop⟩ := WriteCommandArray_loop_traced cfg commandArray numCommands 256 0
  refine ⟨bytes, fun port => ?_⟩
  unfold WriteCommandArray
  dsimp only
  have h1 := extends_reported cfg (port.I2cMasterSendStart SSD1306_I2C_ADD 0).1
    "SSD1306: Error. Sending start condition over I2C failed.\r\n"
    (Port.extends_sendStart SSD1306_I2C_ADD 0 port)
  generalize reportError cfg (port.I2cMasterSendStart SSD1306_I2C_ADD 0).1
    "SSD1306: Error. Sending start condition over I2C failed.\r\n"
    (port.I2cMasterSendStart SSD1306_I2C_ADD 0).2 = p1 at h1 ⊢
  have h2 := extends_reported cfg (p1.I2cMasterWriteByte ssd1306CMD_FOLLOWS_BYTE).1
    "SSD1306: Error. Sending byte over I2C failed.\r\n"
    (Port.extends_writeByte ssd1306CMD_FOLLOWS_BYTE p1)
  generalize reportError cfg (p1.I2cMasterWriteByte ssd1306CMD_FOLLOWS_BYTE).1
    "SSD1306: Error. Sending byte over I2C failed.\r\n"
    (p1.I2cMasterWriteByte ssd1306CMD_FOLLOWS_BYTE).2 = p2 at h2 ⊢
  have h3 := hloop p2
  generalize WriteCommandArray.loop cfg commandArray numCommands 256 0 p2 = p3 at h3 ⊢
  have h4 := extends_reported cfg (p3.I2cMasterSendStop).1
    "SSD1306: Error. Sending stop condition over I2C failed.\r\n"
    (Port.extends_sendStop p3)
  have e1 : p1.i2cPort = port.i2cPort := h1.2.1
  have e2 : p2.i2cPort = port.i2cPort := h2.2.1.trans e1
  have e3 : p3.i2cPort = port.i2cPort := h3.2.1.trans e2
  rw [e3] at h4
  rw [e2] at h3
  rw [e1] at h2
  refine (((h1.trans h2).trans h3).trans h4).of_eq ?_
  simp [frame, address_eq, ssd1306CMD_FOLLOWS_BYTE]

theorem FillBlock_cols_extends (byteToFillRamWith numCols : Nat) :
    ∀ (fuel j : Nat), ∃ bytes : List Nat, ∀ port : Port,
      port.Extends (FillBlock.cols byteToFillRamWith numCols fuel j port)
        (bytes.map (Call.MasterWriteByte port.i2cPort)) := by
  intro fuel
  induction fuel with
  | zero =>
    intro j
    exact ⟨[], fun port => Port.Extends.refl port⟩
  | succ fuel ih =>
    intro j
    by_cases hlt : j < numCols
    · obtain ⟨bytes, h⟩ := ih ((j + 1) % 256)
      refine ⟨byteToFillRamWith :: bytes, fun port => ?_⟩
      rw [FillBlock.cols, if_pos hlt]
      dsimp only
      have hstep := Port.extends_writeByte byteToFillRamWith port
      have hrest := h (port.I2cMasterWriteByte byteToFillRamWith).2
      rw [hstep.2.1] at hrest
      exact (hstep.trans hrest).of_eq (by simp)
    · refine ⟨[], fun port => ?_⟩
      rw [FillBlock.cols, if_neg hlt]
      exact Port.Extends.refl port

theorem FillBlock_pages_scripted (cfg : Config) (byteToFillRamWith endPage startCol
    numCols : Nat) :
    ∀ (fuel i : Nat),
      ∃ T, Scripted (FillBlock.pages cfg byteToFillRamWith endPage startCol numCols fuel i)
        T := by
  intro fuel
  induction fuel with
  | zero =>
    intro i
    by_cases hlt : i < endPage + 1
    · refine ⟨_, Scripted.fail _ Fault.outOfFuel (fun port => ?_)⟩
      rw [FillBlock.pages, if_pos hlt]
    · refine ⟨_, Scripted.ok_nil.same_fun (fun port => ?_)⟩
      rw [FillBlock.pages, if_neg hlt]
  | succ fuel ih =>
    intro i
    by_cases hlt : i < endPage + 1
    · obtain ⟨bytes, hcols⟩ := FillBlock_cols_extends byteToFillRamWith numCols 256 0
      obtain ⟨T, hT⟩ := ih ((i + 1) % 256)
      have hbody := (traces_address_any cfg i startCol).comp
        (traces_dataFrame (L := FillBlock.cols byteToFillRamWith numCols 256 0) hcols)
      refine ⟨_, Scripted.after hbody
        (fun ch => (wellFramed_address_any ch i startCol).append (wellFramed_data ch bytes))
        hT (fun port => ?_)⟩
      rw [FillBlock.pages, if_pos hlt]
    · refine ⟨_, Scripted.ok_nil.same_fun (fun port => ?_)⟩
      rw [FillBlock.pages, if_neg hlt]

theorem FillBlock_scripted (cfg : Config) (fuel byteToFillRamWith startPage endPage startCol
    numCols : Nat) :
    ∃ T, Scripted (FillBlock cfg fuel byteToFillRamWith startPage endPage startCol numCols)
      T := by
  obtain ⟨T, hT⟩ := FillBlock_pages_scripted cfg byteToFillRamWith endPage startCol numCols
    fuel startPage
  exact ⟨T, hT.same_fun (fun port => rfl)⟩

theorem Sleep_traced (cfg : Config) (a : Nat) : ∃ T, Traces (Sleep cfg a) T := by
  match a with
  | 0 => exact ⟨_, (traces_DeactivateDisplay cfg).comp (traces_TurnEveryPixelOn cfg)⟩
  | 1 => exact ⟨_, (traces_TurnEveryPixelOff cfg).comp (traces_ActivateDisplay cfg)⟩
  | k + 2 => exact ⟨_, traces_id⟩

theorem Test_wait_extends :
    ∀ (fuel i : Nat), ∃ n : Nat, ∀ port : Port,
      port.Extends (Test.wait fuel i port) (List.replicate n (Call.CyDelayUs 200)) := by
  intro fuel
  induction fuel with
  | zero =>
    intro i
    exact ⟨0, fun port => Port.Extends.refl port⟩
  | succ fuel ih =>
    intro i
    by_cases hlt : i < 200
    · obtain ⟨n, h⟩ := ih ((i + 1) % 256)
      refine ⟨n + 1, fun port => ?_⟩
      rw [Test.wait, if_pos hlt]
      exact ((traces_DelayUs 200 port).trans (h _)).of_eq (by simp [List.replicate_succ])
    · refine ⟨0, fun port => ?_⟩
      rw [Test.wait, if_neg hlt]
      exact Port.Extends.refl port

theorem Traces.congr {F H : Port → Port} {T : i2cPort_t → List Call} (h : Traces F T)
    (hH : ∀ port, H port = F port) : Traces H T := by
  intro port
  rw [hH port]
  exact h port

theorem Test_turns_traced (cfg : Config) : ∀ n : Nat, ∃ T, Traces (Test.turns cfg n) T := by
  intro n
  induction n with
  | zero =>
    obtain ⟨k, hk⟩ := Test_wait_extends 256 0
    have hwait : Traces (Test.wait 256 0) (fun _ => List.replicate k (Call.CyDelayUs 200)) := hk
    exact ⟨_, (hwait.comp (traces_TurnEveryPixelOn cfg)).congr (fun port => by
      rw [Test.turns])⟩
  | succ n ih =>
    obtain ⟨T, hT⟩ := ih
    exact ⟨_, ((((hT.comp (traces_ActivateDisplay cfg)).comp (traces_DelayMs 2)).comp
      (traces_DeactivateDisplay cfg)).comp (traces_DelayMs 2)).congr (fun port => by
      rw [Test.turns])⟩

theorem Test_never_returns (cfg : Config) :
    ∀ (fuel : Nat) (port : Port), Test.loop cfg fuel port = Except.error Fault.outOfFuel := by
  intro fuel
  induction fuel with
  | zero =>
    intro port
    rfl
  | succ fuel ih =>
    intro port
    rw [Test.loop]
    exact ih _

theorem SetI2cPort_unaffected (cfg : Config) (i2cPort : i2cPort_t) :
    Unaffected (SetI2cPort cfg i2cPort) := by
  intro port r1 r2
  have h1 := SetI2cPort_state cfg i2cPort (port.withRet r1)
  have h2 := SetI2cPort_state cfg i2cPort (port.withRet r2)
  exact ⟨h1.1.trans h2.1.symm, h1.2.1.trans h2.2.1.symm⟩

theorem OledInitVccInt_unaffected (cfg : Config) : Unaffected (OledInitVccInt cfg) := by
  intro port r1 r2
  have h1 := OledInitVccInt_state cfg (port.withRet r1)
  have h2 := OledInitVccInt_state cfg (port.withRet r2)
  exact ⟨h1.1.trans h2.1.symm, h1.2.1.trans h2.2.1.symm⟩

theorem SetI2cPort_framed (cfg : Config) (i2cPort : i2cPort_t) (port : Port) :
    port.Framed (SetI2cPort cfg i2cPort port) :=
  ⟨[], by rw [(SetI2cPort_state cfg i2cPort port).1, List.append_nil], wellFramed_nil⟩

theorem wellFramed_fadeStep (ch : i2cPort_t) (v : Nat) :
    WellFramed (frame ch 0x00 [0x81, v] ++ fadeDelay) :=
  (wellFramed_command ch _).append wellFramed_fadeDelay

theorem wellFramed_delay (n : Nat) : WellFramed [Call.CyDelay n] :=
  wellFramed_other _ rfl

theorem OledInitVccInt_framed (cfg : Config) (port : Port) :
    port.Framed (OledInitVccInt cfg port) :=
  ⟨_, (OledInitVccInt_state cfg port).1,
    ((wellFramed_powerUp.append (wellFramed_resetTrace _)).append
      (wellFramed_commandFrames _ _)).append (wellFramed_fillTrace _ _)⟩

theorem wellFramed_powerSwitches (v : Nat) :
    WellFramed [Call.VddbEnN_Write i2cPort_t.i2cRight v, Call.VddbEnN_Write i2cPort_t.i2cLeft v] :=
  wellFramed_others _ (fun c hc => by
    simp only [List.mem_cons, List.mem_singleton, List.not_mem_nil, or_false] at hc
    rcases hc with rfl | rfl <;> rfl)

theorem wellFramed_busStart :
    WellFramed [Call.Start i2cPort_t.i2cLeft, Call.Start i2cPort_t.i2cRight,
      Call.EnableInt i2cPort_t.i2cLeft, Call.EnableInt i2cPort_t.i2cRight] := by
  rfl

/-! ## Bus answers are reported and otherwise ignored -/

/-- C13: for `WriteCommand` and `WriteCommandArray`, and for every operation built on them, the
calls made (and the channel left selected) are the same whatever answers the start, write-byte
and stop primitives give: `WriteCommand` makes its four calls, `WriteCommandArray` one whole
transaction, both return nothing, and an operation that can fail to return does so or not
independently of the answers.  The answers are looked at all the same: with error reporting
switched on, answers other than `I2cCpLeft_MSTR_NO_ERROR` put four messages on the debug
channel during one `WriteCommand`, and the calls are those made when every answer is a
success. -/
theorem bus_answers_ignored (cfg : Config) :
    (∀ (cmd : Nat) (port : Port),
        (WriteCommand cfg cmd port).calls = port.calls ++ frame port.i2cPort 0x00 [cmd])
      ∧ (∀ (commandArray : Nat → Nat) (numCommands : Nat), ∃ payload : List Nat, ∀ port : Port,
        (WriteCommandArray cfg commandArray numCommands port).calls
          = port.calls ++ frame port.i2cPort 0x00 payload)
      ∧ (∀ cmd, Unaffected (WriteCommand cfg cmd))
      ∧ (∀ commandArray numCommands, Unaffected (WriteCommandArray cfg commandArray numCommands))
      ∧ (∀ d, Unaffected (SetStartColumn cfg d))
      ∧ (∀ d, Unaffected (SetStartPage cfg d))
      ∧ (∀ a b, Unaffected (SetColumnAddress cfg a b))
      ∧ (∀ a b, Unaffected (SetPageAddress cfg a b))
      ∧ Unaffected (SetNOP cfg)
      ∧ (∀ a, Unaffected (Sleep cfg a))
      ∧ (∀ turns, Unaffected (Test.turns cfg turns))
      ∧ (∀ fuel byteToFillRamWith startPage endPage startCol numCols,
        UnaffectedE (FillBlock cfg fuel byteToFillRamWith startPage endPage startCol numCols))
      ∧ Unaffected (OledInitVccInt cfg)
      ∧ Unaffected (OledInitVccExt cfg)
      ∧ Unaffected (SetChargePumpOn cfg)
      ∧ Unaffected (SetChargePumpOff cfg)
      ∧ Unaffected (ActivateDisplay cfg)
      ∧ Unaffected (DeactivateDisplay cfg)
      ∧ Unaffected (TurnEveryPixelOn cfg)
      ∧ Unaffected (TurnEveryPixelOff cfg)
      ∧ (∀ regVal, Unaffected (SetDisplayClock cfg regVal))
      ∧ (∀ regVal, Unaffected (SetMultiplexRatio cfg regVal))
      ∧ (∀ regVal, Unaffected (SetDisplayOffset cfg regVal))
      ∧ (∀ regVal, Unaffected (SetStartLine cfg regVal))
      ∧ (∀ addressingMode, Unaffected (SetAddressingMode cfg addressingMode))
      ∧ (∀ regVal, Unaffected (SetSegmentRemap cfg regVal))
      ∧ (∀ regVal, Unaffected (SetCommonRemap cfg regVal))
      ∧ (∀ regVal, Unaffected (SetComPinConfig cfg regVal))
      ∧ (∀ d, Unaffected (SetContrastControl cfg d))
      ∧ (∀ d, Unaffected (SetPrechargePeriod cfg d))
      ∧ (∀ d, Unaffected (SetVCOMH cfg d))
      ∧ (∀ isInverse, Unaffected (SetInverseDisplay cfg isInverse))
      ∧ Unaffected (FadeIn cfg)
      ∧ Unaffected (FadeOut cfg)
      ∧ (∀ fuel pixelArray startPage endPage startCol totalCol,
        UnaffectedE (ShowPattern cfg fuel pixelArray startPage endPage startCol totalCol))
      ∧ (∀ byteToFillRamWith, Unaffected (FillRam cfg byteToFillRamWith))
      ∧ Unaffected (Checkerboard cfg)
      ∧ Unaffected (DrawFrame cfg)
      ∧ (∀ a b c d e f g h, Unaffected (ContinuousScroll cfg a b c d e f g h))
      ∧ (∀ scrollDir startPage endPage timeInterval delayTime,
        Unaffected (HorizontalScroll cfg scrollDir startPage endPage timeInterval delayTime))
      ∧ (∀ fuel a b c d e, UnaffectedE (VerticalScroll cfg fuel a b c d e))
      ∧ Unaffected (DeactivateScroll cfg)
      ∧ (∀ fontArraySel asciiChar startPage startCol,
        UnaffectedE (ShowFont57 cfg fontArraySel asciiChar startPage startCol))
      ∧ (∀ fuel databaseNum msg startPage startCol,
        UnaffectedE (ShowString cfg fuel databaseNum msg startPage startCol))
      ∧ (WriteCommand ⟨0, 1, 0, 0⟩ 0xAF (Port.ctor fun _ => 1)).debug
        = ["SSD1306: Error. Sending start condition over I2C failed.\r\n",
            "SSD1306: Error. Sending byte over I2C failed.\r\n",
            "SSD1306: Error. Sending byte over I2C failed.\r\n",
            "SSD1306: Error. Sending stop condition over I2C failed.\r\n"]
      ∧ (WriteCommand ⟨0, 1, 0, 0⟩ 0xAF (Port.ctor fun _ => 0)).debug = []
      ∧ (WriteCommand ⟨0, 1, 0, 0⟩ 0xAF (Port.ctor fun _ => 1)).calls
        = (WriteCommand ⟨0, 1, 0, 0⟩ 0xAF (Port.ctor fun _ => 0)).calls := by
  refine ⟨?_, ?_, ?_, ?_, ?_, ?_, ?_, ?_, ?_, ?_, ?_, ?_, ?_, ?_, ?_, ?_, ?_, ?_, ?_, ?_, ?_, ?_,
    ?_, ?_, ?_, ?_, ?_, ?_, ?_, ?_, ?_, ?_, ?_, ?_, ?_, ?_, ?_, ?_, ?_, ?_, ?_, ?_, ?_, ?_, ?_, ?_,
    ?_⟩
  · exact fun cmd => (traces_WriteCommand cfg cmd).calls
  · intro commandArray numCommands
    obtain ⟨payload, h⟩ := WriteCommandArray_traced cfg commandArray numCommands
    exact ⟨payload, h.calls⟩
  · exact fun cmd => (traces_WriteCommand cfg cmd).unaffected
  · intro commandArray numCommands
    obtain ⟨payload, h⟩ := WriteCommandArray_traced cfg commandArray numCommands
    exact h.unaffected
  · exact fun d => ((traces_WriteCommand cfg ((0x00 + d % 16) % 256)).comp
      (traces_WriteCommand cfg ((0x10 + d / 16) % 256))).unaffected
  · exact fun d => (traces_WriteCommand cfg ((0xB0 ||| d) % 256)).unaffected
  · exact fun a b => (((traces_WriteCommand cfg 0x21).comp (traces_WriteCommand cfg a)).comp
      (traces_WriteCommand cfg b)).unaffected
  · exact fun a b => (((traces_WriteCommand cfg 0x22).comp (traces_WriteCommand cfg a)).comp
      (traces_WriteCommand cfg b)).unaffected
  · exact (traces_WriteCommand cfg 0xE3).unaffected
  · intro a
    obtain ⟨T, h⟩ := Sleep_traced cfg a
    exact h.unaffected
  · intro turns
    obtain ⟨T, h⟩ := Test_turns_traced cfg turns
    exact h.unaffected
  · intro fuel byteToFillRamWith startPage endPage startCol numCols
    obtain ⟨T, h⟩ := FillBlock_scripted cfg fuel byteToFillRamWith startPage endPage startCol
      numCols
    exact h.unaffectedE
  · exact OledInitVccInt_unaffected cfg
  · exact (traces_initExt cfg).unaffected
  · exact (traces_SetChargePumpOn cfg).unaffected
  · exact (traces_SetChargePumpOff cfg).unaffected
  · exact (traces_ActivateDisplay cfg).unaffected
  · exact (traces_DeactivateDisplay cfg).unaffected
  · exact (traces_TurnEveryPixelOn cfg).unaffected
  · exact (traces_TurnEveryPixelOff cfg).unaffected
  · exact fun v => (traces_SetDisplayClock cfg v).unaffected
  · exact fun v => (traces_SetMultiplexRatio cfg v).unaffected
  · exact fun v => (traces_SetDisplayOffset cfg v).unaffected
  · exact fun v => (traces_SetStartLine cfg v).unaffected
  · exact fun m => (traces_SetAddressingMode cfg m).unaffected
  · exact fun v => (traces_SetSegmentRemap cfg v).unaffected
  · exact fun v => (traces_SetCommonRemap cfg v).unaffected
  · exact fun v => (traces_SetComPinConfig cfg v).unaffected
  · exact fun v => (traces_SetContrastControl cfg v).unaffected
  · exact fun v => (traces_SetPrechargePeriod cfg v).unaffected
  · exact fun v => (traces_SetVCOMH cfg v).unaffected
  · exact fun v => (traces_SetInverseDisplay cfg v).unaffected
  · exact (traces_FadeIn cfg).unaffected
  · exact (traces_FadeOut cfg).unaffected
  · intro fuel pixelArray startPage endPage startCol totalCol
    obtain ⟨T, h⟩ := ShowPattern_scripted cfg fuel pixelArray startPage endPage startCol totalCol
    exact h.unaffectedE
  · exact fun v => (traces_FillRam cfg v).unaffected
  · exact (traces_Checkerboard cfg).unaffected
  · exact (traces_DrawFrame cfg).unaffected
  · exact fun a b c d e f g h => (traces_ContinuousScroll cfg a b c d e f g h).unaffected
  · exact fun a b c d e => (traces_HorizontalScroll cfg a b c d e).unaffected
  · intro fuel a b c d e
    obtain ⟨T, h⟩ := VerticalScroll_scripted cfg fuel a b c d e
    exact h.unaffectedE
  · exact (traces_DeactivateScroll cfg).unaffected
  · intro fontArraySel asciiChar startPage startCol
    obtain ⟨T, h⟩ := ShowFont57_scripted cfg fontArraySel asciiChar startPage startCol
    exact h.unaffectedE
  · intro fuel databaseNum msg startPage startCol
    obtain ⟨T, h⟩ := ShowString_scripted cfg fuel databaseNum msg startPage startCol
    exact h.unaffectedE
  · rfl
  · rfl
  · rfl
/-! ## Every operation leaves whole transactions behind -/

/-- C14: what a public operation adds to the record of calls, when it returns, is a sequence of
whole, non-overlapping transactions: every start is followed at once by a write of the control
byte `0x00` or `0x40`, then by the payload writes, then by one stop before any further start;
no write and no stop comes outside a transaction, and every other call (delays, reset line,
supply switches, bus set-up) comes between transactions.  The operations with a fuelled loop or
a table lookup have returning runs; and the rule does reject a write or a stop outside a
transaction, an unfinished transaction, a missing or wrong control byte, a start, a delay or a
reset-line change inside a transaction, and a stop on the other channel. -/
theorem operations_leave_whole_transactions (cfg : Config) (port : Port) :
    port.Framed (OledInitVccInt cfg port)
      ∧ port.Framed (OledInitVccExt cfg port)
      ∧ port.Framed (EnableI2c port)
      ∧ (∀ i2cPort, port.Framed (SetI2cPort cfg i2cPort port))
      ∧ port.Framed (EnableVddb port)
      ∧ port.Framed (DisableVddb port)
      ∧ port.Framed (Reset cfg port)
      ∧ port.Framed (SetChargePumpOn cfg port)
      ∧ port.Framed (SetChargePumpOff cfg port)
      ∧ port.Framed (ActivateDisplay cfg port)
      ∧ port.Framed (DeactivateDisplay cfg port)
      ∧ port.Framed (TurnEveryPixelOn cfg port)
      ∧ port.Framed (TurnEveryPixelOff cfg port)
      ∧ (∀ regVal, port.Framed (SetDisplayClock cfg regVal port))
      ∧ (∀ regVal, port.Framed (SetMultiplexRatio cfg regVal port))
      ∧ (∀ regVal, port.Framed (SetDisplayOffset cfg regVal port))
      ∧ (∀ regVal, port.Framed (SetStartLine cfg regVal port))
      ∧ (∀ addressingMode, port.Framed (SetAddressingMode cfg addressingMode port))
      ∧ (∀ regVal, port.Framed (SetSegmentRemap cfg regVal port))
      ∧ (∀ regVal, port.Framed (SetCommonRemap cfg regVal port))
      ∧ (∀ regVal, port.Framed (SetComPinConfig cfg regVal port))
      ∧ (∀ d, port.Framed (SetContrastControl cfg d port))
      ∧ (∀ d, port.Framed (SetPrechargePeriod cfg d port))
      ∧ (∀ d, port.Framed (SetVCOMH cfg d port))
      ∧ (∀ isInverse, port.Framed (SetInverseDisplay cfg isInverse port))
      ∧ port.Framed (FadeIn cfg port)
      ∧ port.Framed (FadeOut cfg port)
      ∧ (∀ fuel pixelArray startPage endPage startCol totalCol port1,
        ShowPattern cfg fuel pixelArray startPage endPage startCol totalCol port
            = Except.ok port1 →
          port.Framed port1)
      ∧ (∀ byteToFillRamWith, port.Framed (FillRam cfg byteToFillRamWith port))
      ∧ port.Framed (Checkerboard cfg port)
      ∧ port.Framed (DrawFrame cfg port)
      ∧ (∀ a b c d e f g h, port.Framed (ContinuousScroll cfg a b c d e f g h port))
      ∧ (∀ scrollDir startPage endPage timeInterval delayTime,
        port.Framed (HorizontalScroll cfg scrollDir startPage endPage timeInterval delayTime
          port))
      ∧ (∀ fuel a b c d e port1, VerticalScroll cfg fuel a b c d e port = Except.ok port1 →
        port.Framed port1)
      ∧ port.Framed (DeactivateScroll cfg port)
      ∧ (∀ fontArraySel asciiChar startPage startCol port1,
        ShowFont57 cfg fontArraySel asciiChar startPage startCol port = Except.ok port1 →
          port.Framed port1)
      ∧ (∀ fuel databaseNum msg startPage startCol port1,
        ShowString cfg fuel databaseNum msg startPage startCol port = Except.ok port1 →
          port.Framed port1)
      ∧ (∃ port1, ShowPattern cfg 2 (fun k => k) 1 2 17 3 port = Except.ok port1)
      ∧ (∃ port1, VerticalScroll cfg 2 0 0 2 1 1 port = Except.ok port1)
      ∧ (∃ port1, ShowFont57 cfg 1 0x41 0 0 port = Except.ok port1)
      ∧ (∃ port1, ShowString cfg 1 1 (cString [0x41] fun _ => 0) 0 0 port = Except.ok port1)
      ∧ ¬ WellFramed [Call.MasterWriteByte i2cPort_t.i2cLeft 0x00]
      ∧ ¬ WellFramed [Call.MasterSendStop i2cPort_t.i2cLeft]
      ∧ ¬ WellFramed [Call.MasterSendStart i2cPort_t.i2cLeft 0x3C 0, Call.MasterWriteByte i2cPort_t.i2cLeft 0x00,
          Call.MasterWriteByte i2cPort_t.i2cLeft 0xAF]
      ∧ ¬ WellFramed [Call.MasterSendStart i2cPort_t.i2cLeft 0x3C 0, Call.MasterSendStop i2cPort_t.i2cLeft]
      ∧ ¬ WellFramed [Call.MasterSendStart i2cPort_t.i2cLeft 0x3C 0, Call.MasterWriteByte i2cPort_t.i2cLeft 0x80,
          Call.MasterWriteByte i2cPort_t.i2cLeft 0xAF, Call.MasterSendStop i2cPort_t.i2cLeft]
      ∧ ¬ WellFramed [Call.MasterSendStart i2cPort_t.i2cLeft 0x3C 0, Call.MasterWriteByte i2cPort_t.i2cLeft 0x00,
          Call.MasterSendStart i2cPort_t.i2cLeft 0x3C 0, Call.MasterWriteByte i2cPort_t.i2cLeft 0x00,
          Call.MasterSendStop i2cPort_t.i2cLeft]
      ∧ ¬ WellFramed [Call.MasterSendStart i2cPort_t.i2cLeft 0x3C 0, Call.MasterWriteByte i2cPort_t.i2cLeft 0x00,
          Call.CyDelayUs 200, Call.MasterSendStop i2cPort_t.i2cLeft]
      ∧ ¬ WellFramed [Call.MasterSendStart i2cPort_t.i2cLeft 0x3C 0, Call.MasterWriteByte i2cPort_t.i2cLeft 0x00,
          Call.CapSense_SetGpio false, Call.MasterSendStop i2cPort_t.i2cLeft]
      ∧ ¬ WellFramed [Call.MasterSendStart i2cPort_t.i2cLeft 0x3C 0, Call.MasterWriteByte i2cPort_t.i2cLeft 0x00,
          Call.MasterSendStop i2cPort_t.i2cRight] := by
  refine ⟨?_, ?_, ?_, ?_, ?_, ?_, ?_, ?_, ?_, ?_, ?_, ?_, ?_, ?_, ?_, ?_, ?_, ?_, ?_, ?_, ?_, ?_,
    ?_, ?_, ?_, ?_, ?_, ?_, ?_, ?_, ?_, ?_, ?_, ?_, ?_, ?_, ?_, ?_, ?_, ?_, ?_, ?_, ?_, ?_, ?_, ?_,
    ?_, ?_, ?_, ?_⟩
  · exact OledInitVccInt_framed cfg port
  · exact (traces_initExt cfg).framed (fun ch =>
      (((wellFramed_resetTrace ch).append (wellFramed_commandFrames ch _)).append
        (wellFramed_fillTrace ch _)).append (wellFramed_command ch _)) port
  · exact traces_EnableI2c.framed (fun _ => wellFramed_busStart) port
  · exact fun i2cPort => SetI2cPort_framed cfg i2cPort port
  · exact traces_EnableVddb.framed (fun _ => wellFramed_powerSwitches 0) port
  · exact traces_DisableVddb.framed (fun _ => wellFramed_powerSwitches 1) port
  · exact (traces_Reset cfg).framed wellFramed_resetTrace port
  · exact (traces_SetChargePumpOn cfg).framed (fun ch => wellFramed_command ch _) port
  · exact (traces_SetChargePumpOff cfg).framed (fun ch => wellFramed_command ch _) port
  · exact (traces_ActivateDisplay cfg).framed (fun ch => wellFramed_command ch _) port
  · exact (traces_DeactivateDisplay cfg).framed (fun ch => wellFramed_command ch _) port
  · exact (traces_TurnEveryPixelOn cfg).framed (fun ch => wellFramed_command ch _) port
  · exact (traces_TurnEveryPixelOff cfg).framed (fun ch => wellFramed_command ch _) port
  · exact fun v => (traces_SetDisplayClock cfg v).framed (fun ch => wellFramed_command ch _) port
  · exact fun v => (traces_SetMultiplexRatio cfg v).framed (fun ch => wellFramed_command ch _) port
  · exact fun v => (traces_SetDisplayOffset cfg v).framed (fun ch => wellFramed_command ch _) port
  · exact fun v => (traces_SetStartLine cfg v).framed (fun ch => wellFramed_command ch _) port
  · exact fun v => (traces_SetAddressingMode cfg v).framed (fun ch => wellFramed_command ch _) port
  · exact fun v => (traces_SetSegmentRemap cfg v).framed (fun ch => wellFramed_command ch _) port
  · exact fun v => (traces_SetCommonRemap cfg v).framed (fun ch => wellFramed_command ch _) port
  · exact fun v => (traces_SetComPinConfig cfg v).framed (fun ch => wellFramed_command ch _) port
  · exact fun v => (traces_SetContrastControl cfg v).framed (fun ch => wellFramed_command ch _) port
  · exact fun v => (traces_SetPrechargePeriod cfg v).framed (fun ch => wellFramed_command ch _) port
  · exact fun v => (traces_SetVCOMH cfg v).framed (fun ch => wellFramed_command ch _) port
  · exact fun v => (traces_SetInverseDisplay cfg v).framed (fun ch => wellFramed_command ch _) port
  · exact (traces_FadeIn cfg).framed (fun ch =>
      (wellFramed_command ch _).append
        (wellFramed_flatMap _ _ (fun v => wellFramed_fadeStep ch v))) port
  · exact (traces_FadeOut cfg).framed (fun ch =>
      (wellFramed_flatMap _ _ (fun v => wellFramed_fadeStep ch v)).append
        (wellFramed_command ch _)) port
  · intro fuel pixelArray startPage endPage startCol totalCol port1 hok
    obtain ⟨T, h⟩ := ShowPattern_scripted cfg fuel pixelArray startPage endPage startCol totalCol
    exact h.framedE port port1 hok
  · exact fun v => (traces_FillRam cfg v).framed (fun ch => wellFramed_fillTrace ch v) port
  · exact (traces_Checkerboard cfg).framed (fun ch => wellFramed_pagesTrace ch 0 _ 0) port
  · exact (traces_DrawFrame cfg).framed wellFramed_drawFrameTrace port
  · exact fun a b c d e f g h => (traces_ContinuousScroll cfg a b c d e f g h).framed
      (fun ch => (wellFramed_commandFrames ch _).append (wellFramed_delay h)) port
  · exact fun a b c d e => (traces_HorizontalScroll cfg a b c d e).framed
      (fun ch => (wellFramed_commandFrames ch _).append (wellFramed_delay e)) port
  · intro fuel a b c d e port1 hok
    obtain ⟨T, h⟩ := VerticalScroll_scripted cfg fuel a b c d e
    exact h.framedE port port1 hok
  · exact (traces_DeactivateScroll cfg).framed (fun ch => wellFramed_command ch _) port
  · intro fontArraySel asciiChar startPage startCol port1 hok
    obtain ⟨T, h⟩ := ShowFont57_scripted cfg fontArraySel asciiChar startPage startCol
    exact h.framedE port port1 hok
  · intro fuel databaseNum msg startPage startCol port1 hok
    obtain ⟨T, h⟩ := ShowString_scripted cfg fuel databaseNum msg startPage startCol
    exact h.framedE port port1 hok
  · obtain ⟨port1, hok, _⟩ := ShowPattern_extends cfg 2 (fun k => k) 1 2 17 3 port (by decide)
      (by decide) (by decide) (by decide) (by decide)
    exact ⟨port1, hok⟩
  · exact ⟨_, rfl⟩
  · exact ShowFont57_ok_of_row cfg 1 0x41 0 0 port _ Src_Pointer_0x41 rfl
  · obtain ⟨port1, hok, _⟩ := ShowString_text_extends cfg 1 1 0x41 [] (fun _ => 0) 0 0 port
      (fun x hx => by
        simp only [List.mem_singleton] at hx
        subst hx
        exact ⟨_, Src_Pointer_0x41, rfl⟩)
      (by decide) (by decide) (by decide)
    exact ⟨port1, hok⟩
  · unfold WellFramed
    decide
  · unfold WellFramed
    decide
  · unfold WellFramed
    decide
  · unfold WellFramed
    decide
  · unfold WellFramed
    decide
  · unfold WellFramed
    decide
  · unfold WellFramed
    decide
  · unfold WellFramed
    decide
  · unfold WellFramed
    decide

/-! ## Reading a trace back behind an arbitrary history -/

theorem parseFrames_history (hist : List Call) :
    ∀ cur : Option (List Nat), ∃ closed : List (List Nat),
      ∀ (ch : i2cPort_t) (a rw : Nat) (tail : List Call),
        parseFrames cur (hist ++ Call.MasterSendStart ch a rw :: tail)
          = closed ++ parseFrames none (Call.MasterSendStart ch a rw :: tail) := by
  induction hist with
  | nil =>
    intro cur
    refine ⟨[], fun ch a rw tail => ?_⟩
    cases cur <;> rfl
  | cons c rest ih =>
    intro cur
    cases c with
    | MasterSendStart ch1 a1 rw1 =>
      obtain ⟨closed, h⟩ := ih (some [])
      refine ⟨closed, fun ch a rw tail => ?_⟩
      rw [← h ch a rw tail]
      cases cur <;> rfl
    | MasterWriteByte ch1 b =>
      cases cur with
      | none =>
        obtain ⟨closed, h⟩ := ih none
        exact ⟨closed, fun ch a rw tail => h ch a rw tail⟩
      | some bytes =>
        obtain ⟨closed, h⟩ := ih (some (bytes ++ [b]))
        exact ⟨closed, fun ch a rw tail => h ch a rw tail⟩
    | MasterSendStop ch1 =>
      cases cur with
      | none =>
        obtain ⟨closed, h⟩ := ih none
        exact ⟨closed, fun ch a rw tail => h ch a rw tail⟩
      | some bytes =>
        obtain ⟨closed, h⟩ := ih none
        refine ⟨bytes :: closed, fun ch a rw tail => ?_⟩
        have h1 := h ch a rw tail
        show bytes :: parseFrames none (rest ++ Call.MasterSendStart ch a rw :: tail) = _
        rw [h1]
        rfl
    | Start ch1 =>
      obtain ⟨closed, h⟩ := ih cur
      refine ⟨closed, fun ch a rw tail => ?_⟩
      rw [← h ch a rw tail]
      cases cur <;> rfl
    | EnableInt ch1 =>
      obtain ⟨closed, h⟩ := ih cur
      refine ⟨closed, fun ch a rw tail => ?_⟩
      rw [← h ch a rw tail]
      cases cur <;> rfl
    | CapSense_SetCapDevice ch1 =>
      obtain ⟨closed, h⟩ := ih cur
      refine ⟨closed, fun ch a rw tail => ?_⟩
      rw [← h ch a rw tail]
      cases cur <;> rfl
    | CapSense_SetGpio high =>
      obtain ⟨closed, h⟩ := ih cur
      refine ⟨closed, fun ch a rw tail => ?_⟩
      rw [← h ch a rw tail]
      cases cur <;> rfl
    | VddbEnN_Write ch1 v =>
      obtain ⟨closed, h⟩ := ih cur
      refine ⟨closed, fun ch a rw tail => ?_⟩
      rw [← h ch a rw tail]
      cases cur <;> rfl
    | CyDelayUs n =>
      obtain ⟨closed, h⟩ := ih cur
      refine ⟨closed, fun ch a rw tail => ?_⟩
      rw [← h ch a rw tail]
      cases cur <;> rfl
    | CyDelay n =>
      obtain ⟨closed, h⟩ := ih cur
      refine ⟨closed, fun ch a rw tail => ?_⟩
      rw [← h ch a rw tail]
      cases cur <;> rfl

theorem commandPayloads_history (hist : List Call) :
    ∃ earlier : List (List Nat), ∀ (ch : i2cPort_t) (a rw : Nat) (tail : List Call),
      commandPayloads (hist ++ Call.MasterSendStart ch a rw :: tail)
        = earlier ++ commandPayloads (Call.MasterSendStart ch a rw :: tail) := by
  obtain ⟨closed, h⟩ := parseFrames_history hist none
  refine ⟨closed.filterMap fun bytes =>
    match bytes with
    | 0x00 :: payload => some payload
    | _ => none, fun ch a rw tail => ?_⟩
  unfold commandPayloads
  rw [h ch a rw tail, List.filterMap_append]

theorem lastScrollControl_history (hist : List Call) (ch : i2cPort_t) (a rw : Nat)
    (tail : List Call) (v : Nat)
    (h : lastScrollControl (Call.MasterSendStart ch a rw :: tail) = some v) :
    lastScrollControl (hist ++ Call.MasterSendStart ch a rw :: tail) = some v := by
  obtain ⟨earlier, he⟩ := commandPayloads_history hist
  unfold lastScrollControl at h ⊢
  rw [he ch a rw tail, List.filterMap_append, List.getLast?_append, h]
  rfl

theorem lastAddressingMode_history (hist : List Call) (ch : i2cPort_t) (a rw : Nat)
    (tail : List Call) (m : addressingMode_t)
    (h : lastAddressingMode (Call.MasterSendStart ch a rw :: tail) = some m) :
    lastAddressingMode (hist ++ Call.MasterSendStart ch a rw :: tail) = some m := by
  obtain ⟨earlier, he⟩ := commandPayloads_history hist
  unfold lastAddressingMode at h ⊢
  rw [he ch a rw tail, List.filterMap_append, List.getLast?_append]
  cases hl : (List.filterMap (fun payload =>
      match payload with
      | [0x20, v] => some v
      | _ => none) (commandPayloads (Call.MasterSendStart ch a rw :: tail))).getLast? with
  | none =>
    rw [hl] at h
    cases h
  | some v =>
    rw [hl] at h
    exact h

theorem lastScrollControl_behind (hist evs : List Call) (v : Nat)
    (hstart : ∃ ch a rw tail, evs = Call.MasterSendStart ch a rw :: tail)
    (h : lastScrollControl evs = some v) : lastScrollControl (hist ++ evs) = some v := by
  obtain ⟨ch, a, rw, tail, rfl⟩ := hstart
  exact lastScrollControl_history hist ch a rw tail v h

theorem lastAddressingMode_behind (hist evs : List Call) (m : addressingMode_t)
    (hstart : ∃ ch a rw tail, evs = Call.MasterSendStart ch a rw :: tail)
    (h : lastAddressingMode evs = some m) : lastAddressingMode (hist ++ evs) = some m := by
  obtain ⟨ch, a, rw, tail, rfl⟩ := hstart
  exact lastAddressingMode_history hist ch a rw tail m h

theorem lastScrollControl_of_payloads (evs : List Call) (front : List (List Nat)) (v : Nat)
    (hv : v = 0x2E ∨ v = 0x2F) (h : commandPayloads evs = front ++ [[v]]) :
    lastScrollControl evs = some v := by
  unfold lastScrollControl
  rw [h, List.filterMap_append]
  rcases hv with rfl | rfl
  · exact List.getLast?_concat _
  · exact List.getLast?_concat _

theorem toUint8_ofUint8 (m : addressingMode_t) :
    addressingMode_t.ofUint8 m.toUint8 = some m := by
  cases m <;> rfl

theorem lastAddressingMode_of_payloads (evs : List Call) (front : List (List Nat))
    (m : addressingMode_t) (h : commandPayloads evs = front ++ [[0x20, m.toUint8]]) :
    lastAddressingMode evs = some m := by
  unfold lastAddressingMode
  rw [h, List.filterMap_append]
  have hlast : (List.filterMap (fun payload : List Nat =>
      match payload with
      | [0x20, v] => some v
      | _ => none) front ++ [m.toUint8]).getLast? = some m.toUint8 :=
    List.getLast?_concat _
  have hstep : List.filterMap (fun payload : List Nat =>
      match payload with
      | [0x20, v] => some v
      | _ => none) [[0x20, m.toUint8]] = [m.toUint8] := rfl
  rw [hstep, hlast]
  exact toUint8_ofUint8 m

theorem commandPayloads_single (ch : i2cPort_t) (payload : List Nat) :
    commandPayloads (frame ch 0x00 payload) = [payload] := by
  have h := commandPayloads_frame ch payload []
  rwa [List.append_nil, commandPayloads_nil] at h

theorem commandPayloads_commands (ch : i2cPort_t) (payloads : List (List Nat)) :
    commandPayloads (commandFrames ch payloads) = payloads := by
  have h := commandPayloads_commandFrames ch payloads []
  rwa [List.append_nil, commandPayloads_nil, List.append_nil] at h

theorem commandPayloads_scrollStart (ch : i2cPort_t) (payloads : List (List Nat))
    (n : Nat) (rest : List Call) :
    commandPayloads (commandFrames ch payloads ++ [Call.CyDelay n] ++ rest)
      = payloads ++ commandPayloads rest := by
  rw [List.append_assoc, commandPayloads_commandFrames]
  congr 1

theorem setup_byte (scrollDir : Nat) (h : scrollDir < 256) :
    (0x26 ||| scrollDir) % 256 = 0x26 ||| scrollDir :=
  Nat.mod_eq_of_lt (Nat.or_lt_two_pow (n := 8) (by decide) h)

/-! ## Scrolling -/

/-- C21: for byte arguments, `HorizontalScroll(scrollDir, startPage, endPage, timeInterval,
delayTime)` makes exactly these calls: six command transactions of one byte each,
`0x26 | scrollDir` (`0x26` for direction 0, `0x27` for direction 1), `0x00`, `startPage`,
`timeInterval`, `endPage`, `0x2F`, in this order, and then, as its last call, one delay of
`delayTime` milliseconds. -/
theorem HorizontalScroll_trace (cfg : Config)
    (scrollDir startPage endPage timeInterval delayTime : Nat) (port : Port)
    (hdir : scrollDir < 256) :
    (HorizontalScroll cfg scrollDir startPage endPage timeInterval delayTime port).calls
        = port.calls
          ++ (frame port.i2cPort 0x00 [0x26 ||| scrollDir] ++ frame port.i2cPort 0x00 [0x00]
            ++ frame port.i2cPort 0x00 [startPage] ++ frame port.i2cPort 0x00 [timeInterval]
            ++ frame port.i2cPort 0x00 [endPage] ++ frame port.i2cPort 0x00 [0x2F]
            ++ [Call.CyDelay delayTime])
      ∧ commandPayloads
          (frame port.i2cPort 0x00 [0x26 ||| scrollDir] ++ frame port.i2cPort 0x00 [0x00]
            ++ frame port.i2cPort 0x00 [startPage] ++ frame port.i2cPort 0x00 [timeInterval]
            ++ frame port.i2cPort 0x00 [endPage] ++ frame port.i2cPort 0x00 [0x2F]
            ++ [Call.CyDelay delayTime])
        = [[0x26 ||| scrollDir], [0x00], [startPage], [timeInterval], [endPage], [0x2F]]
      ∧ (HorizontalScroll cfg scrollDir startPage endPage timeInterval delayTime port).calls.getLast?
        = some (Call.CyDelay delayTime)
      ∧ 0x26 ||| 0x00 = 0x26
      ∧ 0x26 ||| 0x01 = 0x27 := by
  have h := (traces_HorizontalScroll cfg scrollDir startPage endPage timeInterval delayTime).calls
    port
  rw [setup_byte scrollDir hdir] at h
  have hp := commandPayloads_scrollStart port.i2cPort
    [[0x26 ||| scrollDir], [0x00], [startPage], [timeInterval], [endPage], [0x2F]] delayTime []
  refine ⟨?_, ?_, ?_, rfl, rfl⟩
  · rw [h]
    simp [commandFrames, List.append_assoc]
  · rw [List.append_nil, commandPayloads_nil, List.append_nil] at hp
    rw [← hp]
    simp [commandFrames, List.append_assoc]
  · rw [h, ← List.append_assoc]
    exact List.getLast?_concat _

theorem HorizontalScroll_trace_witness :
    1 < 256
      ∧ (HorizontalScroll Config.quiet 1 0 7 3 50 (Port.ctor fun _ => 0)).calls
        = [Call.MasterSendStart i2cPort_t.i2cLeft 0x3C 0,
            Call.MasterWriteByte i2cPort_t.i2cLeft 0x00,
            Call.MasterWriteByte i2cPort_t.i2cLeft 0x27,
            Call.MasterSendStop i2cPort_t.i2cLeft,
            Call.MasterSendStart i2cPort_t.i2cLeft 0x3C 0,
            Call.MasterWriteByte i2cPort_t.i2cLeft 0x00,
            Call.MasterWriteByte i2cPort_t.i2cLeft 0x00,
            Call.MasterSendStop i2cPort_t.i2cLeft,
            Call.MasterSendStart i2cPort_t.i2cLeft 0x3C 0,
            Call.MasterWriteByte i2cPort_t.i2cLeft 0x00,
            Call.MasterWriteByte i2cPort_t.i2cLeft 0,
            Call.MasterSendStop i2cPort_t.i2cLeft,
            Call.MasterSendStart i2cPort_t.i2cLeft 0x3C 0,
            Call.MasterWriteByte i2cPort_t.i2cLeft 0x00,
            Call.MasterWriteByte i2cPort_t.i2cLeft 3,
            Call.MasterSendStop i2cPort_t.i2cLeft,
            Call.MasterSendStart i2cPort_t.i2cLeft 0x3C 0,
            Call.MasterWriteByte i2cPort_t.i2cLeft 0x00,
            Call.MasterWriteByte i2cPort_t.i2cLeft 7,
            Call.MasterSendStop i2cPort_t.i2cLeft,
            Call.MasterSendStart i2cPort_t.i2cLeft 0x3C 0,
            Call.MasterWriteByte i2cPort_t.i2cLeft 0x00,
            Call.MasterWriteByte i2cPort_t.i2cLeft 0x2F,
            Call.MasterSendStop i2cPort_t.i2cLeft,
            Call.CyDelay 50] :=
  ⟨by decide,
    (HorizontalScroll_trace Config.quiet 1 0 7 3 50 (Port.ctor fun _ => 0) (by decide)).1⟩

/-- C22: `ContinuousScroll(a, b, c, d, e, f, g, h)` makes exactly these calls: ten command
transactions of one byte each, `0xA3`, `d`, `e`, then `0x29 + a` (as the byte that
`WriteCommand` takes, that is modulo 256; it is `0x29 + a` itself up to `a = 0xD6`), `0x00`,
`b`, `g`, `c`, `f`, `0x2F`, in this order, and then, as its last call, one delay of `h`
milliseconds. -/
theorem ContinuousScroll_trace (cfg : Config) (a b c d e f g h : Nat) (port : Port) :
    (ContinuousScroll cfg a b c d e f g h port).calls
        = port.calls
          ++ (frame port.i2cPort 0x00 [0xA3] ++ frame port.i2cPort 0x00 [d]
            ++ frame port.i2cPort 0x00 [e] ++ frame port.i2cPort 0x00 [(0x29 + a) % 256]
            ++ frame port.i2cPort 0x00 [0x00] ++ frame port.i2cPort 0x00 [b]
            ++ frame port.i2cPort 0x00 [g] ++ frame port.i2cPort 0x00 [c]
            ++ frame port.i2cPort 0x00 [f] ++ frame port.i2cPort 0x00 [0x2F]
            ++ [Call.CyDelay h])
      ∧ commandPayloads
          (frame port.i2cPort 0x00 [0xA3] ++ frame port.i2cPort 0x00 [d]
            ++ frame port.i2cPort 0x00 [e] ++ frame port.i2cPort 0x00 [(0x29 + a) % 256]
            ++ frame port.i2cPort 0x00 [0x00] ++ frame port.i2cPort 0x00 [b]
            ++ frame port.i2cPort 0x00 [g] ++ frame port.i2cPort 0x00 [c]
            ++ frame port.i2cPort 0x00 [f] ++ frame port.i2cPort 0x00 [0x2F]
            ++ [Call.CyDelay h])
        = [[0xA3], [d], [e], [(0x29 + a) % 256], [0x00], [b], [g], [c], [f], [0x2F]]
      ∧ (ContinuousScroll cfg a b c d e f g h port).calls.getLast? = some (Call.CyDelay h)
      ∧ (a ≤ 0xD6 → (0x29 + a) % 256 = 0x29 + a)
      ∧ (0x29 + 0x00) % 256 = 0x29
      ∧ (0x29 + 0x01) % 256 = 0x2A := by
  have h1 := (traces_ContinuousScroll cfg a b c d e f g h).calls port
  have hp := commandPayloads_scrollStart port.i2cPort
    [[0xA3], [d], [e], [(0x29 + a) % 256], [0x00], [b], [g], [c], [f], [0x2F]] h []
  refine ⟨?_, ?_, ?_, fun ha => Nat.mod_eq_of_lt (by omega), rfl, rfl⟩
  · rw [h1]
    simp [commandFrames, List.append_assoc]
  · rw [List.append_nil, commandPayloads_nil, List.append_nil] at hp
    rw [← hp]
    simp [commandFrames, List.append_assoc]
  · rw [h1, ← List.append_assoc]
    exact List.getLast?_concat _

/-- C23: `DeactivateScroll` adds exactly one command transaction, `[0x2E]`, to whatever was
emitted before.  So after `HorizontalScroll` or `ContinuousScroll` followed by
`DeactivateScroll` the last scroll-control opcode of the whole trace is `0x2E`, and after
`HorizontalScroll` or `ContinuousScroll` alone it is `0x2F`, whatever the arguments and
whatever the trace held before. -/
theorem DeactivateScroll_trace (cfg : Config) (port : Port)
    (scrollDir startPage endPage timeInterval delayTime a b c d e f g h : Nat) :
    (DeactivateScroll cfg port).calls = port.calls ++ frame port.i2cPort 0x00 [0x2E]
      ∧ commandPayloads (frame port.i2cPort 0x00 [0x2E]) = [[0x2E]]
      ∧ lastScrollControl (DeactivateScroll cfg
          (HorizontalScroll cfg scrollDir startPage endPage timeInterval delayTime port)).calls
        = some 0x2E
      ∧ lastScrollControl (DeactivateScroll cfg
          (ContinuousScroll cfg a b c d e f g h port)).calls = some 0x2E
      ∧ lastScrollControl
          (HorizontalScroll cfg scrollDir startPage endPage timeInterval delayTime port).calls
        = some 0x2F
      ∧ lastScrollControl (ContinuousScroll cfg a b c d e f g h port).calls = some 0x2F := by
  have hH := traces_HorizontalScroll cfg scrollDir startPage endPage timeInterval delayTime
  have hC := traces_ContinuousScroll cfg a b c d e f g h
  have hD := traces_DeactivateScroll cfg
  refine ⟨hD.calls port, commandPayloads_single _ _, ?_, ?_, ?_, ?_⟩
  · rw [(hH.comp hD).calls port]
    refine lastScrollControl_behind _ _ _ ⟨_, _, _, _, rfl⟩
      (lastScrollControl_of_payloads _
        [[(0x26 ||| scrollDir) % 256], [0x00], [startPage], [timeInterval], [endPage], [0x2F]]
        0x2E (Or.inl rfl) ?_)
    rw [commandPayloads_scrollStart, commandPayloads_single]
  · rw [(hC.comp hD).calls port]
    refine lastScrollControl_behind _ _ _ ⟨_, _, _, _, rfl⟩
      (lastScrollControl_of_payloads _
        [[0xA3], [d], [e], [(0x29 + a) % 256], [0x00], [b], [g], [c], [f], [0x2F]]
        0x2E (Or.inl rfl) ?_)
    rw [commandPayloads_scrollStart, commandPayloads_single]
  · rw [hH.calls port]
    refine lastScrollControl_behind _ _ _ ⟨_, _, _, _, rfl⟩
      (lastScrollControl_of_payloads _
        [[(0x26 ||| scrollDir) % 256], [0x00], [startPage], [timeInterval], [endPage]]
        0x2F (Or.inr rfl) ?_)
    have hp := commandPayloads_scrollStart port.i2cPort
      [[(0x26 ||| scrollDir) % 256], [0x00], [startPage], [timeInterval], [endPage], [0x2F]]
      delayTime []
    rw [List.append_nil, commandPayloads_nil, List.append_nil] at hp
    rw [hp]
    rfl
  · rw [hC.calls port]
    refine lastScrollControl_behind _ _ _ ⟨_, _, _, _, rfl⟩
      (lastScrollControl_of_payloads _
        [[0xA3], [d], [e], [(0x29 + a) % 256], [0x00], [b], [g], [c], [f]]
        0x2F (Or.inr rfl) ?_)
    have hp := commandPayloads_scrollStart port.i2cPort
      [[0xA3], [d], [e], [(0x29 + a) % 256], [0x00], [b], [g], [c], [f], [0x2F]] h []
    rw [List.append_nil, commandPayloads_nil, List.append_nil] at hp
    rw [hp]
    rfl

/-! ## Addressing mode -/

theorem traces_modes (cfg : Config) :
    ∀ modes : List addressingMode_t,
      Traces (fun port => modes.foldl (fun p mode => SetAddressingMode cfg mode p) port)
        (fun ch => commandFrames ch (modes.map fun mode => [0x20, mode.toUint8])) := by
  intro modes
  induction modes with
  | nil => exact traces_id
  | cons mode rest ih =>
    exact ((traces_SetAddressingMode cfg mode).comp ih).retrace (fun ch => by
      simp [commandFrames])

theorem toUint8_injective (m1 m2 : addressingMode_t) (h : m1.toUint8 = m2.toUint8) :
    m1 = m2 := by
  cases m1 <;> cases m2 <;> first | rfl | exact absurd h (by decide)

/-- C29: `SetAddressingMode(PAGE_ADDRESSING_MODE)` followed by
`SetAddressingMode(HORIZONTAL_ADDRESSING_MODE)` emits the command transactions `[0x20, 0x02]` and
`[0x20, 0x00]`, and the mode read back from the last addressing-mode command of the whole trace
is Horizontal.  In general, after any sequence of `SetAddressingMode` calls the mode read back
is the argument of the last call, whatever the trace held before; and the three modes have
three distinct operands, from which they are recovered. -/
theorem SetAddressingMode_last_wins (cfg : Config) (port : Port)
    (earlier : List addressingMode_t) (mode : addressingMode_t) :
    (SetAddressingMode cfg addressingMode_t.HORIZONTAL_ADDRESSING_MODE
        (SetAddressingMode cfg addressingMode_t.PAGE_ADDRESSING_MODE port)).calls
        = port.calls ++ (frame port.i2cPort 0x00 [0x20, 0x02] ++ frame port.i2cPort 0x00 [0x20, 0x00])
      ∧ lastAddressingMode
          (SetAddressingMode cfg addressingMode_t.HORIZONTAL_ADDRESSING_MODE
            (SetAddressingMode cfg addressingMode_t.PAGE_ADDRESSING_MODE port)).calls
        = some addressingMode_t.HORIZONTAL_ADDRESSING_MODE
      ∧ lastAddressingMode
          ((earlier ++ [mode]).foldl (fun p m => SetAddressingMode cfg m p) port).calls
        = some mode
      ∧ ((earlier ++ [mode]).foldl (fun p m => SetAddressingMode cfg m p) port).calls
        = port.calls
          ++ (earlier ++ [mode]).flatMap (fun m => frame port.i2cPort 0x00 [0x20, m.toUint8])
      ∧ (∀ m1 m2 : addressingMode_t, m1.toUint8 = m2.toUint8 → m1 = m2)
      ∧ (∀ m : addressingMode_t, addressingMode_t.ofUint8 m.toUint8 = some m)
      ∧ addressingMode_t.HORIZONTAL_ADDRESSING_MODE.toUint8 = 0x00
      ∧ addressingMode_t.VERTICAL_ADDRESSING_MODE.toUint8 = 0x01
      ∧ addressingMode_t.PAGE_ADDRESSING_MODE.toUint8 = 0x02 := by
  have h2 := ((traces_SetAddressingMode cfg addressingMode_t.PAGE_ADDRESSING_MODE).comp
    (traces_SetAddressingMode cfg addressingMode_t.HORIZONTAL_ADDRESSING_MODE)).calls port
  have hall := (traces_modes cfg (earlier ++ [mode])).calls port
  have hstart : ∃ ch a rw tail,
      commandFrames port.i2cPort ((earlier ++ [mode]).map fun m => [0x20, m.toUint8])
        = Call.MasterSendStart ch a rw :: tail := by
    cases earlier with
    | nil => exact ⟨_, _, _, _, rfl⟩
    | cons m rest => exact ⟨_, _, _, _, rfl⟩
  refine ⟨h2, ?_, ?_, ?_, toUint8_injective, toUint8_ofUint8, rfl, rfl, rfl⟩
  · rw [h2]
    refine lastAddressingMode_behind _ _ _ ⟨_, _, _, _, rfl⟩
      (lastAddressingMode_of_payloads _ [[0x20, 0x02]]
        addressingMode_t.HORIZONTAL_ADDRESSING_MODE ?_)
    rw [commandPayloads_frame, commandPayloads_single]
    rfl
  · rw [hall]
    refine lastAddressingMode_behind _ _ _ hstart
      (lastAddressingMode_of_payloads _ (earlier.map fun m => [0x20, m.toUint8]) mode ?_)
    rw [commandPayloads_commands, List.map_append]
    rfl
  · rw [hall]
    simp [commandFrames, List.flatMap_map]

/-! ## Checkerboard and frame: what the data transactions carry -/

theorem dataPayloads_dataFrame (ch : i2cPort_t) (payload : List Nat) (rest : List Call) :
    dataPayloads (frame ch 0x40 payload ++ rest) = payload :: dataPayloads rest := by
  unfold dataPayloads
  rw [parseFrames_frame]
  rfl

theorem dataPayloads_frame (ch : i2cPort_t) (payload : List Nat) (rest : List Call) :
    dataPayloads (frame ch 0x00 payload ++ rest) = dataPayloads rest := by
  unfold dataPayloads
  rw [parseFrames_frame]
  rfl

theorem dataPayloads_nil : dataPayloads [] = [] := by
  rfl

theorem commandPayloads_pagesTrace (ch : i2cPort_t) (col : Nat) (payloads : List (List Nat)) :
    ∀ page : Nat, commandPayloads (pagesTrace ch col page payloads)
      = (List.range' page payloads.length).flatMap
        (fun p => [[0xB0 ||| p], [0x00 ||| (col % 16)], [0x10 ||| (col / 16)]]) := by
  induction payloads with
  | nil =>
    intro page
    rfl
  | cons p ps ih =>
    intro page
    unfold pagesTrace addressAt
    simp only [List.append_assoc, commandPayloads_frame, commandPayloads_dataFrame, ih (page + 1)]
    rw [List.length_cons, List.range'_succ, List.flatMap_cons]
    rfl

set_option maxRecDepth 100000 in
theorem checker_row :
    ((List.replicate 64 [0x55, 0xAA]).flatten : List Nat).length = 128
      ∧ ∀ k < 128, ((List.replicate 64 [0x55, 0xAA]).flatten : List Nat)[k]?
        = some (if k % 2 = 0 then 0x55 else 0xAA) := by
  decide

/-- C26: `Checkerboard` emits, for the pages 0, 1, ..., 7 in this order, the addressing of that
page at column 0 and one data transaction; these 8 data transactions are all it emits as data,
each carries exactly 128 bytes, and the byte at every even index is `0x55` and at every odd
index `0xAA`. -/
theorem Checkerboard_trace (cfg : Config) (port : Port) :
    (Checkerboard cfg port).calls
        = port.calls
          ++ (List.range 8).flatMap (fun page =>
            addressAt port.i2cPort page 0
              ++ frame port.i2cPort 0x40 (List.replicate 64 [0x55, 0xAA]).flatten)
      ∧ dataPayloads
          ((List.range 8).flatMap (fun page =>
            addressAt port.i2cPort page 0
              ++ frame port.i2cPort 0x40 (List.replicate 64 [0x55, 0xAA]).flatten))
        = List.replicate 8 (List.replicate 64 [0x55, 0xAA]).flatten
      ∧ commandPayloads
          ((List.range 8).flatMap (fun page =>
            addressAt port.i2cPort page 0
              ++ frame port.i2cPort 0x40 (List.replicate 64 [0x55, 0xAA]).flatten))
        = (List.range 8).flatMap (fun page => [[0xB0 ||| page], [0x00], [0x10]])
      ∧ ((List.replicate 64 [0x55, 0xAA]).flatten : List Nat).length = 128
      ∧ (∀ k < 128, ((List.replicate 64 [0x55, 0xAA]).flatten : List Nat)[k]?
        = some (if k % 2 = 0 then 0x55 else 0xAA)) := by
  have hshape : ∀ ch : i2cPort_t, checkerTrace ch
      = (List.range 8).flatMap (fun page =>
        addressAt ch page 0 ++ frame ch 0x40 (List.replicate 64 [0x55, 0xAA]).flatten) := by
    intro ch
    have h := pagesTrace_range ch 0 8 0 (fun _ => (List.replicate 64 [0x55, 0xAA]).flatten)
    simp only [Nat.zero_add] at h
    rw [← h]
    rfl
  have h1 := (traces_Checkerboard cfg).calls port
  rw [hshape] at h1
  refine ⟨h1, ?_, ?_, checker_row.1, checker_row.2⟩
  · rw [← hshape]
    exact dataPayloads_pagesTrace _ _ _ _
  · rw [← hshape]
    unfold checkerTrace
    rw [commandPayloads_pagesTrace]
    rfl

theorem dataPayloads_single (ch : i2cPort_t) (payload : List Nat) :
    dataPayloads (frame ch 0x40 payload) = [payload] := by
  have h := dataPayloads_dataFrame ch payload []
  rwa [List.append_nil, dataPayloads_nil] at h

theorem dataPayloads_drawFrameTrace (ch : i2cPort_t) :
    dataPayloads (drawFrameTrace ch)
      = [List.replicate 128 0x01, List.replicate 128 0x80,
          [0xFF], [0xFF], [0xFF], [0xFF], [0xFF], [0xFF], [0xFF], [0xFF]] := by
  have hlast : ∀ payload : List Nat,
      dataPayloads (frame ch 0x40 payload ++ []) = [payload] := by
    intro payload
    rw [dataPayloads_dataFrame, dataPayloads_nil]
  unfold drawFrameTrace sideTrace addressAt
  simp only [List.range, List.range.loop, List.flatMap_cons, List.flatMap_nil,
    List.append_assoc, dataPayloads_frame, dataPayloads_dataFrame, hlast]

theorem commandPayloads_drawFrameTrace (ch : i2cPort_t) :
    commandPayloads (drawFrameTrace ch)
      = [[0xB0], [0x00], [0x10], [0xB3], [0x00], [0x10],
          [0xB0], [0x00], [0x10], [0x0F], [0x17],
          [0xB1], [0x00], [0x10], [0x0F], [0x17],
          [0xB2], [0x00], [0x10], [0x0F], [0x17],
          [0xB3], [0x00], [0x10], [0x0F], [0x17]] := by
  have hlast : ∀ payload : List Nat,
      commandPayloads (frame ch 0x40 payload ++ []) = [] := by
    intro payload
    rw [commandPayloads_dataFrame, commandPayloads_nil]
  unfold drawFrameTrace sideTrace addressAt
  simp only [List.range, List.range.loop, List.flatMap_cons, List.flatMap_nil,
    List.append_assoc, commandPayloads_frame, commandPayloads_dataFrame, hlast]
  rfl

theorem frame_bytes :
    ([List.replicate 128 0x01, List.replicate 128 0x80,
        [0xFF], [0xFF], [0xFF], [0xFF], [0xFF], [0xFF], [0xFF], [0xFF]]
      : List (List Nat)).flatten.length = 264 := by
  simp only [List.flatten, List.length_append, List.length_replicate, List.length_cons,
    List.length_nil]

/-- C27: `DrawFrame` returns after emitting, in this order: the addressing of page 0, column 0
and one data transaction of 128 bytes `0x01`; the addressing of page 3, column 0 and one data
transaction of 128 bytes `0x80`; then, for each of the pages 0, 1, 2, 3 in order, the page-set
command, the addressing of column 0 and a data transaction of the single byte `0xFF`, and the
addressing of column 127 (`0x0F`, `0x17`) and a data transaction of the single byte `0xFF`.
These ten are all its data transactions; they carry 264 bytes.  The payloads are read back
from the trace of a call on a new driver. -/
theorem DrawFrame_trace (cfg : Config) (port : Port) (ret : Nat → Nat) :
    (DrawFrame cfg port).calls
        = port.calls
          ++ (addressAt port.i2cPort 0 0 ++ frame port.i2cPort 0x40 (List.replicate 128 0x01)
            ++ (addressAt port.i2cPort 3 0 ++ frame port.i2cPort 0x40 (List.replicate 128 0x80))
            ++ (List.range 4).flatMap (fun page =>
              frame port.i2cPort 0x00 [0xB0 ||| page]
                ++ (frame port.i2cPort 0x00 [0x00 ||| (0 % 16)]
                  ++ frame port.i2cPort 0x00 [0x10 ||| (0 / 16)]
                  ++ frame port.i2cPort 0x40 [0xFF])
                ++ (frame port.i2cPort 0x00 [0x00 ||| (127 % 16)]
                  ++ frame port.i2cPort 0x00 [0x10 ||| (127 / 16)]
                  ++ frame port.i2cPort 0x40 [0xFF])))
      ∧ dataPayloads (DrawFrame cfg (Port.ctor ret)).calls
        = [List.replicate 128 0x01, List.replicate 128 0x80,
            [0xFF], [0xFF], [0xFF], [0xFF], [0xFF], [0xFF], [0xFF], [0xFF]]
      ∧ commandPayloads (DrawFrame cfg (Port.ctor ret)).calls
        = [[0xB0], [0x00], [0x10], [0xB3], [0x00], [0x10],
            [0xB0], [0x00], [0x10], [0x0F], [0x17],
            [0xB1], [0x00], [0x10], [0x0F], [0x17],
            [0xB2], [0x00], [0x10], [0x0F], [0x17],
            [0xB3], [0x00], [0x10], [0x0F], [0x17]]
      ∧ ([List.replicate 128 0x01, List.replicate 128 0x80,
            [0xFF], [0xFF], [0xFF], [0xFF], [0xFF], [0xFF], [0xFF], [0xFF]]
          : List (List Nat)).flatten.length = 264
      ∧ ssd1306NUM_COLS - 1 = 127 := by
  have h1 := (traces_DrawFrame cfg).calls port
  have h2 := (traces_DrawFrame cfg).calls (Port.ctor ret)
  have hnil : (Port.ctor ret).calls = [] := rfl
  rw [hnil, List.nil_append] at h2
  refine ⟨h1, ?_, ?_, frame_bytes, rfl⟩
  · rw [h2]
    exact dataPayloads_drawFrameTrace _
  · rw [h2]
    exact commandPayloads_drawFrameTrace _

/-! ## Vertical scroll: the steps and their number -/

theorem VerticalScroll_wait_run (e : Nat) (he : e < uintRange) :
    ∀ (fuel j : Nat) (port : Port), j ≤ e → e - j ≤ fuel →
      port.Extends (VerticalScroll.wait e fuel j port)
        (List.replicate (e - j) (Call.CyDelayUs 200)) := by
  intro fuel
  induction fuel with
  | zero =>
    intro j port hj hf
    have h0 : e - j = 0 := by omega
    rw [h0]
    exact Port.Extends.refl port
  | succ fuel ih =>
    intro j port hj hf
    by_cases hlt : j < e
    · rw [VerticalScroll.wait, if_pos hlt]
      have hnext : (j + 1) % uintRange = j + 1 := Nat.mod_eq_of_lt (by omega)
      rw [hnext]
      have hrest := ih (j + 1) (port.DelayUs 200) (by omega) (by omega)
      have hcount : e - j = (e - (j + 1)) + 1 := by omega
      rw [hcount, List.replicate_succ]
      exact ((traces_DelayUs 200 port).trans hrest).of_eq rfl
    · rw [VerticalScroll.wait, if_neg hlt]
      have h0 : e - j = 0 := by omega
      rw [h0]
      exact Port.Extends.refl port

theorem steps_count (c d k : Nat) (hd : 1 ≤ d) : k < (c + d - 1) / d ↔ k * d < c := by
  rw [Nat.lt_iff_add_one_le, Nat.le_div_iff_mul_le (by omega), Nat.add_mul]
  omega

theorem steps_count_le (c d : Nat) (hd : 1 ≤ d) : (c + d - 1) / d ≤ c := by
  rw [Nat.div_le_iff_le_mul_add_pred (by omega)]
  have : c ≤ d * c := Nat.le_mul_of_pos_left c (by omega)
  omega

theorem steps_count_ceil (c d : Nat) (hd : 1 ≤ d) :
    c ≤ (c + d - 1) / d * d ∧ (c + d - 1) / d * d < c + d := by
  have h1 := Nat.div_add_mod (c + d - 1) d
  have h2 := Nat.mod_lt (c + d - 1) (show d > 0 by omega)
  rw [Nat.mul_comm] at h1
  constructor <;> omega

theorem startLine_byte (line : Nat) (h : line < 256) : (0x40 ||| line) % 256 = 0x40 ||| line :=
  Nat.mod_eq_of_lt (Nat.or_lt_two_pow (n := 8) (by decide) h)

theorem VerticalScroll_steps_run (cfg : Config) (down : Bool) (c d e : Nat) (hc : c < 256)
    (hd1 : 1 ≤ d) (hd : d < 256) (he : e < 256) :
    ∀ (fuel k : Nat) (port : Port), k ≤ (c + d - 1) / d → (c + d - 1) / d - k ≤ fuel →
      ∃ port1, VerticalScroll.steps cfg down c d e fuel (k * d) port = Except.ok port1
        ∧ port.Extends port1
          ((List.range' k ((c + d - 1) / d - k)).flatMap (fun j =>
            frame port.i2cPort 0x00 [0x40 ||| (if down then c - j * d else j * d)]
              ++ List.replicate e (Call.CyDelayUs 200))) := by
  intro fuel
  induction fuel with
  | zero =>
    intro k port hk hf
    have hkn : ¬ k < (c + d - 1) / d := by omega
    have hnot : ¬ k * d < c := fun h => hkn ((steps_count c d k hd1).2 h)
    have h0 : (c + d - 1) / d - k = 0 := by omega
    refine ⟨port, ?_, ?_⟩
    · rw [VerticalScroll.steps, if_neg hnot]
    · rw [h0]
      exact Port.Extends.refl port
  | succ fuel ih =>
    intro k port hk hf
    by_cases hlt : k * d < c
    · have hkn : k < (c + d - 1) / d := (steps_count c d k hd1).2 hlt
      have hnext : (k * d + d) % uintRange = (k + 1) * d := by
        rw [Nat.add_mul, Nat.one_mul]
        exact Nat.mod_eq_of_lt (by unfold uintRange; omega)
      have hline : (if down = true
          then SetStartLine cfg ((c + uintRange - k * d) % uintRange % 256) port
          else SetStartLine cfg (k * d % 256) port)
          = SetStartLine cfg (if down then c - k * d else k * d) port := by
        cases down
        · have h1 : k * d % 256 = k * d := Nat.mod_eq_of_lt (by omega)
          simp only [Bool.false_eq_true, if_false, h1]
        · have h1 : (c + uintRange - k * d) % uintRange % 256 = c - k * d := by
            unfold uintRange
            omega
          simp only [if_true, h1]
      have hbyte : (if down then c - k * d else k * d) < 256 := by
        cases down
        · simp only [Bool.false_eq_true, if_false]
          omega
        · simp only [if_true]
          omega
      have h1 := traces_SetStartLine cfg (if down then c - k * d else k * d) port
      rw [startLine_byte _ hbyte] at h1
      dsimp only at h1
      have h2 := VerticalScroll_wait_run e (by unfold uintRange; omega) 256 0
        (SetStartLine cfg (if down then c - k * d else k * d) port) (by omega) (by omega)
      rw [Nat.sub_zero] at h2
      obtain ⟨port1, hok, hx⟩ := ih (k + 1)
        (VerticalScroll.wait e 256 0
          (SetStartLine cfg (if down then c - k * d else k * d) port)) (by omega) (by omega)
      rw [(h1.trans h2).2.1] at hx
      refine ⟨port1, ?_, ?_⟩
      · rw [VerticalScroll.steps, if_pos hlt]
        dsimp only
        rw [hline, hnext]
        exact hok
      · have hcount : (c + d - 1) / d - k = ((c + d - 1) / d - (k + 1)) + 1 := by omega
        rw [hcount, List.range'_succ, List.flatMap_cons]
        exact ((h1.trans h2).trans hx).of_eq (by simp [List.append_assoc])
    · have hkn : ¬ k < (c + d - 1) / d := fun h => hlt ((steps_count c d k hd1).1 h)
      have h0 : (c + d - 1) / d - k = 0 := by omega
      refine ⟨port, ?_, ?_⟩
      · rw [VerticalScroll.steps, if_neg hlt]
      · rw [h0]
        exact Port.Extends.refl port

theorem VerticalScroll_steps_stuck (cfg : Config) (down : Bool) (c e : Nat) (hc : 1 ≤ c) :
    ∀ (fuel : Nat) (port : Port),
      VerticalScroll.steps cfg down c 0 e fuel 0 port = Except.error Fault.outOfFuel := by
  intro fuel
  induction fuel with
  | zero =>
    intro port
    rw [VerticalScroll.steps, if_pos (by omega)]
  | succ fuel ih =>
    intro port
    rw [VerticalScroll.steps, if_pos (by omega)]
    exact ih _

theorem VerticalScroll_run (cfg : Config) (fuel a b c d e : Nat) (port : Port) (ha : a ≤ 1)
    (hc : c < 256) (hd1 : 1 ≤ d) (hd : d < 256) (he : e < 256) (hf : (c + d - 1) / d ≤ fuel) :
    ∃ port1, VerticalScroll cfg fuel a b c d e port = Except.ok port1
      ∧ port.Extends port1
        (frame port.i2cPort 0x00 [0xA3] ++ frame port.i2cPort 0x00 [b]
          ++ frame port.i2cPort 0x00 [c]
          ++ (List.range ((c + d - 1) / d)).flatMap (fun k =>
            frame port.i2cPort 0x00 [0x40 ||| (if a = 0 then k * d else c - k * d)]
              ++ List.replicate e (Call.CyDelayUs 200))
          ++ frame port.i2cPort 0x00 [0x40]) := by
  have hsetup := (((traces_WriteCommand cfg 0xA3).comp (traces_WriteCommand cfg b)).comp
    (traces_WriteCommand cfg c)) port
  have hlast := traces_SetStartLine cfg 0x00
  have hdown : ∀ down : Bool, (a = 0 ↔ down = false) →
      ∃ port1, VerticalScroll.steps cfg down c d e fuel 0
          (WriteCommand cfg c (WriteCommand cfg b (WriteCommand cfg 0xA3 port)))
          = Except.ok port1
        ∧ port.Extends port1
          (frame port.i2cPort 0x00 [0xA3] ++ frame port.i2cPort 0x00 [b]
            ++ frame port.i2cPort 0x00 [c]
            ++ (List.range ((c + d - 1) / d)).flatMap (fun k =>
              frame port.i2cPort 0x00 [0x40 ||| (if a = 0 then k * d else c - k * d)]
                ++ List.replicate e (Call.CyDelayUs 200))) := by
    intro down hdir
    obtain ⟨port1, hok, hx⟩ := VerticalScroll_steps_run cfg down c d e hc hd1 hd he fuel 0
      (WriteCommand cfg c (WriteCommand cfg b (WriteCommand cfg 0xA3 port))) (Nat.zero_le _)
      (by rw [Nat.sub_zero]; exact hf)
    rw [Nat.zero_mul] at hok
    rw [hsetup.2.1, Nat.sub_zero, ← List.range_eq_range'] at hx
    refine ⟨port1, hok, (hsetup.trans hx).of_eq ?_⟩
    congr 1
    refine List.flatMap_congr (fun k _ => ?_)
    cases down
    · have h0 : a = 0 := hdir.2 rfl
      simp [h0]
    · have h1 : a ≠ 0 := fun h => Bool.noConfusion (hdir.1 h)
      simp [h1]
  have hfinish : ∀ (mid : Port) (evs : List Call), port.Extends mid evs →
      port.Extends (SetStartLine cfg 0x00 mid) (evs ++ frame port.i2cPort 0x00 [0x40]) := by
    intro mid evs hx
    have h := hlast mid
    rw [hx.2.1] at h
    exact hx.trans h
  have hcases : a = 0 ∨ a = 1 := by omega
  rcases hcases with h0 | h1
  · obtain ⟨port1, hok, hx⟩ := hdown false (by simp [h0])
    refine ⟨SetStartLine cfg 0x00 port1, ?_, hfinish port1 _ hx⟩
    subst h0
    unfold VerticalScroll
    dsimp only
    rw [hok]
  · obtain ⟨port1, hok, hx⟩ := hdown true (by simp [h1])
    refine ⟨SetStartLine cfg 0x00 port1, ?_, hfinish port1 _ hx⟩
    subst h1
    unfold VerticalScroll
    dsimp only
    rw [hok]

/-- C24: for bytes `b`, `c`, `e`, a step `d` from 1 to 255 and a direction `a` of 0 or 1,
`VerticalScroll(a, b, c, d, e)` returns (the stepping loop needs `ceil(c / d)` turns) after
making exactly these calls: the command transactions `[0xA3]`, `[b]`, `[c]`; then, for
`k = 0, 1, ..., ceil(c / d) - 1`, that is for `i = k * d = 0, d, 2d, ...` while `i < c`, one
start-line command `[0x40 | i]` when `a = 0` and `[0x40 | (c - i)]` when `a = 1`, followed by
exactly `e` delays of 200 microseconds; and last the start-line command `[0x40]`.  The number of
steps `(c + d - 1) / d` is the least `n` with `c ≤ n * d`. -/
theorem VerticalScroll_trace (cfg : Config) (fuel a b c d e : Nat) (port : Port) (ha : a ≤ 1)
    (hc : c < 256) (hd1 : 1 ≤ d) (hd : d < 256) (he : e < 256) (hf : (c + d - 1) / d ≤ fuel) :
    ∃ port1, VerticalScroll cfg fuel a b c d e port = Except.ok port1
      ∧ port1.calls
        = port.calls
          ++ (frame port.i2cPort 0x00 [0xA3] ++ frame port.i2cPort 0x00 [b]
            ++ frame port.i2cPort 0x00 [c]
            ++ (List.range ((c + d - 1) / d)).flatMap (fun k =>
              frame port.i2cPort 0x00 [0x40 ||| (if a = 0 then k * d else c - k * d)]
                ++ List.replicate e (Call.CyDelayUs 200))
            ++ frame port.i2cPort 0x00 [0x40])
      ∧ (∀ k, k < (c + d - 1) / d ↔ k * d < c)
      ∧ c ≤ (c + d - 1) / d * d
      ∧ (c + d - 1) / d * d < c + d := by
  obtain ⟨port1, hok, hx⟩ := VerticalScroll_run cfg fuel a b c d e port ha hc hd1 hd he hf
  exact ⟨port1, hok, hx.1, fun k => steps_count c d k hd1, (steps_count_ceil c d hd1).1,
    (steps_count_ceil c d hd1).2⟩

theorem VerticalScroll_trace_witness :
    1 ≤ 1 ∧ 5 < 256 ∧ 1 ≤ 2 ∧ 2 < 256 ∧ 1 < 256 ∧ (5 + 2 - 1) / 2 ≤ 3
      ∧ ∃ port1, VerticalScroll Config.quiet 3 1 0 5 2 1 (Port.ctor fun _ => 0) = Except.ok port1
        ∧ port1.calls
          = (Port.ctor fun _ => 0).calls
            ++ (frame (Port.ctor fun _ => 0).i2cPort 0x00 [0xA3]
              ++ frame (Port.ctor fun _ => 0).i2cPort 0x00 [0]
              ++ frame (Port.ctor fun _ => 0).i2cPort 0x00 [5]
              ++ (List.range ((5 + 2 - 1) / 2)).flatMap (fun k =>
                frame (Port.ctor fun _ => 0).i2cPort 0x00
                    [0x40 ||| (if 1 = 0 then k * 2 else 5 - k * 2)]
                  ++ List.replicate 1 (Call.CyDelayUs 200))
              ++ frame (Port.ctor fun _ => 0).i2cPort 0x00 [0x40])
        ∧ (∀ k, k < (5 + 2 - 1) / 2 ↔ k * 2 < 5)
        ∧ 5 ≤ (5 + 2 - 1) / 2 * 2
        ∧ (5 + 2 - 1) / 2 * 2 < 5 + 2 :=
  ⟨by decide, by decide, by decide, by decide, by decide, by decide,
    VerticalScroll_trace Config.quiet 3 1 0 5 2 1 (Port.ctor fun _ => 0) (by decide) (by decide)
      (by decide) (by decide) (by decide) (by decide)⟩

/-- C25, as stated, fails: with the step `d = 0`, a scroll area of `c = 1` row and direction
`a = 0`, the stepping loop of `VerticalScroll` never leaves `i = 0`, so on a new driver the call
`VerticalScroll(0, 0, 1, 0, 0)` does not return, whatever fuel the loop is given. -/
theorem VerticalScroll_zero_step_never_returns :
    ¬ ∃ (fuel : Nat) (port1 : Port),
      VerticalScroll Config.quiet fuel 0 0 1 0 0 (Port.ctor fun _ => 0) = Except.ok port1 := by
  rintro ⟨fuel, port1, h⟩
  unfold VerticalScroll at h
  dsimp only at h
  rw [VerticalScroll_steps_stuck Config.quiet false 1 0 (by decide)] at h
  cases h

theorem VerticalScroll_steps_none (cfg : Config) (down : Bool) (d e fuel : Nat) (port : Port) :
    VerticalScroll.steps cfg down 0 d e fuel 0 port = Except.ok port := by
  cases fuel with
  | zero => rw [VerticalScroll.steps, if_neg (by omega)]
  | succ fuel => rw [VerticalScroll.steps, if_neg (by omega)]

/-- C25, amended: for bytes `c`, `d`, `e`, `VerticalScroll(a, b, c, d, e)` returns, having added
finitely many calls to the trace, whenever the step `d` is at least 1, or the scroll area `c` is
0, or the direction `a` is neither 0 nor 1 (`c` turns of the stepping loop always suffice); and
when `d = 0`, `c ≥ 1` and `a` is 0 or 1 it never returns, whatever fuel the loop is given. -/
theorem VerticalScroll_terminates (cfg : Config) (a b c d e : Nat) (port : Port)
    (hc : c < 256) (hd : d < 256) (he : e < 256) :
    ((1 ≤ d ∨ c = 0 ∨ 2 ≤ a) → ∀ fuel, c ≤ fuel →
        ∃ (port1 : Port) (evs : List Call),
          VerticalScroll cfg fuel a b c d e port = Except.ok port1
            ∧ port1.calls = port.calls ++ evs)
      ∧ (d = 0 → 1 ≤ c → a ≤ 1 →
        ∀ fuel, VerticalScroll cfg fuel a b c d e port = Except.error Fault.outOfFuel) := by
  have hplain := ((((traces_WriteCommand cfg 0xA3).comp (traces_WriteCommand cfg b)).comp
    (traces_WriteCommand cfg c)).comp (traces_SetStartLine cfg 0x00)).calls port
  constructor
  · intro hcase fuel hf
    by_cases ha : 2 ≤ a
    · refine ⟨_, _, ?_, hplain⟩
      obtain ⟨k, rfl⟩ : ∃ k, a = k + 2 := ⟨a - 2, by omega⟩
      rfl
    · by_cases hc0 : c = 0
      · subst hc0
        refine ⟨_, _, ?_, hplain⟩
        have ha1 : a = 0 ∨ a = 1 := by omega
        rcases ha1 with rfl | rfl
        · unfold VerticalScroll
          dsimp only
          rw [VerticalScroll_steps_none]
        · unfold VerticalScroll
          dsimp only
          rw [VerticalScroll_steps_none]
      · have hd1 : 1 ≤ d := by omega
        obtain ⟨port1, hok, hx⟩ := VerticalScroll_run cfg fuel a b c d e port (by omega) hc hd1
          hd he (Nat.le_trans (steps_count_le c d hd1) hf)
        exact ⟨port1, _, hok, hx.1⟩
  · intro hd0 hc1 ha fuel
    subst hd0
    have ha1 : a = 0 ∨ a = 1 := by omega
    rcases ha1 with rfl | rfl
    · unfold VerticalScroll
      dsimp only
      rw [VerticalScroll_steps_stuck cfg false c e hc1]
    · unfold VerticalScroll
      dsimp only
      rw [VerticalScroll_steps_stuck cfg true c e hc1]

theorem VerticalScroll_terminates_witness :
    64 < 256 ∧ 1 < 256 ∧ 2 < 256
      ∧ (∃ (port1 : Port) (evs : List Call),
        VerticalScroll Config.quiet 64 0 0 64 1 2 (Port.ctor fun _ => 0) = Except.ok port1
          ∧ port1.calls = (Port.ctor fun _ => 0).calls ++ evs) :=
  ⟨by decide, by decide, by decide,
    (VerticalScroll_terminates Config.quiet 0 0 64 1 2 (Port.ctor fun _ => 0) (by decide)
      (by decide) (by decide)).1 (Or.inl (by decide)) 64 (Nat.le_refl _)⟩

/-! ## Region writes beyond the panel -/

/-- C28, at a region that leaves the panel: `ShowPattern` makes no check of its arguments.  For
`startPage ≤ endPage ≤ 254` and byte columns with `startCol + totalCol > 128` it returns as for
any other region, having emitted one data transaction of `totalCol` source bytes per page; so
on a new driver `ShowPattern(pixelArray, 0, 0, 100, 100)` with a source of bytes `0xFF` emits
the data transaction of 100 bytes `0xFF` addressed at column 100, where the claim has the call
rejected with no data transaction. -/
theorem ShowPattern_no_bounds_check (cfg : Config) (pixelArray : Nat → Nat) (port : Port) :
    (∀ startPage endPage startCol totalCol : Nat,
        startPage ≤ endPage → endPage ≤ 254 → startCol < 256 → totalCol ≤ 255 →
        128 < startCol + totalCol →
        ∃ port1,
          ShowPattern cfg (endPage - startPage + 1) pixelArray startPage endPage startCol
              totalCol port = Except.ok port1
            ∧ port1.calls
              = port.calls ++ pagesTrace port.i2cPort startCol startPage
                ((List.range (endPage - startPage + 1)).map
                  (fun k => (List.range' (k * totalCol) totalCol).map pixelArray))
            ∧ dataPayloads (pagesTrace port.i2cPort startCol startPage
                ((List.range (endPage - startPage + 1)).map
                  (fun k => (List.range' (k * totalCol) totalCol).map pixelArray)))
              = (List.range (endPage - startPage + 1)).map
                (fun k => (List.range' (k * totalCol) totalCol).map pixelArray))
      ∧ (∃ port1,
        ShowPattern Config.quiet 1 (fun _ => 0xFF) 0 0 100 100 (Port.ctor fun _ => 0)
            = Except.ok port1
          ∧ port1.calls
            = addressAt i2cPort_t.i2cLeft 0 100
              ++ frame i2cPort_t.i2cLeft 0x40 (List.replicate 100 0xFF)
          ∧ dataPayloads port1.calls = [List.replicate 100 0xFF]
          ∧ commandPayloads port1.calls = [[0xB0], [0x04], [0x16]])
      ∧ 128 < 100 + 100 := by
  refine ⟨?_, ?_, by decide⟩
  · intro startPage endPage startCol totalCol hs he hc ht _
    obtain ⟨port1, hok, hx⟩ := ShowPattern_extends cfg (endPage - startPage + 1) pixelArray
      startPage endPage startCol totalCol port hs he hc ht (Nat.le_refl _)
    exact ⟨port1, hok, hx.1, dataPayloads_pagesTrace _ _ _ _⟩
  · obtain ⟨port1, hok, hx⟩ := ShowPattern_extends Config.quiet 1 (fun _ => 0xFF) 0 0 100 100
      (Port.ctor fun _ => 0) (by decide) (by decide) (by decide) (by decide) (by decide)
    have hcalls : port1.calls
        = addressAt i2cPort_t.i2cLeft 0 100
          ++ frame i2cPort_t.i2cLeft 0x40 (List.replicate 100 0xFF) := by
      rw [hx.1]
      decide
    refine ⟨port1, hok, hcalls, ?_, ?_⟩
    · rw [hcalls, ← List.append_nil (frame i2cPort_t.i2cLeft 0x40 (List.replicate 100 0xFF)),
        ← List.append_assoc]
      unfold addressAt
      simp only [List.append_assoc, dataPayloads_frame, dataPayloads_dataFrame, dataPayloads_nil]
    · rw [hcalls, ← List.append_nil (frame i2cPort_t.i2cLeft 0x40 (List.replicate 100 0xFF)),
        ← List.append_assoc]
      unfold addressAt
      simp only [List.append_assoc, commandPayloads_frame, commandPayloads_dataFrame,
        commandPayloads_nil]
      decide

/-! ## Properties that hold of everything the driver emits -/

theorem laws_others {P : i2cPort_t → List Call → Prop} (hP : TraceLaws P) (ch : i2cPort_t)
    (cs : List Call) (hc : ∀ c ∈ cs, c.isBus = false) : P ch cs := by
  induction cs with
  | nil => exact hP.empty ch
  | cons c cs ih =>
    exact hP.join ch [c] cs (hP.aside ch c (hc c (List.mem_cons_self _ _)))
      (ih (fun x hx => hc x (List.mem_cons_of_mem _ hx)))

theorem laws_flatMap {P : i2cPort_t → List Call → Prop} (hP : TraceLaws P) (ch : i2cPort_t)
    {α : Type} (items : List α) (f : α → List Call) (hf : ∀ x, P ch (f x)) :
    P ch (items.flatMap f) := by
  induction items with
  | nil => exact hP.empty ch
  | cons x xs ih =>
    rw [List.flatMap_cons]
    exact hP.join ch _ _ (hf x) ih

theorem laws_command {P : i2cPort_t → List Call → Prop} (hP : TraceLaws P) (ch : i2cPort_t)
    (payload : List Nat) : P ch (frame ch 0x00 payload) :=
  hP.transaction ch 0x00 payload (Or.inl rfl)

theorem laws_data {P : i2cPort_t → List Call → Prop} (hP : TraceLaws P) (ch : i2cPort_t)
    (payload : List Nat) : P ch (frame ch 0x40 payload) :=
  hP.transaction ch 0x40 payload (Or.inr rfl)

theorem laws_commandFrames {P : i2cPort_t → List Call → Prop} (hP : TraceLaws P)
    (ch : i2cPort_t) (payloads : List (List Nat)) : P ch (commandFrames ch payloads) :=
  laws_flatMap hP ch payloads _ (fun p => laws_command hP ch p)

theorem laws_addressAt {P : i2cPort_t → List Call → Prop} (hP : TraceLaws P) (ch : i2cPort_t)
    (page col : Nat) : P ch (addressAt ch page col) :=
  hP.join ch _ _ (hP.join ch _ _ (laws_command hP ch _) (laws_command hP ch _))
    (laws_command hP ch _)

theorem laws_address_any {P : i2cPort_t → List Call → Prop} (hP : TraceLaws P)
    (ch : i2cPort_t) (page col : Nat) :
    P ch (frame ch 0x00 [(0xB0 ||| page) % 256]
      ++ frame ch 0x00 [(0x00 + col % 16) % 256]
      ++ frame ch 0x00 [(0x10 + col / 16) % 256]) :=
  hP.join ch _ _ (hP.join ch _ _ (laws_command hP ch _) (laws_command hP ch _))
    (laws_command hP ch _)

theorem laws_pagesTrace {P : i2cPort_t → List Call → Prop} (hP : TraceLaws P) (ch : i2cPort_t)
    (col : Nat) (payloads : List (List Nat)) :
    ∀ page : Nat, P ch (pagesTrace ch col page payloads) := by
  induction payloads with
  | nil =>
    intro page
    exact hP.empty ch
  | cons p ps ih =>
    intro page
    unfold pagesTrace
    exact hP.join ch _ _ (hP.join ch _ _ (laws_addressAt hP ch page col) (laws_data hP ch p))
      (ih (page + 1))

theorem laws_resetTrace {P : i2cPort_t → List Call → Prop} (hP : TraceLaws P)
    (ch : i2cPort_t) : P ch (resetTrace ch) :=
  laws_others hP ch _ (fun c hc => by
    simp only [resetTrace, List.mem_cons, List.mem_singleton, List.not_mem_nil, or_false] at hc
    rcases hc with rfl | rfl | rfl | rfl | rfl <;> rfl)

theorem laws_powerUp {P : i2cPort_t → List Call → Prop} (hP : TraceLaws P) (ch : i2cPort_t) :
    P ch powerUpTrace :=
  laws_others hP ch _ (fun c hc => by
    simp only [powerUpTrace, List.mem_cons, List.mem_singleton, List.not_mem_nil,
      or_false] at hc
    rcases hc with rfl | rfl | rfl | rfl | rfl | rfl <;> rfl)

theorem laws_delays {P : i2cPort_t → List Call → Prop} (hP : TraceLaws P) (ch : i2cPort_t)
    (n : Nat) : P ch (List.replicate n (Call.CyDelayUs 200)) :=
  laws_others hP ch _ (fun c hc => by
    rw [List.eq_of_mem_replicate hc]
    rfl)

theorem laws_fadeStep {P : i2cPort_t → List Call → Prop} (hP : TraceLaws P) (ch : i2cPort_t)
    (v : Nat) : P ch (frame ch 0x00 [0x81, v] ++ fadeDelay) :=
  hP.join ch _ _ (laws_command hP ch _) (laws_delays hP ch 3)

theorem laws_sideTrace {P : i2cPort_t → List Call → Prop} (hP : TraceLaws P) (ch : i2cPort_t)
    (col : Nat) : P ch (sideTrace ch col) :=
  hP.join ch _ _ (hP.join ch _ _ (laws_command hP ch _) (laws_command hP ch _))
    (laws_data hP ch _)

theorem laws_drawFrameTrace {P : i2cPort_t → List Call → Prop} (hP : TraceLaws P)
    (ch : i2cPort_t) : P ch (drawFrameTrace ch) :=
  hP.join ch _ _
    (hP.join ch _ _ (hP.join ch _ _ (laws_addressAt hP ch 0 0) (laws_data hP ch _))
      (hP.join ch _ _ (laws_addressAt hP ch 3 0) (laws_data hP ch _)))
    (laws_flatMap hP ch _ _ (fun _ =>
      hP.join ch _ _ (hP.join ch _ _ (laws_command hP ch _) (laws_sideTrace hP ch 0))
        (laws_sideTrace hP ch 127)))

theorem scriptedBy_of_traces {P : i2cPort_t → List Call → Prop} {F : Port → Port}
    {T : i2cPort_t → List Call} (h : Traces F T) (hT : ∀ ch, P ch (T ch)) :
    ScriptedBy P (fun port => Except.ok (F port)) (fun ch => Except.ok (T ch)) := by
  intro port
  constructor
  · intro evs he
    simp only [Except.ok.injEq] at he
    subst he
    exact ⟨hT _, F port, rfl, h port⟩
  · intro e he
    cases he

theorem scriptedBy_fail (P : i2cPort_t → List Call → Prop) (F : Port → Except Fault Port)
    (e : Fault) (hF : ∀ port, F port = Except.error e) :
    ScriptedBy P F (fun _ => Except.error e) := by
  intro port
  constructor
  · intro evs he
    cases he
  · intro e1 he
    simp only [Except.error.injEq] at he
    subst he
    exact hF port

theorem scriptedBy_same {P : i2cPort_t → List Call → Prop} {F H : Port → Except Fault Port}
    {T : i2cPort_t → Except Fault (List Call)} (h : ScriptedBy P F T)
    (hH : ∀ port, H port = F port) : ScriptedBy P H T := by
  intro port
  rw [hH port]
  exact h port

theorem scriptedBy_seq {P : i2cPort_t → List Call → Prop} (hP : TraceLaws P)
    {F G H : Port → Except Fault Port} {TF TG : i2cPort_t → Except Fault (List Call)}
    (hF : ScriptedBy P F TF) (hG : ScriptedBy P G TG)
    (herr : ∀ port e, F port = Except.error e → H port = Except.error e)
    (hok : ∀ port port1, F port = Except.ok port1 → H port = G port1) :
    ScriptedBy P H (fun ch => seqScript (TF ch) (TG ch)) := by
  intro port
  obtain ⟨f1, f2⟩ := hF port
  cases hT : TF port.i2cPort with
  | error e =>
    have hfail := herr port e (f2 e hT)
    constructor
    · intro evs he
      dsimp only at he
      rw [hT] at he
      simp [seqScript] at he
    · intro e1 he
      dsimp only at he
      rw [hT] at he
      simp only [seqScript, Except.error.injEq] at he
      subst he
      exact hfail
  | ok e1 =>
    obtain ⟨hw1, p1, hp1, hx1⟩ := f1 e1 hT
    have hgo := hok port p1 hp1
    obtain ⟨g1, g2⟩ := hG p1
    rw [hx1.2.1] at g1 g2
    cases hT2 : TG port.i2cPort with
    | error e =>
      constructor
      · intro evs he
        dsimp only at he
        rw [hT, hT2] at he
        simp [seqScript] at he
      · intro e2 he
        dsimp only at he
        rw [hT, hT2] at he
        simp only [seqScript, Except.error.injEq] at he
        subst he
        rw [hgo]
        exact g2 e hT2
    | ok e2 =>
      obtain ⟨hw2, p2, hp2, hx2⟩ := g1 e2 hT2
      constructor
      · intro evs he
        dsimp only at he
        rw [hT, hT2] at he
        simp only [seqScript, Except.ok.injEq] at he
        subst he
        exact ⟨hP.join _ _ _ hw1 hw2, p2, by rw [hgo, hp2], hx1.trans hx2⟩
      · intro e he
        dsimp only at he
        rw [hT, hT2] at he
        simp [seqScript] at he

theorem scriptedBy_after {P : i2cPort_t → List Call → Prop} (hP : TraceLaws P)
    {B : Port → Port} {TB : i2cPort_t → List Call}
    {G H : Port → Except Fault Port} {TG : i2cPort_t → Except Fault (List Call)}
    (hB : Traces B TB) (hW : ∀ ch, P ch (TB ch)) (hG : ScriptedBy P G TG)
    (hH : ∀ port, H port = G (B port)) :
    ScriptedBy P H (fun ch => seqScript (Except.ok (TB ch)) (TG ch)) :=
  scriptedBy_seq hP (scriptedBy_of_traces hB hW) hG
    (fun port e he => by cases he)
    (fun port port1 he => by
      simp only [Except.ok.injEq] at he
      subst he
      exact hH port)

theorem scriptedBy_ok_nil {P : i2cPort_t → List Call → Prop} (hP : TraceLaws P) :
    ScriptedBy P (fun port => Except.ok port) (fun _ => Except.ok []) :=
  scriptedBy_of_traces traces_id (fun ch => hP.empty ch)

theorem scriptedBy_result {P : i2cPort_t → List Call → Prop} {F : Port → Except Fault Port}
    {T : i2cPort_t → Except Fault (List Call)} (h : ScriptedBy P F T) (port port1 : Port)
    (hok : F port = Except.ok port1) :
    ∃ evs, port1.calls = port.calls ++ evs ∧ port1.i2cPort = port.i2cPort
      ∧ P port.i2cPort evs := by
  obtain ⟨h1, h2⟩ := h port
  cases hT : T port.i2cPort with
  | error e =>
    rw [h2 e hT] at hok
    cases hok
  | ok evs =>
    obtain ⟨hw, p1, hp1, hext⟩ := h1 evs hT
    rw [hp1] at hok
    simp only [Except.ok.injEq] at hok
    subst hok
    exact ⟨evs, hext.1, hext.2.1, hw⟩

theorem ShowFont57_obeys {P : i2cPort_t → List Call → Prop} (hP : TraceLaws P) (cfg : Config)
    (fontArraySel asciiChar startPage startCol : Nat) :
    ∃ T, ScriptedBy P (ShowFont57 cfg fontArraySel asciiChar startPage startCol) T := by
  obtain ⟨R, hR⟩ := ShowFont57_loop_scripted (ShowFont57.Src_Pointer fontArraySel asciiChar)
    256 0 0
  have hstart : Traces (fun port => (Port.I2cMasterSendStart SSD1306_I2C_ADD 0 port).2)
      (fun ch => [Call.MasterSendStart ch SSD1306_I2C_ADD 0]) :=
    fun port => Port.extends_sendStart SSD1306_I2C_ADD 0 port
  have hcontrol : Traces (fun port => (Port.I2cMasterWriteByte ssd1306DATA_FOLLOWS_BYTE port).2)
      (fun ch => [Call.MasterWriteByte ch ssd1306DATA_FOLLOWS_BYTE]) :=
    fun port => Port.extends_writeByte ssd1306DATA_FOLLOWS_BYTE port
  have hhead := ((traces_address_any cfg startPage startCol).comp hstart).comp hcontrol
  cases R with
  | error e =>
    refine ⟨fun _ => Except.error e, scriptedBy_fail P _ e ?_⟩
    intro port
    unfold ShowFont57
    dsimp only
    rw [(hR _).2 e rfl]
  | ok bytes =>
    refine ⟨fun ch => Except.ok (frame ch 0x00 [(0xB0 ||| startPage) % 256]
      ++ frame ch 0x00 [(0x00 + startCol % 16) % 256]
      ++ frame ch 0x00 [(0x10 + startCol / 16) % 256]
      ++ frame ch 0x40 (bytes ++ [0x00])), ?_⟩
    intro port
    constructor
    · intro evs he
      simp only [Except.ok.injEq] at he
      subst he
      refine ⟨hP.join _ _ _ (laws_address_any hP _ _ _) (laws_data hP _ _), ?_⟩
      have h1 := hhead port
      obtain ⟨p1, hp1, hx⟩ := (hR ((Port.I2cMasterWriteByte ssd1306DATA_FOLLOWS_BYTE
        (Port.I2cMasterSendStart SSD1306_I2C_ADD 0
          (SetStartColumn cfg startCol (SetStartPage cfg startPage port))).2).2)).1 bytes rfl
      rw [h1.2.1] at hx
      have h2 := Port.extends_writeByte 0x00 p1
      have h3 := Port.extends_sendStop (p1.I2cMasterWriteByte 0x00).2
      rw [h2.2.1] at h3
      rw [(h1.trans hx).2.1] at h2 h3
      refine ⟨_, ?_, (((h1.trans hx).trans h2).trans h3).of_eq ?_⟩
      · unfold ShowFont57
        dsimp only
        rw [hp1]
      · simp [frame, address_eq, ssd1306DATA_FOLLOWS_BYTE, List.append_assoc]
    · intro e he
      cases he

theorem ShowString_loop_obeys {P : i2cPort_t → List Call → Prop} (hP : TraceLaws P)
    (cfg : Config) (databaseNum : Nat) (msg : Nat → Nat) (startPage : Nat) :
    ∀ (fuel internalPtr startCol : Nat),
      ∃ T, ScriptedBy P (ShowString.loop cfg databaseNum msg startPage fuel internalPtr startCol)
        T := by
  intro fuel
  induction fuel with
  | zero =>
    intro internalPtr startCol
    exact ⟨_, scriptedBy_fail P _ Fault.outOfFuel (fun port => rfl)⟩
  | succ fuel ih =>
    intro internalPtr startCol
    obtain ⟨T1, h1⟩ := ShowFont57_obeys hP cfg databaseNum (msg internalPtr) startPage startCol
    by_cases hz : msg (internalPtr + 1) = 0
    · refine ⟨T1, scriptedBy_same h1 ?_⟩
      intro port
      rw [ShowString.loop]
      cases ShowFont57 cfg databaseNum (msg internalPtr) startPage startCol port with
      | error e => rfl
      | ok p1 =>
        dsimp only
        rw [if_pos hz]
    · obtain ⟨T2, h2⟩ := ih (internalPtr + 1) ((startCol + 6) % 256)
      refine ⟨_, scriptedBy_seq hP h1 h2 ?_ ?_⟩
      · intro port e he
        rw [ShowString.loop, he]
      · intro port port1 he
        rw [ShowString.loop, he]
        dsimp only
        rw [if_neg hz]

theorem ShowString_obeys {P : i2cPort_t → List Call → Prop} (hP : TraceLaws P) (cfg : Config)
    (fuel databaseNum : Nat) (msg : Nat → Nat) (startPage startCol : Nat) :
    ∃ T, ScriptedBy P (ShowString cfg fuel databaseNum msg startPage startCol) T := by
  obtain ⟨T1, h1⟩ := ShowFont57_obeys hP cfg 1 96 startPage startCol
  obtain ⟨T2, h2⟩ := ShowString_loop_obeys hP cfg databaseNum msg startPage fuel 0 startCol
  refine ⟨_, scriptedBy_seq hP h1 h2 ?_ ?_⟩
  · intro port e he
    unfold ShowString
    simp only [he]
  · intro port port1 he
    unfold ShowString
    simp only [he]

theorem ShowPattern_pages_obeys {P : i2cPort_t → List Call → Prop} (hP : TraceLaws P)
    (cfg : Config) (pixelArray : Nat → Nat) (endPage startCol totalCol : Nat) :
    ∀ (fuel i pixelPointer : Nat),
      ∃ T, ScriptedBy P (ShowPattern.pages cfg pixelArray endPage startCol totalCol fuel i
        pixelPointer) T := by
  intro fuel
  induction fuel with
  | zero =>
    intro i pixelPointer
    by_cases hlt : i < endPage + 1
    · refine ⟨_, scriptedBy_fail P _ Fault.outOfFuel (fun port => ?_)⟩
      rw [ShowPattern.pages, if_pos hlt]
    · refine ⟨_, scriptedBy_same (scriptedBy_ok_nil hP) (fun port => ?_)⟩
      rw [ShowPattern.pages, if_neg hlt]
  | succ fuel ih =>
    intro i pixelPointer
    by_cases hlt : i < endPage + 1
    · obtain ⟨bytes, next, hcols⟩ := ShowPattern_cols_scripted pixelArray totalCol 256 0
        pixelPointer
      obtain ⟨T, hT⟩ := ih ((i + 1) % 256) next
      have hbody := (traces_address_any cfg i startCol).comp
        (traces_dataFrame (L := fun port =>
          (ShowPattern.cols pixelArray totalCol 256 0 pixelPointer port).2)
          (fun port => (hcols port).2))
      refine ⟨_, scriptedBy_after hP hbody
        (fun ch => hP.join ch _ _ (laws_address_any hP ch i startCol) (laws_data hP ch bytes))
        hT (fun port => ?_)⟩
      rw [ShowPattern.pages, if_pos hlt]
      dsimp only
      rw [(hcols _).1]
    · refine ⟨_, scriptedBy_same (scriptedBy_ok_nil hP) (fun port => ?_)⟩
      rw [ShowPattern.pages, if_neg hlt]

theorem ShowPattern_obeys {P : i2cPort_t → List Call → Prop} (hP : TraceLaws P) (cfg : Config)
    (fuel : Nat) (pixelArray : Nat → Nat) (startPage endPage startCol totalCol : Nat) :
    ∃ T, ScriptedBy P (ShowPattern cfg fuel pixelArray startPage endPage startCol totalCol)
      T := by
  obtain ⟨T, hT⟩ := ShowPattern_pages_obeys hP cfg pixelArray endPage startCol totalCol fuel
    startPage 0
  exact ⟨_, scriptedBy_after hP
    (traces_printIf cfg.configDEBUG_SSD1306 "SSD1306: Showing pattern...\r\n")
    (fun ch => hP.empty ch) hT (fun port => rfl)⟩

theorem VerticalScroll_steps_obeys {P : i2cPort_t → List Call → Prop} (hP : TraceLaws P)
    (cfg : Config) (down : Bool) (c d e : Nat) :
    ∀ (fuel i : Nat), ∃ T, ScriptedBy P (VerticalScroll.steps cfg down c d e fuel i) T := by
  intro fuel
  induction fuel with
  | zero =>
    intro i
    by_cases hlt : i < c
    · refine ⟨_, scriptedBy_fail P _ Fault.outOfFuel (fun port => ?_)⟩
      rw [VerticalScroll.steps, if_pos hlt]
    · refine ⟨_, scriptedBy_same (scriptedBy_ok_nil hP) (fun port => ?_)⟩
      rw [VerticalScroll.steps, if_neg hlt]
  | succ fuel ih =>
    intro i
    by_cases hlt : i < c
    · obtain ⟨n, hwait⟩ := VerticalScroll_wait_extends e 256 0
      obtain ⟨T, hT⟩ := ih ((i + d) % uintRange)
      have hline := traces_SetStartLine cfg
        (if down then (c + uintRange - i) % uintRange % 256 else i % 256)
      have hwaitT : Traces (VerticalScroll.wait e 256 0)
          (fun _ => List.replicate n (Call.CyDelayUs 200)) := hwait
      have hbody := hline.comp hwaitT
      refine ⟨_, scriptedBy_after hP hbody
        (fun ch => hP.join ch _ _ (laws_command hP ch _) (laws_delays hP ch n))
        hT (fun port => ?_)⟩
      rw [VerticalScroll.steps, if_pos hlt]
      cases down <;> rfl
    · refine ⟨_, scriptedBy_same (scriptedBy_ok_nil hP) (fun port => ?_)⟩
      rw [VerticalScroll.steps, if_neg hlt]

theorem VerticalScroll_obeys {P : i2cPort_t → List Call → Prop} (hP : TraceLaws P)
    (cfg : Config) (fuel a b c d e : Nat) :
    ∃ T, ScriptedBy P (VerticalScroll cfg fuel a b c d e) T := by
  have hsetup := ((traces_WriteCommand cfg 0xA3).comp (traces_WriteCommand cfg b)).comp
    (traces_WriteCommand cfg c)
  have hsetupW : ∀ ch : i2cPort_t, P ch (frame ch 0x00 [0xA3] ++ frame ch 0x00 [b]
      ++ frame ch 0x00 [c]) :=
    fun ch => hP.join ch _ _ (hP.join ch _ _ (laws_command hP ch _) (laws_command hP ch _))
      (laws_command hP ch _)
  have hlast := scriptedBy_of_traces (P := P) (traces_SetStartLine cfg 0x00)
    (fun ch => laws_command hP ch _)
  have hmid : ∃ (S : Port → Except Fault Port) (T : i2cPort_t → Except Fault (List Call)),
      ScriptedBy P S T ∧ ∀ port, VerticalScroll cfg fuel a b c d e port
        = match S (WriteCommand cfg c (WriteCommand cfg b (WriteCommand cfg 0xA3 port))) with
          | Except.error f => Except.error f
          | Except.ok port => Except.ok (SetStartLine cfg 0x00 port) := by
    match a with
    | 0 =>
      obtain ⟨T, hT⟩ := VerticalScroll_steps_obeys hP cfg false c d e fuel 0
      exact ⟨_, T, hT, fun port => rfl⟩
    | 1 =>
      obtain ⟨T, hT⟩ := VerticalScroll_steps_obeys hP cfg true c d e fuel 0
      exact ⟨_, T, hT, fun port => rfl⟩
    | k + 2 =>
      exact ⟨_, _, scriptedBy_ok_nil hP, fun port => rfl⟩
  obtain ⟨S, T, hS, hV⟩ := hmid
  have hfront := scriptedBy_after hP hsetup hsetupW hS (H := fun port =>
    S (WriteCommand cfg c (WriteCommand cfg b (WriteCommand cfg 0xA3 port)))) (fun port => rfl)
  refine ⟨_, scriptedBy_seq hP hfront hlast ?_ ?_⟩
  · intro port e he
    rw [hV, he]
  · intro port port1 he
    rw [hV, he]

theorem traces_result {P : i2cPort_t → List Call → Prop} {F : Port → Port}
    {T : i2cPort_t → List Call} (h : Traces F T) (hT : ∀ ch, P ch (T ch)) (port port1 : Port)
    (hok : (Except.ok (F port) : Except Fault Port) = Except.ok port1) :
    ∃ evs, port1.calls = port.calls ++ evs ∧ P port.i2cPort evs := by
  simp only [Except.ok.injEq] at hok
  subst hok
  exact ⟨_, (h port).1, hT _⟩

/-- Whatever a public operation other than `OledInitVccInt` adds to the trace when it returns
has every property that obeys the trace laws, relative to the channel selected when it was
called. -/
theorem Operation_obeys {P : i2cPort_t → List Call → Prop} (hP : TraceLaws P) (cfg : Config)
    (fuel : Nat) (op : Operation) (port port1 : Port)
    (hne : op ≠ Operation.OledInitVccInt)
    (hok : op.run cfg fuel port = Except.ok port1) :
    ∃ evs, port1.calls = port.calls ++ evs ∧ P port.i2cPort evs := by
  cases op with
  | OledInitVccInt =>
    exact absurd rfl hne
  | OledInitVccExt =>
    exact traces_result (traces_initExt cfg) (fun ch =>
      hP.join ch _ _ (hP.join ch _ _ (hP.join ch _ _ (laws_resetTrace hP ch)
        (laws_commandFrames hP ch _)) (laws_pagesTrace hP ch 0 _ 0)) (laws_command hP ch _))
      port port1 hok
  | EnableI2c =>
    exact traces_result traces_EnableI2c (fun ch => laws_others hP ch _ (fun c hc => by
      simp only [List.mem_cons, List.mem_singleton, List.not_mem_nil, or_false] at hc
      rcases hc with rfl | rfl | rfl | rfl <;> rfl)) port port1 hok
  | SetI2cPort i2cPort =>
    simp only [Operation.run, Except.ok.injEq] at hok
    subst hok
    exact ⟨[], by rw [(SetI2cPort_state cfg i2cPort port).1, List.append_nil], hP.empty _⟩
  | EnableVddb =>
    exact traces_result traces_EnableVddb (fun ch => laws_others hP ch _ (fun c hc => by
      simp only [List.mem_cons, List.mem_singleton, List.not_mem_nil, or_false] at hc
      rcases hc with rfl | rfl <;> rfl)) port port1 hok
  | DisableVddb =>
    exact traces_result traces_DisableVddb (fun ch => laws_others hP ch _ (fun c hc => by
      simp only [List.mem_cons, List.mem_singleton, List.not_mem_nil, or_false] at hc
      rcases hc with rfl | rfl <;> rfl)) port port1 hok
  | Reset =>
    exact traces_result (traces_Reset cfg) (fun ch => laws_resetTrace hP ch) port port1 hok
  | SetChargePumpOn =>
    exact traces_result (traces_SetChargePumpOn cfg) (fun ch => laws_command hP ch _) port port1 hok
  | SetChargePumpOff =>
    exact traces_result (traces_SetChargePumpOff cfg) (fun ch => laws_command hP ch _) port port1 hok
  | ActivateDisplay =>
    exact traces_result (traces_ActivateDisplay cfg) (fun ch => laws_command hP ch _) port port1 hok
  | DeactivateDisplay =>
    exact traces_result (traces_DeactivateDisplay cfg) (fun ch => laws_command hP ch _) port port1 hok
  | TurnEveryPixelOn =>
    exact traces_result (traces_TurnEveryPixelOn cfg) (fun ch => laws_command hP ch _) port port1 hok
  | TurnEveryPixelOff =>
    exact traces_result (traces_TurnEveryPixelOff cfg) (fun ch => laws_command hP ch _) port port1 hok
  | SetDisplayClock v =>
    exact traces_result (traces_SetDisplayClock cfg v) (fun ch => laws_command hP ch _) port port1 hok
  | SetMultiplexRatio v =>
    exact traces_result (traces_SetMultiplexRatio cfg v) (fun ch => laws_command hP ch _) port port1 hok
  | SetDisplayOffset v =>
    exact traces_result (traces_SetDisplayOffset cfg v) (fun ch => laws_command hP ch _) port port1 hok
  | SetStartLine v =>
    exact traces_result (traces_SetStartLine cfg v) (fun ch => laws_command hP ch _) port port1 hok
  | SetAddressingMode v =>
    exact traces_result (traces_SetAddressingMode cfg v) (fun ch => laws_command hP ch _) port port1 hok
  | SetSegmentRemap v =>
    exact traces_result (traces_SetSegmentRemap cfg v) (fun ch => laws_command hP ch _) port port1 hok
  | SetCommonRemap v =>
    exact traces_result (traces_SetCommonRemap cfg v) (fun ch => laws_command hP ch _) port port1 hok
  | SetComPinConfig v =>
    exact traces_result (traces_SetComPinConfig cfg v) (fun ch => laws_command hP ch _) port port1 hok
  | SetContrastControl v =>
    exact traces_result (traces_SetContrastControl cfg v) (fun ch => laws_command hP ch _) port port1 hok
  | SetPrechargePeriod v =>
    exact traces_result (traces_SetPrechargePeriod cfg v) (fun ch => laws_command hP ch _) port port1 hok
  | SetVCOMH v =>
    exact traces_result (traces_SetVCOMH cfg v) (fun ch => laws_command hP ch _) port port1 hok
  | SetInverseDisplay v =>
    exact traces_result (traces_SetInverseDisplay cfg v) (fun ch => laws_command hP ch _) port port1 hok
  | FadeIn =>
    exact traces_result (traces_FadeIn cfg) (fun ch =>
      hP.join ch _ _ (laws_command hP ch _)
        (laws_flatMap hP ch _ _ (fun v => laws_fadeStep hP ch v))) port port1 hok
  | FadeOut =>
    exact traces_result (traces_FadeOut cfg) (fun ch =>
      hP.join ch _ _ (laws_flatMap hP ch _ _ (fun v => laws_fadeStep hP ch v))
        (laws_command hP ch _)) port port1 hok
  | ShowPattern pixelArray startPage endPage startCol totalCol =>
    obtain ⟨T, h⟩ := ShowPattern_obeys hP cfg fuel pixelArray startPage endPage startCol totalCol
    obtain ⟨evs, h1, _, h2⟩ := scriptedBy_result h port port1 hok
    exact ⟨evs, h1, h2⟩
  | FillRam v =>
    exact traces_result (traces_FillRam cfg v) (fun ch => laws_pagesTrace hP ch 0 _ 0)
      port port1 hok
  | Checkerboard =>
    exact traces_result (traces_Checkerboard cfg) (fun ch => laws_pagesTrace hP ch 0 _ 0)
      port port1 hok
  | DrawFrame =>
    exact traces_result (traces_DrawFrame cfg) (fun ch => laws_drawFrameTrace hP ch)
      port port1 hok
  | ContinuousScroll a b c d e f g h =>
    exact traces_result (traces_ContinuousScroll cfg a b c d e f g h) (fun ch =>
      hP.join ch _ _ (laws_commandFrames hP ch _) (hP.aside ch _ rfl)) port port1 hok
  | HorizontalScroll scrollDir startPage endPage timeInterval delayTime =>
    exact traces_result
      (traces_HorizontalScroll cfg scrollDir startPage endPage timeInterval delayTime) (fun ch =>
      hP.join ch _ _ (laws_commandFrames hP ch _) (hP.aside ch _ rfl)) port port1 hok
  | VerticalScroll a b c d e =>
    obtain ⟨T, h⟩ := VerticalScroll_obeys hP cfg fuel a b c d e
    obtain ⟨evs, h1, _, h2⟩ := scriptedBy_result h port port1 hok
    exact ⟨evs, h1, h2⟩
  | DeactivateScroll =>
    exact traces_result (traces_DeactivateScroll cfg) (fun ch => laws_command hP ch _) port port1 hok
  | ShowFont57 fontArraySel asciiChar startPage startCol =>
    obtain ⟨T, h⟩ := ShowFont57_obeys hP cfg fontArraySel asciiChar startPage startCol
    obtain ⟨evs, h1, _, h2⟩ := scriptedBy_result h port port1 hok
    exact ⟨evs, h1, h2⟩
  | ShowString databaseNum msg startPage startCol =>
    obtain ⟨T, h⟩ := ShowString_obeys hP cfg fuel databaseNum msg startPage startCol
    obtain ⟨evs, h1, _, h2⟩ := scriptedBy_result h port port1 hok
    exact ⟨evs, h1, h2⟩

/-- The same for `OledInitVccInt`, relative to the left channel, which it selects before its
first transaction. -/
theorem OledInitVccInt_obeys {P : i2cPort_t → List Call → Prop} (hP : TraceLaws P)
    (cfg : Config) (port : Port) :
    ∃ evs, (OledInitVccInt cfg port).calls = port.calls ++ evs
      ∧ P i2cPort_t.i2cLeft evs :=
  ⟨_, (OledInitVccInt_state cfg port).1,
    hP.join _ _ _ (hP.join _ _ _ (hP.join _ _ _ (laws_powerUp hP _) (laws_resetTrace hP _))
      (laws_commandFrames hP _ _)) (laws_pagesTrace hP _ 0 _ 0)⟩

/-! ## The bus address -/

theorem startsAt_laws : TraceLaws (fun _ => StartsAt SSD1306_I2C_ADD 0) where
  empty := by
    intro ch c hc
    cases hc
  join := by
    intro ch a b ha hb c hc
    rcases List.mem_append.1 hc with h | h
    · exact ha c h
    · exact hb c h
  transaction := by
    intro ch control payload _ c hc
    unfold frame at hc
    simp only [List.mem_append, List.mem_cons, List.mem_singleton, List.mem_map,
      List.not_mem_nil, or_false] at hc
    rcases hc with ((rfl | rfl) | ⟨b, _, rfl⟩) | rfl <;> rfl
  aside := by
    intro ch c hc x hx
    simp only [List.mem_singleton] at hx
    subst hx
    cases x <;> first | rfl | exact Bool.noConfusion hc

/-- C30: of the four strap pairs with values in {0, 1}, the build-time check accepts exactly
`(1, 0)` and `(0, 1)`, that is those with exactly one strap set; the address selected is `0x3C`
for `SA0_0 = 1` and `0x3D` for `SA0_1 = 1`.  The shipped configuration is `(1, 0)`, so
`SSD1306_I2C_ADD` is `0x3C`; and in whatever a public operation adds to the trace when it
returns, every start condition is sent to address `0x3C` with the direction bit 0 (write).  The
operations do send start conditions, and a start condition to `0x3D`, or one with the direction
bit 1, does not pass. -/
theorem bus_address_by_strap (cfg : Config) (fuel : Nat) (op : Operation) (port : Port) :
    (strapAccepted 0 0 = false ∧ strapAccepted 1 0 = true ∧ strapAccepted 0 1 = true
        ∧ strapAccepted 1 1 = false)
      ∧ (∀ sa0_0 sa0_1 : Nat, sa0_0 ≤ 1 → sa0_1 ≤ 1 →
        (strapAccepted sa0_0 sa0_1 = true
          ↔ (sa0_0 = 1 ∧ sa0_1 = 0) ∨ (sa0_0 = 0 ∧ sa0_1 = 1)))
      ∧ strapAddress 1 0 = some 0x3C
      ∧ strapAddress 0 1 = some 0x3D
      ∧ strapAddress 0 0 = none
      ∧ strapAddress 1 1 = none
      ∧ SSD1306_I2C_SA0_0 = 1
      ∧ SSD1306_I2C_SA0_1 = 0
      ∧ strapAddress SSD1306_I2C_SA0_0 SSD1306_I2C_SA0_1 = some SSD1306_I2C_ADD
      ∧ SSD1306_I2C_ADD = 0x3C
      ∧ (∀ port1, op.run cfg fuel port = Except.ok port1 →
        ∃ evs, port1.calls = port.calls ++ evs ∧ StartsAt 0x3C 0 evs)
      ∧ (ActivateDisplay cfg port).calls
        = port.calls ++ [Call.MasterSendStart port.i2cPort 0x3C 0,
          Call.MasterWriteByte port.i2cPort 0x00, Call.MasterWriteByte port.i2cPort 0xAF,
          Call.MasterSendStop port.i2cPort]
      ∧ ¬ StartsAt 0x3C 0 [Call.MasterSendStart i2cPort_t.i2cLeft 0x3D 0]
      ∧ ¬ StartsAt 0x3C 0 [Call.MasterSendStart i2cPort_t.i2cLeft 0x3C 1] := by
  refine ⟨⟨rfl, rfl, rfl, rfl⟩, ?_, rfl, rfl, rfl, rfl, rfl, rfl, rfl, rfl, ?_,
    (traces_ActivateDisplay cfg).calls port, ?_, ?_⟩
  · intro sa0_0 sa0_1 h0 h1
    have c0 : sa0_0 = 0 ∨ sa0_0 = 1 := by omega
    have c1 : sa0_1 = 0 ∨ sa0_1 = 1 := by omega
    rcases c0 with rfl | rfl <;> rcases c1 with rfl | rfl <;> decide
  · intro port1 hok
    by_cases hop : op = Operation.OledInitVccInt
    · subst hop
      simp only [Operation.run, Except.ok.injEq] at hok
      subst hok
      exact OledInitVccInt_obeys startsAt_laws cfg port
    · exact Operation_obeys startsAt_laws cfg fuel op port port1 hop hok
  · intro h
    exact absurd (h _ (List.mem_singleton.2 rfl)) (by decide)
  · intro h
    exact absurd (h _ (List.mem_singleton.2 rfl)) (by decide)

/-! ## The selected channel -/

theorem SetI2cPort_eq (cfg : Config) (i2cPort : i2cPort_t) (port : Port) :
    SetI2cPort cfg i2cPort port
      = { port with i2cPort := i2cPort,
                    debug := port.debug ++ SetI2cPort.messages cfg i2cPort } := by
  unfold SetI2cPort SetI2cPort.messages printIf Port.PrintDebug
  cases i2cPort <;> by_cases h1 : cfg.configDEBUG_SSD1306_VERBOSE = 1 <;>
    by_cases h2 : cfg.configDEBUG_SSD1306 = 1 <;> simp [h1, h2]

theorem SetI2cPort_sequence (cfg : Config) :
    ∀ (channels : List i2cPort_t) (port : Port),
      (channels.foldl (fun p ch => SetI2cPort cfg ch p) port).calls = port.calls
        ∧ (channels.foldl (fun p ch => SetI2cPort cfg ch p) port).ret = port.ret
        ∧ (channels.foldl (fun p ch => SetI2cPort cfg ch p) port).i2cPort
          = channels.getLast?.getD port.i2cPort := by
  intro channels
  induction channels with
  | nil =>
    intro port
    exact ⟨rfl, rfl, rfl⟩
  | cons ch rest ih =>
    intro port
    have h := ih (SetI2cPort cfg ch port)
    have hs := SetI2cPort_state cfg ch port
    rw [List.foldl_cons]
    refine ⟨h.1.trans hs.1, h.2.1.trans hs.2.2, ?_⟩
    rw [h.2.2, hs.2.1]
    cases rest with
    | nil => rfl
    | cons ch2 rest2 =>
      rw [List.getLast?_cons_cons]
      cases hl : (ch2 :: rest2).getLast? with
      | none => simp at hl
      | some v => rfl

/-- C31: a newly constructed driver has the left channel selected.  `SetI2cPort(p)` selects
`p`; it makes no call into the bus or any other component, leaves the pending bus answers
alone, and apart from the selected channel changes only the debug output, by the messages its
debug switches ask for (none when they are off).  So after any sequence of `SetI2cPort` calls
the selected channel is the argument of the last one, and the record of calls is as before. -/
theorem SetI2cPort_selects (cfg : Config) (ret : Nat → Nat) (port : Port) (p : i2cPort_t)
    (earlier : List i2cPort_t) :
    (Port.ctor ret).i2cPort = i2cPort_t.i2cLeft
      ∧ (Port.ctor ret).calls = []
      ∧ (SetI2cPort cfg p port).i2cPort = p
      ∧ (SetI2cPort cfg p port).calls = port.calls
      ∧ (SetI2cPort cfg p port).ret = port.ret
      ∧ (SetI2cPort cfg p port).debug = port.debug ++ SetI2cPort.messages cfg p
      ∧ SetI2cPort cfg p port
        = { port with i2cPort := p, debug := port.debug ++ SetI2cPort.messages cfg p }
      ∧ SetI2cPort Config.quiet p port = { port with i2cPort := p }
      ∧ ((earlier ++ [p]).foldl (fun s q => SetI2cPort cfg q s) port).i2cPort = p
      ∧ ((earlier ++ [p]).foldl (fun s q => SetI2cPort cfg q s) port).calls = port.calls
      ∧ ((earlier ++ [p]).foldl (fun s q => SetI2cPort cfg q s) port).ret = port.ret := by
  have h := SetI2cPort_eq cfg p port
  have hq := SetI2cPort_eq Config.quiet p port
  have hs := SetI2cPort_sequence cfg (earlier ++ [p]) port
  refine ⟨rfl, rfl, ?_, ?_, ?_, ?_, h, ?_, ?_, hs.1, hs.2.1⟩
  · rw [h]
  · rw [h]
  · rw [h]
  · rw [h]
  · rw [hq]
    simp [SetI2cPort.messages, Config.quiet]
  · rw [hs.2.2, List.getLast?_concat]
    rfl

theorem onChannel_laws : TraceLaws OnChannel where
  empty := by
    intro ch c hc
    cases hc
  join := by
    intro ch a b ha hb c hc
    rcases List.mem_append.1 hc with h | h
    · exact ha c h
    · exact hb c h
  transaction := by
    intro ch control payload _ c hc
    unfold frame at hc
    simp only [List.mem_append, List.mem_cons, List.mem_singleton, List.mem_map,
      List.not_mem_nil, or_false] at hc
    rcases hc with ((rfl | rfl) | ⟨b, _, rfl⟩) | rfl <;> simp [Call.busOn]
  aside := by
    intro ch c hc x hx
    simp only [List.mem_singleton] at hx
    subst hx
    cases x <;> first | rfl | exact Bool.noConfusion hc

theorem traces_onChannel {F : Port → Port} {T : i2cPort_t → List Call} (h : Traces F T)
    (hT : ∀ ch, OnChannel ch (T ch)) (port : Port) :
    (F port).i2cPort = port.i2cPort
      ∧ ∃ evs, (F port).calls = port.calls ++ evs ∧ OnChannel port.i2cPort evs :=
  ⟨(h port).2.1, _, (h port).1, hT _⟩

theorem scripted_onChannel {F : Port → Except Fault Port}
    {T : i2cPort_t → Except Fault (List Call)} (h : ScriptedBy OnChannel F T)
    (port port1 : Port) (hok : F port = Except.ok port1) :
    port1.i2cPort = port.i2cPort
      ∧ ∃ evs, port1.calls = port.calls ++ evs ∧ OnChannel port.i2cPort evs := by
  obtain ⟨evs, h1, h2, h3⟩ := scriptedBy_result h port port1 hok
  exact ⟨h2, evs, h1, h3⟩

/-- C32: each rendering call (`ShowPattern`, `FillRam`, `Checkerboard`, `DrawFrame`,
`ShowFont57`, `ShowString`), when it returns, has left the selected channel as it was, and every
start, write-byte and stop call it has added to the trace is issued on that channel, the one
selected when the call began; the three bus primitives of `Port` issue their call on the
selected channel.  A bus call on the other channel is not on the selected one. -/
theorem rendering_keeps_channel (cfg : Config) (fuel : Nat) (port : Port)
    (pixelArray msg : Nat → Nat)
    (startPage endPage startCol totalCol byteToFillRamWith fontArraySel asciiChar
      databaseNum : Nat) :
    (∀ port1,
        ShowPattern cfg fuel pixelArray startPage endPage startCol totalCol port
          = Except.ok port1 →
        port1.i2cPort = port.i2cPort
          ∧ ∃ evs, port1.calls = port.calls ++ evs ∧ OnChannel port.i2cPort evs)
      ∧ ((FillRam cfg byteToFillRamWith port).i2cPort = port.i2cPort
        ∧ ∃ evs, (FillRam cfg byteToFillRamWith port).calls = port.calls ++ evs
          ∧ OnChannel port.i2cPort evs)
      ∧ ((Checkerboard cfg port).i2cPort = port.i2cPort
        ∧ ∃ evs, (Checkerboard cfg port).calls = port.calls ++ evs
          ∧ OnChannel port.i2cPort evs)
      ∧ ((DrawFrame cfg port).i2cPort = port.i2cPort
        ∧ ∃ evs, (DrawFrame cfg port).calls = port.calls ++ evs
          ∧ OnChannel port.i2cPort evs)
      ∧ (∀ port1,
        ShowFont57 cfg fontArraySel asciiChar startPage startCol port = Except.ok port1 →
        port1.i2cPort = port.i2cPort
          ∧ ∃ evs, port1.calls = port.calls ++ evs ∧ OnChannel port.i2cPort evs)
      ∧ (∀ port1,
        ShowString cfg fuel databaseNum msg startPage startCol port = Except.ok port1 →
        port1.i2cPort = port.i2cPort
          ∧ ∃ evs, port1.calls = port.calls ++ evs ∧ OnChannel port.i2cPort evs)
      ∧ (∀ slaveAddress readWrite, (port.I2cMasterSendStart slaveAddress readWrite).2.calls
        = port.calls ++ [Call.MasterSendStart port.i2cPort slaveAddress readWrite])
      ∧ (∀ byteToWrite, (port.I2cMasterWriteByte byteToWrite).2.calls
        = port.calls ++ [Call.MasterWriteByte port.i2cPort byteToWrite])
      ∧ (port.I2cMasterSendStop).2.calls = port.calls ++ [Call.MasterSendStop port.i2cPort]
      ∧ (FillRam cfg byteToFillRamWith port).calls
        = port.calls
          ++ pagesTrace port.i2cPort 0 0 (List.replicate 4 (List.replicate 128 byteToFillRamWith))
      ∧ ¬ OnChannel i2cPort_t.i2cLeft [Call.MasterSendStart i2cPort_t.i2cRight 0x3C 0]
      ∧ ¬ OnChannel i2cPort_t.i2cLeft [Call.MasterWriteByte i2cPort_t.i2cRight 0x00]
      ∧ ¬ OnChannel i2cPort_t.i2cRight [Call.MasterSendStop i2cPort_t.i2cLeft] := by
  refine ⟨?_, ?_, ?_, ?_, ?_, ?_, fun a rw => (Port.extends_sendStart a rw port).1,
    fun b => (Port.extends_writeByte b port).1, (Port.extends_sendStop port).1,
    (traces_FillRam cfg byteToFillRamWith).calls port, ?_, ?_, ?_⟩
  · intro port1 hok
    obtain ⟨T, h⟩ := ShowPattern_obeys onChannel_laws cfg fuel pixelArray startPage endPage
      startCol totalCol
    exact scripted_onChannel h port port1 hok
  · exact traces_onChannel (traces_FillRam cfg byteToFillRamWith)
      (fun ch => laws_pagesTrace onChannel_laws ch 0 _ 0) port
  · exact traces_onChannel (traces_Checkerboard cfg)
      (fun ch => laws_pagesTrace onChannel_laws ch 0 _ 0) port
  · exact traces_onChannel (traces_DrawFrame cfg)
      (fun ch => laws_drawFrameTrace onChannel_laws ch) port
  · intro port1 hok
    obtain ⟨T, h⟩ := ShowFont57_obeys onChannel_laws cfg fontArraySel asciiChar startPage
      startCol
    exact scripted_onChannel h port port1 hok
  · intro port1 hok
    obtain ⟨T, h⟩ := ShowString_obeys onChannel_laws cfg fuel databaseNum msg startPage
      startCol
    exact scripted_onChannel h port port1 hok
  · intro h
    exact absurd (h _ (List.mem_singleton.2 rfl)) (by decide)
  · intro h
    exact absurd (h _ (List.mem_singleton.2 rfl)) (by decide)
  · intro h
    exact absurd (h _ (List.mem_singleton.2 rfl)) (by decide)

/-! ## ShowString: where each character goes -/

theorem stringTrace_columns (ch : i2cPort_t) (databaseNum page : Nat) :
    ∀ (text : List Nat) (col : Nat), col < 256 →
      stringTrace ch databaseNum page col text
        = (List.range text.length).flatMap (fun k =>
          addressAt ch page ((col + 6 * k) % 256)
            ++ frame ch 0x40
              ((ShowFont57.Src_Pointer databaseNum (text.getD k 0)).getD [] ++ [0x00])) := by
  intro text
  induction text with
  | nil =>
    intro col _
    rfl
  | cons c rest ih =>
    intro col hcol
    have hnext := ih ((col + 6) % 256) (Nat.mod_lt _ (by decide))
    unfold stringTrace
    rw [hnext, List.length_cons, List.range_succ_eq_map, List.flatMap_cons, List.flatMap_map]
    have h0 : (col + 6 * 0) % 256 = col := by
      rw [Nat.mul_zero, Nat.add_zero]
      exact Nat.mod_eq_of_lt hcol
    rw [h0, List.getD_cons_zero]
    congr 1
    refine List.flatMap_congr (fun k _ => ?_)
    have hk : ((col + 6) % 256 + 6 * k) % 256 = (col + 6 * (k + 1)) % 256 := by omega
    simp only [Function.comp, Nat.succ_eq_add_one, List.getD_cons_succ, hk]

/-- C33: for a text of at least one character whose characters all have a row in the selected
table, `ShowString` returns (one turn of its loop per character) after emitting the priming
glyph addressed at page `startPage`, column `startCol`, and then, for `k = 0, 1, ...`, the
`k`-th character of the text addressed at page `startPage`, column `(startCol + 6k) mod 256`.
So the first character is addressed at `startCol`, the column of the priming glyph. -/
theorem ShowString_columns (cfg : Config) (fuel databaseNum : Nat) (c : Nat) (rest : List Nat)
    (behind : Nat → Nat) (startPage startCol : Nat) (port : Port)
    (htab : ∀ x ∈ c :: rest, ∃ glyph, ShowFont57.Src_Pointer databaseNum x = some glyph
      ∧ glyph.length = 5)
    (hf : (c :: rest).length ≤ fuel) (hp : startPage < 256) (hc : startCol < 256) :
    ∃ port1,
      ShowString cfg fuel databaseNum (cString (c :: rest) behind) startPage startCol port
          = Except.ok port1
        ∧ port1.calls
          = port.calls
            ++ (addressAt port.i2cPort startPage startCol
              ++ frame port.i2cPort 0x40 [0x00, 0x00, 0x00, 0x00, 0x00, 0x00]
              ++ (List.range (c :: rest).length).flatMap (fun k =>
                addressAt port.i2cPort startPage ((startCol + 6 * k) % 256)
                  ++ frame port.i2cPort 0x40
                    ((ShowFont57.Src_Pointer databaseNum ((c :: rest).getD k 0)).getD []
                      ++ [0x00])))
        ∧ (startCol + 6 * 0) % 256 = startCol
        ∧ (∀ page col : Nat, commandPayloads (addressAt port.i2cPort page col)
          = [[0xB0 ||| page], [0x00 ||| (col % 16)], [0x10 ||| (col / 16)]]) := by
  obtain ⟨port1, hok, hx⟩ := ShowString_text_extends cfg fuel databaseNum c rest behind
    startPage startCol port htab hf hp hc
  rw [stringTrace_columns _ _ _ _ _ hc] at hx
  refine ⟨port1, hok, hx.1, ?_, ?_⟩
  · rw [Nat.mul_zero, Nat.add_zero]
    exact Nat.mod_eq_of_lt hc
  · intro page col
    unfold addressAt
    rw [List.append_assoc, commandPayloads_frame, commandPayloads_frame, commandPayloads_single]

set_option maxRecDepth 100000 in
theorem Src_Pointer_0x42 :
    ShowFont57.Src_Pointer 1 0x42 = some [0x7F, 0x48, 0x44, 0x44, 0x38] := by
  rfl

theorem ShowString_columns_witness :
    (∀ x ∈ [0x41, 0x42], ∃ glyph, ShowFont57.Src_Pointer 1 x = some glyph ∧ glyph.length = 5)
      ∧ ([0x41, 0x42] : List Nat).length ≤ 2 ∧ 3 < 256 ∧ 250 < 256
      ∧ ∃ port1,
        ShowString Config.quiet 2 1 (cString [0x41, 0x42] fun _ => 0) 3 250
            (Port.ctor fun _ => 0) = Except.ok port1
          ∧ port1.calls
            = addressAt i2cPort_t.i2cLeft 3 250
              ++ frame i2cPort_t.i2cLeft 0x40 [0x00, 0x00, 0x00, 0x00, 0x00, 0x00]
              ++ (addressAt i2cPort_t.i2cLeft 3 250
                ++ frame i2cPort_t.i2cLeft 0x40 [0x20, 0x54, 0x54, 0x54, 0x78, 0x00]
                ++ (addressAt i2cPort_t.i2cLeft 3 0
                  ++ frame i2cPort_t.i2cLeft 0x40 [0x7F, 0x48, 0x44, 0x44, 0x38, 0x00])) := by
  have htab : ∀ x ∈ [0x41, 0x42], ∃ glyph,
      ShowFont57.Src_Pointer 1 x = some glyph ∧ glyph.length = 5 := by
    intro x hx
    simp only [List.mem_cons, List.mem_singleton, List.not_mem_nil, or_false] at hx
    rcases hx with rfl | rfl
    · exact ⟨_, Src_Pointer_0x41, rfl⟩
    · exact ⟨_, Src_Pointer_0x42, rfl⟩
  obtain ⟨port1, hok, hcalls, _⟩ := ShowString_columns Config.quiet 2 1 0x41 [0x42]
    (fun _ => 0) 3 250 (Port.ctor fun _ => 0) htab (by decide) (by decide) (by decide)
  refine ⟨htab, by decide, by decide, by decide, port1, hok, ?_⟩
  rw [hcalls]
  simp only [List.length_cons, List.length_nil, List.range, List.range.loop, List.flatMap_cons,
    List.flatMap_nil, List.getD_cons_zero, List.getD_cons_succ, Src_Pointer_0x41,
    Src_Pointer_0x42, Option.getD_some]
  rfl

/-! ## The bytes of the addressing commands -/

theorem frame_payload_injective (ch : i2cPort_t) (control : Nat) (a b : Nat)
    (h : frame ch control [a] = frame ch control [b]) : a = b := by
  simpa [frame] using h

/-- C35: for every column `c` in 0..255, `SetStartColumn c` emits two one-byte command
transactions, the byte `c % 16` (low), which lies in 0x00..0x0F, and then the byte
`0x10 + c / 16` (high), which lies in 0x10..0x1F; the column is `16 * (high - 0x10) + low`, so
a column that makes the same calls is the same column, and for `c < 128` the high byte lies in
0x10..0x17. -/
theorem SetStartColumn_byte_ranges (cfg : Config) (c : Nat) (port : Port) (hc : c < 256) :
    (SetStartColumn cfg c port).calls
        = port.calls
          ++ (frame port.i2cPort 0x00 [c % 16] ++ frame port.i2cPort 0x00 [0x10 + c / 16])
      ∧ commandPayloads
          (frame port.i2cPort 0x00 [c % 16] ++ frame port.i2cPort 0x00 [0x10 + c / 16])
        = [[c % 16], [0x10 + c / 16]]
      ∧ c % 16 ≤ 0x0F
      ∧ 0x10 ≤ 0x10 + c / 16 ∧ 0x10 + c / 16 ≤ 0x1F
      ∧ c = 16 * ((0x10 + c / 16) - 0x10) + c % 16
      ∧ (∀ c2 : Nat, c2 < 256 →
        (SetStartColumn cfg c2 port).calls = (SetStartColumn cfg c port).calls → c2 = c)
      ∧ (c < 128 → 0x10 + c / 16 ≤ 0x17) := by
  have hcalls : ∀ d : Nat, d < 256 → (SetStartColumn cfg d port).calls
      = port.calls
        ++ (frame port.i2cPort 0x00 [d % 16] ++ frame port.i2cPort 0x00 [0x10 + d / 16]) := by
    intro d hd
    have h := (SetStartColumn_extends cfg d hd port).1
    rw [← startColumn_low d hd, ← startColumn_high d hd] at h
    have h1 : (0x00 + d % 16) % 256 = d % 16 := by omega
    have h2 : (0x10 + d / 16) % 256 = 0x10 + d / 16 := by omega
    rw [h1, h2] at h
    exact h
  refine ⟨hcalls c hc, ?_, by omega, by omega, by omega, by omega, ?_, fun h => by omega⟩
  · rw [commandPayloads_frame, commandPayloads_single]
  · intro c2 hc2 heq
    rw [hcalls c2 hc2, hcalls c hc] at heq
    have h1 := List.append_cancel_left heq
    have hlen : (frame port.i2cPort 0x00 [c2 % 16]).length
        = (frame port.i2cPort 0x00 [c % 16]).length := rfl
    have h2 := List.append_inj h1 hlen
    have h3 := frame_payload_injective _ _ _ _ h2.1
    have h4 := frame_payload_injective _ _ _ _ h2.2
    omega

theorem SetStartColumn_byte_ranges_witness :
    (SetStartColumn Config.quiet 0x7F (Port.ctor fun _ => 0)).calls
        = (Port.ctor fun _ => 0).calls
          ++ (frame i2cPort_t.i2cLeft 0x00 [0x0F] ++ frame i2cPort_t.i2cLeft 0x00 [0x17])
      ∧ 0x7F = 16 * (0x17 - 0x10) + 0x0F :=
  ⟨(SetStartColumn_byte_ranges Config.quiet 0x7F (Port.ctor fun _ => 0) (by decide)).1,
    by decide⟩

set_option maxRecDepth 100000 in
theorem startLine_bits : ∀ regVal : Nat, regVal < 256 →
    (0x40 ||| regVal) % 256 = 0x40 ||| regVal
      ∧ ((0x40 ≤ 0x40 ||| regVal ∧ 0x40 ||| regVal ≤ 0x7F) ↔ regVal < 128)
      ∧ (regVal < 128 → 0x40 ||| regVal = 0x40 + regVal % 64) := by
  decide

set_option maxRecDepth 100000 in
theorem startPage_bits : ∀ d : Nat, d < 16 → 0xB0 ||| d = 0xB0 + d := by
  decide

/-- C36: for a byte `regVal`, `SetStartLine regVal` emits one command transaction with the
single byte `0x40 | regVal`; that byte lies in 0x40..0x7F exactly when `regVal < 128`, and then
it is `0x40 + regVal % 64`: for `regVal` in 0..63 it is `0x40 + regVal`, two such values with
the same byte are equal, and `regVal + 64` gives the byte of `regVal`.  For a page `d` in
0..15, `SetStartPage d` emits one command transaction with the single byte `0xB0 + d`, which
lies in 0xB0..0xB7 exactly when `d < 8`. -/
theorem start_line_and_page_bytes (cfg : Config) (regVal d : Nat) (port : Port)
    (hr : regVal < 256) (hd : d < 16) :
    (SetStartLine cfg regVal port).calls
        = port.calls ++ frame port.i2cPort 0x00 [0x40 ||| regVal]
      ∧ ((0x40 ≤ 0x40 ||| regVal ∧ 0x40 ||| regVal ≤ 0x7F) ↔ regVal < 128)
      ∧ (regVal < 128 → 0x40 ||| regVal = 0x40 + regVal % 64)
      ∧ (regVal < 64 → 0x40 ||| regVal = 0x40 + regVal)
      ∧ (regVal < 64 → ∀ r2 : Nat, r2 < 64 →
        (SetStartLine cfg r2 port).calls = (SetStartLine cfg regVal port).calls → r2 = regVal)
      ∧ (regVal < 64 →
        (SetStartLine cfg (regVal + 64) port).calls = (SetStartLine cfg regVal port).calls)
      ∧ (SetStartPage cfg d port).calls = port.calls ++ frame port.i2cPort 0x00 [0xB0 + d]
      ∧ ((0xB0 ≤ 0xB0 + d ∧ 0xB0 + d ≤ 0xB7) ↔ d < 8) := by
  have hcalls : ∀ r : Nat, r < 256 → (SetStartLine cfg r port).calls
      = port.calls ++ frame port.i2cPort 0x00 [0x40 ||| r] := by
    intro r hr1
    have h := (traces_SetStartLine cfg r port).1
    rw [(startLine_bits r hr1).1] at h
    exact h
  have hlow : ∀ r : Nat, r < 128 → 0x40 ||| r = 0x40 + r % 64 :=
    fun r h => (startLine_bits r (by omega)).2.2 h
  refine ⟨hcalls regVal hr, (startLine_bits regVal hr).2.1, hlow regVal, ?_, ?_, ?_, ?_,
    by omega⟩
  · intro h
    rw [hlow regVal (by omega)]
    omega
  · intro h r2 hr2 heq
    rw [hcalls r2 (by omega), hcalls regVal hr] at heq
    have h1 := frame_payload_injective _ _ _ _ (List.append_cancel_left heq)
    rw [hlow r2 (by omega), hlow regVal (by omega)] at h1
    omega
  · intro h
    rw [hcalls (regVal + 64) (by omega), hcalls regVal hr, hlow (regVal + 64) (by omega),
      hlow regVal (by omega)]
    have h1 : (regVal + 64) % 64 = regVal % 64 := by omega
    rw [h1]
  · have h := (SetStartPage_extends cfg d (by omega) port).1
    rw [startPage_bits d hd] at h
    exact h

theorem start_line_and_page_bytes_witness :
    (SetStartLine Config.quiet 0x85 (Port.ctor fun _ => 0)).calls
        = (Port.ctor fun _ => 0).calls ++ frame i2cPort_t.i2cLeft 0x00 [0xC5]
      ∧ (SetStartPage Config.quiet 9 (Port.ctor fun _ => 0)).calls
        = (Port.ctor fun _ => 0).calls ++ frame i2cPort_t.i2cLeft 0x00 [0xB9] := by
  have h := start_line_and_page_bytes Config.quiet 0x85 9 (Port.ctor fun _ => 0) (by decide)
    (by decide)
  exact ⟨h.1, h.2.2.2.2.2.2.1⟩

/-! ## ShowFont57: the bounds of the glyph lookup -/

theorem Src_Pointer_other (fontArraySel asciiChar : Nat) (h1 : fontArraySel ≠ 1)
    (h2 : fontArraySel ≠ 2) : ShowFont57.Src_Pointer fontArraySel asciiChar = none := by
  unfold ShowFont57.Src_Pointer
  split
  · exact absurd rfl h1
  · exact absurd rfl h2
  · rfl

theorem Src_Pointer_beyond (fontArraySel asciiChar : Nat)
    (h : fontArraySel = 1 ∧ 240 < asciiChar ∨ fontArraySel = 2 ∧ 107 < asciiChar) :
    ShowFont57.Src_Pointer fontArraySel asciiChar = none := by
  rcases h with ⟨hf, h1⟩ | ⟨hf, h1⟩
  · subst hf
    show rowAt Ascii_1 ((asciiChar : Int) - 1) = none
    rw [rowAt_pred _ _ (by omega)]
    exact List.getElem?_eq_none (by rw [Ascii_1_length]; omega)
  · subst hf
    show rowAt Ascii_2 ((asciiChar : Int) - 1) = none
    rw [rowAt_pred _ _ (by omega)]
    exact List.getElem?_eq_none (by rw [Ascii_2_length]; omega)

/-- C37: the glyph lookup of `ShowFont57` is defined exactly when `fontArraySel = 1` and
`1 ≤ asciiChar ≤ 240`, or `fontArraySel = 2` and `1 ≤ asciiChar ≤ 107`.  Under that
precondition it gives row `asciiChar - 1` of the selected table, five bytes long, and
`ShowFont57` returns; outside it `ShowFont57` fails with a read out of bounds.  In particular
`asciiChar = 0` (row -1), and every selector other than 1 and 2, select no glyph. -/
theorem glyph_lookup_bounds (cfg : Config) (fontArraySel asciiChar startPage startCol : Nat)
    (port : Port) :
    ((ShowFont57.Src_Pointer fontArraySel asciiChar).isSome = true
        ↔ (fontArraySel = 1 ∧ 1 ≤ asciiChar ∧ asciiChar ≤ 240
          ∨ fontArraySel = 2 ∧ 1 ≤ asciiChar ∧ asciiChar ≤ 107))
      ∧ ((fontArraySel = 1 ∧ 1 ≤ asciiChar ∧ asciiChar ≤ 240
          ∨ fontArraySel = 2 ∧ 1 ≤ asciiChar ∧ asciiChar ≤ 107) →
        ∃ glyph, ShowFont57.Src_Pointer fontArraySel asciiChar = some glyph
          ∧ (if fontArraySel = 1 then Ascii_1 else Ascii_2)[asciiChar - 1]? = some glyph
          ∧ glyph.length = 5
          ∧ ∃ port1, ShowFont57 cfg fontArraySel asciiChar startPage startCol port
            = Except.ok port1)
      ∧ (¬ (fontArraySel = 1 ∧ 1 ≤ asciiChar ∧ asciiChar ≤ 240
          ∨ fontArraySel = 2 ∧ 1 ≤ asciiChar ∧ asciiChar ≤ 107) →
        ShowFont57.Src_Pointer fontArraySel asciiChar = none
          ∧ ShowFont57 cfg fontArraySel asciiChar startPage startCol port
            = Except.error Fault.outOfBounds)
      ∧ ShowFont57.Src_Pointer fontArraySel 0 = none
      ∧ (fontArraySel ≠ 1 → fontArraySel ≠ 2 →
        ShowFont57.Src_Pointer fontArraySel asciiChar = none) := by
  have hout : ¬ (fontArraySel = 1 ∧ 1 ≤ asciiChar ∧ asciiChar ≤ 240
      ∨ fontArraySel = 2 ∧ 1 ≤ asciiChar ∧ asciiChar ≤ 107) →
      ShowFont57.Src_Pointer fontArraySel asciiChar = none := by
    intro hn
    by_cases h0 : asciiChar = 0
    · subst h0
      exact Src_Pointer_zero fontArraySel
    · by_cases h1 : fontArraySel = 1
      · exact Src_Pointer_beyond _ _ (Or.inl ⟨h1, by omega⟩)
      · by_cases h2 : fontArraySel = 2
        · exact Src_Pointer_beyond _ _ (Or.inr ⟨h2, by omega⟩)
        · exact Src_Pointer_other _ _ h1 h2
  refine ⟨⟨?_, ?_⟩, ?_, ?_, Src_Pointer_zero fontArraySel, Src_Pointer_other _ _⟩
  · intro hsome
    by_contra hn
    rw [hout hn] at hsome
    exact Bool.noConfusion hsome
  · intro h
    obtain ⟨glyph, hsrc, _⟩ := Src_Pointer_defined fontArraySel asciiChar h
    rw [hsrc]
    rfl
  · intro h
    obtain ⟨glyph, hsrc, hrow, hlen⟩ := Src_Pointer_defined fontArraySel asciiChar h
    exact ⟨glyph, hsrc, hrow, hlen,
      ShowFont57_ok_of_row cfg _ _ startPage startCol port glyph hsrc hlen⟩
  · intro hn
    exact ⟨hout hn, ShowFont57_undefined cfg _ _ startPage startCol port (hout hn)⟩

/-! ## The channel of the two initialisations -/

theorem sideOn_frame (ch : i2cPort_t) (control : Nat) (payload : List Nat) :
    ∀ c ∈ frame ch control payload, c.sideOn ch = true := by
  intro c hc
  unfold frame at hc
  simp only [List.mem_append, List.mem_cons, List.mem_singleton, List.mem_map,
    List.not_mem_nil, or_false] at hc
  rcases hc with ((rfl | rfl) | ⟨b, _, rfl⟩) | rfl <;> simp [Call.sideOn, Call.busOn]

theorem sideOn_append (ch : i2cPort_t) (a b : List Call) (ha : ∀ c ∈ a, c.sideOn ch = true)
    (hb : ∀ c ∈ b, c.sideOn ch = true) : ∀ c ∈ a ++ b, c.sideOn ch = true := by
  intro c hc
  rcases List.mem_append.1 hc with h | h
  · exact ha c h
  · exact hb c h

theorem sideOn_commandFrames (ch : i2cPort_t) (payloads : List (List Nat)) :
    ∀ c ∈ commandFrames ch payloads, c.sideOn ch = true := by
  intro c hc
  unfold commandFrames at hc
  obtain ⟨p, _, hp⟩ := List.mem_flatMap.1 hc
  exact sideOn_frame ch 0x00 p c hp

theorem sideOn_pagesTrace (ch : i2cPort_t) (col : Nat) (payloads : List (List Nat)) :
    ∀ page : Nat, ∀ c ∈ pagesTrace ch col page payloads, c.sideOn ch = true := by
  induction payloads with
  | nil =>
    intro page c hc
    cases hc
  | cons p ps ih =>
    intro page
    unfold pagesTrace addressAt
    exact sideOn_append ch _ _
      (sideOn_append ch _ _
        (sideOn_append ch _ _
          (sideOn_append ch _ _ (sideOn_frame ch _ _) (sideOn_frame ch _ _))
          (sideOn_frame ch _ _))
        (sideOn_frame ch _ _))
      (ih (page + 1))

theorem sideOn_resetTrace (ch : i2cPort_t) : ∀ c ∈ resetTrace ch, c.sideOn ch = true := by
  intro c hc
  simp only [resetTrace, List.mem_cons, List.mem_singleton, List.not_mem_nil, or_false] at hc
  rcases hc with rfl | rfl | rfl | rfl | rfl <;> simp [Call.sideOn, Call.busOn]

theorem sideOn_powerUp (ch : i2cPort_t) :
    ∀ c ∈ powerUpTrace, c.isBus = false ∧ c.sideOn ch = true := by
  intro c hc
  simp only [powerUpTrace, List.mem_cons, List.mem_singleton, List.not_mem_nil,
    or_false] at hc
  rcases hc with rfl | rfl | rfl | rfl | rfl | rfl <;> exact ⟨rfl, rfl⟩

/-- C38: whatever channel was selected before, `OledInitVccInt` first closes the supply
switches and starts the bus components (no start, write-byte or stop call, no reset line), then
has the left channel selected, and every call it makes from there on, the reset pulse and all
start, write-byte and stop calls, goes to the left channel; it finishes with the left channel
selected.  `OledInitVccExt` leaves the selected channel as it was, and its reset pulse and all
its start, write-byte and stop calls go to that channel.  A bus call or a reset-line selection
for the right side does not go to the left channel. -/
theorem init_channel (cfg : Config) (port : Port) :
    ((SetI2cPort cfg i2cPort_t.i2cLeft (EnableI2c (EnableVddb port))).calls
          = port.calls ++ powerUpTrace
        ∧ (SetI2cPort cfg i2cPort_t.i2cLeft (EnableI2c (EnableVddb port))).i2cPort
          = i2cPort_t.i2cLeft
        ∧ ∀ c ∈ powerUpTrace, c.isBus = false ∧ c.sideOn i2cPort_t.i2cLeft = true)
      ∧ (OledInitVccInt cfg port).calls
        = port.calls ++ (powerUpTrace ++ resetTrace i2cPort_t.i2cLeft
          ++ commandFrames i2cPort_t.i2cLeft initIntCommands
          ++ fillTrace i2cPort_t.i2cLeft 0x00)
      ∧ (∀ c ∈ resetTrace i2cPort_t.i2cLeft
          ++ commandFrames i2cPort_t.i2cLeft initIntCommands
          ++ fillTrace i2cPort_t.i2cLeft 0x00, c.sideOn i2cPort_t.i2cLeft = true)
      ∧ (OledInitVccInt cfg port).i2cPort = i2cPort_t.i2cLeft
      ∧ (OledInitVccExt cfg port).calls
        = port.calls ++ (resetTrace port.i2cPort ++ commandFrames port.i2cPort initExtCommands
          ++ fillTrace port.i2cPort 0x00 ++ frame port.i2cPort 0x00 [0xAF])
      ∧ (∀ c ∈ resetTrace port.i2cPort ++ commandFrames port.i2cPort initExtCommands
          ++ fillTrace port.i2cPort 0x00 ++ frame port.i2cPort 0x00 [0xAF],
        c.sideOn port.i2cPort = true)
      ∧ (OledInitVccExt cfg port).i2cPort = port.i2cPort
      ∧ Call.sideOn i2cPort_t.i2cLeft (Call.MasterSendStart i2cPort_t.i2cRight 0x3C 0) = false
      ∧ Call.sideOn i2cPort_t.i2cLeft (Call.MasterWriteByte i2cPort_t.i2cRight 0x00) = false
      ∧ Call.sideOn i2cPort_t.i2cLeft (Call.MasterSendStop i2cPort_t.i2cRight) = false
      ∧ Call.sideOn i2cPort_t.i2cLeft (Call.CapSense_SetCapDevice i2cPort_t.i2cRight)
        = false := by
  have h1 := (traces_EnableVddb.comp traces_EnableI2c) port
  have h2 := SetI2cPort_state cfg i2cPort_t.i2cLeft (EnableI2c (EnableVddb port))
  have h3 := OledInitVccInt_state cfg port
  have h4 := traces_initExt cfg port
  refine ⟨⟨?_, h2.2.1, sideOn_powerUp _⟩, h3.1, ?_, h3.2.1, h4.1, ?_, h4.2.1, rfl, rfl, rfl,
    rfl⟩
  · rw [h2.1]
    exact h1.1
  · exact sideOn_append _ _ _
      (sideOn_append _ _ _ (sideOn_resetTrace _) (sideOn_commandFrames _ _))
      (sideOn_pagesTrace _ _ _ _)
  · exact sideOn_append _ _ _
      (sideOn_append _ _ _
        (sideOn_append _ _ _ (sideOn_resetTrace _) (sideOn_commandFrames _ _))
        (sideOn_pagesTrace _ _ _ _))
      (sideOn_frame _ _ _)

/-! ## The addressing mode of the RAM clear of the initialisations -/

theorem lastAddressingMode_eq (trace : List Call) :
    lastAddressingMode trace
      = ((addressingOperands trace).getLast?).bind addressingMode_t.ofUint8 := by
  rfl

theorem parseFrames_take (t : List Call) :
    ∀ (cur : Option (List Nat)) (k : Nat),
      ∃ more, parseFrames cur t = parseFrames cur (t.take k) ++ more := by
  induction t with
  | nil =>
    intro cur k
    exact ⟨[], by simp [parseFrames]⟩
  | cons c t ih =>
    intro cur k
    cases k with
    | zero => exact ⟨parseFrames cur (c :: t), by simp [parseFrames]⟩
    | succ k =>
      rw [List.take_succ_cons]
      cases c <;> cases cur <;> simp only [parseFrames, List.cons_append] <;>
        first
        | exact ih _ k
        | (obtain ⟨more, h⟩ := ih none k
           exact ⟨more, congrArg _ h⟩)

theorem addressingOperands_take (t : List Call) (k : Nat) (h : addressingOperands t = []) :
    addressingOperands (t.take k) = [] := by
  obtain ⟨more, hm⟩ := parseFrames_take t none k
  unfold addressingOperands commandPayloads at h ⊢
  rw [hm, List.filterMap_append, List.filterMap_append] at h
  exact (List.append_eq_nil.1 h).1

/-- From an addressing-mode command `[0x20, 0x02]` on, for as long as no other addressing-mode
command is completed, the mode read back is page addressing, whatever came before. -/
theorem page_mode_holds (hist : List Call) (ch : i2cPort_t) (post : List Call) (k : Nat)
    (hpost : addressingOperands post = []) :
    lastAddressingMode (hist ++ (frame ch 0x00 [0x20, 0x02] ++ post.take k))
      = some addressingMode_t.PAGE_ADDRESSING_MODE := by
  obtain ⟨earlier, he⟩ := commandPayloads_history hist
  have hk := addressingOperands_take post k hpost
  have hshape : frame ch 0x00 [0x20, 0x02] ++ post.take k
      = Call.MasterSendStart ch 0x3C 0
        :: ([Call.MasterWriteByte ch 0x00, Call.MasterWriteByte ch 0x20,
          Call.MasterWriteByte ch 0x02, Call.MasterSendStop ch] ++ post.take k) := rfl
  have hcp : commandPayloads (hist ++ (frame ch 0x00 [0x20, 0x02] ++ post.take k))
      = earlier ++ [0x20, 0x02] :: commandPayloads (post.take k) := by
    rw [hshape, he, ← hshape, commandPayloads_frame]
  unfold addressingOperands at hk
  rw [lastAddressingMode_eq]
  unfold addressingOperands
  rw [hcp, List.filterMap_append, List.filterMap_cons, hk]
  exact congrArg (fun o => Option.bind o addressingMode_t.ofUint8) (List.getLast?_concat _)

theorem commandFrames_split (ch : i2cPort_t) (a b : List (List Nat)) (p : List Nat) :
    commandFrames ch (a ++ p :: b)
      = commandFrames ch a ++ frame ch 0x00 p ++ commandFrames ch b := by
  simp [commandFrames, List.flatMap_append]

theorem dataPayloads_commandFrames (ch : i2cPort_t) (payloads : List (List Nat))
    (rest : List Call) :
    dataPayloads (commandFrames ch payloads ++ rest) = dataPayloads rest := by
  induction payloads with
  | nil => rfl
  | cons p ps ih =>
    unfold commandFrames at ih ⊢
    rw [List.flatMap_cons, List.append_assoc, dataPayloads_frame, ih]

theorem dataPayloads_resetTrace (ch : i2cPort_t) (rest : List Call) :
    dataPayloads (resetTrace ch ++ rest) = dataPayloads rest := by
  unfold dataPayloads
  rfl

theorem dataPayloads_powerUp (rest : List Call) :
    dataPayloads (powerUpTrace ++ rest) = dataPayloads rest := by
  unfold dataPayloads
  rfl

theorem dataPayloads_fillTrace (ch : i2cPort_t) (v : Nat) (rest : List Call) :
    dataPayloads (fillTrace ch v ++ rest)
      = List.replicate 4 (List.replicate 128 v) ++ dataPayloads rest := by
  unfold fillTrace
  rw [fill_trace_eq]
  unfold addressAt
  simp only [List.append_assoc, dataPayloads_frame, dataPayloads_dataFrame]
  rfl

theorem initExtCommands_split :
    initExtCommands = initExtCommands.take 6 ++ [0x20, 0x02] :: initExtCommands.drop 7 := by
  rfl

theorem initIntCommands_split :
    initIntCommands = initIntCommands.take 6 ++ [0x20, 0x02] :: initIntCommands.drop 7 := by
  rfl

/-- C39: the calls of `OledInitVccExt` and of `OledInitVccInt` are a first part without any
data transaction, then the addressing-mode command `[0x20, 0x02]`, then a last part that holds
the RAM clear.  The data transactions of the whole are the four of the RAM clear; the whole
has one addressing-mode command, with operand `0x02`, and the byte `0x20` occurs once among all
its command bytes; and at every point of the last part, whatever was emitted before the call,
the addressing mode read back from the trace is page addressing. -/
theorem init_clears_in_page_mode (cfg : Config) (port : Port) (k : Nat) :
    ((OledInitVccExt cfg port).calls
          = port.calls ++ ((resetTrace port.i2cPort
              ++ commandFrames port.i2cPort (initExtCommands.take 6))
            ++ frame port.i2cPort 0x00 [0x20, 0x02]
            ++ (commandFrames port.i2cPort (initExtCommands.drop 7)
              ++ fillTrace port.i2cPort 0x00 ++ frame port.i2cPort 0x00 [0xAF]))
        ∧ dataPayloads (resetTrace port.i2cPort
            ++ commandFrames port.i2cPort (initExtCommands.take 6)) = []
        ∧ dataPayloads ((resetTrace port.i2cPort
              ++ commandFrames port.i2cPort (initExtCommands.take 6))
            ++ frame port.i2cPort 0x00 [0x20, 0x02]
            ++ (commandFrames port.i2cPort (initExtCommands.drop 7)
              ++ fillTrace port.i2cPort 0x00 ++ frame port.i2cPort 0x00 [0xAF]))
          = List.replicate 4 (List.replicate 128 0x00)
        ∧ addressingOperands ((resetTrace port.i2cPort
              ++ commandFrames port.i2cPort (initExtCommands.take 6))
            ++ frame port.i2cPort 0x00 [0x20, 0x02]
            ++ (commandFrames port.i2cPort (initExtCommands.drop 7)
              ++ fillTrace port.i2cPort 0x00 ++ frame port.i2cPort 0x00 [0xAF]))
          = [0x02]
        ∧ (commandPayloads ((resetTrace port.i2cPort
              ++ commandFrames port.i2cPort (initExtCommands.take 6))
            ++ frame port.i2cPort 0x00 [0x20, 0x02]
            ++ (commandFrames port.i2cPort (initExtCommands.drop 7)
              ++ fillTrace port.i2cPort 0x00 ++ frame port.i2cPort 0x00 [0xAF]))).flatten.count
            0x20 = 1
        ∧ lastAddressingMode (port.calls ++ ((resetTrace port.i2cPort
              ++ commandFrames port.i2cPort (initExtCommands.take 6))
            ++ frame port.i2cPort 0x00 [0x20, 0x02]
            ++ (commandFrames port.i2cPort (initExtCommands.drop 7)
              ++ fillTrace port.i2cPort 0x00 ++ frame port.i2cPort 0x00 [0xAF]).take k))
          = some addressingMode_t.PAGE_ADDRESSING_MODE)
      ∧ ((OledInitVccInt cfg port).calls
          = port.calls ++ ((powerUpTrace ++ resetTrace i2cPort_t.i2cLeft
              ++ commandFrames i2cPort_t.i2cLeft (initIntCommands.take 6))
            ++ frame i2cPort_t.i2cLeft 0x00 [0x20, 0x02]
            ++ (commandFrames i2cPort_t.i2cLeft (initIntCommands.drop 7)
              ++ fillTrace i2cPort_t.i2cLeft 0x00))
        ∧ dataPayloads (powerUpTrace ++ resetTrace i2cPort_t.i2cLeft
            ++ commandFrames i2cPort_t.i2cLeft (initIntCommands.take 6)) = []
        ∧ dataPayloads ((powerUpTrace ++ resetTrace i2cPort_t.i2cLeft
              ++ commandFrames i2cPort_t.i2cLeft (initIntCommands.take 6))
            ++ frame i2cPort_t.i2cLeft 0x00 [0x20, 0x02]
            ++ (commandFrames i2cPort_t.i2cLeft (initIntCommands.drop 7)
              ++ fillTrace i2cPort_t.i2cLeft 0x00))
          = List.replicate 4 (List.replicate 128 0x00)
        ∧ addressingOperands ((powerUpTrace ++ resetTrace i2cPort_t.i2cLeft
              ++ commandFrames i2cPort_t.i2cLeft (initIntCommands.take 6))
            ++ frame i2cPort_t.i2cLeft 0x00 [0x20, 0x02]
            ++ (commandFrames i2cPort_t.i2cLeft (initIntCommands.drop 7)
              ++ fillTrace i2cPort_t.i2cLeft 0x00))
          = [0x02]
        ∧ (commandPayloads ((powerUpTrace ++ resetTrace i2cPort_t.i2cLeft
              ++ commandFrames i2cPort_t.i2cLeft (initIntCommands.take 6))
            ++ frame i2cPort_t.i2cLeft 0x00 [0x20, 0x02]
            ++ (commandFrames i2cPort_t.i2cLeft (initIntCommands.drop 7)
              ++ fillTrace i2cPort_t.i2cLeft 0x00))).flatten.count 0x20 = 1
        ∧ lastAddressingMode (port.calls ++ ((powerUpTrace ++ resetTrace i2cPort_t.i2cLeft
              ++ commandFrames i2cPort_t.i2cLeft (initIntCommands.take 6))
            ++ frame i2cPort_t.i2cLeft 0x00 [0x20, 0x02]
            ++ (commandFrames i2cPort_t.i2cLeft (initIntCommands.drop 7)
              ++ fillTrace i2cPort_t.i2cLeft 0x00).take k))
          = some addressingMode_t.PAGE_ADDRESSING_MODE) := by
  have hext : ∀ ch : i2cPort_t,
      (resetTrace ch ++ commandFrames ch (initExtCommands.take 6))
          ++ frame ch 0x00 [0x20, 0x02]
          ++ (commandFrames ch (initExtCommands.drop 7) ++ fillTrace ch 0x00
            ++ frame ch 0x00 [0xAF])
        = resetTrace ch ++ commandFrames ch initExtCommands ++ fillTrace ch 0x00
          ++ frame ch 0x00 [0xAF] := by
    intro ch
    conv_rhs => rw [initExtCommands_split, commandFrames_split]
    simp only [List.append_assoc]
  have hint : ∀ ch : i2cPort_t,
      (powerUpTrace ++ resetTrace ch ++ commandFrames ch (initIntCommands.take 6))
          ++ frame ch 0x00 [0x20, 0x02]
          ++ (commandFrames ch (initIntCommands.drop 7) ++ fillTrace ch 0x00)
        = powerUpTrace ++ resetTrace ch ++ commandFrames ch initIntCommands
          ++ fillTrace ch 0x00 := by
    intro ch
    conv_rhs => rw [initIntCommands_split, commandFrames_split]
    simp only [List.append_assoc]
  have hpostE : ∀ ch : i2cPort_t, addressingOperands
      (commandFrames ch (initExtCommands.drop 7) ++ fillTrace ch 0x00
        ++ frame ch 0x00 [0xAF]) = [] := by
    intro ch
    unfold addressingOperands
    rw [List.append_assoc, commandPayloads_commandFrames, commandPayloads_fillTrace,
      commandPayloads_single]
    rfl
  have hpostI : ∀ ch : i2cPort_t, addressingOperands
      (commandFrames ch (initIntCommands.drop 7) ++ fillTrace ch 0x00) = [] := by
    intro ch
    have h := commandPayloads_fillTrace ch 0x00 []
    rw [List.append_nil, commandPayloads_nil, List.append_nil] at h
    unfold addressingOperands
    rw [commandPayloads_commandFrames, h]
    rfl
  refine ⟨⟨?_, ?_, ?_, ?_, ?_, ?_⟩, ?_, ?_, ?_, ?_, ?_, ?_⟩
  · rw [hext]
    exact (traces_initExt cfg port).1
  · rw [dataPayloads_resetTrace]
    have h := dataPayloads_commandFrames port.i2cPort (initExtCommands.take 6) []
    rwa [List.append_nil, dataPayloads_nil] at h
  · rw [hext, List.append_assoc, List.append_assoc, dataPayloads_resetTrace,
      dataPayloads_commandFrames, dataPayloads_fillTrace]
    have h := dataPayloads_frame port.i2cPort [0xAF] []
    rw [List.append_nil, dataPayloads_nil] at h
    rw [h, List.append_nil]
  · unfold addressingOperands
    rw [hext, commandPayloads_initExt]
    rfl
  · rw [hext, commandPayloads_initExt]
    rfl
  · have h := page_mode_holds
      (port.calls ++ (resetTrace port.i2cPort
        ++ commandFrames port.i2cPort (initExtCommands.take 6)))
      port.i2cPort _ k (hpostE port.i2cPort)
    simpa only [List.append_assoc] using h
  · rw [hint]
    exact (OledInitVccInt_state cfg port).1
  · rw [List.append_assoc, dataPayloads_powerUp, dataPayloads_resetTrace]
    have h := dataPayloads_commandFrames i2cPort_t.i2cLeft (initIntCommands.take 6) []
    rwa [List.append_nil, dataPayloads_nil] at h
  · have h := dataPayloads_fillTrace i2cPort_t.i2cLeft 0x00 []
    rw [List.append_nil, dataPayloads_nil, List.append_nil] at h
    rw [hint, List.append_assoc, List.append_assoc, dataPayloads_powerUp,
      dataPayloads_resetTrace, dataPayloads_commandFrames, h]
  · unfold addressingOperands
    rw [hint, commandPayloads_initInt]
    rfl
  · rw [hint, commandPayloads_initInt]
    rfl
  · have h := page_mode_holds
      (port.calls ++ (powerUpTrace ++ resetTrace i2cPort_t.i2cLeft
        ++ commandFrames i2cPort_t.i2cLeft (initIntCommands.take 6)))
      i2cPort_t.i2cLeft _ k (hpostI i2cPort_t.i2cLeft)
    simpa only [List.append_assoc] using h

/-! ## FillBlock: the trace, and the page loops at their bounds -/

theorem FillBlock_cols_run (byteToFillRamWith numCols : Nat) (hn : numCols ≤ 255) :
    ∀ (fuel j : Nat) (port : Port), j ≤ numCols → numCols - j ≤ fuel →
      port.Extends (FillBlock.cols byteToFillRamWith numCols fuel j port)
        ((List.replicate (numCols - j) byteToFillRamWith).map
          (Call.MasterWriteByte port.i2cPort)) := by
  intro fuel
  induction fuel with
  | zero =>
    intro j port h1 h2
    have h3 : numCols - j = 0 := by omega
    rw [h3]
    simpa [FillBlock.cols] using Port.Extends.refl port
  | succ fuel ih =>
    intro j port h1 h2
    unfold FillBlock.cols
    by_cases hlt : j < numCols
    · rw [if_pos hlt]
      dsimp only
      have hstep := Port.extends_writeByte byteToFillRamWith port
      generalize (port.I2cMasterWriteByte byteToFillRamWith).2 = p1 at hstep ⊢
      have hmod : (j + 1) % 256 = j + 1 := Nat.mod_eq_of_lt (by omega)
      rw [hmod]
      have hrest := ih (j + 1) p1 (by omega) (by omega)
      rw [hstep.2.1] at hrest
      refine (hstep.trans hrest).of_eq ?_
      have hlen : numCols - j = (numCols - (j + 1)) + 1 := by omega
      rw [hlen, List.replicate_succ]
      simp
    · rw [if_neg hlt]
      have h3 : numCols - j = 0 := by omega
      rw [h3]
      simpa using Port.Extends.refl port

/-- One turn of the page loop of `FillBlock`: the page is addressed and filled, and the loop
goes on with the next value of the byte `i`. -/
theorem FillBlock_pages_step (cfg : Config) (byteToFillRamWith endPage startCol numCols : Nat)
    (hc : startCol < 256) (hn : numCols ≤ 255) (i : Nat) (port : Port) (hi : i < endPage + 1)
    (hb : i < 256) :
    ∃ port1, port.Extends port1 (addressAt port.i2cPort i startCol
          ++ frame port.i2cPort 0x40 (List.replicate numCols byteToFillRamWith))
      ∧ ∀ fuel : Nat,
        FillBlock.pages cfg byteToFillRamWith endPage startCol numCols (fuel + 1) i port
          = FillBlock.pages cfg byteToFillRamWith endPage startCol numCols fuel
            ((i + 1) % 256) port1 := by
  have ha := address_extends cfg i startCol hb hc port
  have hs := Port.extends_sendStart SSD1306_I2C_ADD 0
    (SetStartColumn cfg startCol (SetStartPage cfg i port))
  have hw := Port.extends_writeByte ssd1306DATA_FOLLOWS_BYTE
    ((SetStartColumn cfg startCol (SetStartPage cfg i port)).I2cMasterSendStart
      SSD1306_I2C_ADD 0).2
  have hcols := FillBlock_cols_run byteToFillRamWith numCols hn 256 0
    (((SetStartColumn cfg startCol (SetStartPage cfg i port)).I2cMasterSendStart
      SSD1306_I2C_ADD 0).2.I2cMasterWriteByte ssd1306DATA_FOLLOWS_BYTE).2 (Nat.zero_le _)
    (by omega)
  have hstop := Port.extends_sendStop
    (FillBlock.cols byteToFillRamWith numCols 256 0
      (((SetStartColumn cfg startCol (SetStartPage cfg i port)).I2cMasterSendStart
        SSD1306_I2C_ADD 0).2.I2cMasterWriteByte ssd1306DATA_FOLLOWS_BYTE).2)
  refine ⟨?_, ?_, fun fuel => ?_⟩
  rotate_left 2
  · rw [FillBlock.pages, if_pos hi]
    exact rfl
  · generalize SetStartColumn cfg startCol (SetStartPage cfg i port) = p1 at ha hs hw hcols hstop ⊢
    generalize (p1.I2cMasterSendStart SSD1306_I2C_ADD 0).2 = p2 at hs hw hcols hstop ⊢
    generalize (p2.I2cMasterWriteByte ssd1306DATA_FOLLOWS_BYTE).2 = p3 at hw hcols hstop ⊢
    generalize FillBlock.cols byteToFillRamWith numCols 256 0 p3 = p4 at hcols hstop ⊢
    generalize (p4.I2cMasterSendStop).2 = p5 at hstop ⊢
    have e1 : p1.i2cPort = port.i2cPort := ha.2.1
    have e2 : p2.i2cPort = port.i2cPort := hs.2.1.trans e1
    have e3 : p3.i2cPort = port.i2cPort := hw.2.1.trans e2
    have e4 : p4.i2cPort = port.i2cPort := hcols.2.1.trans e3
    rw [e4] at hstop
    rw [e3] at hcols
    rw [e2] at hw
    rw [e1] at hs
    refine ((((ha.trans hs).trans hw).trans hcols).trans hstop).of_eq ?_
    simp [frame, address_eq, ssd1306DATA_FOLLOWS_BYTE, List.append_assoc]

theorem FillBlock_pages_skip (cfg : Config) (byteToFillRamWith endPage startCol numCols : Nat)
    (fuel i : Nat) (port : Port) (hi : ¬ i < endPage + 1) :
    FillBlock.pages cfg byteToFillRamWith endPage startCol numCols fuel i port
      = Except.ok port := by
  cases fuel <;> simp [FillBlock.pages, hi]

theorem ShowPattern_pages_skip (cfg : Config) (pixelArray : Nat → Nat)
    (endPage startCol totalCol : Nat) (fuel i pixelPointer : Nat) (port : Port)
    (hi : ¬ i < endPage + 1) :
    ShowPattern.pages cfg pixelArray endPage startCol totalCol fuel i pixelPointer port
      = Except.ok port := by
  cases fuel <;> simp [ShowPattern.pages, hi]

theorem FillBlock_pages_run (cfg : Config) (byteToFillRamWith endPage startCol numCols : Nat)
    (he : endPage ≤ 254) (hc : startCol < 256) (hn : numCols ≤ 255) :
    ∀ (fuel i : Nat) (port : Port), i ≤ endPage + 1 → endPage + 1 - i ≤ fuel →
      ∃ port1, FillBlock.pages cfg byteToFillRamWith endPage startCol numCols fuel i port
          = Except.ok port1
        ∧ port.Extends port1 (pagesTrace port.i2cPort startCol i
          (List.replicate (endPage + 1 - i) (List.replicate numCols byteToFillRamWith))) := by
  intro fuel
  induction fuel with
  | zero =>
    intro i port h1 h2
    have h3 : endPage + 1 - i = 0 := by omega
    refine ⟨port, FillBlock_pages_skip _ _ _ _ _ _ _ _ (by omega), ?_⟩
    rw [h3]
    simpa [pagesTrace] using Port.Extends.refl port
  | succ fuel ih =>
    intro i port h1 h2
    by_cases hlt : i < endPage + 1
    · obtain ⟨p1, hbody, hnext⟩ := FillBlock_pages_step cfg byteToFillRamWith endPage
        startCol numCols hc hn i port hlt (by omega)
      have hmod : (i + 1) % 256 = i + 1 := Nat.mod_eq_of_lt (by omega)
      obtain ⟨port1, hok, hrest⟩ := ih (i + 1) p1 (by omega) (by omega)
      rw [hbody.2.1] at hrest
      refine ⟨port1, ?_, ?_⟩
      · rw [hnext fuel, hmod]
        exact hok
      · refine (hbody.trans hrest).of_eq ?_
        have hlen : endPage + 1 - i = (endPage + 1 - (i + 1)) + 1 := by omega
        rw [hlen, List.replicate_succ]
        simp [pagesTrace, List.append_assoc]
    · have h3 : endPage + 1 - i = 0 := by omega
      refine ⟨port, FillBlock_pages_skip _ _ _ _ _ _ _ _ hlt, ?_⟩
      rw [h3]
      simpa [pagesTrace] using Port.Extends.refl port

theorem FillBlock_run (cfg : Config) (fuel byteToFillRamWith startPage endPage startCol
    numCols : Nat) (port : Port) (hs : startPage ≤ endPage) (he : endPage ≤ 254)
    (hc : startCol < 256) (hn : numCols ≤ 255) (hf : endPage - startPage + 1 ≤ fuel) :
    ∃ port1, FillBlock cfg fuel byteToFillRamWith startPage endPage startCol numCols port
        = Except.ok port1
      ∧ port.Extends port1 (pagesTrace port.i2cPort startCol startPage
        (List.replicate (endPage - startPage + 1)
          (List.replicate numCols byteToFillRamWith))) := by
  obtain ⟨port1, hok, hrest⟩ := FillBlock_pages_run cfg byteToFillRamWith endPage startCol
    numCols he hc hn fuel startPage port (by omega) (by omega)
  have hlen : endPage + 1 - startPage = endPage - startPage + 1 := by omega
  rw [hlen] at hrest
  exact ⟨port1, hok, hrest⟩

theorem FillBlock_pages_stuck (cfg : Config) (byteToFillRamWith startCol numCols : Nat) :
    ∀ (fuel i : Nat) (port : Port), i < 256 →
      FillBlock.pages cfg byteToFillRamWith 255 startCol numCols fuel i port
        = Except.error Fault.outOfFuel := by
  intro fuel
  induction fuel with
  | zero =>
    intro i port hi
    rw [FillBlock.pages, if_pos hi]
  | succ fuel ih =>
    intro i port hi
    rw [FillBlock.pages, if_pos hi]
    exact ih _ _ (Nat.mod_lt _ (by decide))

theorem ShowPattern_pages_stuck (cfg : Config) (pixelArray : Nat → Nat)
    (startCol totalCol : Nat) :
    ∀ (fuel i pixelPointer : Nat) (port : Port), i < 256 →
      ShowPattern.pages cfg pixelArray 255 startCol totalCol fuel i pixelPointer port
        = Except.error Fault.outOfFuel := by
  intro fuel
  induction fuel with
  | zero =>
    intro i pixelPointer port hi
    rw [ShowPattern.pages, if_pos hi]
  | succ fuel ih =>
    intro i pixelPointer port hi
    rw [ShowPattern.pages, if_pos hi]
    exact ih _ _ _ (Nat.mod_lt _ (by decide))

/-- C34: for bytes `startPage`, `endPage`, `startCol` and a byte column count, with
`endPage ≤ 254` the page loops of `ShowPattern` and of `FillBlock` come to an end (a fuel of
`endPage + 1 - startPage` turns is enough); with `startPage > endPage` they return at once,
with no call added to the trace; with `endPage = 255` they are still running when the fuel is
used up, whatever the fuel: the turn for page 255 goes on with the byte `i` back at 0, which is
below the bound 256 again. -/
theorem page_loops_terminate (cfg : Config) (fuel : Nat) (pixelArray : Nat → Nat)
    (byteToFillRamWith startPage endPage startCol numCols : Nat) (port : Port)
    (hs : startPage < 256) (he : endPage < 256) (hc : startCol < 256) (hn : numCols < 256) :
    (endPage ≤ 254 → endPage + 1 - startPage ≤ fuel →
        (∃ port1, ShowPattern cfg fuel pixelArray startPage endPage startCol numCols port
          = Except.ok port1)
          ∧ ∃ port1, FillBlock cfg fuel byteToFillRamWith startPage endPage startCol numCols
            port = Except.ok port1)
      ∧ (endPage < startPage →
        (∃ port1, ShowPattern cfg fuel pixelArray startPage endPage startCol numCols port
            = Except.ok port1 ∧ port1.calls = port.calls)
          ∧ FillBlock cfg fuel byteToFillRamWith startPage endPage startCol numCols port
            = Except.ok port)
      ∧ (endPage = 255 →
        ShowPattern cfg fuel pixelArray startPage endPage startCol numCols port
            = Except.error Fault.outOfFuel
          ∧ FillBlock cfg fuel byteToFillRamWith startPage endPage startCol numCols port
            = Except.error Fault.outOfFuel)
      ∧ (∀ pixelPointer : Nat, ∃ (port1 : Port) (next : Nat), ∀ turns : Nat,
        ShowPattern.pages cfg pixelArray 255 startCol numCols (turns + 1) 255 pixelPointer port
          = ShowPattern.pages cfg pixelArray 255 startCol numCols turns 0 next port1)
      ∧ (∃ port1 : Port, ∀ turns : Nat,
        FillBlock.pages cfg byteToFillRamWith 255 startCol numCols (turns + 1) 255 port
          = FillBlock.pages cfg byteToFillRamWith 255 startCol numCols turns 0 port1) := by
  refine ⟨?_, ?_, ?_, ?_, ?_⟩
  · intro he1 hf
    by_cases hle : startPage ≤ endPage
    · obtain ⟨p1, h1, _⟩ := ShowPattern_extends cfg fuel pixelArray startPage endPage startCol
        numCols port hle he1 hc (by omega) (by omega)
      obtain ⟨p2, h2, _⟩ := FillBlock_run cfg fuel byteToFillRamWith startPage endPage startCol
        numCols port hle he1 hc (by omega) (by omega)
      exact ⟨⟨p1, h1⟩, ⟨p2, h2⟩⟩
    · exact ⟨⟨_, ShowPattern_pages_skip _ _ _ _ _ _ _ _ _ (by omega)⟩,
        ⟨_, FillBlock_pages_skip _ _ _ _ _ _ _ _ (by omega)⟩⟩
  · intro hlt
    refine ⟨⟨_, ShowPattern_pages_skip _ _ _ _ _ _ _ _ _ (by omega), ?_⟩,
      FillBlock_pages_skip _ _ _ _ _ _ _ _ (by omega)⟩
    exact ((extends_printIf cfg.configDEBUG_SSD1306 "SSD1306: Showing pattern...\r\n" port).1
      ).trans (List.append_nil _)
  · intro h255
    subst h255
    exact ⟨ShowPattern_pages_stuck cfg pixelArray startCol numCols fuel startPage 0 _ hs,
      FillBlock_pages_stuck cfg byteToFillRamWith startCol numCols fuel startPage port hs⟩
  · intro pixelPointer
    refine ⟨?_, ?_, fun turns => ?_⟩
    rotate_left 2
    · rw [ShowPattern.pages, if_pos (by decide)]
      exact rfl
  · refine ⟨?_, fun turns => ?_⟩
    rotate_left
    · rw [FillBlock.pages, if_pos (by decide)]
      exact rfl

theorem page_loops_terminate_witness :
    1 < 256 ∧ 2 < 256 ∧ 17 < 256 ∧ 3 < 256
      ∧ ((∃ port1, ShowPattern Config.quiet 2 (fun k => k) 1 2 17 3 (Port.ctor fun _ => 0)
          = Except.ok port1)
        ∧ ∃ port1, FillBlock Config.quiet 2 0xAA 1 2 17 3 (Port.ctor fun _ => 0)
          = Except.ok port1) :=
  ⟨by decide, by decide, by decide, by decide,
    (page_loops_terminate Config.quiet 2 (fun k => k) 0xAA 1 2 17 3 (Port.ctor fun _ => 0)
      (by decide) (by decide) (by decide) (by decide)).1 (by decide) (by decide)⟩

/-! ## FillRam, FillBlock and ShowPattern on a constant source -/

theorem constant_payloads (pixelArray : Nat → Nat) (v m n : Nat)
    (hsrc : ∀ k : Nat, k < m * n → pixelArray k = v) :
    (List.range m).map (fun k => (List.range' (k * n) n).map pixelArray)
      = List.replicate m (List.replicate n v) := by
  refine List.eq_replicate_iff.2 ⟨by simp, ?_⟩
  intro row hrow
  obtain ⟨k, hk, rfl⟩ := List.mem_map.1 hrow
  have hkm : k < m := List.mem_range.1 hk
  refine List.eq_replicate_iff.2 ⟨by simp, ?_⟩
  intro b hb
  obtain ⟨j, hj, rfl⟩ := List.mem_map.1 hb
  have hj2 := List.mem_range'_1.1 hj
  have hle : (k + 1) * n ≤ m * n := Nat.mul_le_mul_right n hkm
  rw [Nat.add_mul, Nat.one_mul] at hle
  exact hsrc j (by omega)

/-- C40: `FillRam(v)` makes the calls of `FillBlock(v, 0, 3, 0, 128)`; and for a page `p0`, a
page `p1` up to 254, a byte column `c` and a byte count `n`, `FillBlock(v, p0, p1, c, n)` and
`ShowPattern` over the same region, on a source whose first `(p1 + 1 - p0) * n` bytes (none
when `p0 > p1`) are all `v`, both return and have added the same calls to the trace. -/
theorem fill_refines_pattern (cfg : Config) (fuel : Nat) (pixelArray : Nat → Nat)
    (v p0 p1 c n : Nat) (port : Port) (h1 : p1 ≤ 254) (hc : c < 256)
    (hn : n < 256) (hf : p1 + 1 - p0 ≤ fuel)
    (hsrc : ∀ k : Nat, k < (p1 + 1 - p0) * n → pixelArray k = v) :
    (∀ turns : Nat, 4 ≤ turns →
        ∃ port1, FillBlock cfg turns v 0 3 0 128 port = Except.ok port1
          ∧ port1.calls = (FillRam cfg v port).calls)
      ∧ ∃ port1 port2,
        FillBlock cfg fuel v p0 p1 c n port = Except.ok port1
          ∧ ShowPattern cfg fuel pixelArray p0 p1 c n port = Except.ok port2
          ∧ port1.calls = port2.calls
          ∧ port1.calls = port.calls
            ++ pagesTrace port.i2cPort c p0 (List.replicate (p1 + 1 - p0) (List.replicate n v))
      := by
  refine ⟨?_, ?_⟩
  · intro turns ht
    obtain ⟨port1, hok, hx⟩ := FillBlock_run cfg turns v 0 3 0 128 port (by decide)
      (by decide) (by decide) (by decide) (by omega)
    exact ⟨port1, hok, hx.1.trans (FillRam_extends cfg v port).1.symm⟩
  · by_cases hle : p0 ≤ p1
    · have hlen : p1 + 1 - p0 = p1 - p0 + 1 := by omega
      rw [hlen] at hsrc ⊢
      obtain ⟨port1, hok1, hx1⟩ := FillBlock_run cfg fuel v p0 p1 c n port hle h1 hc
        (by omega) (by omega)
      obtain ⟨port2, hok2, hx2⟩ := ShowPattern_extends cfg fuel pixelArray p0 p1 c n port hle
        h1 hc (by omega) (by omega)
      rw [constant_payloads pixelArray v _ n hsrc] at hx2
      exact ⟨port1, port2, hok1, hok2, hx1.1.trans hx2.1.symm, hx1.1⟩
    · have hlen : p1 + 1 - p0 = 0 := by omega
      rw [hlen]
      refine ⟨port, _, FillBlock_pages_skip _ _ _ _ _ _ _ _ (by omega),
        ShowPattern_pages_skip _ _ _ _ _ _ _ _ _ (by omega), ?_, ?_⟩
      · exact ((extends_printIf cfg.configDEBUG_SSD1306 "SSD1306: Showing pattern...\r\n"
          port).1.trans (List.append_nil _)).symm
      · simp [pagesTrace]

theorem fill_refines_pattern_witness :
    2 ≤ 254 ∧ 17 < 256 ∧ 3 < 256 ∧ 2 + 1 - 1 ≤ 2
      ∧ (∀ k : Nat, k < (2 + 1 - 1) * 3 → (fun _ : Nat => 0xAA) k = 0xAA)
      ∧ ∃ port1 port2,
        FillBlock Config.quiet 2 0xAA 1 2 17 3 (Port.ctor fun _ => 0) = Except.ok port1
          ∧ ShowPattern Config.quiet 2 (fun _ => 0xAA) 1 2 17 3 (Port.ctor fun _ => 0)
            = Except.ok port2
          ∧ port1.calls = port2.calls
          ∧ port1.calls = (Port.ctor fun _ => 0).calls
            ++ pagesTrace (Port.ctor fun _ => 0).i2cPort 17 1
              (List.replicate (2 + 1 - 1) (List.replicate 3 0xAA)) :=
  ⟨by decide, by decide, by decide, by decide, fun _ _ => rfl,
    (fill_refines_pattern Config.quiet 2 (fun _ => 0xAA) 0xAA 1 2 17 3 (Port.ctor fun _ => 0)
      (by decide) (by decide) (by decide) (by decide) (fun _ _ => rfl)).2⟩

end SSD1306Ns
